import Mathlib

/-!
# btracey/opt: quasi-Newton engine, line search and step finders

A shallow embedding of the Go sources under `src/` and theorems about it.

Conventions of the embedding.

* `float64` is the field `ℚ` (exact arithmetic).  Where the source uses `NaN`
  or `+Inf` as a sentinel ("not set", "no bound yet") the field is an
  `Option ℚ` and `none` is the sentinel.
* A slice of length `nDim` is a function `Fin nDim → ℚ`; a `mat64.Dense` is a
  Mathlib `Matrix`.  Fixed-length work arrays indexed by a run-time counter
  (`[]float64` of length `Memory`) are functions on `ℕ` together with an
  explicit bound check where the source indexes them.
* A Go `panic` and running out of loop fuel are the two `Fault`s; a Go `error`
  return value is an `Option Error`.
* Loops that need not terminate take a fuel argument.
-/

namespace Opt

open Matrix

set_option linter.dupNamespace false

/-! ## package common -/

/-- The type `common.Status` with the constants declared in `status.go`. -/
inductive Status
  | Continue
  | LocChangeTol
  | GradAbsTol
  | GradChangeTol
  | ObjAbsTol
  | ObjChangeTol
  | WolfeConditionsMet
  | BoundsConverged
  | UserFunctionError
  | OptimizerError
  | Infeasible
  | MaximumIterations
  | MaximumFunctionEvaluations
  | MaximumRuntime
  | LinesearchFailure
  deriving DecidableEq, Repr

/-- The ways a call can fail to return a value of the model: the Go panics of
the modelled code, fuel exhaustion of a modelled loop, and `notANumber` where
the source goes on computing with a `NaN` that the model has no value for. -/
inductive Fault
  | indexOutOfRange
  | badWolfeType
  | funConstNegative
  | gradConstNotPositive
  | negativeStep
  | errorInitializing
  | dimensionMismatch
  | nilDereference
  | matShape
  | outOfFuel
  | notANumber
  deriving DecidableEq, Repr

/-- The Go `error` values produced by the modelled code. -/
inductive Error
  | lengthMismatch
  | initialGradientPositive
  | mustHaveStrongWolfe
  | initialStepZero
  | initialStepNegative
  | errorIterating (inner : Error)
  | Notconverged (status : Status)
  | initLocNil
  | initGradNil
  | errorInitializing (inner : Error)
  | nilInitLoc
  | initialStepNotSet
  | maxStepSignMismatch
  deriving DecidableEq, Repr

/-- The struct `common.UniToler` (`toler.go`).  `absTol = none` is `NaN`. -/
structure UniToler where
  hist : List ℚ := []
  last : ℕ := 0
  filled : Bool := false
  absTol : Option ℚ := some 0
  relTol : ℚ := 0
  recent : ℚ := 0
  deriving DecidableEq, Repr

/-- The method `UniToler.Init`.  The history is (re)allocated only when the
relative tolerance is positive; writing `hist[0]` panics on an empty history. -/
def UniToler.Init (t : UniToler) (absTol : Option ℚ) (relTol : ℚ) (relativeWindow : ℕ)
    (initVal : ℚ) : Except Fault UniToler :=
  if 0 < relTol then
    let hist := if t.hist.length < relativeWindow then List.replicate relativeWindow 0
      else t.hist.take relativeWindow
    if 0 < hist.length then
      .ok { hist := hist.set 0 initVal, last := 0, filled := false,
            absTol := absTol, relTol := relTol, recent := initVal }
    else .error .indexOutOfRange
  else
    .ok { t with recent := initVal, relTol := relTol, absTol := absTol, filled := false }

/-- The method `UniToler.Add`. -/
def UniToler.Add (t : UniToler) (v : ℚ) : Except Fault UniToler :=
  if 0 < t.relTol then
    let last1 := t.last + 1
    let wrap : Bool := decide (last1 = t.hist.length)
    let last2 := if wrap then 0 else last1
    if last2 < t.hist.length then
      .ok { t with recent := v, last := last2, filled := (wrap || t.filled),
                   hist := t.hist.set last2 v }
    else .error .indexOutOfRange
  else .ok { t with recent := v }

/-- The method `UniToler.AbsConverged`. -/
def UniToler.AbsConverged (t : UniToler) : Bool :=
  match t.absTol with
  | none => false
  | some a => decide (t.recent < a)

/-- The method `UniToler.RelConverged`; indexing the history can panic. -/
def UniToler.RelConverged (t : UniToler) : Except Fault Bool :=
  if t.relTol < 0 then .ok false
  else
    match t.hist.get? t.last with
    | none => .error .indexOutOfRange
    | some recent =>
      let prevInd := if t.last + 1 = t.hist.length then 0 else t.last + 1
      match t.hist.get? prevInd with
      | none => .error .indexOutOfRange
      | some previous => .ok (decide (|previous - recent| < t.relTol))

/-- The struct `common.SingleOutputSettings`; an absolute tolerance `none` is `NaN`. -/
structure SingleOutputSettings where
  GradAbsTol : Option ℚ
  GradRelTol : ℚ
  GradRelWindow : ℕ
  ObjAbsTol : Option ℚ
  ObjRelTol : ℚ
  ObjRelWindow : ℕ
  deriving DecidableEq, Repr

/-- The function `common.DefaultSingleOutputSettings`. -/
def DefaultSingleOutputSettings : SingleOutputSettings :=
  { GradAbsTol := some (1 / 1000000), GradRelTol := -1, GradRelWindow := 5,
    ObjAbsTol := none, ObjRelTol := -1, ObjRelWindow := 5 }

/-- The struct `common.SingleOutput`. -/
structure SingleOutput where
  grad : UniToler := {}
  obj : UniToler := {}
  deriving DecidableEq, Repr

/-- The method `SingleOutput.Init`. -/
def SingleOutput.Init (s : SingleOutput) (settings : SingleOutputSettings) (initObj initGrad : ℚ) :
    Except Fault SingleOutput := do
  let g ← s.grad.Init settings.GradAbsTol settings.GradRelTol settings.GradRelWindow initGrad
  let o ← s.obj.Init settings.ObjAbsTol settings.ObjRelTol settings.ObjRelWindow initObj
  pure { grad := g, obj := o }

/-- The method `SingleOutput.Iterate`. -/
def SingleOutput.Iterate (s : SingleOutput) (gradNrm fn : ℚ) : Except Fault SingleOutput := do
  let g ← s.grad.Add gradNrm
  let o ← s.obj.Add fn
  pure { grad := g, obj := o }

/-- The method `SingleOutput.Status`. -/
def SingleOutput.Status (s : SingleOutput) : Except Fault Status :=
  if s.grad.AbsConverged then .ok .GradAbsTol
  else do
    let gr ← s.grad.RelConverged
    if gr then pure .GradChangeTol
    else if s.obj.AbsConverged then pure .ObjAbsTol
    else do
      let orl ← s.obj.RelConverged
      if orl then pure .ObjChangeTol else pure .Continue

/-- The struct `common.CommonSettings` (the write settings only affect the display). -/
structure CommonSettings where
  MaximumIterations : ℤ
  MaximumFunctionEvaluations : ℤ
  MaximumRuntime : ℤ
  deriving DecidableEq, Repr

/-- The function `common.DefaultCommonSettings`. -/
def DefaultCommonSettings : CommonSettings :=
  { MaximumIterations := -1, MaximumFunctionEvaluations := -1, MaximumRuntime := -1 }

/-- The struct `common.Common`.  The wall clock is an input of the model:
`clock k` is the value of `time.Since(startTime)` read by the `Status` call made
when `iter = k`.  `funStatus` is what the objective reports when it implements
`Statuser`, and `Continue` when it does not. -/
structure Common where
  iter : ℤ := 0
  funEvals : ℤ := 0
  settings : CommonSettings := DefaultCommonSettings
  clock : ℤ → ℤ := fun _ => 0
  funStatus : Status := .Continue

/-- The method `Common.Init`. -/
def Common.Init (c : Common) (settings : CommonSettings) : Common :=
  { c with iter := 0, funEvals := 0, settings := settings }

/-- The method `Common.Status`. -/
def Common.Status (c : Common) : Status :=
  if c.funStatus ≠ .Continue then c.funStatus
  else if -1 < c.settings.MaximumIterations ∧ c.settings.MaximumIterations < c.iter then
    .MaximumIterations
  else if -1 < c.settings.MaximumFunctionEvaluations ∧
      c.settings.MaximumFunctionEvaluations < c.funEvals then
    .MaximumFunctionEvaluations
  else if -1 < c.settings.MaximumRuntime ∧ c.settings.MaximumRuntime < c.clock c.iter then
    .MaximumRuntime
  else .Continue

/-- The struct `common.CommonResult` (without the measured run time). -/
structure CommonResult where
  Iterations : ℤ
  FunctionEvaluations : ℤ
  Status : Opt.Status
  deriving DecidableEq, Repr

/-- The method `Common.Result`. -/
def Common.Result (c : Common) (status : Opt.Status) : CommonResult :=
  { Iterations := c.iter, FunctionEvaluations := c.funEvals, Status := status }

/-- The method `Common.Iterate`. -/
def Common.Iterate (c : Common) (nFunEvals : ℤ) : Common :=
  { c with iter := c.iter + 1, funEvals := c.funEvals + nFunEvals }

/-! ## package univariate -/

/-- The interface `univariate.ObjGrader`.  The objective handed to a step finder
by the line search is stateful (it records the last point it was asked for), so
the call is written in state-passing style: `f x st` is the pair (objective,
derivative) at `x` together with the state of the objective after the call. -/
abbrev UniObjGrader (σ : Type) := ℚ → σ → (ℚ × ℚ) × σ

/-- The struct `univariate.Settings`.  `InitialObjective = none` is `NaN`;
`InitialGradient` is only read when `InitialObjective` is set. -/
structure UniSettings where
  CommonSettings : Opt.CommonSettings
  SingleOutputSettings : Opt.SingleOutputSettings
  InitialObjective : Option ℚ
  InitialGradient : ℚ
  deriving DecidableEq, Repr

/-- The function `univariate.DefaultSettings`. -/
def UniDefaultSettings : UniSettings :=
  { CommonSettings := DefaultCommonSettings, SingleOutputSettings := DefaultSingleOutputSettings,
    InitialObjective := none, InitialGradient := 0 }

/-- The struct `univariate.Result`. -/
structure UniResult where
  CommonResult : Opt.CommonResult
  Obj : ℚ
  Loc : ℚ
  Grad : ℚ
  deriving DecidableEq, Repr

/-- The struct `univariate.Helper`. -/
structure UniHelper where
  Common : Opt.Common := {}
  SingleOutput : Opt.SingleOutput := {}
  objCurr : ℚ := 0
  gradCurr : ℚ := 0
  locCurr : ℚ := 0

/-- The function `univariate.NewHelper`. -/
def NewUniHelper : UniHelper := {}

/-- The method `univariate.Helper.Init`. -/
def UniHelper.Init (u : UniHelper) (s : UniSettings) (initObj initGrad : ℚ) :
    Except Fault UniHelper := do
  let c := u.Common.Init s.CommonSettings
  let so ← u.SingleOutput.Init s.SingleOutputSettings initObj |initGrad|
  pure { Common := c, SingleOutput := so, objCurr := initObj, gradCurr := initGrad, locCurr := 0 }

/-- The method `univariate.Helper.Iterate`. -/
def UniHelper.Iterate (u : UniHelper) (loc obj grad : ℚ) (nFunEvals : ℤ) :
    Except Fault UniHelper := do
  let c := u.Common.Iterate nFunEvals
  let so ← u.SingleOutput.Iterate |grad| obj
  pure { Common := c, SingleOutput := so, locCurr := loc, objCurr := obj, gradCurr := grad }

/-- The method `univariate.Helper.Status`. -/
def UniHelper.Status (u : UniHelper) : Except Fault Status := do
  let status ← u.SingleOutput.Status
  if status ≠ .Continue then pure status
  else
    let status := u.Common.Status
    if status ≠ .Continue then pure status else pure .Continue

/-- The method `univariate.Helper.Result`. -/
def UniHelper.Result (u : UniHelper) (status : Opt.Status) : UniResult :=
  { CommonResult := u.Common.Result status, Obj := u.objCurr, Loc := u.locCurr,
    Grad := u.gradCurr }

/-- The return values of `GradOptimizer.Iterate`. -/
structure IterOut where
  loc : ℚ
  obj : ℚ
  grad : ℚ
  nFunEvals : ℤ
  err : Option Error
  deriving DecidableEq, Repr

/-- The gonum function `floats.EqualWithinAbs`. -/
def EqualWithinAbs (a b tol : ℚ) : Bool := decide (a = b) || decide (|a - b| ≤ tol)

/-- The gonum function `floats.EqualWithinRel` (without its branch for
differences below the smallest normal float). -/
def EqualWithinRel (a b tol : ℚ) : Bool :=
  decide (a = b) || decide (|a - b| / max |a| |b| ≤ tol)

/-- The gonum function `floats.EqualWithinAbsOrRel`. -/
def EqualWithinAbsOrRel (a b absTol relTol : ℚ) : Bool :=
  EqualWithinAbs a b absTol || EqualWithinRel a b relTol

/-- The struct `univariate.Bisection`.  The upper bound triple is `+Inf` (here
`none`) until a bound is found. -/
structure Bisection where
  initLoc : ℚ := 0
  currStep : ℚ := 0
  posInitGrad : Bool := false
  InitialStepMag : ℚ := 0
  minStep : ℚ := 0
  minObj : ℚ := 0
  minGrad : ℚ := 0
  maxStep : Option ℚ := some 0
  maxObj : Option ℚ := some 0
  maxGrad : Option ℚ := some 0
  deriving DecidableEq, Repr

/-- The method `Bisection.Init`. -/
def Bisection.Init (b : Bisection) (initLoc initObj initGrad : ℚ) : Bisection × Option Error :=
  if b.InitialStepMag = 0 then (b, some .initialStepZero)
  else
    let b1 : Bisection :=
      { b with initLoc := initLoc, minStep := 0, minObj := initObj, minGrad := initGrad,
               maxStep := none, maxObj := none, maxGrad := none,
               currStep := b.InitialStepMag }
    if 0 < initGrad then
      ({ b1 with posInitGrad := true, currStep := b1.currStep * -1, minGrad := b1.minGrad * -1 },
        none)
    else (b1, none)

/-- The first part of `Bisection.Iterate`: the minimum is not yet bounded
(`maxStep` is `+Inf`, or the derivative at the upper bound is negative). -/
def Bisection.iterateUnbounded (b : Bisection) (obj grad : ℚ) : Bisection :=
  if 0 < grad then
    { b with maxStep := some b.currStep, maxObj := some obj, maxGrad := some grad,
             currStep := (b.minStep + b.currStep) / 2 }
  else if EqualWithinAbsOrRel b.minObj obj (1 / 10 ^ 15) (1 / 10 ^ 15) ∨ obj < b.minObj then
    let b1 : Bisection := { b with minStep := b.currStep, minObj := obj, minGrad := grad }
    match b.maxStep with
    | none => { b1 with currStep := b1.currStep * 2 }
    | some mx => { b1 with currStep := (b1.minStep + mx) / 2 }
  else
    { b with maxStep := some b.currStep, maxObj := some obj, maxGrad := some grad,
             currStep := (b.minStep + b.currStep) / 2 }

/-- The last part of `Bisection.Iterate`: plain bisection between the finite
bounds `minStep` and `maxStep = mx`. -/
def Bisection.iterateBounded (b : Bisection) (mx obj grad : ℚ) : Bisection :=
  if grad < 0 then
    { b with minStep := b.currStep, minObj := obj, minGrad := grad,
             currStep := (b.currStep + mx) / 2 }
  else
    { b with maxStep := some b.currStep, maxObj := some obj, maxGrad := some grad,
             currStep := (b.minStep + b.currStep) / 2 }

/-- The method `Bisection.Iterate`. -/
def Bisection.Iterate {σ : Type} (b : Bisection) (f : UniObjGrader σ) (st : σ) :
    Bisection × σ × IterOut :=
  let loc := b.initLoc + b.currStep
  let r := f loc st
  let obj := r.1.1
  let realgrad := r.1.2
  let grad := if b.posInitGrad then -realgrad else realgrad
  let out : IterOut := { loc := loc, obj := obj, grad := realgrad, nFunEvals := 1, err := none }
  match b.maxStep with
  | none => (b.iterateUnbounded obj grad, r.2, out)
  | some mx =>
    if (match b.maxGrad with | none => false | some mg => decide (mg < 0)) then
      (b.iterateUnbounded obj grad, r.2, out)
    else (b.iterateBounded mx obj grad, r.2, out)

/-- The method `Bisection.SetInitStep`. -/
def Bisection.SetInitStep (b : Bisection) (f : ℚ) : Bisection := { b with InitialStepMag := f }

/-- The method `Bisection.Status`. -/
def Bisection.Status (_b : Bisection) : Status := .Continue

/-! ## package linesearch: the safeguarded interpolation stepper (`dcsrch.go`) -/

/-- The function `math.Sqrt` on the rationals: exact on the squares of
rationals, and rounded down to a multiple of `1 / den` elsewhere (`0` on
negative arguments, where Go returns `NaN`).  No universally quantified theorem
below depends on its values. -/
def sqrt (x : ℚ) : ℚ := (Nat.sqrt (x.num.toNat * x.den) : ℚ) / x.den

/-- The constant `xtrapl`. -/
def xtrapl : ℚ := 11 / 10

/-- The constant `xtrapu`. -/
def xtrapu : ℚ := 4

/-- The struct `linesearch.Dcstep` (the objective is passed to `Iterate`). -/
structure Dcstep where
  InitialStepMag : ℚ := 0
  MinStep : ℚ := 0
  MaxStep : ℚ := 0
  initLoc : ℚ := 0
  stmin : ℚ := 0
  stmax : ℚ := 0
  stpmin : ℚ := 0
  stpmax : ℚ := 0
  stx : ℚ := 0
  fx : ℚ := 0
  gx : ℚ := 0
  sty : ℚ := 0
  fy : ℚ := 0
  gy : ℚ := 0
  stp : ℚ := 0
  fp : ℚ := 0
  gp : ℚ := 0
  bracket : Bool := false
  width : ℚ := 0
  width1 : ℚ := 0
  stage : ℤ := 0
  finit : ℚ := 0
  ginit : ℚ := 0
  ftest : ℚ := 0
  gtest : ℚ := 0
  wolfeGradConst : ℚ := 0
  wolfeFunConst : ℚ := 0

/-- The function `linesearch.NewDcstep`. -/
def NewDcstep : Dcstep :=
  { InitialStepMag := 1, MinStep := 1 / 100000000, MaxStep := 50 }

/-- The method `Dcstep.SetWolfeConditions`. -/
def Dcstep.SetWolfeConditions (d : Dcstep) (fConst gConst : ℚ) (isStrong : Bool) :
    Dcstep × Option Error :=
  if !isStrong then (d, some .mustHaveStrongWolfe)
  else ({ d with wolfeFunConst := fConst, wolfeGradConst := gConst }, none)

/-- The method `Dcstep.SetInitStep`. -/
def Dcstep.SetInitStep (d : Dcstep) (f : ℚ) : Dcstep := { d with InitialStepMag := f }

/-- The method `Dcstep.Status`. -/
def Dcstep.Status (_d : Dcstep) : Status := .Continue

/-- The method `Dcstep.Init`. -/
def Dcstep.Init (d : Dcstep) (initLoc initObj initGrad : ℚ) : Dcstep × Option Error :=
  if d.InitialStepMag = 0 then (d, some .initialStepZero)
  else
    let d1 : Dcstep :=
      { d with initLoc := initLoc, finit := initObj, ginit := initGrad,
               gtest := d.wolfeFunConst * initGrad, stage := 1,
               stpmin := d.MinStep, stpmax := d.MaxStep,
               width := d.MaxStep - d.MinStep, width1 := (d.MaxStep - d.MinStep) / (1 / 2),
               stx := 0, fx := initObj, gx := initGrad,
               sty := 0, fy := initObj, gy := initGrad,
               bracket := false, stmin := 0,
               stmax := d.InitialStepMag + xtrapu * d.InitialStepMag,
               stp := d.InitialStepMag }
    if d1.stp < 0 then (d1, some .initialStepNegative) else (d1, none)

/-- The return values of the function `dcstep`. -/
structure DcstepOut where
  stx : ℚ
  fx : ℚ
  dx : ℚ
  sty : ℚ
  fy : ℚ
  dy : ℚ
  stp : ℚ
  bracket : Bool
  deriving DecidableEq, Repr

/-- First case of `dcstep`: a higher function value. -/
def dcstepCase1 (stx fx dx stp fp dp : ℚ) : ℚ :=
  let theta := 3 * (fx - fp) / (stp - stx) + dx + dp
  let s := max (max |theta| |dx|) |dp|
  let tmp := (theta / s) * (theta / s) - (dx / s) * (dp / s)
  let gamma0 := s * sqrt tmp
  let gamma := if stp < stx then -gamma0 else gamma0
  let p := (gamma - dx) + theta
  let q := ((gamma - dx) + gamma) + dp
  let r := p / q
  let stpc := stx + r * (stp - stx)
  let stpq := stx + ((dx / ((fx - fp) / (stp - stx) + dx)) / 2) * (stp - stx)
  if |stpc - stx| < |stpq - stx| then stpc else stpc + (stpq - stpc) / 2

/-- Second case of `dcstep`: a lower function value and derivatives of
opposite sign. -/
def dcstepCase2 (stx fx dx stp fp dp : ℚ) : ℚ :=
  let theta := 3 * (fx - fp) / (stp - stx) + dx + dp
  let s := max (max |theta| |dx|) |dp|
  let tmp := (theta / s) * (theta / s) - (dx / s) * (dp / s)
  let gamma0 := s * sqrt tmp
  let gamma := if stx < stp then -gamma0 else gamma0
  let p := (gamma - dp) + theta
  let q := ((gamma - dp) + gamma) + dx
  let r := p / q
  let stpc := stp + r * (stx - stp)
  let stpq := stp + (dp / (dp - dx)) * (stx - stp)
  if |stpq - stp| < |stpc - stp| then stpc else stpq

/-- Third case of `dcstep`: a lower function value, derivatives of the same
sign, and the magnitude of the derivative decreases. -/
def dcstepCase3 (stx fx dx sty stp fp dp : ℚ) (bracket : Bool) (stpmin stpmax : ℚ) : ℚ :=
  let theta := 3 * (fx - fp) / (stp - stx) + dx + dp
  let s := max (max |theta| |dx|) |dp|
  let tmp := max 0 ((theta / s) * (theta / s) - (dx / s) * (dp / s))
  let gamma0 := s * sqrt tmp
  let gamma := if stx < stp then -gamma0 else gamma0
  let p := (gamma - dp) + theta
  let q := (gamma + (dx - dp)) + gamma
  let r := p / q
  let stpc := if r < 0 ∧ gamma ≠ 0 then stp + r * (stx - stp)
    else if stx < stp then stpmax else stpmin
  let stpq := stp + (dp / (dp - dx)) * (stx - stp)
  if bracket then
    let stpf := if |stpc - stp| < |stpq - stp| then stpc else stpq
    if stx < stp then min stpf (stp + (66 / 100) * (sty - stp))
    else max stpf (stp + (66 / 100) * (sty - stp))
  else
    let stpf := if |stpq - stp| < |stpc - stp| then stpc else stpq
    max stpmin (min stpmax stpf)

/-- Fourth case of `dcstep`: a lower function value, derivatives of the same
sign, and the magnitude of the derivative does not decrease. -/
def dcstepCase4 (stx dx sty fy dy stp fp dp : ℚ) (bracket : Bool) (stpmin stpmax : ℚ) : ℚ :=
  if bracket then
    let theta := 3 * (fp - fy) / (sty - stp) + dy + dp
    let s := max (max |theta| |dx|) |dp|
    let tmp := (theta / s) * (theta / s) - (dy / s) * (dp / s)
    let gamma0 := s * sqrt tmp
    let gamma := if stp < sty then -gamma0 else gamma0
    let p := (gamma - dp) + theta
    let q := ((gamma - dp) + gamma) + dy
    let r := p / q
    stp + r * (sty - stp)
  else if stx < stp then stpmax
  else stpmin

/-- The function `dcstep`: the safeguarded step `stpf` by the four cases,
then the update of the interval. -/
def dcstep (stx fx dx sty fy dy stp fp dp : ℚ) (bracket : Bool) (stpmin stpmax : ℚ) :
    DcstepOut :=
  let sgnd := dp * (dx / |dx|)
  let stpf : ℚ :=
    if fx < fp then dcstepCase1 stx fx dx stp fp dp
    else if sgnd < 0 then dcstepCase2 stx fx dx stp fp dp
    else if |dp| < |dx| then dcstepCase3 stx fx dx sty stp fp dp bracket stpmin stpmax
    else dcstepCase4 stx dx sty fy dy stp fp dp bracket stpmin stpmax
  let bracket1 : Bool := if fx < fp then true else if sgnd < 0 then true else bracket
  if fx < fp then
    { stx := stx, fx := fx, dx := dx, sty := stp, fy := fp, dy := dp, stp := stpf,
      bracket := bracket1 }
  else if sgnd < 0 then
    { stx := stp, fx := fp, dx := dp, sty := stx, fy := fx, dy := dx, stp := stpf,
      bracket := bracket1 }
  else
    { stx := stp, fx := fp, dx := dp, sty := sty, fy := fy, dy := dy, stp := stpf,
      bracket := bracket1 }

/-- The end of `Dcstep.Iterate`, after the call of `dcstep`: the forced
bisection, the new `stmin` and `stmax`, and the clamp of the step to
`[stpmin, stpmax]`. -/
def Dcstep.safeguard (d : Dcstep) : Dcstep :=
  let d1 : Dcstep :=
    if d.bracket then
      let stp := if (66 / 100) * d.width1 ≤ |d.sty - d.stx| then d.stx + (1 / 2) * (d.sty - d.stx)
        else d.stp
      { d with stp := stp, width1 := d.width, width := |d.sty - d.stx| }
    else d
  let d2 : Dcstep :=
    if d1.bracket then { d1 with stmin := min d1.stx d1.sty, stmax := max d1.stx d1.sty }
    else { d1 with stmin := d1.stp + xtrapl * (d1.stp - d1.stx),
                   stmax := d1.stp + xtrapu * (d1.stp - d1.stx) }
  { d2 with stp := min (max d2.stp d2.stpmin) d2.stpmax }

/-- The interval update of `Dcstep.Iterate` for the trial values `f`, `g`: the
choice between the modified and the plain function, and the call of `dcstep`. -/
def Dcstep.update (d : Dcstep) (f g : ℚ) : Dcstep :=
  let ftest := d.finit + d.stp * d.gtest
  let stage := if d.stage = 1 ∧ f ≤ ftest ∧ 0 ≤ g then 2 else d.stage
  let d0 : Dcstep := { d with ftest := ftest, stage := stage }
  if d0.stage = 1 ∧ f < d0.fx ∧ d0.ftest < f then
    let fm := f - d0.stp * d0.gtest
    let fxm := d0.fx - d0.stx * d0.gtest
    let fym := d0.fy - d0.sty * d0.gtest
    let gm := g - d0.gtest
    let gxm := d0.gx - d0.gtest
    let gym := d0.gy - d0.gtest
    let o := dcstep d0.stx fxm gxm d0.sty fym gym d0.stp fm gm d0.bracket d0.stpmin d0.stpmax
    { d0 with stx := o.stx, sty := o.sty, stp := o.stp, bracket := o.bracket,
              fx := o.fx + o.stx * d0.gtest, fy := o.fy + o.sty * d0.gtest,
              gx := o.dx + d0.gtest, gy := o.dy + d0.gtest }
  else
    let o := dcstep d0.stx d0.fx d0.gx d0.sty d0.fy d0.gy d0.stp f g d0.bracket
      d0.stpmin d0.stpmax
    { d0 with stx := o.stx, fx := o.fx, gx := o.dx, sty := o.sty, fy := o.fy, gy := o.dy,
              stp := o.stp, bracket := o.bracket }

/-- The method `Dcstep.Iterate`. -/
def Dcstep.Iterate {σ : Type} (d : Dcstep) (f : UniObjGrader σ) (st : σ) :
    Dcstep × σ × IterOut :=
  let newLoc := d.initLoc + d.stp
  let r := f newLoc st
  ((d.update r.1.1 r.1.2).safeguard, r.2,
    { loc := newLoc, obj := r.1.1, grad := r.1.2, nFunEvals := 1, err := none })

/-! ## package univariate: the wrapper around a gradient-based step finder -/

/-- The implementations of the interface `univariate.GradOptimizer` in the
repository (both also implement `linesearch.LinesearchOptimizer`). -/
inductive GradOptimizer
  | bisection (b : Bisection)
  | dcstep (d : Dcstep)

/-- Interface method `Init`. -/
def GradOptimizer.Init (o : GradOptimizer) (initLoc initObj initGrad : ℚ) :
    GradOptimizer × Option Error :=
  match o with
  | .bisection b => ((.bisection (b.Init initLoc initObj initGrad).1),
      (b.Init initLoc initObj initGrad).2)
  | .dcstep d => ((.dcstep (d.Init initLoc initObj initGrad).1), (d.Init initLoc initObj initGrad).2)

/-- Interface method `Status`. -/
def GradOptimizer.Status (o : GradOptimizer) : Opt.Status :=
  match o with
  | .bisection b => b.Status
  | .dcstep d => d.Status

/-- Interface method `Iterate`. -/
def GradOptimizer.Iterate {σ : Type} (o : GradOptimizer) (f : UniObjGrader σ) (st : σ) :
    GradOptimizer × σ × IterOut :=
  match o with
  | .bisection b => (.bisection (b.Iterate f st).1, (b.Iterate f st).2)
  | .dcstep d => (.dcstep (d.Iterate f st).1, (d.Iterate f st).2)

/-- Interface method `SetInitStep` of `linesearch.LinesearchOptimizer`. -/
def GradOptimizer.SetInitStep (o : GradOptimizer) (f : ℚ) : GradOptimizer :=
  match o with
  | .bisection b => .bisection (b.SetInitStep f)
  | .dcstep d => .dcstep (d.SetInitStep f)

/-- The type assertion to `linesearch.SetWolfeConditioner` followed by the call
of `SetWolfeConditions`: only `Dcstep` has the method. -/
def GradOptimizer.SetWolfeConditions (o : GradOptimizer) (fConst gConst : ℚ) (isStrong : Bool) :
    GradOptimizer × Option Error :=
  match o with
  | .bisection b => (.bisection b, none)
  | .dcstep d => (.dcstep (d.SetWolfeConditions fConst gConst isStrong).1,
      (d.SetWolfeConditions fConst gConst isStrong).2)

/-- The struct `univariate.GradWrapper`. -/
structure UniGradWrapper where
  optimizer : GradOptimizer
  helper : UniHelper

/-- The function `univariate.NewGradWrapper`. -/
def NewUniGradWrapper (optimizer : GradOptimizer) : UniGradWrapper :=
  { optimizer := optimizer, helper := NewUniHelper }

/-- The method `univariate.GradWrapper.Init`. -/
def UniGradWrapper.Init {σ : Type} (g : UniGradWrapper) (settings : UniSettings)
    (fn : UniObjGrader σ) (st : σ) (initLoc : ℚ) :
    Except Fault (UniGradWrapper × σ × Option Error) :=
  let r := fn initLoc st
  let initObj := match settings.InitialObjective with | some v => v | none => r.1.1
  let initGrad := match settings.InitialObjective with
    | some _ => settings.InitialGradient | none => r.1.2
  let st1 := match settings.InitialObjective with | some _ => st | none => r.2
  do
    let h ← g.helper.Init settings initObj initGrad
    let oi := g.optimizer.Init initLoc initObj initGrad
    pure ({ optimizer := oi.1, helper := h }, st1, oi.2)

/-- The method `univariate.GradWrapper.Status`, that is `common.CheckStatus` of
the helper and then the optimizer. -/
def UniGradWrapper.Status (g : UniGradWrapper) : Except Fault Opt.Status := do
  let c ← g.helper.Status
  if c ≠ .Continue then pure c
  else
    let c := g.optimizer.Status
    if c ≠ .Continue then pure c else pure .Continue

/-- The method `univariate.GradWrapper.Iterate`. -/
def UniGradWrapper.Iterate {σ : Type} (g : UniGradWrapper) (fn : UniObjGrader σ) (st : σ) :
    Except Fault (UniGradWrapper × σ × IterOut) :=
  let r := g.optimizer.Iterate fn st
  match r.2.2.err with
  | some e => .ok ({ g with optimizer := r.1 }, r.2.1, { r.2.2 with err := some (.errorIterating e) })
  | none => do
    let h ← g.helper.Iterate r.2.2.loc r.2.2.obj r.2.2.grad r.2.2.nFunEvals
    pure ({ optimizer := r.1, helper := h }, r.2.1, r.2.2)

/-- The method `univariate.GradWrapper.Result`. -/
def UniGradWrapper.Result (g : UniGradWrapper) (status : Opt.Status) : UniResult :=
  g.helper.Result status

/-! ## package linesearch: Wolfe conditions and `GradLinesearch` -/

/-- A slice `[]float64` of length `n`. -/
abbrev Vec (n : ℕ) := Fin n → ℚ

/-- The interface `ObjGrader` of the packages `linesearch` and `multivariate`:
the objective value at `x`, and the gradient written into the buffer. -/
abbrev ObjGrader (n : ℕ) := Vec n → ℚ × Vec n

/-- The type `linesearch.WolfeType`, a Go `int`. -/
abbrev WolfeType := ℤ

/-- The constant `linesearch.Strong`. -/
def Strong : WolfeType := 0

/-- The constant `linesearch.Weak`. -/
def Weak : WolfeType := 1

/-- The struct `linesearch.WolfeSettings` (`WType` is the field `Type`). -/
structure WolfeSettings where
  FunConst : ℚ
  GradConst : ℚ
  WType : WolfeType
  deriving DecidableEq, Repr

/-- The struct `linesearch.WolfeConditions`. -/
structure WolfeConditions where
  funConst : ℚ := 0
  gradConst : ℚ := 0
  t : WolfeType := 0
  currObj : ℚ := 0
  currGrad : ℚ := 0
  initObj : ℚ := 0
  initGrad : ℚ := 0
  step : ℚ := 0
  deriving DecidableEq, Repr

/-- The method `WolfeConditions.Init`, with its three panics. -/
def WolfeConditions.Init (w : WolfeConditions) (settings : WolfeSettings) (initObj initGrad : ℚ) :
    Except Fault WolfeConditions :=
  let w1 : WolfeConditions :=
    { w with funConst := settings.FunConst, gradConst := settings.GradConst, t := settings.WType,
             initObj := initObj, initGrad := initGrad, currObj := initObj, currGrad := initGrad }
  if w1.t ≠ Strong ∧ w1.t ≠ Weak then .error .badWolfeType
  else if w1.funConst < 0 then .error .funConstNegative
  else if w1.gradConst ≤ 0 then .error .gradConstNotPositive
  else .ok w1

/-- The method `WolfeConditions.Iterate`; a negative step panics. -/
def WolfeConditions.Iterate (w : WolfeConditions) (step obj grad : ℚ) :
    Except Fault WolfeConditions :=
  if step < 0 then .error .negativeStep
  else .ok { w with currObj := obj, currGrad := grad, step := step }

/-- The method `WolfeConditions.Status`. -/
def WolfeConditions.Status (w : WolfeConditions) : Except Fault Opt.Status :=
  if w.t = Strong then
    if w.initObj + w.funConst * w.step * w.initGrad < w.currObj then .ok .Continue
    else if w.gradConst * |w.initGrad| ≤ |w.currGrad| then .ok .Continue
    else .ok .WolfeConditionsMet
  else if w.t = Weak then
    if w.initObj + w.funConst * w.step * w.currGrad ≤ w.currObj then .ok .Continue
    else if w.currGrad ≤ w.gradConst * w.initGrad then .ok .Continue
    else .ok .WolfeConditionsMet
  else .error .badWolfeType

/-- The struct `linesearch.linesearchFun`: the objective restricted to the
search line, remembering the last point it evaluated.  The last field is not in
the source: `nCalls` counts the calls of `fun.ObjGrad` made through this value,
so that statements about the number of evaluations of the user's objective can
be made. -/
structure linesearchFun (n : ℕ) where
  fn : ObjGrader n
  searchVector : Vec n
  initLoc : Vec n
  currLoc : Vec n := fun _ => 0
  currLocCpy : Vec n := fun _ => 0
  currGrad : Vec n := fun _ => 0
  currObj : ℚ := 0
  currStep : ℚ := 0
  nCalls : ℕ := 0

/-- The method `linesearchFun.ObjGrad`: the returned pair and the receiver
after the call. -/
def linesearchFun.ObjGrad {n : ℕ} (l : linesearchFun n) (step : ℚ) :
    (ℚ × ℚ) × linesearchFun n :=
  let currLoc : Vec n := fun i => l.searchVector i * step + l.initLoc i
  let r := l.fn currLoc
  let g := l.searchVector ⬝ᵥ r.2
  ((r.1, g), { l with currStep := step, currLoc := currLoc, currLocCpy := currLoc,
                      currGrad := r.2, currObj := r.1, nCalls := l.nCalls + 1 })

/-- The line objective as the `univariate.ObjGrader` given to the step finder. -/
def linesearchFun.asUni (n : ℕ) : UniObjGrader (linesearchFun n) := fun x l => l.ObjGrad x

/-- The struct `linesearch.Result`. -/
structure Result (n : ℕ) where
  Loc : Vec n
  Obj : ℚ
  Grad : Vec n
  Step : ℚ
  NFunEvals : ℤ

/-- The struct `linesearch.Settings`. -/
structure Settings where
  Settings : UniSettings
  Wolfe : WolfeSettings
  Optimizer : GradOptimizer

/-- The function `linesearch.DefaultSettings`. -/
def DefaultSettings : Settings :=
  { Settings :=
      { UniDefaultSettings with
        CommonSettings := { DefaultCommonSettings with MaximumIterations := 100 },
        SingleOutputSettings := { DefaultSingleOutputSettings with GradAbsTol := some 0 } },
    Wolfe := { FunConst := 0, GradConst := 9 / 10, WType := Strong },
    Optimizer := .bisection {} }

/-- The variables of the loop of `GradLinesearch`. -/
structure LsState (n : ℕ) where
  wolfe : WolfeConditions
  wrapper : UniGradWrapper
  line : linesearchFun n

/-- How the loop of `GradLinesearch` is left: by `break` with a status, or by
the `return nil, err` after a failed `wrapper.Iterate`. -/
inductive LsExit (n : ℕ)
  | done (status : Status) (s : LsState n)
  | iterError (e : Error) (s : LsState n)

/-- The `for` loop of `GradLinesearch` (`nrmConst` is the constant `1`). -/
def GradLinesearch.loop {n : ℕ} (searchVector : Vec n) : ℕ → LsState n → Except Fault (LsExit n)
  | 0, _ => .error .outOfFuel
  | fuel + 1, s =>
    match s.wolfe.Status with
    | .error e => .error e
    | .ok status =>
      if status ≠ .Continue then .ok (.done status s)
      else
        match s.wrapper.Status with
        | .error e => .error e
        | .ok status =>
          if status ≠ .Continue then .ok (.done status s)
          else
            match s.wrapper.Iterate (linesearchFun.asUni n) s.line with
            | .error e => .error e
            | .ok r =>
              match r.2.2.err with
              | some e => .ok (.iterError e { s with wrapper := r.1, line := r.2.1 })
              | none =>
                let dirGrad := (searchVector ⬝ᵥ r.2.1.currGrad) / 1
                match s.wolfe.Iterate r.2.2.loc r.2.2.obj dirGrad with
                | .error e => .error e
                | .ok w => GradLinesearch.loop searchVector fuel
                    { wolfe := w, wrapper := r.1, line := r.2.1 }

/-- The initial step size chosen by `GradLinesearch`; `none` is `NaN`.  When
`grad` is zero the quotient of the source is `0 / 0 = NaN` for
`initObj = prevObj`, and `NaN` passes `math.Min` and the test `<= 0`; for
`initObj ≠ prevObj` it is an infinity, which leads to the step `1` whatever its
sign, as the quotient `0` of the rationals does. -/
def GradLinesearch.initStepSize (initObj prevObj grad : ℚ) : Option ℚ :=
  if grad = 0 ∧ initObj = prevObj then none
  else
    let a := min 1 ((101 / 100) * 2 * (initObj - prevObj) / grad)
    some (if a ≤ 0 then 1 else a)

/-- The `Result` built by `GradLinesearch` after its loop. -/
def GradLinesearch.result {n : ℕ} (s : LsState n) (status : Opt.Status) : Result n :=
  { Loc := s.line.currLoc, Obj := s.line.currObj, Grad := s.line.currGrad,
    Step := s.line.currStep,
    NFunEvals := (s.wrapper.Result status).CommonResult.FunctionEvaluations }

/-- The statements of `GradLinesearch` before its loop: the descent test, the
set-up of the Wolfe conditions, of the step finder and of the wrapper.  The
result is the settings as mutated so far and either an early error return or
the initial loop variables.  The slices all have the length `n`, so the first
guard of the source (on the lengths of `searchVector` and `initLoc`) never
fires. -/
def GradLinesearch.setup {n : ℕ} (settings : Settings) (fn : ObjGrader n)
    (searchVector initLoc : Vec n) (initObj : ℚ) (initGrad : Vec n) (prevObj : ℚ) :
    Except Fault (Settings × (Error ⊕ LsState n)) :=
  let line : linesearchFun n := { fn := fn, searchVector := searchVector, initLoc := initLoc }
  let grad := searchVector ⬝ᵥ initGrad
  let dirGrad := grad / 1
  if 0 < grad then .ok (settings, .inl .initialGradientPositive)
  else
    match ({} : WolfeConditions).Init settings.Wolfe initObj dirGrad with
    | .error e => .error e
    | .ok wolfe =>
      let uni : UniSettings :=
        { settings.Settings with InitialGradient := grad, InitialObjective := some initObj }
      match GradLinesearch.initStepSize initObj prevObj grad with
      | none => .error .notANumber
      | some initStepSize =>
        let opt1 := settings.Optimizer.SetInitStep initStepSize
        let sw := opt1.SetWolfeConditions settings.Wolfe.FunConst settings.Wolfe.GradConst
          (decide (settings.Wolfe.WType = Strong))
        match sw.2 with
        | some err => .ok ({ settings with Settings := uni, Optimizer := sw.1 }, .inl err)
        | none =>
          match (NewUniGradWrapper sw.1).Init uni (linesearchFun.asUni n) line 0 with
          | .error e => .error e
          | .ok wi =>
            match wi.2.2 with
            | some _ => .error .errorInitializing
            | none =>
              .ok ({ settings with Settings := uni, Optimizer := wi.1.optimizer },
                .inr { wolfe := wolfe, wrapper := wi.1, line := wi.2.1 })

/-- The function `linesearch.GradLinesearch`.  It returns the settings (which
the source mutates in place, step finder included), the `*Result` and the
`error`. -/
def GradLinesearch {n : ℕ} (fuel : ℕ) (settings : Settings) (fn : ObjGrader n)
    (searchVector initLoc : Vec n) (initObj : ℚ) (initGrad : Vec n) (prevObj : ℚ) :
    Except Fault (Settings × Option (Result n) × Option Error) :=
  match GradLinesearch.setup settings fn searchVector initLoc initObj initGrad prevObj with
  | .error e => .error e
  | .ok (settings1, .inl err) => .ok (settings1, none, some err)
  | .ok (settings1, .inr s0) =>
    match GradLinesearch.loop searchVector fuel s0 with
    | .error e => .error e
    | .ok (.iterError e s) =>
      .ok ({ settings1 with Optimizer := s.wrapper.optimizer }, none, some e)
    | .ok (.done status s) =>
      let result := GradLinesearch.result s status
      if status ≠ .WolfeConditionsMet then
        .ok ({ settings1 with Optimizer := s.wrapper.optimizer }, some result,
          some (.Notconverged status))
      else .ok ({ settings1 with Optimizer := s.wrapper.optimizer }, some result, none)

/-! ## package multivariate: dense BFGS (`bfgs.go`) -/

/-- The struct `multivariate.Bfgs` after `Init`, for a domain of dimension
`nDim = n` (`fn` is the field `fun`). -/
structure Bfgs (n : ℕ) where
  LinesearchSettings : Settings
  tmpMat : Matrix (Fin n) (Fin n) ℚ
  fn : ObjGrader n
  invHess : Matrix (Fin n) (Fin n) ℚ
  currLoc : Vec n
  currObj : ℚ
  prevObj : ℚ
  currGrad : Vec n
  p : Vec n
  s : Vec n
  y : Vec n

/-- The method `Bfgs.Init`, called with two slices of the same length `n` on a
`Bfgs` holding the given line search settings.  The inverse Hessian is set to
the identity entry by entry, the direction is `invHess * initGrad` scaled by
`-1`. -/
def Bfgs.Init {n : ℕ} (LinesearchSettings : Settings) (f : ObjGrader n) (initLoc : Vec n)
    (initObj : ℚ) (initGrad : Vec n) : Bfgs n × Option Error :=
  let invHess : Matrix (Fin n) (Fin n) ℚ := fun i j => if i = j then 1 else 0
  let pmat : Matrix (Fin n) (Fin 1) ℚ := invHess * col (Fin 1) initGrad
  ({ LinesearchSettings := LinesearchSettings, tmpMat := 0, fn := f, invHess := invHess,
     currLoc := initLoc, currGrad := initGrad, currObj := initObj, prevObj := initObj + 5000,
     y := fun _ => 0, s := fun _ => 0, p := fun i => -1 * pmat i 0 }, none)

/-- The part of `Bfgs.Iterate` after a successful line search: the update of
the inverse Hessian by the three matrices `tmp1`, `tmp2`, `tmp3`, of the
current point, and of the search direction. -/
def Bfgs.update {n : ℕ} (b : Bfgs n) (settings : Settings) (result : Result n) : Bfgs n :=
  let newLoc := result.Loc
  let newGrad := result.Grad
  let y : Vec n := fun i => newGrad i - b.currGrad i
  let s : Vec n := fun i => newLoc i - b.currLoc i
  let sk_yk := y ⬝ᵥ s
  let sk_yk_Sq := sk_yk * sk_yk
  let ykMat := col (Fin 1) y
  let ykTmat := row (Fin 1) y
  let skMat := col (Fin 1) s
  let skTmat := row (Fin 1) s
  let tmp1a : Matrix (Fin 1) (Fin 1) ℚ := (ykTmat * b.invHess) * ykMat
  let val := (sk_yk + tmp1a 0 0) / sk_yk_Sq
  let tmp1 : Matrix (Fin n) (Fin n) ℚ := val • (skMat * skTmat)
  let tmp2 : Matrix (Fin n) (Fin n) ℚ := (-1 / sk_yk) • ((b.invHess * ykMat) * skTmat)
  let tmp3 : Matrix (Fin n) (Fin n) ℚ := (-1 / sk_yk) • (skMat * (ykTmat * b.invHess))
  let invHess := ((b.invHess + tmp1) + tmp2) + tmp3
  let dirmat : Matrix (Fin n) (Fin 1) ℚ := invHess * col (Fin 1) newGrad
  { b with LinesearchSettings := settings, y := y, s := s, invHess := invHess,
           currGrad := newGrad, currLoc := newLoc, prevObj := b.currObj, currObj := result.Obj,
           p := fun i => -1 * dirmat i 0 }

/-- The return values of `Iterate` of a multivariate optimizer, with the
contents of the two output buffers `loc` and `grad` after the call. -/
structure MultiIterOut (n : ℕ) where
  loc : Vec n
  grad : Vec n
  obj : ℚ
  nFunEvals : ℤ
  err : Option Error

/-- The method `Bfgs.Iterate` on output buffers `loc` and `grad` of length `n`. -/
def Bfgs.Iterate {n : ℕ} (fuel : ℕ) (b : Bfgs n) (loc grad : Vec n) :
    Except Fault (Bfgs n × MultiIterOut n) :=
  match GradLinesearch fuel b.LinesearchSettings b.fn b.p b.currLoc b.currObj b.currGrad
      b.prevObj with
  | .error e => .error e
  | .ok (settings, _, some err) =>
    .ok ({ b with LinesearchSettings := settings },
      { loc := loc, grad := grad, obj := 0, nFunEvals := 0, err := some err })
  | .ok (_, none, none) => .error .nilDereference
  | .ok (settings, some result, none) =>
    .ok (b.update settings result,
      { loc := result.Loc, grad := result.Grad, obj := result.Obj,
        nFunEvals := result.NFunEvals, err := none })

/-! ## package multivariate: limited-memory BFGS (`lbfgs.go`) -/

/-- The struct `multivariate.Lbfgs` after `Init`, for a domain of dimension
`nDim = n`.  The four arrays of length `Memory` are functions of the index. -/
structure Lbfgs (n : ℕ) where
  LinesearchSettings : Settings
  Memory : ℕ
  fn : ObjGrader n
  counter : ℕ
  looped : Bool
  step : ℚ
  gamma_k : ℚ
  q : Vec n
  alpha : ℕ → ℚ
  invRhoHist : ℕ → ℚ
  sHist : ℕ → Vec n
  yHist : ℕ → Vec n
  currGrad : Vec n
  currLoc : Vec n
  currObj : ℚ
  prevObj : ℚ

/-- The method `Lbfgs.Init`, called with two non-nil slices of the same length
`n` on an `Lbfgs` holding the given line search settings and `Memory`. -/
def Lbfgs.Init {n : ℕ} (LinesearchSettings : Settings) (Memory : ℕ) (f : ObjGrader n)
    (initLoc : Vec n) (initObj : ℚ) (initGrad : Vec n) : Lbfgs n × Option Error :=
  ({ LinesearchSettings := LinesearchSettings, Memory := Memory, fn := f,
     counter := 0, looped := false, step := 0, gamma_k := 0,
     q := fun i => -1 * initGrad i,
     alpha := fun _ => 0, invRhoHist := fun _ => 0,
     sHist := fun _ _ => 0, yHist := fun _ _ => 0,
     currGrad := initGrad, currLoc := initLoc, currObj := initObj,
     prevObj := initObj + 5000 }, none)

/-- The index `ind` used by both loops of `Lbfgs.Iterate` for the pair stored
`i` iterations ago. -/
def Lbfgs.ind (counter m i : ℕ) : ℕ :=
  let ind : ℤ := (counter : ℤ) - (i : ℤ)
  (if ind < 0 then ind + (m : ℤ) else ind).toNat

/-- The bound `max` of both loops of `Lbfgs.Iterate`. -/
def Lbfgs.loopMax (counter m : ℕ) (looped : Bool) : ℕ :=
  if !looped then counter + 1 else m

/-- The indices `ind` visited by the first loop (`i` from `0` up to `max - 1`),
in the order of the visits. -/
def Lbfgs.firstLoopInds (counter m : ℕ) (looped : Bool) : List ℕ :=
  (List.range (Lbfgs.loopMax counter m looped)).map (Lbfgs.ind counter m)

/-- The indices `ind` visited by the second loop (`i` from `max - 1` down to
`0`), in the order of the visits. -/
def Lbfgs.secondLoopInds (counter m : ℕ) (looped : Bool) : List ℕ :=
  (List.range (Lbfgs.loopMax counter m looped)).reverse.map (Lbfgs.ind counter m)

/-- The body of the first loop: `alpha[ind]` is set and `q` gets
`-alpha[ind] * yHist[ind]` added. -/
def Lbfgs.firstLoopBody {n : ℕ} (invRhoHist : ℕ → ℚ) (sHist yHist : ℕ → Vec n)
    (st : (ℕ → ℚ) × Vec n) (ind : ℕ) : (ℕ → ℚ) × Vec n :=
  let a := (sHist ind ⬝ᵥ st.2) / invRhoHist ind
  (Function.update st.1 ind a, fun j => st.2 j + (-1 * a) * yHist ind j)

/-- The body of the second loop: `q` gets `(alpha[ind] - beta) * sHist[ind]`
added. -/
def Lbfgs.secondLoopBody {n : ℕ} (invRhoHist : ℕ → ℚ) (sHist yHist : ℕ → Vec n)
    (alpha : ℕ → ℚ) (q : Vec n) (ind : ℕ) : Vec n :=
  let beta := (yHist ind ⬝ᵥ q) / invRhoHist ind
  fun j => q j + (alpha ind - beta) * sHist ind j

/-- The part of `Lbfgs.Iterate` after a successful line search, when `counter`
is a valid index of the history arrays: the new pair is stored in slot
`counter`, the two loops compute the new direction, and the counter advances.
All indices used by the loops are below `Memory` when `counter` is. -/
def Lbfgs.update {n : ℕ} (l : Lbfgs n) (settings : Settings) (result : Result n) : Lbfgs n :=
  let counter := l.counter
  let m := l.Memory
  let newLoc := result.Loc
  let newGrad := result.Grad
  let yk : Vec n := fun i => newGrad i - l.currGrad i
  let sk : Vec n := fun i => newLoc i - l.currLoc i
  let yHist := Function.update l.yHist counter yk
  let sHist := Function.update l.sHist counter sk
  let invRho := yHist counter ⬝ᵥ sHist counter
  let invRhoHist := Function.update l.invRhoHist counter invRho
  let q0 : Vec n := fun i => -1 * newGrad i
  let st1 := (Lbfgs.firstLoopInds counter m l.looped).foldl
    (Lbfgs.firstLoopBody invRhoHist sHist yHist) (l.alpha, q0)
  let q2 := (Lbfgs.secondLoopInds counter m l.looped).foldl
    (Lbfgs.secondLoopBody invRhoHist sHist yHist st1.1) st1.2
  let counter1 := l.counter + 1
  let wrap : Bool := decide (counter1 = l.Memory)
  { l with LinesearchSettings := settings, yHist := yHist, sHist := sHist,
           invRhoHist := invRhoHist, alpha := st1.1, q := q2,
           counter := if wrap then 0 else counter1,
           looped := if wrap then true else l.looped,
           prevObj := l.currObj, currObj := result.Obj, currLoc := result.Loc,
           currGrad := result.Grad }

/-- The method `Lbfgs.Iterate` on output buffers `loc` and `grad` of length
`n`.  Indexing the history at `counter` panics when `counter` is not below
`Memory`. -/
def Lbfgs.Iterate {n : ℕ} (fuel : ℕ) (l : Lbfgs n) (loc grad : Vec n) :
    Except Fault (Lbfgs n × MultiIterOut n) :=
  match GradLinesearch fuel l.LinesearchSettings l.fn l.q l.currLoc l.currObj l.currGrad
      l.prevObj with
  | .error e => .error e
  | .ok (settings, _, some err) =>
    .ok ({ l with LinesearchSettings := settings },
      { loc := loc, grad := grad, obj := 0, nFunEvals := 0, err := some err })
  | .ok (_, none, none) => .error .nilDereference
  | .ok (settings, some result, none) =>
    if l.counter < l.Memory then
      .ok (l.update settings result,
        { loc := result.Loc, grad := result.Grad, obj := result.Obj,
          nFunEvals := result.NFunEvals, err := none })
    else .error .indexOutOfRange

/-! ## Concrete inputs used to run the model

The objective `x ↦ x² / 4` in dimension one, started at `x = 1` with the
steepest descent direction, and the default line search settings. -/

/-- The objective `x ↦ x² / 4` with gradient `x / 2`. -/
def demoFn : ObjGrader 1 := fun x => (x 0 * x 0 / 4, fun _ => x 0 / 2)

/-- The start point `x = 1`. -/
def demoLoc : Vec 1 := fun _ => 1

/-- The gradient `1 / 2` at the start point. -/
def demoGrad : Vec 1 := fun _ => 1 / 2

/-- The steepest descent direction at the start point. -/
def demoDir : Vec 1 := fun _ => -1 * (1 / 2)

/-! ## Predicates on the loop state of `GradLinesearch` -/

/-- The Wolfe state and the line objective describe the same trial point: the
last `ObjGrad` call of the step finder was made at the step the Wolfe
conditions are checked for, and the recorded location, objective and gradient
are those of that call. -/
def LsState.Synced {n : ℕ} (s : LsState n) : Prop :=
  s.wolfe.step = s.line.currStep ∧
  s.wolfe.currObj = s.line.currObj ∧
  s.wolfe.currGrad = s.line.searchVector ⬝ᵥ s.line.currGrad ∧
  0 ≤ s.wolfe.step ∧
  s.line.currLoc = (fun i => s.line.searchVector i * s.line.currStep + s.line.initLoc i) ∧
  s.line.fn s.line.currLoc = (s.line.currObj, s.line.currGrad)

/-- The parts of the loop state that no iteration changes. -/
def LsState.SameFrame {n : ℕ} (s0 s : LsState n) : Prop :=
  s.wolfe.funConst = s0.wolfe.funConst ∧ s.wolfe.gradConst = s0.wolfe.gradConst ∧
  s.wolfe.t = s0.wolfe.t ∧ s.wolfe.initObj = s0.wolfe.initObj ∧
  s.wolfe.initGrad = s0.wolfe.initGrad ∧
  s.line.fn = s0.line.fn ∧ s.line.searchVector = s0.line.searchVector ∧
  s.line.initLoc = s0.line.initLoc ∧
  s.wrapper.helper.Common.funStatus = s0.wrapper.helper.Common.funStatus

/-- The objective `x ↦ x² / 4 - 1` with gradient `x / 2`; its value at the
start point `x = 1` is negative. -/
def shiftedFn : ObjGrader 1 := fun x => (x 0 * x 0 / 4 - 1, fun _ => x 0 / 2)

/-- The default line search settings with the curvature constant `GradConst`
set to `2`. -/
def wideSettings : Settings :=
  { DefaultSettings with Wolfe := { FunConst := 0, GradConst := 2, WType := Strong } }

/-- The point the default line search accepts from the start point of the
demonstration run: one step of length `1` to `x = 1 / 2`. -/
def demoResult : Result 1 :=
  { Loc := fun _ => 1 / 2, Obj := 1 / 16, Grad := fun _ => 1 / 4, Step := 1, NFunEvals := 1 }

/-! ## Notions used to state the quasi-Newton claims -/

/-- A matrix is symmetric positive-definite: symmetric, with a positive
quadratic form on every non-zero vector. -/
def SymPosDef {n : ℕ} (H : Matrix (Fin n) (Fin n) ℚ) : Prop :=
  H.IsSymm ∧ ∀ x : Vec n, x ≠ 0 → 0 < x ⬝ᵥ (H *ᵥ x)

/-- The accepted step `s = newLoc - oldLoc` between two states of `Bfgs`. -/
def Bfgs.stepDiff {n : ℕ} (b b1 : Bfgs n) : Vec n := fun i => b1.currLoc i - b.currLoc i

/-- The gradient difference `y = newGrad - oldGrad` between two states of `Bfgs`. -/
def Bfgs.gradDiff {n : ℕ} (b b1 : Bfgs n) : Vec n := fun i => b1.currGrad i - b.currGrad i

/-- The `Bfgs` optimizer initialised at the start point of the demonstration
run. -/
def demoBfgs : Bfgs 1 := (Bfgs.Init DefaultSettings demoFn demoLoc (1 / 4) demoGrad).1

/-- The accepted step `s = newLoc - oldLoc` between two states of `Lbfgs`. -/
def Lbfgs.stepDiff {n : ℕ} (l l1 : Lbfgs n) : Vec n := fun i => l1.currLoc i - l.currLoc i

/-- The gradient difference `y = newGrad - oldGrad` between two states of `Lbfgs`. -/
def Lbfgs.gradDiff {n : ℕ} (l l1 : Lbfgs n) : Vec n := fun i => l1.currGrad i - l.currGrad i

/-- The state `l` is reached from an `Init` by calls of `Iterate` of which
exactly `k` were successful (returned a nil error). -/
inductive Lbfgs.ReachedAfter {n : ℕ} : ℕ → Lbfgs n → Prop
  | init (settings : Settings) (Memory : ℕ) (f : ObjGrader n) (initLoc : Vec n) (initObj : ℚ)
      (initGrad : Vec n) :
      Lbfgs.ReachedAfter 0 (Lbfgs.Init settings Memory f initLoc initObj initGrad).1
  | success (k : ℕ) (l l1 : Lbfgs n) (fuel : ℕ) (loc grad : Vec n) (out : MultiIterOut n) :
      Lbfgs.ReachedAfter k l → Lbfgs.Iterate fuel l loc grad = .ok (l1, out) → out.err = none →
      Lbfgs.ReachedAfter (k + 1) l1
  | failure (k : ℕ) (l l1 : Lbfgs n) (fuel : ℕ) (loc grad : Vec n) (out : MultiIterOut n) :
      Lbfgs.ReachedAfter k l → Lbfgs.Iterate fuel l loc grad = .ok (l1, out) → out.err ≠ none →
      Lbfgs.ReachedAfter k l1

/-- The two-loop recursion written as a recursion on the list of visited
slots (newest first): the step of the first loop for the head, the recursion on
the tail, then the step of the second loop for the head. -/
def Lbfgs.recursion {n : ℕ} (invRhoHist : ℕ → ℚ) (sHist yHist : ℕ → Vec n) :
    List ℕ → Vec n → Vec n
  | [], q => q
  | ind :: rest, q =>
    let a := (sHist ind ⬝ᵥ q) / invRhoHist ind
    let r := Lbfgs.recursion invRhoHist sHist yHist rest (fun j => q j + (-1 * a) * yHist ind j)
    let beta := (yHist ind ⬝ᵥ r) / invRhoHist ind
    fun j => r j + (a - beta) * sHist ind j

/-- The `Lbfgs` optimizer with the default `Memory = 30` initialised at the
start point of the demonstration run. -/
def demoLbfgs : Lbfgs 1 := (Lbfgs.Init DefaultSettings 30 demoFn demoLoc (1 / 4) demoGrad).1

/-! ## Concrete inputs for the safeguarded interpolation stepper -/

/-- An initial step of `1e-9`, below the default `MinStep = 1e-8`. -/
def tinyStep : ℚ := 1 / 1000000000

/-- The line objective `φ(t) = -t + 5e9 t² - 3e18 t³` with its derivative
`φ'(t) = -1 + 1e10 t - 9e18 t²`: `φ(0) = 0`, `φ'(0) = -1`, `φ(1e-9) = 1e-9`,
`φ'(1e-9) = 0`. -/
def cubicLine : UniObjGrader Unit := fun t st =>
  ((-t + 5000000000 * t ^ 2 - 3000000000000000000 * t ^ 3,
    -1 + 10000000000 * t - 9000000000000000000 * t ^ 2), st)

/-- The stepper `NewDcstep()` after `SetInitStep(1e-9)` and
`Init(cubicLine, 0, φ(0), φ'(0))`. -/
def tinyDcstep : Dcstep := ((NewDcstep.SetInitStep tinyStep).Init 0 0 (-1)).1

/-- The stepper `tinyDcstep` after its first `Iterate`. -/
def tinyDcstep1 : Dcstep := (tinyDcstep.Iterate cubicLine ()).1

/-! ## Concrete inputs for the Wolfe status -/

/-- A Strong Wolfe state with the default constants (`FunConst = 0`,
`GradConst = 0.9`) after a trial step `1` from `initObj = 1`, `initGrad = -10`
to a lower point with `currObj = 0` and `currGrad = 9`: the curvature inequality
holds with equality, `|9| = 0.9 * |-10|`. -/
def wolfeAtEquality : WolfeConditions :=
  { funConst := 0, gradConst := 9 / 10, t := Strong, currObj := 0, currGrad := 9,
    initObj := 1, initGrad := -10, step := 1 }

/-- The same trial step with `currGrad = 5`: the curvature inequality is strict. -/
def wolfeStrict : WolfeConditions := { wolfeAtEquality with currGrad := 5 }

/-! ## Counting the evaluations of the objective -/

/-- The number of calls of the user's `ObjGrad` made by one call of
`GradLinesearch`: the count kept by the line objective when the loop is left
(`0` when `GradLinesearch` returns before its loop, where the line objective has
not been called). -/
def GradLinesearch.objGradCalls {n : ℕ} (fuel : ℕ) (settings : Settings) (fn : ObjGrader n)
    (searchVector initLoc : Vec n) (initObj : ℚ) (initGrad : Vec n) (prevObj : ℚ) : ℕ :=
  match GradLinesearch.setup settings fn searchVector initLoc initObj initGrad prevObj with
  | .ok (_, .inr s0) =>
    match GradLinesearch.loop searchVector fuel s0 with
    | .ok (.iterError _ s) => s.line.nCalls
    | .ok (.done _ s) => s.line.nCalls
    | .error _ => 0
  | _ => 0

/-! ## Concrete inputs for a direction with a zero directional derivative -/

/-- The default line search settings with `MaximumIterations = 1`. -/
def shortSettings : Settings :=
  { DefaultSettings with
    Settings := { DefaultSettings.Settings with
      CommonSettings := { DefaultCommonSettings with MaximumIterations := 1 } } }

/-- The direction `+1` in dimension one. -/
def unitDir : Vec 1 := fun _ => 1

/-- The point `x = 0`, a minimiser of `demoFn`. -/
def zeroLoc : Vec 1 := fun _ => 0

/-- The gradient of `demoFn` at `x = 0`. -/
def zeroGrad : Vec 1 := fun _ => 0

/-! ## Successive trial steps of `Bisection` -/

/-- The state of the step finder and of the oracle after `k` successive calls
of `Bisection.Iterate`, started from the pair `p`.  The trial step of the next
call is the field `currStep` of the state. -/
def Bisection.iterates {σ : Type} (f : UniObjGrader σ) : ℕ → Bisection × σ → Bisection × σ
  | 0, p => p
  | k + 1, p =>
    let q := Bisection.iterates f k p
    let r := q.1.Iterate f q.2
    (r.1, r.2.1)

/-- An upper bound has been found (`maxStep` is finite), and the two bounds and
the trial step lie in `[lo, hi]`, the trial step between the bounds. -/
def Bisection.Within (b : Bisection) (lo hi : ℚ) : Prop :=
  ∃ mx, b.maxStep = some mx ∧ lo ≤ min b.minStep mx ∧ max b.minStep mx ≤ hi ∧
    min b.minStep mx ≤ b.currStep ∧ b.currStep ≤ max b.minStep mx

/-- The oracle of the objective `x ↦ -x`, with derivative `-1` everywhere. -/
def downhill : UniObjGrader Unit := fun x st => ((-x, -1), st)

/-- A `Bisection` with `InitialStepMag = 1` after `Init(downhill, 0, 0, -1)`. -/
def unitBisection : Bisection := (({ InitialStepMag := 1 } : Bisection).Init 0 0 (-1)).1

/-- A `Bisection` that has found the bounds `0` and `1` and will try `1 / 2`. -/
def bracketedBisection : Bisection :=
  { unitBisection with maxStep := some 1, maxObj := some 1, maxGrad := some 1, currStep := 1 / 2 }

/-! ## `Init` of the multivariate optimizers on arbitrary slices

`Bfgs.Init` and `Lbfgs.Init` above take two slices of the same length.  Here the
same methods are given for arbitrary arguments: a slice argument is `none`
(the nil slice) or a list of any length. -/

/-- A slice `[]float64` passed as an argument; `none` is the nil slice. -/
abbrev Slice := Option (List ℚ)

/-- The length `len(s)` of a slice. -/
def sliceLen : Slice → ℕ
  | none => 0
  | some l => l.length

/-- The contents of a fresh `make([]float64, n)` after `copy(dst, s)`: the
first `min n (len s)` entries of `s`, then zeros. -/
def sliceCopy (n : ℕ) (s : Slice) : Vec n := fun i => (s.getD []).getD i.val 0

/-- The method `Bfgs.Init` on arbitrary slices.  It has a single `return nil`;
the call `mat64.NewDense(nDim, 1, initGrad)` panics (`ErrShape`) when `initGrad`
is not nil and its length is not `nDim = len(initLoc)`, and allocates a zero
matrix when `initGrad` is nil. -/
def Bfgs.InitSlices (LinesearchSettings : Settings) (initLoc : Slice)
    (f : ObjGrader (sliceLen initLoc)) (initObj : ℚ) (initGrad : Slice) :
    Except Fault (Bfgs (sliceLen initLoc) × Option Error) :=
  match initGrad with
  | some g =>
    if sliceLen initLoc ≠ g.length then .error .matShape
    else .ok (Bfgs.Init LinesearchSettings f (sliceCopy _ initLoc) initObj (sliceCopy _ initGrad))
  | none =>
    .ok (Bfgs.Init LinesearchSettings f (sliceCopy _ initLoc) initObj (sliceCopy _ initGrad))

/-- The method `Lbfgs.Init` on arbitrary slices: the two nil checks, then the
allocations and the three `copy` calls.  The first component is the `Lbfgs`
after the call, `none` when `Init` returned before touching it. -/
def Lbfgs.InitSlices (LinesearchSettings : Settings) (Memory : ℕ) (initLoc : Slice)
    (f : ObjGrader (sliceLen initLoc)) (initObj : ℚ) (initGrad : Slice) :
    Option (Lbfgs (sliceLen initLoc)) × Option Error :=
  match initLoc with
  | none => (none, some .initLocNil)
  | some _ =>
    match initGrad with
    | none => (none, some .initGradNil)
    | some _ =>
      (some (Lbfgs.Init LinesearchSettings Memory f (sliceCopy _ initLoc) initObj
        (sliceCopy _ initGrad)).1, none)

/-! ## package multivariate: helper, wrapper and `OptimizeGrad`

The slices `initLoc`, `InitialGradient` and the two output buffers all have the
length `n` of the domain. -/

/-- The gonum function `floats.Norm(s, 2)`: the square root of the sum of the
squares (`0` for an empty or nil slice). -/
def norm2 {n : ℕ} (g : Vec n) : ℚ := sqrt (g ⬝ᵥ g)

/-- The struct `multivariate.Settings`.  `InitialObjective = none` is `NaN`,
`InitialGradient = none` is the nil slice. -/
structure MultiSettings (n : ℕ) where
  CommonSettings : Opt.CommonSettings
  SingleOutputSettings : Opt.SingleOutputSettings
  InitialObjective : Option ℚ
  InitialGradient : Option (Vec n)

/-- The function `multivariate.DefaultSettings`. -/
def MultiDefaultSettings (n : ℕ) : MultiSettings n :=
  { CommonSettings := DefaultCommonSettings, SingleOutputSettings := DefaultSingleOutputSettings,
    InitialObjective := none, InitialGradient := none }

/-- The struct `multivariate.Result`.  `Obj = none` is `+Inf`; `Loc = none` and
`Grad = none` are nil slices. -/
structure MultiResult (n : ℕ) where
  CommonResult : Opt.CommonResult
  Obj : Option ℚ
  Loc : Option (Vec n)
  Grad : Option (Vec n)

/-- The struct `multivariate.Helper`.  `objBest = none` is `+Inf`; `gradBest`
and `locBest` are nil (`none`) or hold the contents of the slice they refer
to. -/
structure MultiHelper (n : ℕ) where
  Common : Opt.Common := {}
  SingleOutput : Opt.SingleOutput := {}
  objBest : Option ℚ := some 0
  gradBest : Option (Vec n) := none
  locBest : Option (Vec n) := none
  gradNrmBest : ℚ := 0

/-- The function `multivariate.NewHelper`. -/
def NewMultiHelper (n : ℕ) : MultiHelper n := {}

/-- The method `multivariate.Helper.Init`. -/
def MultiHelper.Init {n : ℕ} (u : MultiHelper n) (s : MultiSettings n) (initObj : ℚ)
    (initGrad : Option (Vec n)) : Except Fault (MultiHelper n) := do
  let c := u.Common.Init s.CommonSettings
  let gradNrm := norm2 (initGrad.getD (fun _ => 0))
  let so ← u.SingleOutput.Init s.SingleOutputSettings initObj gradNrm
  pure { Common := c, SingleOutput := so, objBest := none, gradBest := none, locBest := none,
         gradNrmBest := gradNrm }

/-- The method `multivariate.Helper.Iterate`.  The helper stores the slices
`loc` and `grad` themselves, not copies of them.  `OptimizeGrad`, its only
caller, passes the same two buffers at every call and the optimizer overwrites
them before the call, so a slice stored at an earlier call shows the contents
given at this call: this is the `map` of the second branch. -/
def MultiHelper.Iterate {n : ℕ} (u : MultiHelper n) (loc : Vec n) (obj : ℚ) (grad : Vec n)
    (nFunEvals : ℤ) : Except Fault (MultiHelper n) := do
  let c := u.Common.Iterate nFunEvals
  let gradNrm := norm2 grad
  let so ← u.SingleOutput.Iterate gradNrm obj
  if (match u.objBest with | none => true | some best => decide (obj ≤ best)) then
    pure { Common := c, SingleOutput := so, objBest := some obj, gradBest := some grad,
           locBest := some loc, gradNrmBest := gradNrm }
  else
    pure { u with Common := c, SingleOutput := so, gradBest := u.gradBest.map (fun _ => grad),
                  locBest := u.locBest.map (fun _ => loc) }

/-- The method `multivariate.Helper.Status`. -/
def MultiHelper.Status {n : ℕ} (u : MultiHelper n) : Except Fault Status := do
  let status ← u.SingleOutput.Status
  if status ≠ .Continue then pure status
  else
    let status := u.Common.Status
    if status ≠ .Continue then pure status else pure .Continue

/-- The method `multivariate.Helper.Result`. -/
def MultiHelper.Result {n : ℕ} (u : MultiHelper n) (status : Opt.Status) : MultiResult n :=
  { CommonResult := u.Common.Result status, Obj := u.objBest, Loc := u.locBest,
    Grad := u.gradBest }

/-- The implementations of the interface `multivariate.GradOptimizer` in the
repository.  An optimizer that has not been initialised yet is a value whose
fields other than the settings are arbitrary: `Init` overwrites them all. -/
inductive MultiOptimizer (n : ℕ)
  | bfgs (b : Bfgs n)
  | lbfgs (l : Lbfgs n)

/-- The function `multivariate.NewBfgs`. -/
def NewBfgs (n : ℕ) : Bfgs n :=
  { LinesearchSettings := DefaultSettings, tmpMat := 0, fn := fun _ => (0, fun _ => 0),
    invHess := 0, currLoc := fun _ => 0, currObj := 0, prevObj := 0, currGrad := fun _ => 0,
    p := fun _ => 0, s := fun _ => 0, y := fun _ => 0 }

/-- The function `multivariate.NewLbfgs`. -/
def NewLbfgs (n : ℕ) : Lbfgs n :=
  { LinesearchSettings := DefaultSettings, Memory := 30, fn := fun _ => (0, fun _ => 0),
    counter := 0, looped := false, step := 0, gamma_k := 0, q := fun _ => 0,
    alpha := fun _ => 0, invRhoHist := fun _ => 0, sHist := fun _ _ => 0, yHist := fun _ _ => 0,
    currGrad := fun _ => 0, currLoc := fun _ => 0, currObj := 0, prevObj := 0 }

/-- Interface method `Init`, called with a non-nil `initLoc` of length `n` and
an `initGrad` that is nil or of length `n`.  `Bfgs.Init` reads a nil gradient as
zeros; `Lbfgs.Init` returns an error for it and leaves the receiver as it was. -/
def MultiOptimizer.Init {n : ℕ} (o : MultiOptimizer n) (f : ObjGrader n) (initLoc : Vec n)
    (initObj : ℚ) (initGrad : Option (Vec n)) : MultiOptimizer n × Option Error :=
  match o with
  | .bfgs b =>
    (.bfgs (Bfgs.Init b.LinesearchSettings f initLoc initObj (initGrad.getD (fun _ => 0))).1,
      (Bfgs.Init b.LinesearchSettings f initLoc initObj (initGrad.getD (fun _ => 0))).2)
  | .lbfgs l =>
    match initGrad with
    | none => (.lbfgs l, some .initGradNil)
    | some g =>
      (.lbfgs (Lbfgs.Init l.LinesearchSettings l.Memory f initLoc initObj g).1,
        (Lbfgs.Init l.LinesearchSettings l.Memory f initLoc initObj g).2)

/-- Interface method `Status`: both optimizers return `Continue`. -/
def MultiOptimizer.Status {n : ℕ} (_o : MultiOptimizer n) : Opt.Status := .Continue

/-- Interface method `Iterate`. -/
def MultiOptimizer.Iterate {n : ℕ} (fuel : ℕ) (o : MultiOptimizer n) (loc grad : Vec n) :
    Except Fault (MultiOptimizer n × MultiIterOut n) :=
  match o with
  | .bfgs b =>
    match b.Iterate fuel loc grad with
    | .error e => .error e
    | .ok r => .ok (.bfgs r.1, r.2)
  | .lbfgs l =>
    match l.Iterate fuel loc grad with
    | .error e => .error e
    | .ok r => .ok (.lbfgs r.1, r.2)

/-- The line search settings held by the optimizer. -/
def MultiOptimizer.LinesearchSettings {n : ℕ} (o : MultiOptimizer n) : Settings :=
  match o with
  | .bfgs b => b.LinesearchSettings
  | .lbfgs l => l.LinesearchSettings

/-- The number of calls of the user's `ObjGrad` made by one call of `Iterate`:
those of its line search. -/
def MultiOptimizer.iterateCalls {n : ℕ} (fuel : ℕ) (o : MultiOptimizer n) : ℕ :=
  match o with
  | .bfgs b =>
    GradLinesearch.objGradCalls fuel b.LinesearchSettings b.fn b.p b.currLoc b.currObj b.currGrad
      b.prevObj
  | .lbfgs l =>
    GradLinesearch.objGradCalls fuel l.LinesearchSettings l.fn l.q l.currLoc l.currObj l.currGrad
      l.prevObj

/-- The struct `multivariate.GradWrapper`. -/
structure MultiGradWrapper (n : ℕ) where
  optimizer : MultiOptimizer n
  helper : MultiHelper n

/-- The function `multivariate.NewGradWrapper`. -/
def NewMultiGradWrapper {n : ℕ} (optimizer : MultiOptimizer n) : MultiGradWrapper n :=
  { optimizer := optimizer, helper := NewMultiHelper n }

/-- The method `multivariate.GradWrapper.Init`: when no initial objective is
given in the settings the objective is evaluated at `initLoc`. -/
def MultiGradWrapper.Init {n : ℕ} (g : MultiGradWrapper n) (settings : MultiSettings n)
    (fn : ObjGrader n) (initLoc : Vec n) : Except Fault (MultiGradWrapper n × Option Error) :=
  let initObj := match settings.InitialObjective with | some v => v | none => (fn initLoc).1
  let initGrad : Option (Vec n) := match settings.InitialObjective with
    | some _ => settings.InitialGradient | none => some (fn initLoc).2
  do
    let h ← g.helper.Init settings initObj initGrad
    let oi := g.optimizer.Init fn initLoc initObj initGrad
    pure ({ optimizer := oi.1, helper := h }, oi.2)

/-- The number of calls of the user's `ObjGrad` made by `GradWrapper.Init`. -/
def MultiGradWrapper.initCalls {n : ℕ} (settings : MultiSettings n) : ℕ :=
  match settings.InitialObjective with | some _ => 0 | none => 1

/-- The method `multivariate.GradWrapper.Status`, that is `common.CheckStatus`
of the helper and then the optimizer. -/
def MultiGradWrapper.Status {n : ℕ} (g : MultiGradWrapper n) : Except Fault Opt.Status := do
  let c ← g.helper.Status
  if c ≠ .Continue then pure c
  else
    let c := g.optimizer.Status
    if c ≠ .Continue then pure c else pure .Continue

/-- The method `multivariate.GradWrapper.Iterate` on the buffers `loc` and
`grad`: the wrapper and the `MultiIterOut` of the optimizer, with the error
wrapped when there is one. -/
def MultiGradWrapper.Iterate {n : ℕ} (fuel : ℕ) (g : MultiGradWrapper n) (loc grad : Vec n) :
    Except Fault (MultiGradWrapper n × MultiIterOut n) :=
  match g.optimizer.Iterate fuel loc grad with
  | .error e => .error e
  | .ok r =>
    match r.2.err with
    | some e => .ok ({ g with optimizer := r.1 }, { r.2 with err := some (.errorIterating e) })
    | none =>
      match g.helper.Iterate r.2.loc r.2.obj r.2.grad r.2.nFunEvals with
      | .error e => .error e
      | .ok h => .ok ({ optimizer := r.1, helper := h }, r.2)

/-- The method `multivariate.GradWrapper.Result`. -/
def MultiGradWrapper.Result {n : ℕ} (g : MultiGradWrapper n) (status : Opt.Status) :
    MultiResult n :=
  g.helper.Result status

/-- The variables of the loop of `OptimizeGrad`: the wrapper and the two
buffers `loc` and `grad`.  The last field is not in the source: `calls` counts
the calls of the user's `ObjGrad` made so far in the run. -/
structure OgState (n : ℕ) where
  wrapper : MultiGradWrapper n
  loc : Vec n
  grad : Vec n
  calls : ℕ

/-- How the loop of `OptimizeGrad` is left: by `break` with a status, or by the
`return nil, err` after a failed `wrapper.Iterate`. -/
inductive OgExit (n : ℕ)
  | done (status : Status) (s : OgState n)
  | iterError (e : Error) (s : OgState n)

/-- The `for` loop of `OptimizeGrad`; every line search gets the fuel
`lsFuel`. -/
def OptimizeGrad.loop {n : ℕ} (lsFuel : ℕ) : ℕ → OgState n → Except Fault (OgExit n)
  | 0, _ => .error .outOfFuel
  | fuel + 1, s =>
    match s.wrapper.Status with
    | .error e => .error e
    | .ok status =>
      if status ≠ .Continue then .ok (.done status s)
      else
        match s.wrapper.Iterate lsFuel s.loc s.grad with
        | .error e => .error e
        | .ok r =>
          let s1 : OgState n :=
            { wrapper := r.1, loc := r.2.loc, grad := r.2.grad,
              calls := s.calls + s.wrapper.optimizer.iterateCalls lsFuel }
          match r.2.err with
          | some e => .ok (.iterError e s1)
          | none => OptimizeGrad.loop lsFuel fuel s1

/-- What a call of `OptimizeGrad` leaves behind: the optimizer (which the
source mutates in place), the returned `*Result` and `error`, and the number of
calls of the user's `ObjGrad` made during the call. -/
structure OgOut (n : ℕ) where
  optimizer : MultiOptimizer n
  result : Option (MultiResult n)
  err : Option Error
  calls : ℕ

/-- The function `multivariate.OptimizeGrad` for a non-nil objective.  A nil
`optimizer`, `settings` or `initLoc` is `none`. -/
def OptimizeGrad {n : ℕ} (fuel lsFuel : ℕ) (f : ObjGrader n) (initLoc : Option (Vec n))
    (settings : Option (MultiSettings n)) (optimizer : Option (MultiOptimizer n)) :
    Except Fault (OgOut n) :=
  let optimizer := optimizer.getD (.bfgs (NewBfgs n))
  let settings := settings.getD (MultiDefaultSettings n)
  match initLoc with
  | none => .ok { optimizer := optimizer, result := none, err := some .nilInitLoc, calls := 0 }
  | some initLoc =>
    match (NewMultiGradWrapper optimizer).Init settings f initLoc with
    | .error e => .error e
    | .ok (w, some err) =>
      .ok { optimizer := w.optimizer, result := none, err := some (.errorInitializing err),
            calls := MultiGradWrapper.initCalls settings }
    | .ok (w, none) =>
      match OptimizeGrad.loop lsFuel fuel
          { wrapper := w, loc := fun _ => 0, grad := fun _ => 0,
            calls := MultiGradWrapper.initCalls settings } with
      | .error e => .error e
      | .ok (.iterError e s) =>
        .ok { optimizer := s.wrapper.optimizer, result := none, err := some e, calls := s.calls }
      | .ok (.done status s) =>
        .ok { optimizer := s.wrapper.optimizer, result := some (s.wrapper.Result status),
              err := none, calls := s.calls }

/-! ## Relations used to compare two runs

What a finished line search or run leaves behind in the settings and in the
optimizers, and what the next call reads of it. -/

/-- Two results of a call that can panic agree: the same panic, or two
returned values related by `R`. -/
def ExceptRel {α : Type} (R : α → α → Prop) : Except Fault α → Except Fault α → Prop
  | .error e, .error e' => e = e'
  | .ok a, .ok a' => R a a'
  | _, _ => False

/-- The stepper with the three fields cleared that `Iterate` never reads before
writing them (`ftest`), or never reads at all (`fp`, `gp`). -/
def Dcstep.norm (d : Dcstep) : Dcstep := { d with ftest := 0, fp := 0, gp := 0 }

/-- Two step finders are of the same kind and agree on the fields that
`SetInitStep`, `SetWolfeConditions` and `Init` leave as they are and that
`Iterate` reads: `posInitGrad` of a `Bisection`, `MinStep` and `MaxStep` of a
`Dcstep`. -/
def GradOptimizer.SameConfig (o o' : GradOptimizer) : Prop :=
  match o, o' with
  | .bisection b, .bisection b' => b.posInitGrad = b'.posInitGrad
  | .dcstep d, .dcstep d' => d.MinStep = d'.MinStep ∧ d.MaxStep = d'.MaxStep
  | _, _ => False

/-- Two step finders are of the same kind and agree on every field that a later
call can read. -/
def GradOptimizer.Alike (o o' : GradOptimizer) : Prop :=
  match o, o' with
  | .bisection b, .bisection b' => b = b'
  | .dcstep d, .dcstep d' => d.norm = d'.norm
  | _, _ => False

/-- Two line search settings agree on what `GradLinesearch` reads before
overwriting it: the Wolfe settings, the common and the tolerance settings, and
the configuration of the step finder. -/
def Settings.SameConfig (s s' : Opt.Settings) : Prop :=
  s.Wolfe = s'.Wolfe ∧ s.Settings.CommonSettings = s'.Settings.CommonSettings ∧
  s.Settings.SingleOutputSettings = s'.Settings.SingleOutputSettings ∧
  s.Optimizer.SameConfig s'.Optimizer

/-- Two loop states of `GradLinesearch` agree up to fields of the step finder
that no later call reads. -/
def LsState.Alike {n : ℕ} (s s' : LsState n) : Prop :=
  s.wolfe = s'.wolfe ∧ s.line = s'.line ∧ s.wrapper.helper = s'.wrapper.helper ∧
  s.wrapper.optimizer.Alike s'.wrapper.optimizer

/-- Two exits of the loop of `GradLinesearch` agree. -/
def LsExit.Alike {n : ℕ} (x x' : LsExit n) : Prop :=
  match x, x' with
  | .done st s, .done st' s' => st = st' ∧ s.Alike s'
  | .iterError e s, .iterError e' s' => e = e' ∧ s.Alike s'
  | _, _ => False

/-- The relation between the results of `wrapper.Iterate` on two wrappers that
agree up to ignored fields. -/
def UniIterAlike {σ : Type} (r r' : UniGradWrapper × σ × IterOut) : Prop :=
  r.2 = r'.2 ∧ r.1.helper = r'.1.helper ∧ r.1.optimizer.Alike r'.1.optimizer

/-- The relation between the results of the set-up of `GradLinesearch` for two
settings that agree in their configuration. -/
def SetupAlike {n : ℕ} (r r' : Settings × (Error ⊕ LsState n)) : Prop :=
  r.1.SameConfig r'.1 ∧
  match r.2, r'.2 with
  | .inl e, .inl e' => e = e'
  | .inr s0, .inr s0' => s0.Alike s0'
  | _, _ => False

/-- The state with which the loop of `GradLinesearch` is left. -/
def LsExit.state {n : ℕ} : LsExit n → LsState n
  | .done _ s => s
  | .iterError _ s => s

/-- The relation between the results of `GradLinesearch` for two settings that
agree in their configuration: the same `Result` and error, and settings that
agree in their configuration again. -/
def LsOutAlike {n : ℕ} (r r' : Settings × Option (Result n) × Option Error) : Prop :=
  r.1.SameConfig r'.1 ∧ r.2 = r'.2

/-- Two multivariate optimizers are of the same kind and agree on what `Init`
leaves as it is: the configuration of the line search settings, and `Memory`
of an `Lbfgs`. -/
def MultiOptimizer.SameConfig {n : ℕ} (o o' : MultiOptimizer n) : Prop :=
  match o, o' with
  | .bfgs b, .bfgs b' => b.LinesearchSettings.SameConfig b'.LinesearchSettings
  | .lbfgs l, .lbfgs l' =>
    l.LinesearchSettings.SameConfig l'.LinesearchSettings ∧ l.Memory = l'.Memory
  | _, _ => False

/-- Two multivariate optimizers are of the same kind and agree on every field
but the line search settings, which agree in their configuration. -/
def MultiOptimizer.Alike {n : ℕ} (o o' : MultiOptimizer n) : Prop :=
  match o, o' with
  | .bfgs b, .bfgs b' =>
    b.LinesearchSettings.SameConfig b'.LinesearchSettings ∧
    b' = { b with LinesearchSettings := b'.LinesearchSettings }
  | .lbfgs l, .lbfgs l' =>
    l.LinesearchSettings.SameConfig l'.LinesearchSettings ∧
    l' = { l with LinesearchSettings := l'.LinesearchSettings }
  | _, _ => False

/-- The relation between the results of `Iterate` of two optimizers that agree
up to ignored fields. -/
def MultiIterAlike {n : ℕ} (r r' : MultiOptimizer n × MultiIterOut n) : Prop :=
  r.1.Alike r'.1 ∧ r.2 = r'.2

/-- Two loop states of `OptimizeGrad` agree up to ignored fields. -/
def OgState.Alike {n : ℕ} (s s' : OgState n) : Prop :=
  s.wrapper.helper = s'.wrapper.helper ∧ s.wrapper.optimizer.Alike s'.wrapper.optimizer ∧
  s.loc = s'.loc ∧ s.grad = s'.grad ∧ s.calls = s'.calls

/-- Two exits of the loop of `OptimizeGrad` agree. -/
def OgExit.Alike {n : ℕ} (x x' : OgExit n) : Prop :=
  match x, x' with
  | .done st s, .done st' s' => st = st' ∧ s.Alike s'
  | .iterError e s, .iterError e' s' => e = e' ∧ s.Alike s'
  | _, _ => False

/-- The state with which the loop of `OptimizeGrad` is left. -/
def OgExit.state {n : ℕ} : OgExit n → OgState n
  | .done _ s => s
  | .iterError _ s => s

/-- Two results of `OptimizeGrad` agree: the same `Result`, error and number of
evaluations, and optimizers with the same configuration. -/
def OgOut.Alike {n : ℕ} (r r' : OgOut n) : Prop :=
  r.optimizer.SameConfig r'.optimizer ∧ r.result = r'.result ∧ r.err = r'.err ∧
  r.calls = r'.calls

/-- The relation between the results of `wrapper.Iterate` of `OptimizeGrad`. -/
def MultiWrapIterAlike {n : ℕ} (r r' : MultiGradWrapper n × MultiIterOut n) : Prop :=
  r.1.helper = r'.1.helper ∧ r.1.optimizer.Alike r'.1.optimizer ∧ r.2 = r'.2

/-- The relation between the results of `GradWrapper.Init` for two optimizers
`o` and `o'` of the same configuration. -/
def MultiWrapInitAlike {n : ℕ} (o o' : MultiOptimizer n)
    (r r' : MultiGradWrapper n × Option Error) : Prop :=
  r.2 = r'.2 ∧ r.1.helper = r'.1.helper ∧ o.SameConfig r.1.optimizer ∧
  o'.SameConfig r'.1.optimizer ∧ (r.2 = none → r.1.optimizer.Alike r'.1.optimizer)

/-! ## Notions and concrete inputs for runs of `OptimizeGrad` in dimension one -/

/-- A `Bfgs` on a domain of dimension one is at the point `x` with objective
`fx`, derivative `gx`, previous objective `prev` and inverse Hessian `H`, for
the objective `fn`, with line search settings of the configuration of `S`. -/
def Bfgs.IsAt (b : Bfgs 1) (S : Settings) (fn : ObjGrader 1) (x fx gx prev H : ℚ) : Prop :=
  b.LinesearchSettings.SameConfig S ∧ b.fn = fn ∧ b.currLoc = (fun _ => x) ∧ b.currObj = fx ∧
  b.currGrad = (fun _ => gx) ∧ b.prevObj = prev ∧ b.invHess = (fun _ _ => H) ∧
  b.p = (fun _ => -(H * gx))

/-- The BFGS update of the inverse Hessian in dimension one, for the step `s`
and the derivative difference `y`. -/
def bfgsH (H s y : ℚ) : ℚ :=
  H + (y * s + y * H * y) / ((y * s) * (y * s)) * (s * s) + -1 / (y * s) * (H * y * s)
    + -1 / (y * s) * (s * (y * H))

/-- The helper of `OptimizeGrad` under the default settings, after `iter`
iterations with `funEvals` recorded evaluations, with the norm `gradNrm` of the
latest gradient and the latest objective `obj`. -/
def defaultHelper {n : ℕ} (iter funEvals : ℤ) (gradNrm obj : ℚ) (objBest : Option ℚ)
    (gradBest locBest : Option (Vec n)) (gradNrmBest : ℚ) : MultiHelper n :=
  { Common := { iter := iter, funEvals := funEvals, settings := DefaultCommonSettings },
    SingleOutput :=
      { grad := { absTol := some (1 / 1000000), relTol := -1, recent := gradNrm },
        obj := { absTol := none, relTol := -1, recent := obj } },
    objBest := objBest, gradBest := gradBest, locBest := locBest, gradNrmBest := gradNrmBest }

/-- The point the second line search of the demonstration run accepts: one step
of length `1` from `x = 1 / 2` to the minimiser `x = 0`. -/
def demoResult2 : Result 1 :=
  { Loc := fun _ => 0, Obj := 0, Grad := fun _ => 0, Step := 1, NFunEvals := 1 }

/-- The `Result` of the demonstration run of `OptimizeGrad`. -/
def demoOptimum : MultiResult 1 :=
  { CommonResult := { Iterations := 2, FunctionEvaluations := 2, Status := .GradAbsTol },
    Obj := some 0, Loc := some (fun _ => 0), Grad := some (fun _ => 0) }

/-- The objective `x ↦ x³` with derivative `3 x²`. -/
def cubeFn : ObjGrader 1 := fun x => (x 0 ^ 3, fun _ => 3 * x 0 ^ 2)

/-- The point the first line search on `cubeFn` from `x = 1 / 2` accepts: one
step of length `1` along `-3 / 4` to `x = -1 / 4`. -/
def cubeResult : Result 1 :=
  { Loc := fun _ => -1 / 4, Obj := -1 / 64, Grad := fun _ => 3 / 16, Step := 1, NFunEvals := 1 }

/-- A `Bfgs` whose line searches stop after `MaximumIterations = 1`. -/
def shortBfgs : Bfgs 1 := { NewBfgs 1 with LinesearchSettings := shortSettings }

/-! ## package univariate: `GoldenSection`, and the drivers `OptimizeGradFree` and `OptimizeGrad` -/

/-- A `float64` that is finite or one of the two infinities. -/
inductive ExtQ
  | negInf
  | finite (q : ℚ)
  | posInf
  deriving DecidableEq, Repr

/-- The comparison `x < y` of floats where `y` may be `+Inf` (here `none`). -/
def ltInf (x : ℚ) (y : Option ℚ) : Bool :=
  match y with
  | none => true
  | some v => decide (x < v)

/-- The comparison `x > y` of floats where `y` may be `+Inf` (here `none`). -/
def gtInf (x : ℚ) (y : Option ℚ) : Bool :=
  match y with
  | none => false
  | some v => decide (v < x)

/-- The constant `resphi = 2 - math.Phi` as the `float64` it is converted to. -/
def resphi : ℚ := 6880887943736673 / 18014398509481984

/-- The struct `univariate.GoldenSection`.  `maxStep` can be either infinity;
`maxObj`, `minObj`, `middleStep` and `middleObj` are finite or `+Inf` (here
`none`). -/
structure GoldenSection where
  InitialStep : ℚ := 0
  Tol : ℚ := 0
  initLoc : ℚ := 0
  initialStepPos : Bool := false
  currentStep : ℚ := 0
  closerToMin : Bool := false
  maxStep : ExtQ := .finite 0
  maxObj : Option ℚ := some 0
  minStep : ℚ := 0
  minObj : Option ℚ := some 0
  middleStep : Option ℚ := some 0
  middleObj : Option ℚ := some 0
  bestObj : ℚ := 0
  bestLoc : ℚ := 0
  deriving DecidableEq, Repr

/-- The function `univariate.NewGoldenSection`. -/
def NewGoldenSection (initialStep tol : ℚ) : GoldenSection :=
  { InitialStep := initialStep, Tol := tol }

/-- The method `GoldenSection.Init`; the sign test reads the `maxStep` left by
an earlier run. -/
def GoldenSection.Init (b : GoldenSection) (initLoc initObj : ℚ) : GoldenSection × Option Error :=
  if b.InitialStep = 0 then (b, some .initialStepNotSet)
  else
    let b1 : GoldenSection :=
      { b with initLoc := initLoc, initialStepPos := decide (0 < b.InitialStep) }
    let maxNeg : Bool := match b1.maxStep with
      | .negInf => true | .finite q => decide (q < 0) | .posInf => false
    let maxPos : Bool := match b1.maxStep with
      | .negInf => false | .finite q => decide (0 < q) | .posInf => true
    if b1.initialStepPos && maxNeg then (b1, some .maxStepSignMismatch)
    else if !b1.initialStepPos && maxPos then (b1, some .maxStepSignMismatch)
    else
      ({ b1 with maxStep := if b1.initialStepPos then .posInf else .negInf, maxObj := none,
                 currentStep := b1.InitialStep, minStep := 0, minObj := some initObj,
                 middleStep := none, middleObj := none, bestObj := initObj,
                 bestLoc := initLoc }, none)

/-- The method `GoldenSection.Status`.  While `maxStep` is infinite the first
test fails: an infinite difference is within no tolerance. -/
def GoldenSection.Status (b : GoldenSection) : Opt.Status :=
  if (match b.maxStep with
      | .finite mx => EqualWithinAbsOrRel (mx + b.initLoc) (b.minStep + b.initLoc) b.Tol b.Tol
      | _ => false) then .BoundsConverged
  else if (match b.middleStep with
      | none => false
      | some mid => decide (ExtQ.finite mid = b.maxStep) || decide (mid = b.minStep)) then
    .BoundsConverged
  else .Continue

/-- The function `goldenNoMiddleStep`. -/
def goldenNoMiddleStep (min max : ℚ) : ℚ × Bool := (min + resphi * (max - min), true)

/-- The function `goldenNewStep`. -/
def goldenNewStep (min max middle : ℚ) : ℚ × Bool :=
  if 0 < max then
    let newLoc := if middle - min < max - middle then middle + resphi * (max - middle)
      else middle - resphi * (middle - min)
    (newLoc, decide (newLoc - min < middle - min))
  else
    let newLoc := if max - middle < middle - min then middle + resphi * (max - middle)
      else middle - resphi * (middle - min)
    (newLoc, decide (middle - min < newLoc - min))

/-- The method `GoldenSection.resetMax`. -/
def GoldenSection.resetMax (b : GoldenSection) (newObj : ℚ) : GoldenSection :=
  { b with maxStep := .finite b.currentStep, maxObj := some newObj,
           currentStep := (goldenNoMiddleStep b.minStep b.currentStep).1,
           closerToMin := (goldenNoMiddleStep b.minStep b.currentStep).2,
           middleStep := none }

/-- The return values of `GradFreeOptimizer.Iterate`. -/
structure FreeIterOut where
  loc : ℚ
  obj : ℚ
  nFunEvals : ℤ
  err : Option Error
  deriving DecidableEq, Repr

/-- The part of `GoldenSection.Iterate` run while `maxStep` is infinite: the
search for a bound on the minimum. -/
def GoldenSection.iterateUnbounded (b : GoldenSection) (newObj : ℚ) : GoldenSection :=
  if ltInf newObj b.minObj then
    let b1 : GoldenSection :=
      if ltInf newObj b.middleObj then
        { b with middleObj := some newObj, middleStep := some b.currentStep }
      else b
    { b1 with currentStep := b1.currentStep * 2 }
  else
    let b1 : GoldenSection := { b with maxStep := .finite b.currentStep, maxObj := some newObj }
    match b1.middleStep with
    | none =>
      { b1 with currentStep := (goldenNoMiddleStep b1.minStep b.currentStep).1,
                closerToMin := (goldenNoMiddleStep b1.minStep b.currentStep).2 }
    | some mid =>
      { b1 with currentStep := (goldenNewStep b1.minStep b.currentStep mid).1,
                closerToMin := (goldenNewStep b1.minStep b.currentStep mid).2 }

/-- The part of `GoldenSection.Iterate` run when the minimum is bounded by the
finite `maxStep = mx` and there is no middle point yet. -/
def GoldenSection.iterateNoMiddle (b : GoldenSection) (mx newObj : ℚ) : GoldenSection :=
  if ltInf newObj b.minObj && ltInf newObj b.maxObj then
    { b with middleStep := some b.currentStep, middleObj := some newObj,
             currentStep := (goldenNewStep b.minStep mx b.currentStep).1,
             closerToMin := (goldenNewStep b.minStep mx b.currentStep).2 }
  else b.resetMax newObj

/-- The part of `GoldenSection.Iterate` run with the finite bound `maxStep = mx`
and the middle point `middleStep = mid`. -/
def GoldenSection.iterateMiddle (b : GoldenSection) (mx mid newObj : ℚ) : GoldenSection :=
  if gtInf newObj b.minObj && gtInf newObj b.maxObj then b.resetMax newObj
  else if ltInf newObj b.middleObj then
    if b.closerToMin then
      { b with maxStep := .finite mid, maxObj := b.middleObj,
               middleStep := some b.currentStep, middleObj := some newObj,
               currentStep := (goldenNewStep b.minStep mid b.currentStep).1,
               closerToMin := (goldenNewStep b.minStep mid b.currentStep).2 }
    else
      { b with minStep := mid, minObj := b.middleObj,
               middleStep := some b.currentStep, middleObj := some newObj,
               currentStep := (goldenNewStep mid mx b.currentStep).1,
               closerToMin := (goldenNewStep mid mx b.currentStep).2 }
  else if b.closerToMin then
    { b with minStep := b.currentStep, minObj := some newObj,
             currentStep := (goldenNewStep b.currentStep mx mid).1,
             closerToMin := (goldenNewStep b.currentStep mx mid).2 }
  else
    { b with maxStep := .finite b.currentStep, maxObj := some newObj,
             currentStep := (goldenNewStep b.minStep b.currentStep mid).1,
             closerToMin := (goldenNewStep b.minStep b.currentStep mid).2 }

/-- The method `GoldenSection.Iterate` on the objective `f`. -/
def GoldenSection.Iterate (b : GoldenSection) (f : ℚ → ℚ) : GoldenSection × FreeIterOut :=
  let loc := b.initLoc + b.currentStep
  let newObj := f loc
  let out : FreeIterOut := { loc := loc, obj := newObj, nFunEvals := 1, err := none }
  match b.maxStep with
  | .finite mx =>
    match b.middleStep with
    | none => (b.iterateNoMiddle mx newObj, out)
    | some mid => (b.iterateMiddle mx mid newObj, out)
  | _ => (b.iterateUnbounded newObj, out)

/-- The method `GoldenSection.Result`. -/
def GoldenSection.Result (b : GoldenSection) : GoldenSection := b

/-- The method `UniToler.AbsConverged` of a toler whose last value is `+Inf`,
which the field `recent` cannot hold: `+Inf < absTol` is false. -/
def UniToler.AbsConvergedInf (_t : UniToler) : Bool := false

/-- The method `UniToler.RelConverged` of a toler that was only given the value
`+Inf`: the history is indexed as in `RelConverged`, and the difference of
`+Inf` and any entry is `+Inf` or `NaN`, which is below no tolerance. -/
def UniToler.RelConvergedInf (t : UniToler) : Except Fault Bool :=
  if t.relTol < 0 then .ok false
  else
    match t.hist.get? t.last with
    | none => .error .indexOutOfRange
    | some _ =>
      let prevInd := if t.last + 1 = t.hist.length then 0 else t.last + 1
      match t.hist.get? prevInd with
      | none => .error .indexOutOfRange
      | some _ => .ok false

/-- The method `SingleOutput.Init` called with the gradient norm `+Inf`; the
entries written to the gradient toler are not representable and are never
compared (they are stored as 0). -/
def SingleOutput.InitInf (s : SingleOutput) (settings : SingleOutputSettings) (initObj : ℚ) :
    Except Fault SingleOutput := do
  let g ← s.grad.Init settings.GradAbsTol settings.GradRelTol settings.GradRelWindow 0
  let o ← s.obj.Init settings.ObjAbsTol settings.ObjRelTol settings.ObjRelWindow initObj
  pure { grad := g, obj := o }

/-- The method `SingleOutput.Iterate` called with the gradient norm `+Inf`. -/
def SingleOutput.IterateInf (s : SingleOutput) (fn : ℚ) : Except Fault SingleOutput := do
  let g ← s.grad.Add 0
  let o ← s.obj.Add fn
  pure { grad := g, obj := o }

/-- The method `SingleOutput.Status` when the gradient toler was only given
`+Inf`. -/
def SingleOutput.StatusInf (s : SingleOutput) : Except Fault Opt.Status :=
  if s.grad.AbsConvergedInf then .ok .GradAbsTol
  else do
    let gr ← s.grad.RelConvergedInf
    if gr then pure .GradChangeTol
    else if s.obj.AbsConverged then pure .ObjAbsTol
    else do
      let orl ← s.obj.RelConverged
      if orl then pure .ObjChangeTol else pure .Continue

/-- The method `univariate.Helper.Init` called with the gradient `+Inf`, as
`GradFreeWrapper.Init` does.  The field `gradCurr` then holds `+Inf`; it is not
read by the model of a gradient-free run and is left at 0. -/
def UniHelper.InitInf (u : UniHelper) (s : UniSettings) (initObj : ℚ) : Except Fault UniHelper := do
  let c := u.Common.Init s.CommonSettings
  let so ← u.SingleOutput.InitInf s.SingleOutputSettings initObj
  pure { Common := c, SingleOutput := so, objCurr := initObj, gradCurr := 0, locCurr := 0 }

/-- The method `univariate.Helper.Iterate` called with the gradient `+Inf`. -/
def UniHelper.IterateInf (u : UniHelper) (loc obj : ℚ) (nFunEvals : ℤ) : Except Fault UniHelper := do
  let c := u.Common.Iterate nFunEvals
  let so ← u.SingleOutput.IterateInf obj
  pure { Common := c, SingleOutput := so, locCurr := loc, objCurr := obj, gradCurr := 0 }

/-- The method `univariate.Helper.Status` in a gradient-free run. -/
def UniHelper.StatusInf (u : UniHelper) : Except Fault Opt.Status := do
  let status ← u.SingleOutput.StatusInf
  if status ≠ .Continue then pure status
  else
    let status := u.Common.Status
    if status ≠ .Continue then pure status else pure .Continue

/-- The struct `univariate.Result` of a gradient-free run: its field `Grad` is
`+Inf` and is left out. -/
structure GradFreeResult where
  CommonResult : Opt.CommonResult
  Obj : ℚ
  Loc : ℚ
  deriving DecidableEq, Repr

/-- The method `univariate.Helper.Result` in a gradient-free run. -/
def UniHelper.ResultInf (u : UniHelper) (status : Opt.Status) : GradFreeResult :=
  { CommonResult := u.Common.Result status, Obj := u.objCurr, Loc := u.locCurr }

/-- The struct `univariate.GradFreeWrapper`; `GoldenSection` is the
implementation of `GradFreeOptimizer` in the repository. -/
structure GradFreeWrapper where
  optimizer : GoldenSection
  helper : UniHelper

/-- The function `univariate.NewGradFreeWrapper`. -/
def NewGradFreeWrapper (optimizer : GoldenSection) : GradFreeWrapper :=
  { optimizer := optimizer, helper := NewUniHelper }

/-- The method `univariate.GradFreeWrapper.Init`. -/
def GradFreeWrapper.Init (g : GradFreeWrapper) (settings : UniSettings) (fn : ℚ → ℚ)
    (initLoc : ℚ) : Except Fault (GradFreeWrapper × Option Error) :=
  let initObj := match settings.InitialObjective with | some v => v | none => fn initLoc
  do
    let h ← g.helper.InitInf settings initObj
    let oi := g.optimizer.Init initLoc initObj
    pure ({ optimizer := oi.1, helper := h }, oi.2)

/-- The method `univariate.GradFreeWrapper.Status`, that is `common.CheckStatus`
of the helper and then the optimizer. -/
def GradFreeWrapper.Status (g : GradFreeWrapper) : Except Fault Opt.Status := do
  let c ← g.helper.StatusInf
  if c ≠ .Continue then pure c
  else
    let c := g.optimizer.Status
    if c ≠ .Continue then pure c else pure .Continue

/-- The method `univariate.GradFreeWrapper.Iterate`. -/
def GradFreeWrapper.Iterate (g : GradFreeWrapper) (fn : ℚ → ℚ) :
    Except Fault (GradFreeWrapper × FreeIterOut) :=
  let r := g.optimizer.Iterate fn
  match r.2.err with
  | some e => .ok ({ g with optimizer := r.1 }, { r.2 with err := some (.errorIterating e) })
  | none => do
    let h ← g.helper.IterateInf r.2.loc r.2.obj r.2.nFunEvals
    pure ({ optimizer := r.1, helper := h }, r.2)

/-- The method `univariate.GradFreeWrapper.Result`. -/
def GradFreeWrapper.Result (g : GradFreeWrapper) (status : Opt.Status) : GradFreeResult :=
  g.helper.ResultInf status

/-- How the loop of a univariate driver is left: by `break` with a status, or by
the `return nil, err` after a failed `wrapper.Iterate`; `w` is the wrapper at
that moment. -/
inductive UniExit (ω : Type)
  | done (status : Status) (w : ω)
  | iterError (e : Error) (w : ω)

/-- The `for` loop of `univariate.OptimizeGradFree`. -/
def OptimizeGradFree.loop (fn : ℚ → ℚ) : ℕ → GradFreeWrapper → Except Fault (UniExit GradFreeWrapper)
  | 0, _ => .error .outOfFuel
  | fuel + 1, w =>
    match w.Status with
    | .error e => .error e
    | .ok status =>
      if status ≠ .Continue then .ok (.done status w)
      else
        match w.Iterate fn with
        | .error e => .error e
        | .ok r =>
          match r.2.err with
          | some e => .ok (.iterError e r.1)
          | none => OptimizeGradFree.loop fn fuel r.1

/-- What a call of `univariate.OptimizeGradFree` leaves behind: the optimizer
(which the source mutates in place), the returned `*Result` and `error`. -/
structure GradFreeOut where
  optimizer : GoldenSection
  result : Option GradFreeResult
  err : Option Error

/-- The function `univariate.OptimizeGradFree` for a non-nil optimizer; nil
`settings` is `none`. -/
def OptimizeGradFree (fuel : ℕ) (f : ℚ → ℚ) (initLoc : ℚ) (settings : Option UniSettings)
    (optimizer : GoldenSection) : Except Fault GradFreeOut :=
  let settings := settings.getD UniDefaultSettings
  match (NewGradFreeWrapper optimizer).Init settings f initLoc with
  | .error e => .error e
  | .ok (w, some err) =>
    .ok { optimizer := w.optimizer, result := none, err := some (.errorInitializing err) }
  | .ok (w, none) =>
    match OptimizeGradFree.loop f fuel w with
    | .error e => .error e
    | .ok (.iterError e w1) => .ok { optimizer := w1.optimizer, result := none, err := some e }
    | .ok (.done status w1) =>
      .ok { optimizer := w1.optimizer, result := some (w1.Result status), err := none }

/-- The `for` loop of `univariate.OptimizeGrad`. -/
def UniOptimizeGrad.loop {σ : Type} (fn : UniObjGrader σ) :
    ℕ → UniGradWrapper × σ → Except Fault (UniExit (UniGradWrapper × σ))
  | 0, _ => .error .outOfFuel
  | fuel + 1, w =>
    match w.1.Status with
    | .error e => .error e
    | .ok status =>
      if status ≠ .Continue then .ok (.done status w)
      else
        match w.1.Iterate fn w.2 with
        | .error e => .error e
        | .ok r =>
          match r.2.2.err with
          | some e => .ok (.iterError e (r.1, r.2.1))
          | none => UniOptimizeGrad.loop fn fuel (r.1, r.2.1)

/-- What a call of `univariate.OptimizeGrad` leaves behind: the optimizer, the
state of the objective, the returned `*Result` and `error`. -/
structure UniGradOut (σ : Type) where
  optimizer : GradOptimizer
  st : σ
  result : Option UniResult
  err : Option Error

/-- The function `univariate.OptimizeGrad` for a non-nil optimizer; nil
`settings` is `none`. -/
def UniOptimizeGrad {σ : Type} (fuel : ℕ) (f : UniObjGrader σ) (st : σ) (initLoc : ℚ)
    (settings : Option UniSettings) (optimizer : GradOptimizer) : Except Fault (UniGradOut σ) :=
  let settings := settings.getD UniDefaultSettings
  match (NewUniGradWrapper optimizer).Init settings f st initLoc with
  | .error e => .error e
  | .ok (w, st1, some err) =>
    .ok { optimizer := w.optimizer, st := st1, result := none,
          err := some (.errorInitializing err) }
  | .ok (w, st1, none) =>
    match UniOptimizeGrad.loop f fuel (w, st1) with
    | .error e => .error e
    | .ok (.iterError e w1) =>
      .ok { optimizer := w1.1.optimizer, st := w1.2, result := none, err := some e }
    | .ok (.done status w1) =>
      .ok { optimizer := w1.1.optimizer, st := w1.2, result := some (w1.1.Result status),
            err := none }

/-- The objective `quadratic{b, c}` of the tests of package univariate:
`(x - b) * (x - b) + c`. -/
def quadratic (b c : ℚ) : ℚ → ℚ := fun x => (x - b) * (x - b) + c

/-- The objective `quadratic b c` together with its derivative, as an
`ObjGrader` without state. -/
def quadraticGrad (b c : ℚ) : UniObjGrader Unit := fun x st => ((quadratic b c x, 2 * (x - b)), st)

/-- A helper of a gradient-free run that never stops the run: the settings are
the default ones, which switch off every test that can come out true when the
gradient is `+Inf`. -/
def UniHelper.Inert (h : UniHelper) : Prop :=
  h.Common.settings = DefaultCommonSettings ∧ h.Common.funStatus = .Continue ∧
    h.SingleOutput.grad.relTol < 0 ∧ h.SingleOutput.obj.absTol = none ∧
    h.SingleOutput.obj.relTol < 0

/-- The state of `GoldenSection` while it pulls the bound `maxStep = m` towards
the start: no middle point, and the next trial step is `resphi * m`. -/
def GoldenSection.Shrinking (o : GoldenSection) (x0 fx0 m : ℚ) : Prop :=
  o.initLoc = x0 ∧ o.maxStep = .finite m ∧ o.minStep = 0 ∧ o.minObj = some fx0 ∧
    o.middleStep = none ∧ o.currentStep = resphi * m

/-! ## Concrete inputs and predicates for the interval updates of `dcstep` and `Bisection` -/

/-- The line objective `φ(t) = -t + (19 / 20) t²` with its derivative:
`φ(0) = 0`, `φ'(0) = -1`, `φ(1) = -1 / 20`, `φ'(1) = 9 / 10`. -/
def shallowLine : UniObjGrader Unit :=
  fun t st => ((-t + (19 / 20) * t * t, -1 + (19 / 10) * t), st)

/-- A `Dcstep` with the sufficient decrease constant `1 / 10`, initialised at
`φ(0) = 0`, `φ'(0) = -1` with the first trial step `1`. -/
def decreaseDcstep : Dcstep :=
  ((NewDcstep.SetWolfeConditions (1 / 10) (9 / 10) true).1.Init 0 0 (-1)).1

/-- The test of `Dcstep.Iterate` that selects the modified function: the stage
is still `1` after the test for the second stage, and the trial value `f` lies
between `ftest` and `fx`. -/
def Dcstep.UsesModified (d : Dcstep) (f g : ℚ) : Prop :=
  (if d.stage = 1 ∧ f ≤ d.finit + d.stp * d.gtest ∧ 0 ≤ g then 2 else d.stage) = 1 ∧
    f < d.fx ∧ d.finit + d.stp * d.gtest < f

/-- The oracle of a constant objective: value `0` and derivative `0`
everywhere. -/
def flat : UniObjGrader Unit := fun _ st => ((0, 0), st)

/-- A `Bisection` with `InitialStepMag = 1` after `Init(flat, 0, 0, 0)`. -/
def flatBisection : Bisection := (({ InitialStepMag := 1 } : Bisection).Init 0 0 0).1

/-- The oracle of the objective `x ↦ x² - x`, with derivative `2 x - 1`. -/
def bowlLine : UniObjGrader Unit := fun x st => ((x * x - x, 2 * x - 1), st)

/-- The derivative that `Bisection.Iterate` compares with zero: the derivative
at the trial point, with its sign changed when the initial derivative was
positive. -/
def Bisection.trialGrad {σ : Type} (b : Bisection) (f : UniObjGrader σ) (st : σ) : ℚ :=
  if b.posInitGrad then -(f (b.initLoc + b.currStep) st).1.2
  else (f (b.initLoc + b.currStep) st).1.2

/-- An upper bound has been found and the next trial step is the midpoint of
the two bounds. -/
def Bisection.Bracketed (b : Bisection) : Prop :=
  ∃ mx, b.maxStep = some mx ∧ b.currStep = (b.minStep + mx) / 2

/-- The distance `|maxStep - minStep|` of the two bounds (`0` while `maxStep`
is infinite). -/
def Bisection.width (b : Bisection) : ℚ :=
  match b.maxStep with
  | none => 0
  | some mx => |mx - b.minStep|

/-! ## The first trial step of a step finder -/

/-- The trial step with which a step finder starts after `Init`: the field
`currStep` of `Bisection`, the field `stp` of `Dcstep`. -/
def GradOptimizer.trialStep (o : GradOptimizer) : ℚ :=
  match o with
  | .bisection b => b.currStep
  | .dcstep d => d.stp

/-! ## Concrete inputs for the iteration cap, the relative tolerance and the L-BFGS direction -/

/-- The objective `f(x, y) = x^2 + 2 y^2 + x y` with its gradient
`(2 x + y, 4 y + x)`. -/
def bowl2 : ObjGrader 2 :=
  fun x => (x 0 * x 0 + 2 * (x 1 * x 1) + x 0 * x 1, ![2 * x 0 + x 1, 4 * x 1 + x 0])

/-- The start point `(1, 1)`. -/
def start2 : Vec 2 := ![1, 1]

/-- The default settings of `multivariate.OptimizeGrad` with
`MaximumIterations = N`. -/
def capSettings (N : ℤ) : MultiSettings 2 :=
  { MultiDefaultSettings 2 with
    CommonSettings := { DefaultCommonSettings with MaximumIterations := N } }

/-- The default settings of `univariate.OptimizeGrad` with
`MaximumIterations = N`. -/
def uniCapSettings (N : ℤ) : UniSettings :=
  { UniDefaultSettings with
    CommonSettings := { DefaultCommonSettings with MaximumIterations := N } }

/-- The iteration count and the status in the `Result` of a run of
`multivariate.OptimizeGrad`. -/
def OptimizeGrad.report {n : ℕ} (r : Except Fault (OgOut n)) : Option (ℤ × Opt.Status) :=
  match r with
  | .ok out =>
    match out.result with
    | some r => some (r.CommonResult.Iterations, r.CommonResult.Status)
    | none => none
  | .error _ => none

/-- The iteration count and the status in the `Result` of a run of
`univariate.OptimizeGrad`. -/
def UniOptimizeGrad.report {σ : Type} (r : Except Fault (UniGradOut σ)) :
    Option (ℤ × Opt.Status) :=
  match r with
  | .ok out =>
    match out.result with
    | some r => some (r.CommonResult.Iterations, r.CommonResult.Status)
    | none => none
  | .error _ => none

/-- Equality of two results of a call that can panic is decidable. -/
instance Except.decEq {ε α : Type} [DecidableEq ε] [DecidableEq α] : DecidableEq (Except ε α)
  | .ok a, .ok b =>
    if h : a = b then isTrue (congrArg Except.ok h)
    else isFalse (fun h1 => h (Except.ok.inj h1))
  | .error a, .error b =>
    if h : a = b then isTrue (congrArg Except.error h)
    else isFalse (fun h1 => h (Except.error.inj h1))
  | .ok _, .error _ => isFalse (fun h => Except.noConfusion h)
  | .error _, .ok _ => isFalse (fun h => Except.noConfusion h)

/-- A `UniToler` after `Init(NaN, 0.5, 5, initVal)` and the additions `vs`. -/
def UniToler.after (initVal : ℚ) (vs : List ℚ) : Except Fault UniToler :=
  vs.foldl (fun t v => t >>= fun t => t.Add v) (({} : UniToler).Init none (1 / 2) 5 initVal)

/-- A check on the value returned by a call that can panic; a panic fails the
check. -/
def okCheck {ε α : Type} (x : Except ε α) (p : α → Bool) : Bool :=
  match x with
  | .ok a => p a
  | .error _ => false

/-- An `Lbfgs` with the default line search settings and the given `Memory`
after `Init` on `bowl2` at `start2`. -/
def bowlLbfgs (Memory : ℕ) : Lbfgs 2 :=
  (Lbfgs.Init DefaultSettings Memory bowl2 start2 (bowl2 start2).1 (bowl2 start2).2).1

/-- The value of the local variable `gamma_k` of `Lbfgs.Iterate`, which the
source computes between the two loops from the pair stored in slot `counter`:
`(y . s) / (y . y)`. -/
def Lbfgs.gammaK {n : ℕ} (sHist yHist : ℕ → Vec n) (counter : ℕ) : ℚ :=
  (yHist counter ⬝ᵥ sHist counter) / (yHist counter ⬝ᵥ yHist counter)

/-- The two-loop recursion with the conditioning step of the specification:
the first loop, the scaling of the working vector by `gamma`, then the second
loop. -/
def Lbfgs.specDirection {n : ℕ} (invRhoHist : ℕ → ℚ) (sHist yHist : ℕ → Vec n)
    (inds : List ℕ) (alpha : ℕ → ℚ) (gamma : ℚ) (q0 : Vec n) : Vec n :=
  let st1 := inds.foldl (Lbfgs.firstLoopBody invRhoHist sHist yHist) (alpha, q0)
  inds.reverse.foldl (Lbfgs.secondLoopBody invRhoHist sHist yHist st1.1)
    (fun j => gamma * st1.2 j)

/-- The direction of the two-loop recursion for a single pair `(s, y)` and the
gradient `g`, with the identity as the initial matrix. -/
def Lbfgs.onePairDirection {n : ℕ} (s y g : Vec n) : Vec n :=
  let a := (s ⬝ᵥ (fun i => -1 * g i)) / (y ⬝ᵥ s)
  let r : Vec n := fun j => -1 * g j + (-1 * a) * y j
  let beta := (y ⬝ᵥ r) / (y ⬝ᵥ s)
  fun j => r j + (a - beta) * s j

/-! ## Concrete inputs for the secant equation, failed steps, the Weak conditions and the toler -/

/-- A `Bfgs` with line searches of at most `MaximumIterations = 1`, initialised
on `x ↦ x³` at `x = -1 / 4`. -/
def cubeBfgs : Bfgs 1 :=
  (Bfgs.Init shortSettings cubeFn (fun _ => -1 / 4) (-1 / 64) (fun _ => 3 / 16)).1

/-- An `Lbfgs` with line searches of at most `MaximumIterations = 1`,
initialised on `x ↦ x³` at `x = -1 / 4`. -/
def cubeLbfgs : Lbfgs 1 :=
  (Lbfgs.Init shortSettings 30 cubeFn (fun _ => -1 / 4) (-1 / 64) (fun _ => 3 / 16)).1

/-- The Wolfe settings of type `Weak` with `FunConst = 0.5` and
`GradConst = 0.9`. -/
def weakWolfe : WolfeSettings := { FunConst := 1 / 2, GradConst := 9 / 10, WType := Weak }

/-- The Wolfe conditions of type `Weak` initialised at `φ(0) = 0`, `φ'(0) = -1`
and given the trial step `1` with `φ(1) = 0`, `φ'(1) = 1` (the values of
`φ(t) = t² - t`). -/
def weakAtNoDecrease : Except Fault WolfeConditions :=
  (({} : WolfeConditions).Init weakWolfe 0 (-1)) >>= fun w => w.Iterate 1 0 1

/-- The additions `vs` made one after the other to a toler; a panic ends the
sequence. -/
def UniToler.adds (x : Except Fault UniToler) (vs : List ℚ) : Except Fault UniToler :=
  vs.foldl (fun t v => t >>= fun t => t.Add v) x

/-- A `UniToler` after `Init(absTol, relTol, relativeWindow, initVal)` on the
toler `t` and the additions `vs`. -/
def UniToler.run (t : UniToler) (absTol : Option ℚ) (relTol : ℚ) (relativeWindow : ℕ)
    (initVal : ℚ) (vs : List ℚ) : Except Fault UniToler :=
  UniToler.adds (t.Init absTol relTol relativeWindow initVal) vs

/-! ## The direction of the specification after the first step -/

/-- The direction of the specification after the first step, for the step `s`,
the gradient difference `y` and the new gradient `g`: with `rho = 1 / (y . s)`
it is `-[(I - rho s yᵀ)(I - rho y sᵀ) + rho s sᵀ] g`. -/
def specFirstDirection {n : ℕ} (s y g : Vec n) : Vec n :=
  -((((1 : Matrix (Fin n) (Fin n) ℚ) - (1 / (y ⬝ᵥ s)) • vecMulVec s y)
      * ((1 : Matrix (Fin n) (Fin n) ℚ) - (1 / (y ⬝ᵥ s)) • vecMulVec y s)
      + (1 / (y ⬝ᵥ s)) • vecMulVec s s) *ᵥ g)

/-- A `Bfgs` with the default line search settings after `Init` on `bowl2` at
`start2`. -/
def bowlBfgs : Bfgs 2 :=
  (Bfgs.Init DefaultSettings bowl2 start2 (bowl2 start2).1 (bowl2 start2).2).1

/-! ## The bracket of `GoldenSection`, and step finders that were used before -/

/-- The step `x` lies strictly between `a` and `b`, in either order. -/
def StrictBetween (x a b : ℚ) : Prop := (a < x ∧ x < b) ∨ (b < x ∧ x < a)

/-- The comparison `x ≤ y` of floats where `y` may be `+Inf` (here `none`). -/
def leInf (x : ℚ) (y : Option ℚ) : Prop := ∀ v, y = some v → x ≤ v

/-- The two bounds of `GoldenSection` lie on the side of the initial step:
`0 ≤ minStep < maxStep` for a positive initial step, `maxStep < minStep ≤ 0`
for a negative one. -/
def GoldenSection.Ordered (min mx : ℚ) : Prop := (0 ≤ min ∧ min < mx) ∨ (min ≤ 0 ∧ mx < min)

/-- The three-point bracket: when `maxStep` and `middleStep` are finite, the
middle step lies strictly between the bounds, its objective is not above those
of the bounds, and the next trial step lies strictly between the bounds and is
not the middle step. -/
def GoldenSection.Bracket3 (g : GoldenSection) : Prop :=
  ∀ mx mid, g.maxStep = .finite mx → g.middleStep = some mid →
    StrictBetween mid g.minStep mx ∧
    (∃ mo, g.middleObj = some mo ∧ leInf mo g.minObj ∧ leInf mo g.maxObj) ∧
    StrictBetween g.currentStep g.minStep mx ∧ g.currentStep ≠ mid

/-- The invariant of `GoldenSection` behind the three-point bracket.  While
`maxStep` is infinite the lower bound is `0`, the trial step is on the side of
the initial step, and a middle point lies between them with an objective below
that of the lower bound.  With a finite `maxStep` the bounds are ordered, the
trial step lies strictly between them, and with a middle point the bracket is
valid and `closerToMin` tells on which side of the middle point the trial step
lies. -/
def GoldenSection.Valid (g : GoldenSection) : Prop :=
  (∃ a, g.minObj = some a) ∧
  (g.maxStep = .posInf → g.minStep = 0 ∧ 0 < g.currentStep ∧
    ∀ mid, g.middleStep = some mid → 0 < mid ∧ mid < g.currentStep ∧
      ∃ mo, g.middleObj = some mo ∧ ltInf mo g.minObj = true) ∧
  (g.maxStep = .negInf → g.minStep = 0 ∧ g.currentStep < 0 ∧
    ∀ mid, g.middleStep = some mid → g.currentStep < mid ∧ mid < 0 ∧
      ∃ mo, g.middleObj = some mo ∧ ltInf mo g.minObj = true) ∧
  (∀ mx, g.maxStep = .finite mx → GoldenSection.Ordered g.minStep mx ∧
    StrictBetween g.currentStep g.minStep mx ∧
    ∀ mid, g.middleStep = some mid →
      StrictBetween mid g.minStep mx ∧ g.currentStep ≠ mid ∧
      (g.closerToMin = true → StrictBetween g.currentStep g.minStep mid) ∧
      (g.closerToMin = false → StrictBetween g.currentStep mid mx) ∧
      ∃ mo, g.middleObj = some mo ∧ leInf mo g.minObj ∧ leInf mo g.maxObj)

/-- The states of a `GoldenSection` reached from a successful `Init` by calls
of `Iterate` (the objective values may be those of any function at each call). -/
inductive GoldenSection.Reachable : GoldenSection → Prop
  | init (g0 : GoldenSection) (initLoc initObj : ℚ) :
      (g0.Init initLoc initObj).2 = none → GoldenSection.Reachable (g0.Init initLoc initObj).1
  | iterate (g : GoldenSection) (f : ℚ → ℚ) :
      GoldenSection.Reachable g → GoldenSection.Reachable (g.Iterate f).1

/-- The state of a `GoldenSection` after `k` successive calls of `Iterate` on
the objective `f`. -/
def GoldenSection.iterates (f : ℚ → ℚ) : ℕ → GoldenSection → GoldenSection
  | 0, g => g
  | k + 1, g => ((GoldenSection.iterates f k g).Iterate f).1

/-- The golden section search with the initial step `1` on `(x - 3)² + 5` from
`0`, after the four trial steps `1`, `2`, `4` and `8`. -/
def goldenDemo : GoldenSection :=
  GoldenSection.iterates (quadratic 3 5) 4 ((NewGoldenSection 1 (1 / 10)).Init 0 14).1

/-- The sign test `x < 0` on a float that may be infinite. -/
def ExtQ.isNeg : ExtQ → Bool
  | .negInf => true
  | .finite q => decide (q < 0)
  | .posInf => false

/-- The sign test `x > 0` on a float that may be infinite. -/
def ExtQ.isPos : ExtQ → Bool
  | .negInf => false
  | .finite q => decide (0 < q)
  | .posInf => true

/-- Two states of a `GoldenSection` that behave alike: they are equal, or
`maxStep` is infinite and they differ only in the flag `closerToMin`, which is
written before it is read. -/
def GoldenSection.SameUpToFlag (g g' : GoldenSection) : Prop :=
  g' = g ∨ ((∀ mx, g.maxStep ≠ .finite mx) ∧ ∃ c, g' = { g with closerToMin := c })

/-- A `Bisection` with `InitialStepMag = 1` that has been through an `Init`
with the positive initial derivative `1`. -/
def usedBisection : Bisection := (({ InitialStepMag := 1 } : Bisection).Init 0 0 1).1

/-- A `GoldenSection` that has been through an `Init` with the initial step
`1`, and whose initial step was then set to `-1`. -/
def usedGoldenSection : GoldenSection :=
  { ((NewGoldenSection 1 (1 / 10)).Init 0 0).1 with InitialStep := -1 }

/-! ## Runs on a step finder that was used before -/

/-- The location in the `Result` of a run of `univariate.OptimizeGrad`. -/
def UniOptimizeGrad.loc {σ : Type} (r : Except Fault (UniGradOut σ)) : Option ℚ :=
  match r with
  | .ok out => out.result.map fun x => x.Loc
  | .error _ => none

/-- A run of `univariate.OptimizeGrad` on `(x - 3)²` from `x0` with
`MaximumIterations = 10`. -/
def bisectionRun (x0 : ℚ) (optimizer : GradOptimizer) : Except Fault (UniGradOut Unit) :=
  UniOptimizeGrad 30 (quadraticGrad 3 0) () x0 (some (uniCapSettings 10)) optimizer

/-- The run `bisectionRun 0` on the `Bisection` that a run from `5` (where the
derivative is positive) left behind. -/
def bisectionRerun : Except Fault (UniGradOut Unit) :=
  bisectionRun 5 (.bisection { InitialStepMag := 1 }) >>= fun o => bisectionRun 0 o.optimizer

/-- The error returned by a run of `univariate.OptimizeGradFree`. -/
def OptimizeGradFree.errOf (r : Except Fault GradFreeOut) : Option (Option Error) :=
  match r with
  | .ok out => some out.err
  | .error _ => none

/-- The location in the `Result` of a run of `univariate.OptimizeGradFree`
lies within `tol` of `x`. -/
def OptimizeGradFree.locNear (r : Except Fault GradFreeOut) (x tol : ℚ) : Bool :=
  match r with
  | .ok out =>
    match out.result with
    | some res => decide (|res.Loc - x| ≤ tol)
    | none => false
  | .error _ => false

/-- A run of `univariate.OptimizeGradFree` on `(x - 3)² + 5` from `6` with the
initial step `-1`, on the `GoldenSection` left behind by a run from `0` with
the initial step `1`. -/
def goldenRerun : Except Fault GradFreeOut :=
  OptimizeGradFree 100 (quadratic 3 5) 0 none (NewGoldenSection 1 (1 / 10)) >>= fun o =>
    OptimizeGradFree 100 (quadratic 3 5) 6 none { o.optimizer with InitialStep := -1 }

/-! ## Theorems: the line search -/

section Linesearch

variable {n : ℕ}

theorem dot_one (a b : Vec 1) : a ⬝ᵥ b = a 0 * b 0 := by
  simp [Matrix.dotProduct]

/-- Both step finders call the objective exactly once per `Iterate`, at the
location they return, and return its values with a nil error. -/
theorem GradOptimizer_Iterate_spec {σ : Type} (o : GradOptimizer) (f : UniObjGrader σ) (st : σ) :
    (o.Iterate f st).2.1 = (f (o.Iterate f st).2.2.loc st).2 ∧
    (o.Iterate f st).2.2.obj = (f (o.Iterate f st).2.2.loc st).1.1 ∧
    (o.Iterate f st).2.2.grad = (f (o.Iterate f st).2.2.loc st).1.2 ∧
    (o.Iterate f st).2.2.nFunEvals = 1 ∧
    (o.Iterate f st).2.2.err = none := by
  cases o with
  | bisection b =>
    simp only [GradOptimizer.Iterate, Bisection.Iterate]
    split <;> [skip; split] <;> simp
  | dcstep d => simp [GradOptimizer.Iterate, Dcstep.Iterate]

theorem UniHelper_Iterate_funStatus (u u1 : UniHelper) (loc obj grad : ℚ) (k : ℤ)
    (h : u.Iterate loc obj grad k = .ok u1) :
    u1.Common.funStatus = u.Common.funStatus ∧ u1.Common.funEvals = u.Common.funEvals + k := by
  unfold UniHelper.Iterate at h
  cases hso : u.SingleOutput.Iterate |grad| obj with
  | error e => simp [hso, bind, Except.bind] at h
  | ok so =>
    simp only [hso, bind, Except.bind, pure, Except.pure, Except.ok.injEq] at h
    subst h
    simp [Common.Iterate]

/-- One `wrapper.Iterate` on the line objective: the objective is evaluated at
the returned location, and the error is nil. -/
theorem UniGradWrapper_Iterate_line (g : UniGradWrapper) (line : linesearchFun n)
    (r : UniGradWrapper × linesearchFun n × IterOut)
    (h : g.Iterate (linesearchFun.asUni n) line = .ok r) :
    r.2.1 = (line.ObjGrad r.2.2.loc).2 ∧ r.2.2.obj = (line.ObjGrad r.2.2.loc).1.1 ∧
    r.2.2.grad = (line.ObjGrad r.2.2.loc).1.2 ∧ r.2.2.err = none ∧
    r.1.helper.Common.funStatus = g.helper.Common.funStatus ∧
    r.1.helper.Common.funEvals = g.helper.Common.funEvals + 1 := by
  have hs := GradOptimizer_Iterate_spec g.optimizer (linesearchFun.asUni n) line
  obtain ⟨h1, h2, h3, h4, h5⟩ := hs
  unfold UniGradWrapper.Iterate at h
  simp only [h5] at h
  cases hh : g.helper.Iterate (g.optimizer.Iterate (linesearchFun.asUni n) line).2.2.loc
      (g.optimizer.Iterate (linesearchFun.asUni n) line).2.2.obj
      (g.optimizer.Iterate (linesearchFun.asUni n) line).2.2.grad
      (g.optimizer.Iterate (linesearchFun.asUni n) line).2.2.nFunEvals with
  | error e => simp [hh, bind, Except.bind] at h
  | ok u1 =>
    simp only [hh, bind, Except.bind, pure, Except.pure, Except.ok.injEq] at h
    have hf := UniHelper_Iterate_funStatus _ _ _ _ _ _ hh
    subst h
    refine ⟨h1, h2, h3, h5, hf.1, ?_⟩
    simpa [h4] using hf.2

theorem LsState_SameFrame_refl (s : LsState n) : LsState.SameFrame s s := by
  simp [LsState.SameFrame]

theorem LsState_SameFrame_trans {a b c : LsState n} (h1 : LsState.SameFrame a b)
    (h2 : LsState.SameFrame b c) : LsState.SameFrame a c := by
  obtain ⟨a1, a2, a3, a4, a5, a6, a7, a8, a9⟩ := h1
  obtain ⟨b1, b2, b3, b4, b5, b6, b7, b8, b9⟩ := h2
  exact ⟨b1.trans a1, b2.trans a2, b3.trans a3, b4.trans a4, b5.trans a5, b6.trans a6,
    b7.trans a7, b8.trans a8, b9.trans a9⟩

/-- The state after one pass of the loop body is synced and has the frame of
the state before. -/
theorem GradLinesearch_body_synced (s : LsState n)
    (r : UniGradWrapper × linesearchFun n × IterOut) (w : WolfeConditions)
    (hr : s.wrapper.Iterate (linesearchFun.asUni n) s.line = .ok r)
    (hw : s.wolfe.Iterate r.2.2.loc r.2.2.obj ((s.line.searchVector ⬝ᵥ r.2.1.currGrad) / 1)
      = .ok w) :
    LsState.Synced { wolfe := w, wrapper := r.1, line := r.2.1 } ∧
    LsState.SameFrame s { wolfe := w, wrapper := r.1, line := r.2.1 } := by
  obtain ⟨h1, h2, _, _, h5, _⟩ := UniGradWrapper_Iterate_line s.wrapper s.line r hr
  unfold WolfeConditions.Iterate at hw
  split at hw
  · simp at hw
  · rename_i hstep
    simp only [Except.ok.injEq] at hw
    subst hw
    rw [h1]
    refine ⟨⟨?_, ?_, ?_, ?_, ?_, ?_⟩, ?_⟩
    · simp [linesearchFun.ObjGrad]
    · simp [h2, linesearchFun.ObjGrad]
    · simp [h1, linesearchFun.ObjGrad]
    · simpa using hstep
    · simp [linesearchFun.ObjGrad]
    · simp [linesearchFun.ObjGrad]
    · simp [LsState.SameFrame, linesearchFun.ObjGrad, h5]

/-- What is known when the loop of `GradLinesearch` is left by `break`: the
final state is the initial one or a synced one, the frame is unchanged, the
status is not `Continue`, and it was reported either by the Wolfe conditions or,
the Wolfe conditions saying `Continue`, by the wrapper. -/
theorem GradLinesearch_loop_done (sv : Vec n) (fuel : ℕ) (s0 s : LsState n) (status : Status)
    (hsv : s0.line.searchVector = sv)
    (h : GradLinesearch.loop sv fuel s0 = .ok (.done status s)) :
    (s = s0 ∨ s.Synced) ∧ LsState.SameFrame s0 s ∧ status ≠ .Continue ∧
    (s.wolfe.Status = .ok status ∨
      (s.wolfe.Status = .ok .Continue ∧ s.wrapper.Status = .ok status)) := by
  induction fuel generalizing s0 with
  | zero => simp [GradLinesearch.loop] at h
  | succ k ih =>
    unfold GradLinesearch.loop at h
    cases hws : s0.wolfe.Status with
    | error e => simp [hws] at h
    | ok st =>
      simp only [hws] at h
      by_cases hst : st = .Continue
      · subst hst
        simp only [ne_eq, not_true_eq_false, if_false] at h
        cases hwr : s0.wrapper.Status with
        | error e => simp [hwr] at h
        | ok st2 =>
          simp only [hwr] at h
          by_cases hst2 : st2 = .Continue
          · subst hst2
            simp only [ne_eq, not_true_eq_false, if_false] at h
            cases hit : s0.wrapper.Iterate (linesearchFun.asUni n) s0.line with
            | error e => simp [hit] at h
            | ok r =>
              simp only [hit] at h
              have herr := (UniGradWrapper_Iterate_line s0.wrapper s0.line r hit).2.2.2.1
              simp only [herr, div_one] at h
              cases hwi : s0.wolfe.Iterate r.2.2.loc r.2.2.obj (sv ⬝ᵥ r.2.1.currGrad) with
              | error e => simp [hwi] at h
              | ok w =>
                simp only [hwi] at h
                have hb := GradLinesearch_body_synced s0 r w hit (by rw [hsv, div_one]; exact hwi)
                have hsv1 : ({ wolfe := w, wrapper := r.1, line := r.2.1 } :
                    LsState n).line.searchVector = sv := by
                  have := hb.2.2.2.2.2.2.2.1
                  simpa [hsv] using this
                obtain ⟨i1, i2, i3, i4⟩ := ih _ hsv1 h
                refine ⟨Or.inr ?_, LsState_SameFrame_trans hb.2 i2, i3, i4⟩
                rcases i1 with rfl | hsy
                · exact hb.1
                · exact hsy
          · simp only [ne_eq, hst2, not_false_eq_true, if_true, Except.ok.injEq,
              LsExit.done.injEq] at h
            obtain ⟨rfl, rfl⟩ := h
            exact ⟨Or.inl rfl, LsState_SameFrame_refl _, hst2, Or.inr ⟨hws, hwr⟩⟩
      · simp only [ne_eq, hst, not_false_eq_true, if_true, Except.ok.injEq,
          LsExit.done.injEq] at h
        obtain ⟨rfl, rfl⟩ := h
        exact ⟨Or.inl rfl, LsState_SameFrame_refl _, hst, Or.inl hws⟩

theorem UniHelper_Init_common (u u1 : UniHelper) (s : UniSettings) (initObj initGrad : ℚ)
    (h : u.Init s initObj initGrad = .ok u1) :
    u1.Common.funStatus = u.Common.funStatus ∧ u1.Common.funEvals = 0 := by
  unfold UniHelper.Init at h
  cases hso : u.SingleOutput.Init s.SingleOutputSettings initObj |initGrad| with
  | error e => simp [hso, bind, Except.bind] at h
  | ok so =>
    simp only [hso, bind, Except.bind, pure, Except.pure, Except.ok.injEq] at h
    subst h
    simp [Common.Init]

/-- The loop variables with which `GradLinesearch` enters its loop. -/
theorem GradLinesearch_setup_inr (settings s1 : Settings) (fn : ObjGrader n)
    (sv initLoc : Vec n) (initObj : ℚ) (initGrad : Vec n) (prevObj : ℚ) (s0 : LsState n)
    (h : GradLinesearch.setup settings fn sv initLoc initObj initGrad prevObj
      = .ok (s1, .inr s0)) :
    s0.wolfe = { funConst := settings.Wolfe.FunConst, gradConst := settings.Wolfe.GradConst,
                 t := settings.Wolfe.WType, currObj := initObj, currGrad := sv ⬝ᵥ initGrad,
                 initObj := initObj, initGrad := sv ⬝ᵥ initGrad, step := 0 } ∧
    s0.line = { fn := fn, searchVector := sv, initLoc := initLoc } ∧
    s0.wrapper.helper.Common.funStatus = .Continue ∧
    s0.wrapper.helper.Common.funEvals = 0 ∧
    sv ⬝ᵥ initGrad ≤ 0 ∧ 0 < settings.Wolfe.GradConst ∧ 0 ≤ settings.Wolfe.FunConst := by
  unfold GradLinesearch.setup at h
  simp only [div_one] at h
  split at h
  · simp at h
  · rename_i hgrad
    split at h
    · simp at h
    · rename_i wolfe hwolfe
      split at h
      · simp at h
      · rename_i stp hstp
        split at h
        · simp at h
        · split at h
          · simp at h
          · rename_i wi hwi
            split at h
            · simp at h
            · simp only [Except.ok.injEq, Prod.mk.injEq, Sum.inr.injEq] at h
              obtain ⟨-, rfl⟩ := h
              simp only [WolfeConditions.Init] at hwolfe
              split_ifs at hwolfe with ht hfun hgc
              simp only [Except.ok.injEq] at hwolfe
              subst hwolfe
              unfold UniGradWrapper.Init at hwi
              simp only at hwi
              cases hh : (NewUniGradWrapper
                        ((settings.Optimizer.SetInitStep stp).SetWolfeConditions
                          settings.Wolfe.FunConst settings.Wolfe.GradConst
                          (decide (settings.Wolfe.WType = Strong))).1).helper.Init
                        { settings.Settings with InitialGradient := sv ⬝ᵥ initGrad,
                                                 InitialObjective := some initObj }
                        initObj (sv ⬝ᵥ initGrad) with
              | error e => simp [hh, bind, Except.bind] at hwi
              | ok u1 =>
                simp only [hh, bind, Except.bind, pure, Except.pure, Except.ok.injEq] at hwi
                have hc := UniHelper_Init_common _ _ _ _ _ hh
                subst hwi
                refine ⟨rfl, rfl, ?_, hc.2, not_lt.mp hgrad, not_le.mp hgc, not_lt.mp hfun⟩
                rw [hc.1]
                rfl

theorem SingleOutput_Status_ne_met (s : SingleOutput) (st : Opt.Status)
    (h : s.Status = .ok st) : st ≠ .WolfeConditionsMet := by
  unfold SingleOutput.Status at h
  by_cases h1 : s.grad.AbsConverged = true
  · simp only [h1, if_true, Except.ok.injEq] at h
    subst h
    decide
  · simp only [h1, Bool.false_eq_true, if_false] at h
    cases hg : s.grad.RelConverged with
    | error e => simp [hg, bind, Except.bind] at h
    | ok gr =>
      simp only [hg, bind, Except.bind, pure, Except.pure] at h
      cases gr with
      | true =>
        simp only [if_true, Except.ok.injEq] at h
        subst h
        decide
      | false =>
        simp only [Bool.false_eq_true, if_false] at h
        by_cases h3 : s.obj.AbsConverged = true
        · simp only [h3, if_true, Except.ok.injEq] at h
          subst h
          decide
        · simp only [h3, Bool.false_eq_true, if_false] at h
          cases ho : s.obj.RelConverged with
          | error e => simp [ho] at h
          | ok orl =>
            simp only [ho] at h
            cases orl with
            | true =>
              simp only [if_true, Except.ok.injEq] at h
              subst h
              decide
            | false =>
              simp only [Bool.false_eq_true, if_false, Except.ok.injEq] at h
              subst h
              decide

theorem Common_Status_ne_met (c : Common) (hf : c.funStatus = .Continue) :
    c.Status ≠ .WolfeConditionsMet := by
  unfold Common.Status
  simp only [hf, ne_eq, not_true_eq_false, if_false]
  split_ifs <;> decide

/-- The wrapper of a step finder never reports `WolfeConditionsMet` on the line
objective (which is not a `Statuser`). -/
theorem UniGradWrapper_Status_ne_met (g : UniGradWrapper) (st : Opt.Status)
    (hf : g.helper.Common.funStatus = .Continue) (h : g.Status = .ok st) :
    st ≠ .WolfeConditionsMet := by
  unfold UniGradWrapper.Status UniHelper.Status at h
  cases hs : g.helper.SingleOutput.Status with
  | error e => simp [hs, bind, Except.bind] at h
  | ok c =>
    have hc := SingleOutput_Status_ne_met _ _ hs
    have hcc := Common_Status_ne_met g.helper.Common hf
    simp only [hs, bind, Except.bind, pure, Except.pure] at h
    by_cases h1 : c = .Continue
    · subst h1
      simp only [ne_eq, not_true_eq_false, if_false] at h
      by_cases h2 : g.helper.Common.Status = .Continue
      · simp only [h2, ne_eq, not_true_eq_false, if_false] at h
        have h3 : g.optimizer.Status = .Continue := by
          cases g.optimizer <;> rfl
        simp only [h3, ne_eq, not_true_eq_false, if_false, Except.ok.injEq] at h
        subst h
        decide
      · simp only [ne_eq, h2, not_false_eq_true, if_true, Except.ok.injEq] at h
        subst h
        exact hcc
    · simp only [ne_eq, h1, not_false_eq_true, if_true, Except.ok.injEq] at h
      subst h
      exact hc

/-- A Strong-Wolfe state whose `Status` is `WolfeConditionsMet` satisfies the
sufficient decrease inequality and the curvature inequality, the latter
strictly. -/
theorem WolfeConditions_strong_met (w : WolfeConditions) (ht : w.t = Strong)
    (h : w.Status = .ok .WolfeConditionsMet) :
    w.currObj ≤ w.initObj + w.funConst * w.step * w.initGrad ∧
    |w.currGrad| < w.gradConst * |w.initGrad| := by
  unfold WolfeConditions.Status at h
  simp only [ht, if_true] at h
  split_ifs at h with h1 h2
  · simp at h
  · simp at h
  · exact ⟨not_lt.mp h1, not_le.mp h2⟩

/-- The ways `GradLinesearch` returns: an error before the loop, or the loop
left with a status (the loop is never left by an error of `wrapper.Iterate`). -/
theorem GradLinesearch_cases (fuel : ℕ) (settings : Settings) (fn : ObjGrader n)
    (sv initLoc : Vec n) (initObj : ℚ) (initGrad : Vec n) (prevObj : ℚ)
    (out : Settings × Option (Result n) × Option Error)
    (h : GradLinesearch fuel settings fn sv initLoc initObj initGrad prevObj = .ok out) :
    (∃ s1 err, GradLinesearch.setup settings fn sv initLoc initObj initGrad prevObj
        = .ok (s1, .inl err) ∧ out.2 = (none, some err)) ∨
    (∃ s1 s0 status s, GradLinesearch.setup settings fn sv initLoc initObj initGrad prevObj
        = .ok (s1, .inr s0) ∧ GradLinesearch.loop sv fuel s0 = .ok (.done status s) ∧
        out.2 = (some (GradLinesearch.result s status),
          if status = .WolfeConditionsMet then none else some (.Notconverged status))) := by
  unfold GradLinesearch at h
  cases hs : GradLinesearch.setup settings fn sv initLoc initObj initGrad prevObj with
  | error e => simp [hs] at h
  | ok v =>
    obtain ⟨s1, x⟩ := v
    cases x with
    | inl err =>
      simp only [hs, Except.ok.injEq] at h
      subst h
      exact Or.inl ⟨s1, err, rfl, rfl⟩
    | inr s0 =>
      simp only [hs] at h
      cases hl : GradLinesearch.loop sv fuel s0 with
      | error e => simp [hl] at h
      | ok ex =>
        cases ex with
        | iterError e s =>
          exfalso
          clear h hs
          induction fuel generalizing s0 with
          | zero => simp [GradLinesearch.loop] at hl
          | succ k ih =>
            unfold GradLinesearch.loop at hl
            split at hl
            · simp at hl
            · split_ifs at hl
              · simp at hl
              · split at hl
                · simp at hl
                · split_ifs at hl
                  · simp at hl
                  · split at hl
                    · simp at hl
                    · rename_i r hit
                      have herr := (UniGradWrapper_Iterate_line s0.wrapper s0.line r hit).2.2.2.1
                      simp only [herr] at hl
                      split at hl
                      · simp at hl
                      · exact ih _ hl
        | done status s =>
          simp only [hl] at h
          refine Or.inr ⟨s1, s0, status, s, rfl, hl, ?_⟩
          by_cases hst : status = .WolfeConditionsMet
          · simp only [hst, ne_eq, not_true_eq_false, if_false, Except.ok.injEq] at h
            subst h
            simp [hst]
          · simp only [ne_eq, hst, not_false_eq_true, if_true, Except.ok.injEq] at h
            subst h
            simp [hst]

/-- What a successful Strong-Wolfe line search with `GradConst ≤ 1` returns:
the two Wolfe inequalities (the curvature one strictly), a non-negative step,
the point `initLoc + Step * searchVector`, and the objective and gradient
evaluated there; the initial directional derivative is not positive. -/
theorem GradLinesearch_strong_success (fuel : ℕ) (settings s1 : Settings) (fn : ObjGrader n)
    (sv initLoc : Vec n) (initObj : ℚ) (initGrad : Vec n) (prevObj : ℚ) (r : Result n)
    (h : GradLinesearch fuel settings fn sv initLoc initObj initGrad prevObj
      = .ok (s1, some r, none))
    (hS : settings.Wolfe.WType = Strong) (hg : settings.Wolfe.GradConst ≤ 1) :
    r.Obj ≤ initObj + settings.Wolfe.FunConst * r.Step * (sv ⬝ᵥ initGrad) ∧
    |sv ⬝ᵥ r.Grad| < settings.Wolfe.GradConst * |sv ⬝ᵥ initGrad| ∧
    0 ≤ r.Step ∧ r.Loc = (fun i => sv i * r.Step + initLoc i) ∧
    fn r.Loc = (r.Obj, r.Grad) ∧ sv ⬝ᵥ initGrad ≤ 0 := by
  rcases GradLinesearch_cases fuel settings fn sv initLoc initObj initGrad prevObj _ h with
    ⟨_, _, _, h2⟩ | ⟨s2, s0, status, s, hset, hloop, hout⟩
  · simp at h2
  · obtain ⟨w0, l0, f0, _, hd, _, _⟩ :=
      GradLinesearch_setup_inr settings s2 fn sv initLoc initObj initGrad prevObj s0 hset
    have hsv0 : s0.line.searchVector = sv := by rw [l0]
    obtain ⟨hsy, hfr, _, hst⟩ := GradLinesearch_loop_done sv fuel s0 s status hsv0 hloop
    obtain ⟨e1, e2, e3, e4, e5, e6, e7, e8, e9⟩ := hfr
    simp only [Prod.mk.injEq, Option.some.injEq] at hout
    obtain ⟨hr, herr⟩ := hout
    have hmet : status = .WolfeConditionsMet := by
      by_contra hne
      simp [hne] at herr
    subst hmet
    have hwm : s.wolfe.Status = .ok .WolfeConditionsMet := by
      rcases hst with hw | ⟨_, hw⟩
      · exact hw
      · exact absurd rfl (UniGradWrapper_Status_ne_met s.wrapper _ (by rw [e9, f0]) hw)
    have ht : s.wolfe.t = Strong := by rw [e3, w0]; exact hS
    obtain ⟨m1, m2⟩ := WolfeConditions_strong_met s.wolfe ht hwm
    rw [e4, e1, e5, w0] at m1
    rw [e2, e5, w0] at m2
    simp only at m1 m2
    rcases hsy with rfl | hsy
    · exfalso
      rw [w0] at m2
      simp only at m2
      have : settings.Wolfe.GradConst * |sv ⬝ᵥ initGrad| ≤ 1 * |sv ⬝ᵥ initGrad| :=
        mul_le_mul_of_nonneg_right hg (abs_nonneg _)
      linarith
    · obtain ⟨y1, y2, y3, y4, y5, y6⟩ := hsy
      rw [e7, l0] at y3 y5
      rw [e8, l0] at y5
      rw [e6, l0] at y6
      simp only at y3 y5 y6
      subst hr
      simp only [GradLinesearch.result]
      rw [y2, y1] at m1
      rw [y3] at m2
      rw [y1] at y4
      exact ⟨m1, m2, y4, y5, y6, hd⟩

/-- C1 (amended): for every `WolfeConditions` state of type Strong, `Status =
WolfeConditionsMet` implies both strong Wolfe inequalities; and whenever
`GradLinesearch` returns a nil error under Strong Wolfe settings with
`GradConst ≤ 1`, the returned point satisfies both strong Wolfe inequalities
with the configured constants. -/
theorem C1_strong_wolfe_at_success :
    (∀ w : WolfeConditions, w.t = Strong → w.Status = .ok .WolfeConditionsMet →
      w.currObj ≤ w.initObj + w.funConst * w.step * w.initGrad ∧
      |w.currGrad| ≤ w.gradConst * |w.initGrad|) ∧
    (∀ (n : ℕ) (fuel : ℕ) (settings s1 : Settings) (fn : ObjGrader n) (sv initLoc : Vec n)
      (initObj : ℚ) (initGrad : Vec n) (prevObj : ℚ) (r : Result n),
      GradLinesearch fuel settings fn sv initLoc initObj initGrad prevObj
        = .ok (s1, some r, none) →
      settings.Wolfe.WType = Strong → settings.Wolfe.GradConst ≤ 1 →
      r.Obj ≤ initObj + settings.Wolfe.FunConst * r.Step * (sv ⬝ᵥ initGrad) ∧
      |sv ⬝ᵥ r.Grad| ≤ settings.Wolfe.GradConst * |sv ⬝ᵥ initGrad|) := by
  constructor
  · intro w ht h
    obtain ⟨h1, h2⟩ := WolfeConditions_strong_met w ht h
    exact ⟨h1, h2.le⟩
  · intro n fuel settings s1 fn sv initLoc initObj initGrad prevObj r h hS hg
    obtain ⟨h1, h2, _⟩ :=
      GradLinesearch_strong_success fuel settings s1 fn sv initLoc initObj initGrad prevObj r h hS hg
    exact ⟨h1, h2.le⟩

/-- The demonstration run: from `x = 1` along the steepest descent direction
the default (bisection, Strong Wolfe) line search accepts its first trial
step. -/
theorem demo_linesearch :
    ∃ s, GradLinesearch 2 DefaultSettings demoFn demoDir demoLoc (1 / 4) demoGrad (1 / 4 + 5000)
      = .ok (s, some demoResult, none) := by
  norm_num [GradLinesearch, GradLinesearch.setup, DefaultSettings, dot_one, demoDir, demoGrad,
    demoLoc, demoFn, demoResult,
    WolfeConditions.Init, Strong, Weak, GradOptimizer.SetInitStep,
    GradOptimizer.SetWolfeConditions, Bisection.SetInitStep,
    GradLinesearch.initStepSize, NewUniGradWrapper, UniGradWrapper.Init, NewUniHelper,
    UniHelper.Init, Common.Init,
    SingleOutput.Init, UniToler.Init, DefaultSingleOutputSettings, DefaultCommonSettings,
    UniDefaultSettings,
    GradOptimizer.Init, Bisection.Init, bind, Except.bind, pure, Except.pure,
    GradLinesearch.loop, WolfeConditions.Status, GradLinesearch.result, UniGradWrapper.Status,
    UniHelper.Status,
    SingleOutput.Status, UniToler.AbsConverged, UniToler.RelConverged, Common.Status,
    GradOptimizer.Status,
    Bisection.Status, UniGradWrapper.Iterate, GradOptimizer.Iterate, Bisection.Iterate,
    linesearchFun.asUni,
    linesearchFun.ObjGrad, Bisection.iterateUnbounded, UniHelper.Iterate, Common.Iterate,
    SingleOutput.Iterate,
    UniToler.Add, WolfeConditions.Iterate, EqualWithinAbsOrRel, EqualWithinAbs, EqualWithinRel,
    UniGradWrapper.Result, UniHelper.Result, Common.Result, abs_of_pos, abs_of_neg]
  simp

/-- C1, witness: the demonstration run returns a nil error under the default
Strong Wolfe settings (`GradConst = 9 / 10`), and its result satisfies both
inequalities. -/
theorem C1_strong_wolfe_at_success_witness :
    ∃ s, GradLinesearch 2 DefaultSettings demoFn demoDir demoLoc (1 / 4) demoGrad (1 / 4 + 5000)
        = .ok (s, some demoResult, none) ∧
      DefaultSettings.Wolfe.WType = Strong ∧ DefaultSettings.Wolfe.GradConst ≤ 1 ∧
      (demoResult.Obj ≤ 1 / 4 + DefaultSettings.Wolfe.FunConst * demoResult.Step *
          (demoDir ⬝ᵥ demoGrad) ∧
        |demoDir ⬝ᵥ demoResult.Grad| ≤ DefaultSettings.Wolfe.GradConst * |demoDir ⬝ᵥ demoGrad|) := by
  obtain ⟨s, hs⟩ := demo_linesearch
  have h1 : DefaultSettings.Wolfe.WType = Strong := rfl
  have h2 : DefaultSettings.Wolfe.GradConst ≤ 1 := by norm_num [DefaultSettings]
  exact ⟨s, hs, h1, h2,
    C1_strong_wolfe_at_success.2 1 2 DefaultSettings s demoFn demoDir demoLoc (1 / 4) demoGrad
      (1 / 4 + 5000) demoResult hs h1 h2⟩

/-- C1, counterexample: with `GradConst = 2` the Strong Wolfe conditions hold
before any trial step, `GradLinesearch` returns a nil error at once, and the
returned `Result` is the zero value: its `Obj = 0` exceeds
`initObj + FunConst * Step * (searchVector . initGrad) = -3 / 4`. -/
theorem C1_counterexample :
    ∃ s r, GradLinesearch 1 wideSettings shiftedFn demoDir demoLoc (-3 / 4) demoGrad
        (-3 / 4 + 5000) = .ok (s, some r, none) ∧
      wideSettings.Wolfe.WType = Strong ∧
      ¬ (r.Obj ≤ -3 / 4 + wideSettings.Wolfe.FunConst * r.Step * (demoDir ⬝ᵥ demoGrad)) := by
  norm_num [GradLinesearch, GradLinesearch.setup, wideSettings, DefaultSettings, dot_one,
    demoDir, demoGrad, demoLoc,
    WolfeConditions.Init, Strong, Weak, GradOptimizer.SetInitStep,
    GradOptimizer.SetWolfeConditions, Bisection.SetInitStep,
    GradLinesearch.initStepSize, NewUniGradWrapper, UniGradWrapper.Init, NewUniHelper,
    UniHelper.Init, Common.Init,
    SingleOutput.Init, UniToler.Init, DefaultSingleOutputSettings, DefaultCommonSettings,
    UniDefaultSettings,
    GradOptimizer.Init, Bisection.Init, bind, Except.bind, pure, Except.pure,
    GradLinesearch.loop, WolfeConditions.Status, GradLinesearch.result]
  simp only [reduceCtorEq, if_false, if_true]
  refine ⟨_, _, rfl, ?_⟩
  norm_num

/-- C4: whenever a Strong-Wolfe line search succeeds with `0 < GradConst ≤ 1`,
a non-positive initial directional derivative and an accepted step `> 0`, the
curvature term `s . y` is strictly positive, where `s = Result.Loc - initLoc`
and `y = Result.Grad - initGrad`. -/
theorem C4_curvature_positive (fuel : ℕ) (settings s1 : Settings) (fn : ObjGrader n)
    (sv initLoc : Vec n) (initObj : ℚ) (initGrad : Vec n) (prevObj : ℚ) (r : Result n)
    (h : GradLinesearch fuel settings fn sv initLoc initObj initGrad prevObj
      = .ok (s1, some r, none))
    (hS : settings.Wolfe.WType = Strong) (_hg0 : 0 < settings.Wolfe.GradConst)
    (hg : settings.Wolfe.GradConst ≤ 1) (hd : sv ⬝ᵥ initGrad ≤ 0) (hstep : 0 < r.Step) :
    0 < (fun i => r.Loc i - initLoc i) ⬝ᵥ (fun i => r.Grad i - initGrad i) := by
  obtain ⟨_, h2, _, h4, _, _⟩ :=
    GradLinesearch_strong_success fuel settings s1 fn sv initLoc initObj initGrad prevObj r h hS hg
  have hdot : (fun i => r.Loc i - initLoc i) ⬝ᵥ (fun i => r.Grad i - initGrad i)
      = r.Step * (sv ⬝ᵥ r.Grad - sv ⬝ᵥ initGrad) := by
    rw [h4]
    simp only [Matrix.dotProduct, Finset.mul_sum, ← Finset.sum_sub_distrib]
    apply Finset.sum_congr rfl
    intro i _
    ring
  rw [hdot]
  apply mul_pos hstep
  have h5 : settings.Wolfe.GradConst * |sv ⬝ᵥ initGrad| ≤ 1 * |sv ⬝ᵥ initGrad| :=
    mul_le_mul_of_nonneg_right hg (abs_nonneg _)
  rw [abs_of_nonpos hd] at h2 h5
  have h6 := neg_abs_le (sv ⬝ᵥ r.Grad)
  linarith

/-- C4, witness: the demonstration run. -/
theorem C4_curvature_positive_witness :
    ∃ s, GradLinesearch 2 DefaultSettings demoFn demoDir demoLoc (1 / 4) demoGrad (1 / 4 + 5000)
        = .ok (s, some demoResult, none) ∧
      0 < (fun i => demoResult.Loc i - demoLoc i) ⬝ᵥ (fun i => demoResult.Grad i - demoGrad i) := by
  obtain ⟨s, hs⟩ := demo_linesearch
  exact ⟨s, hs, C4_curvature_positive 2 DefaultSettings s demoFn demoDir demoLoc (1 / 4) demoGrad
    (1 / 4 + 5000) demoResult hs rfl (by norm_num [DefaultSettings])
    (by norm_num [DefaultSettings]) (by norm_num [dot_one, demoDir, demoGrad])
    (by norm_num [demoResult])⟩

theorem WolfeConditions_Status_cases (w : WolfeConditions) (st : Opt.Status)
    (h : w.Status = .ok st) : st = .Continue ∨ st = .WolfeConditionsMet := by
  unfold WolfeConditions.Status at h
  split_ifs at h <;> simp only [Except.ok.injEq, reduceCtorEq] at h <;> subst h <;> simp

/-- C10: `GradLinesearch` returns a nil error if and only if its loop ended
with status `WolfeConditionsMet`.  If the loop ended with another status, that
status was reported by the wrapper of the step finder (the step finder or its
budget helper) while the Wolfe conditions said `Continue`, and `GradLinesearch`
returns the error `Notconverged` carrying exactly that status together with a
non-nil `Result` holding the fields of the line objective, which are the last
evaluated point `initLoc + Step * searchVector` with its objective and gradient
as soon as one evaluation was made. -/
theorem C10_nil_error_iff_wolfe_met (fuel : ℕ) (settings s1 : Settings) (fn : ObjGrader n)
    (sv initLoc : Vec n) (initObj : ℚ) (initGrad : Vec n) (prevObj : ℚ)
    (res : Option (Result n)) (err : Option Error)
    (h : GradLinesearch fuel settings fn sv initLoc initObj initGrad prevObj
      = .ok (s1, res, err)) :
    (err = none ↔ ∃ s2 s0 s,
      GradLinesearch.setup settings fn sv initLoc initObj initGrad prevObj = .ok (s2, .inr s0) ∧
      GradLinesearch.loop sv fuel s0 = .ok (.done .WolfeConditionsMet s)) ∧
    (∀ s2 s0 status s,
      GradLinesearch.setup settings fn sv initLoc initObj initGrad prevObj = .ok (s2, .inr s0) →
      GradLinesearch.loop sv fuel s0 = .ok (.done status s) →
      status ≠ .WolfeConditionsMet →
      (s.wolfe.Status = .ok .Continue ∧ s.wrapper.Status = .ok status ∧ status ≠ .Continue) ∧
      err = some (.Notconverged status) ∧
      ∃ r, res = some r ∧ r.Loc = s.line.currLoc ∧ r.Obj = s.line.currObj ∧
        r.Grad = s.line.currGrad ∧ r.Step = s.line.currStep ∧
        (r.NFunEvals ≠ 0 →
          r.Loc = (fun i => sv i * r.Step + initLoc i) ∧ fn r.Loc = (r.Obj, r.Grad))) := by
  have hc := GradLinesearch_cases fuel settings fn sv initLoc initObj initGrad prevObj _ h
  refine ⟨⟨?_, ?_⟩, ?_⟩
  · intro herr
    rcases hc with ⟨_, e, _, h2⟩ | ⟨s2, s0, status, s, hset, hloop, hout⟩
    · simp [herr] at h2
    · simp only [Prod.mk.injEq] at hout
      have hmet : status = .WolfeConditionsMet := by
        by_contra hne
        have := hout.2
        simp [hne, herr] at this
      subst hmet
      exact ⟨s2, s0, s, hset, hloop⟩
  · rintro ⟨s2, s0, s, hset, hloop⟩
    rcases hc with ⟨_, e, hset2, _⟩ | ⟨s2b, s0b, status, sb, hset2, hloop2, hout⟩
    · rw [hset] at hset2
      simp at hset2
    · rw [hset] at hset2
      simp only [Except.ok.injEq, Prod.mk.injEq, Sum.inr.injEq] at hset2
      obtain ⟨-, rfl⟩ := hset2
      rw [hloop] at hloop2
      simp only [Except.ok.injEq, LsExit.done.injEq] at hloop2
      obtain ⟨rfl, rfl⟩ := hloop2
      simp only [Prod.mk.injEq, if_true] at hout
      exact hout.2
  · intro s2 s0 status s hset hloop hne
    rcases hc with ⟨_, e, hset2, _⟩ | ⟨s2b, s0b, statusb, sb, hset2, hloop2, hout⟩
    · rw [hset] at hset2
      simp at hset2
    · rw [hset] at hset2
      simp only [Except.ok.injEq, Prod.mk.injEq, Sum.inr.injEq] at hset2
      obtain ⟨-, rfl⟩ := hset2
      rw [hloop] at hloop2
      simp only [Except.ok.injEq, LsExit.done.injEq] at hloop2
      obtain ⟨rfl, rfl⟩ := hloop2
      simp only [Prod.mk.injEq, hne, if_false] at hout
      obtain ⟨_, l0, _, f0, _, _, _⟩ :=
        GradLinesearch_setup_inr settings s2 fn sv initLoc initObj initGrad prevObj s0 hset
      have hsv0 : s0.line.searchVector = sv := by rw [l0]
      obtain ⟨hsy, hfr, hnc, hst⟩ := GradLinesearch_loop_done sv fuel s0 s status hsv0 hloop
      refine ⟨?_, hout.2, GradLinesearch.result s status, hout.1, rfl, rfl, rfl, rfl, ?_⟩
      · rcases hst with hw | ⟨hw, hwr⟩
        · rcases WolfeConditions_Status_cases _ _ hw with h1 | h1
          · exact absurd h1 hnc
          · exact absurd h1 hne
        · exact ⟨hw, hwr, hnc⟩
      · intro hnf
        rcases hsy with rfl | hsy
        · exfalso
          apply hnf
          simp only [GradLinesearch.result, UniGradWrapper.Result, UniHelper.Result, Common.Result]
          exact f0
        · obtain ⟨_, _, _, _, y5, y6⟩ := hsy
          obtain ⟨_, _, _, _, _, e6, e7, e8, _⟩ := hfr
          rw [e7, l0] at y5
          rw [e8, l0] at y5
          rw [e6, l0] at y6
          simp only at y5 y6
          exact ⟨y5, y6⟩

/-- C10, witness: the demonstration run ends with `WolfeConditionsMet` and a
nil error. -/
theorem C10_nil_error_iff_wolfe_met_witness :
    ∃ s, GradLinesearch 2 DefaultSettings demoFn demoDir demoLoc (1 / 4) demoGrad (1 / 4 + 5000)
        = .ok (s, some demoResult, none) ∧
      ∃ s2 s0 sf,
        GradLinesearch.setup DefaultSettings demoFn demoDir demoLoc (1 / 4) demoGrad (1 / 4 + 5000)
          = .ok (s2, .inr s0) ∧
        GradLinesearch.loop demoDir 2 s0 = .ok (.done .WolfeConditionsMet sf) := by
  obtain ⟨s, hs⟩ := demo_linesearch
  exact ⟨s, hs, (C10_nil_error_iff_wolfe_met 2 DefaultSettings s demoFn demoDir demoLoc (1 / 4)
    demoGrad (1 / 4 + 5000) (some demoResult) none hs).1.1 rfl⟩

end Linesearch

/-! ## Theorems: dense BFGS -/

section BfgsTheorems

variable {n : ℕ}

/-- A successful `Bfgs.Iterate` is a successful line search followed by
`Bfgs.update`. -/
theorem Bfgs_Iterate_success (fuel : ℕ) (b b1 : Bfgs n) (loc grad : Vec n)
    (out : MultiIterOut n) (h : Bfgs.Iterate fuel b loc grad = .ok (b1, out))
    (herr : out.err = none) :
    ∃ settings result,
      GradLinesearch fuel b.LinesearchSettings b.fn b.p b.currLoc b.currObj b.currGrad b.prevObj
        = .ok (settings, some result, none) ∧
      b1 = b.update settings result ∧ out.loc = result.Loc ∧ out.grad = result.Grad ∧
      out.obj = result.Obj := by
  unfold Bfgs.Iterate at h
  split at h
  · simp at h
  · simp only [Except.ok.injEq, Prod.mk.injEq] at h
    obtain ⟨-, rfl⟩ := h
    simp at herr
  · simp at h
  · rename_i settings result hls
    simp only [Except.ok.injEq, Prod.mk.injEq] at h
    obtain ⟨rfl, rfl⟩ := h
    exact ⟨settings, result, hls, rfl, rfl, rfl, rfl⟩

/-- The inverse Hessian stored by `Bfgs.update`, as a formula in the step and
the gradient difference. -/
theorem Bfgs_update_invHess (b : Bfgs n) (settings : Settings) (result : Result n) :
    (b.update settings result).invHess =
      b.invHess
      + (((fun i => result.Loc i - b.currLoc i) ⬝ᵥ (fun i => result.Grad i - b.currGrad i)
          + (fun i => result.Grad i - b.currGrad i) ⬝ᵥ
            (b.invHess *ᵥ (fun i => result.Grad i - b.currGrad i)))
          / ((fun i => result.Loc i - b.currLoc i) ⬝ᵥ (fun i => result.Grad i - b.currGrad i)) ^ 2)
        • vecMulVec (fun i => result.Loc i - b.currLoc i) (fun i => result.Loc i - b.currLoc i)
      - (1 / ((fun i => result.Grad i - b.currGrad i) ⬝ᵥ (fun i => result.Loc i - b.currLoc i)))
        • vecMulVec (b.invHess *ᵥ (fun i => result.Grad i - b.currGrad i))
            (fun i => result.Loc i - b.currLoc i)
      - (1 / ((fun i => result.Grad i - b.currGrad i) ⬝ᵥ (fun i => result.Loc i - b.currLoc i)))
        • vecMulVec (fun i => result.Loc i - b.currLoc i)
            ((fun i => result.Grad i - b.currGrad i) ᵥ* b.invHess) := by
  simp only [Bfgs.update]
  generalize (fun i => result.Loc i - b.currLoc i) = s
  generalize (fun i => result.Grad i - b.currGrad i) = y
  have e1 : (row (Fin 1) y * b.invHess * col (Fin 1) y) 0 0 = y ⬝ᵥ b.invHess *ᵥ y := by
    rw [← row_vecMul, row_mul_col_apply, ← dotProduct_mulVec]
  have e2 : col (Fin 1) s * row (Fin 1) s = vecMulVec s s := (vecMulVec_eq (Fin 1) s s).symm
  have e3 : b.invHess * col (Fin 1) y * row (Fin 1) s = vecMulVec (b.invHess *ᵥ y) s := by
    rw [← col_mulVec, ← vecMulVec_eq]
  have e4 : col (Fin 1) s * (row (Fin 1) y * b.invHess) = vecMulVec s (y ᵥ* b.invHess) := by
    rw [← row_vecMul, ← vecMulVec_eq]
  rw [e1, e2, e3, e4, dotProduct_comm s y]
  rw [sub_eq_add_neg, sub_eq_add_neg, ← neg_smul, ← neg_smul, pow_two]
  congr 3
  all_goals ring_nf

/-- The inverse Hessian after a successful `Bfgs.Iterate`, in terms of the
states before and after. -/
theorem Bfgs_Iterate_invHess (fuel : ℕ) (b b1 : Bfgs n) (loc grad : Vec n)
    (out : MultiIterOut n) (h : Bfgs.Iterate fuel b loc grad = .ok (b1, out))
    (herr : out.err = none) :
    b1.invHess =
      b.invHess
      + ((b.stepDiff b1 ⬝ᵥ b.gradDiff b1 + b.gradDiff b1 ⬝ᵥ (b.invHess *ᵥ b.gradDiff b1))
          / (b.stepDiff b1 ⬝ᵥ b.gradDiff b1) ^ 2) • vecMulVec (b.stepDiff b1) (b.stepDiff b1)
      - (1 / (b.gradDiff b1 ⬝ᵥ b.stepDiff b1)) • vecMulVec (b.invHess *ᵥ b.gradDiff b1)
          (b.stepDiff b1)
      - (1 / (b.gradDiff b1 ⬝ᵥ b.stepDiff b1)) • vecMulVec (b.stepDiff b1)
          (b.gradDiff b1 ᵥ* b.invHess) := by
  obtain ⟨settings, result, _, rfl, _, _, _⟩ := Bfgs_Iterate_success fuel b b1 loc grad out h herr
  exact Bfgs_update_invHess b settings result

/-- C2: after every successful `Bfgs.Iterate`, with `s = newLoc - oldLoc`,
`y = newGrad - oldGrad`, `rho = 1 / (y . s)` and `H` the inverse Hessian before
the call, the stored inverse Hessian equals
`H + ((s.y + yᵀ H y) / (s.y)²) s sᵀ - rho (H y) sᵀ - rho s (yᵀ H)`; the new
location and gradient are those returned in the output buffers. -/
theorem C2_bfgs_inverse_hessian_update (fuel : ℕ) (b b1 : Bfgs n) (loc grad : Vec n)
    (out : MultiIterOut n) (h : Bfgs.Iterate fuel b loc grad = .ok (b1, out))
    (herr : out.err = none) :
    out.loc = b1.currLoc ∧ out.grad = b1.currGrad ∧
    b1.invHess =
      b.invHess
      + ((b.stepDiff b1 ⬝ᵥ b.gradDiff b1 + b.gradDiff b1 ⬝ᵥ (b.invHess *ᵥ b.gradDiff b1))
          / (b.stepDiff b1 ⬝ᵥ b.gradDiff b1) ^ 2) • vecMulVec (b.stepDiff b1) (b.stepDiff b1)
      - (1 / (b.gradDiff b1 ⬝ᵥ b.stepDiff b1)) • vecMulVec (b.invHess *ᵥ b.gradDiff b1)
          (b.stepDiff b1)
      - (1 / (b.gradDiff b1 ⬝ᵥ b.stepDiff b1)) • vecMulVec (b.stepDiff b1)
          (b.gradDiff b1 ᵥ* b.invHess) := by
  obtain ⟨settings, result, _, hb, h1, h2, _⟩ :=
    Bfgs_Iterate_success fuel b b1 loc grad out h herr
  refine ⟨?_, ?_, Bfgs_Iterate_invHess fuel b b1 loc grad out h herr⟩
  · rw [h1, hb]
    rfl
  · rw [h2, hb]
    rfl

theorem demoBfgs_p : demoBfgs.p = demoDir := by
  funext i
  simp [demoBfgs, Bfgs.Init, demoDir, demoGrad, Matrix.mul_apply, Fin.eq_zero i]

/-- The demonstration run as the first `Bfgs.Iterate`. -/
theorem demo_bfgs_iterate :
    ∃ s, Bfgs.Iterate 2 demoBfgs demoLoc demoGrad
      = .ok (demoBfgs.update s demoResult,
          { loc := demoResult.Loc, grad := demoResult.Grad, obj := demoResult.Obj,
            nFunEvals := demoResult.NFunEvals, err := none }) := by
  obtain ⟨s, hs⟩ := demo_linesearch
  refine ⟨s, ?_⟩
  have h : GradLinesearch 2 demoBfgs.LinesearchSettings demoBfgs.fn demoBfgs.p demoBfgs.currLoc
      demoBfgs.currObj demoBfgs.currGrad demoBfgs.prevObj = .ok (s, some demoResult, none) := by
    rw [demoBfgs_p]
    exact hs
  simp only [Bfgs.Iterate, h]

/-- C2, witness: the first `Bfgs.Iterate` of the demonstration run; the
identity `1` is updated to `1 / 2`, the inverse of the second derivative of
`x² / 4`. -/
theorem C2_bfgs_inverse_hessian_update_witness :
    ∃ s, Bfgs.Iterate 2 demoBfgs demoLoc demoGrad
        = .ok (demoBfgs.update s demoResult,
            { loc := demoResult.Loc, grad := demoResult.Grad, obj := demoResult.Obj,
              nFunEvals := demoResult.NFunEvals, err := none }) ∧
      (demoBfgs.update s demoResult).invHess =
        demoBfgs.invHess
        + ((demoBfgs.stepDiff (demoBfgs.update s demoResult) ⬝ᵥ
              demoBfgs.gradDiff (demoBfgs.update s demoResult)
            + demoBfgs.gradDiff (demoBfgs.update s demoResult) ⬝ᵥ
              (demoBfgs.invHess *ᵥ demoBfgs.gradDiff (demoBfgs.update s demoResult)))
            / (demoBfgs.stepDiff (demoBfgs.update s demoResult) ⬝ᵥ
              demoBfgs.gradDiff (demoBfgs.update s demoResult)) ^ 2)
          • vecMulVec (demoBfgs.stepDiff (demoBfgs.update s demoResult))
              (demoBfgs.stepDiff (demoBfgs.update s demoResult))
        - (1 / (demoBfgs.gradDiff (demoBfgs.update s demoResult) ⬝ᵥ
              demoBfgs.stepDiff (demoBfgs.update s demoResult)))
          • vecMulVec (demoBfgs.invHess *ᵥ demoBfgs.gradDiff (demoBfgs.update s demoResult))
              (demoBfgs.stepDiff (demoBfgs.update s demoResult))
        - (1 / (demoBfgs.gradDiff (demoBfgs.update s demoResult) ⬝ᵥ
              demoBfgs.stepDiff (demoBfgs.update s demoResult)))
          • vecMulVec (demoBfgs.stepDiff (demoBfgs.update s demoResult))
              (demoBfgs.gradDiff (demoBfgs.update s demoResult) ᵥ* demoBfgs.invHess) := by
  obtain ⟨s, hs⟩ := demo_bfgs_iterate
  exact ⟨s, hs, (C2_bfgs_inverse_hessian_update 2 demoBfgs _ demoLoc demoGrad _ hs rfl).2.2⟩

theorem vecMulVec_mulVec_eq (a b x : Vec n) : vecMulVec a b *ᵥ x = (b ⬝ᵥ x) • a := by
  ext i
  simp only [mulVec, vecMulVec_apply, dotProduct, Pi.smul_apply, smul_eq_mul, Finset.sum_mul]
  apply Finset.sum_congr rfl
  intro j _
  ring

theorem symm_vecMul {H : Matrix (Fin n) (Fin n) ℚ} (hH : H.IsSymm) (y : Vec n) :
    y ᵥ* H = H *ᵥ y := by
  have h := vecMul_transpose H y
  rwa [hH.eq] at h

/-- The BFGS formula keeps a matrix symmetric positive-definite when the
curvature `s . y` is positive: the new quadratic form at `x` is the old one at
`x - (s.x / s.y) y` plus `(s.x)² / s.y`. -/
theorem bfgs_formula_spd (H : Matrix (Fin n) (Fin n) ℚ) (s y : Vec n) (hH : SymPosDef H)
    (hc : 0 < s ⬝ᵥ y) :
    SymPosDef (H + ((s ⬝ᵥ y + y ⬝ᵥ H *ᵥ y) / (s ⬝ᵥ y) ^ 2) • vecMulVec s s
      - (1 / (y ⬝ᵥ s)) • vecMulVec (H *ᵥ y) s - (1 / (y ⬝ᵥ s)) • vecMulVec s (y ᵥ* H)) := by
  obtain ⟨hsym, hpos⟩ := hH
  have hv := symm_vecMul hsym y
  rw [hv]
  constructor
  · apply Matrix.IsSymm.ext
    intro i j
    simp only [Matrix.add_apply, Matrix.sub_apply, Matrix.smul_apply, vecMulVec_apply, smul_eq_mul]
    rw [hsym.apply i j]
    ring
  · intro x hx
    have hxy : y ⬝ᵥ H *ᵥ x = x ⬝ᵥ H *ᵥ y := by
      rw [dotProduct_mulVec, hv, dotProduct_comm]
    have hys : y ⬝ᵥ s = s ⬝ᵥ y := dotProduct_comm y s
    have hxs : x ⬝ᵥ s = s ⬝ᵥ x := dotProduct_comm x s
    have hexp : x ⬝ᵥ ((H + ((s ⬝ᵥ y + y ⬝ᵥ H *ᵥ y) / (s ⬝ᵥ y) ^ 2) • vecMulVec s s
        - (1 / (y ⬝ᵥ s)) • vecMulVec (H *ᵥ y) s - (1 / (y ⬝ᵥ s)) • vecMulVec s (H *ᵥ y)) *ᵥ x)
        = (x - ((s ⬝ᵥ x) / (s ⬝ᵥ y)) • y) ⬝ᵥ (H *ᵥ (x - ((s ⬝ᵥ x) / (s ⬝ᵥ y)) • y))
          + (s ⬝ᵥ x) ^ 2 / (s ⬝ᵥ y) := by
      simp only [sub_mulVec, add_mulVec, smul_mulVec_assoc, vecMulVec_mulVec_eq, dotProduct_sub,
        dotProduct_add, dotProduct_smul, mulVec_sub, mulVec_smul, sub_dotProduct, smul_dotProduct,
        smul_eq_mul, hxy, hys, hxs, dotProduct_comm (H *ᵥ y) x]
      field_simp
      ring
    rw [hexp]
    by_cases hz : x - ((s ⬝ᵥ x) / (s ⬝ᵥ y)) • y = 0
    · rw [hz]
      simp only [mulVec_zero, dotProduct_zero, zero_add]
      have ht : s ⬝ᵥ x ≠ 0 := by
        intro h0
        apply hx
        rw [h0] at hz
        simpa using hz
      positivity
    · have h1 := hpos _ hz
      have h2 : 0 ≤ (s ⬝ᵥ x) ^ 2 / (s ⬝ᵥ y) := by positivity
      linarith

theorem symPosDef_one : SymPosDef (1 : Matrix (Fin n) (Fin n) ℚ) := by
  refine ⟨Matrix.isSymm_one, ?_⟩
  intro x hx
  rw [one_mulVec]
  obtain ⟨i, hi⟩ : ∃ i, x i ≠ 0 := by
    by_contra hne
    push_neg at hne
    exact hx (funext hne)
  have h1 : 0 < x i * x i := mul_self_pos.mpr hi
  have h2 : x i * x i ≤ x ⬝ᵥ x := by
    unfold Matrix.dotProduct
    exact Finset.single_le_sum (f := fun j => x j * x j) (fun j _ => mul_self_nonneg (x j))
      (Finset.mem_univ i)
  linarith

/-- C3: the dense BFGS inverse Hessian is the identity after `Bfgs.Init` (and
so symmetric positive-definite), and whenever it is symmetric positive-definite
before a successful `Bfgs.Iterate` whose accepted step has `s . y > 0`, it is
symmetric positive-definite after that `Iterate`. -/
theorem C3_bfgs_inverse_hessian_spd :
    (∀ (n : ℕ) (settings : Settings) (f : ObjGrader n) (initLoc : Vec n) (initObj : ℚ)
      (initGrad : Vec n),
      (Bfgs.Init settings f initLoc initObj initGrad).2 = none ∧
      (Bfgs.Init settings f initLoc initObj initGrad).1.invHess = 1 ∧
      SymPosDef (Bfgs.Init settings f initLoc initObj initGrad).1.invHess) ∧
    (∀ (n : ℕ) (fuel : ℕ) (b b1 : Bfgs n) (loc grad : Vec n) (out : MultiIterOut n),
      Bfgs.Iterate fuel b loc grad = .ok (b1, out) → out.err = none →
      SymPosDef b.invHess → 0 < b.stepDiff b1 ⬝ᵥ b.gradDiff b1 →
      SymPosDef b1.invHess) := by
  constructor
  · intro n settings f initLoc initObj initGrad
    have h1 : (Bfgs.Init settings f initLoc initObj initGrad).1.invHess = 1 := by
      ext i j
      simp [Bfgs.Init, Matrix.one_apply]
    refine ⟨rfl, h1, ?_⟩
    rw [h1]
    exact symPosDef_one
  · intro n fuel b b1 loc grad out h herr hspd hc
    have h2 := Bfgs_Iterate_invHess fuel b b1 loc grad out h herr
    rw [h2]
    exact bfgs_formula_spd b.invHess (b.stepDiff b1) (b.gradDiff b1) hspd hc

/-- C3, witness: the first `Bfgs.Iterate` of the demonstration run, from the
identity, with curvature `s . y = 1 / 8`. -/
theorem C3_bfgs_inverse_hessian_spd_witness :
    ∃ s, Bfgs.Iterate 2 demoBfgs demoLoc demoGrad
        = .ok (demoBfgs.update s demoResult,
            { loc := demoResult.Loc, grad := demoResult.Grad, obj := demoResult.Obj,
              nFunEvals := demoResult.NFunEvals, err := none }) ∧
      SymPosDef demoBfgs.invHess ∧
      0 < demoBfgs.stepDiff (demoBfgs.update s demoResult) ⬝ᵥ
        demoBfgs.gradDiff (demoBfgs.update s demoResult) ∧
      SymPosDef (demoBfgs.update s demoResult).invHess := by
  obtain ⟨s, hs⟩ := demo_bfgs_iterate
  have hspd : SymPosDef demoBfgs.invHess :=
    (C3_bfgs_inverse_hessian_spd.1 1 DefaultSettings demoFn demoLoc (1 / 4) demoGrad).2.2
  have hc : 0 < demoBfgs.stepDiff (demoBfgs.update s demoResult) ⬝ᵥ
      demoBfgs.gradDiff (demoBfgs.update s demoResult) := by
    norm_num [dot_one, Bfgs.stepDiff, Bfgs.gradDiff, Bfgs.update, demoResult, demoBfgs, Bfgs.Init,
      demoLoc, demoGrad]
  exact ⟨s, hs, hspd, hc,
    C3_bfgs_inverse_hessian_spd.2 1 2 demoBfgs _ demoLoc demoGrad _ hs rfl hspd hc⟩

end BfgsTheorems

/-! ## Theorems: limited-memory BFGS -/

section LbfgsTheorems

variable {n : ℕ}

theorem Lbfgs_Iterate_success (fuel : ℕ) (l l1 : Lbfgs n) (loc grad : Vec n)
    (out : MultiIterOut n) (h : Lbfgs.Iterate fuel l loc grad = .ok (l1, out))
    (herr : out.err = none) :
    ∃ settings result,
      GradLinesearch fuel l.LinesearchSettings l.fn l.q l.currLoc l.currObj l.currGrad l.prevObj
        = .ok (settings, some result, none) ∧
      l.counter < l.Memory ∧
      l1 = l.update settings result ∧ out.loc = result.Loc ∧ out.grad = result.Grad ∧
      out.obj = result.Obj := by
  unfold Lbfgs.Iterate at h
  split at h
  · simp at h
  · simp only [Except.ok.injEq, Prod.mk.injEq] at h
    obtain ⟨-, rfl⟩ := h
    simp at herr
  · simp at h
  · rename_i settings result hls
    split_ifs at h with hc
    simp only [Except.ok.injEq, Prod.mk.injEq] at h
    obtain ⟨rfl, rfl⟩ := h
    exact ⟨settings, result, hls, hc, rfl, rfl, rfl, rfl⟩

theorem Lbfgs_Iterate_failure (fuel : ℕ) (l l1 : Lbfgs n) (loc grad : Vec n)
    (out : MultiIterOut n) (h : Lbfgs.Iterate fuel l loc grad = .ok (l1, out))
    (herr : out.err ≠ none) :
    ∃ settings, l1 = { l with LinesearchSettings := settings } := by
  unfold Lbfgs.Iterate at h
  split at h
  · simp at h
  · rename_i settings _ _ _
    simp only [Except.ok.injEq, Prod.mk.injEq] at h
    exact ⟨settings, h.1.symm⟩
  · simp at h
  · split_ifs at h with hc
    simp only [Except.ok.injEq, Prod.mk.injEq] at h
    obtain ⟨-, rfl⟩ := h
    simp at herr

/-- The counter and the flag `looped` after `k` successful iterations: the
counter is `k mod Memory`, and `looped` says that `k` has reached `Memory`. -/
theorem Lbfgs_reached_counter (k : ℕ) (l : Lbfgs n) (h : Lbfgs.ReachedAfter k l)
    (hm : 0 < l.Memory) :
    l.counter = k % l.Memory ∧ (l.looped = true ↔ l.Memory ≤ k) := by
  induction h with
  | init settings Memory f initLoc initObj initGrad =>
    simp only [Lbfgs.Init] at hm ⊢
    constructor
    · simp
    · simp
      omega
  | success k l l1 fuel loc grad out _ hit herr ih =>
    obtain ⟨settings, result, _, hc, rfl, _⟩ := Lbfgs_Iterate_success fuel l l1 loc grad out hit herr
    simp only [Lbfgs.update] at hm ⊢
    obtain ⟨ih1, ih2⟩ := ih hm
    have hdm := Nat.div_add_mod k l.Memory
    have hlt := Nat.mod_lt k hm
    by_cases hw : l.counter + 1 = l.Memory
    · simp only [hw, decide_True, if_true, true_iff]
      constructor
      · have : k + 1 = l.Memory * (k / l.Memory + 1) := by
          rw [Nat.mul_add, mul_one]
          omega
        rw [this, Nat.mul_mod_right]
      · omega
    · simp only [hw, decide_False, Bool.false_eq_true, if_false]
      constructor
      · have : (k + 1) % l.Memory = (k % l.Memory + 1) % l.Memory := by
          rw [Nat.add_mod, Nat.mod_eq_of_lt (a := 1)]
          omega
        rw [this, Nat.mod_eq_of_lt]
        · omega
        · omega
      · rw [ih2]
        constructor
        · intro h1
          omega
        · intro h1
          by_contra h2
          have h3 : k + 1 = l.Memory := by omega
          have h4 : k % l.Memory = k := Nat.mod_eq_of_lt (by omega)
          omega
  | failure k l l1 fuel loc grad out _ hit herr ih =>
    obtain ⟨settings, rfl⟩ := Lbfgs_Iterate_failure fuel l l1 loc grad out hit herr
    exact ih hm

theorem Lbfgs_ind_eq (j m i : ℕ) (hi : i < m) (hij : i ≤ j) :
    Lbfgs.ind (j % m) m i = (j - i) % m := by
  have hm : 0 < m := by omega
  have hdm := Nat.div_add_mod j m
  have hlt := Nat.mod_lt j hm
  generalize hq : j / m = q at hdm
  generalize hc : j % m = c at hdm hlt
  by_cases hic : i ≤ c
  · have h1 : j - i = m * q + (c - i) := by omega
    rw [h1, Nat.mul_add_mod, Nat.mod_eq_of_lt (by omega)]
    unfold Lbfgs.ind
    simp only
    split_ifs <;> omega
  · obtain ⟨q1, rfl⟩ : ∃ q1, q = q1 + 1 := by
      rcases q with _ | q1
      · simp at hdm
        omega
      · exact ⟨q1, rfl⟩
    have h0 : m * (q1 + 1) = m * q1 + m := by ring
    have h1 : j - i = m * q1 + (c + m - i) := by omega
    rw [h1, Nat.mul_add_mod, Nat.mod_eq_of_lt (by omega)]
    unfold Lbfgs.ind
    simp only
    split_ifs <;> omega

theorem Lbfgs_ind_inj (c m i1 i2 : ℕ) (h1 : i1 < m) (h2 : i2 < m)
    (h : Lbfgs.ind c m i1 = Lbfgs.ind c m i2) : i1 = i2 := by
  unfold Lbfgs.ind at h
  simp only at h
  split_ifs at h <;> omega

theorem Lbfgs_loopMax_le (c m : ℕ) (looped : Bool) (hc : c < m) :
    Lbfgs.loopMax c m looped ≤ m := by
  unfold Lbfgs.loopMax
  split_ifs <;> omega

theorem Lbfgs_firstLoopInds_nodup (c m : ℕ) (looped : Bool) (hc : c < m) :
    (Lbfgs.firstLoopInds c m looped).Nodup := by
  unfold Lbfgs.firstLoopInds
  apply List.Nodup.map_on _ (List.nodup_range _)
  intro x hx y hy hxy
  have hmx := Lbfgs_loopMax_le c m looped hc
  rw [List.mem_range] at hx hy
  exact Lbfgs_ind_inj c m x y (by omega) (by omega) hxy

theorem Lbfgs_secondLoopInds_eq (c m : ℕ) (looped : Bool) :
    Lbfgs.secondLoopInds c m looped = (Lbfgs.firstLoopInds c m looped).reverse := by
  simp [Lbfgs.secondLoopInds, Lbfgs.firstLoopInds, List.map_reverse]

/-- The slots visited by the first loop of the iterate that follows `j`
successful ones. -/
theorem Lbfgs_reached_firstLoopInds (j : ℕ) (l : Lbfgs n) (h : Lbfgs.ReachedAfter j l)
    (hm : 0 < l.Memory) :
    Lbfgs.firstLoopInds l.counter l.Memory l.looped
      = (List.range (min l.Memory (j + 1))).map (fun i => (j - i) % l.Memory) := by
  obtain ⟨h1, h2⟩ := Lbfgs_reached_counter j l h hm
  have hmax : Lbfgs.loopMax l.counter l.Memory l.looped = min l.Memory (j + 1) := by
    unfold Lbfgs.loopMax
    cases hl : l.looped with
    | true =>
      have := h2.mp hl
      simp only [Bool.not_true, Bool.false_eq_true, if_false]
      omega
    | false =>
      have h3 : ¬ l.Memory ≤ j := fun h4 => by
        have := h2.mpr h4
        rw [hl] at this
        exact Bool.false_ne_true this
      have h4 : j % l.Memory = j := Nat.mod_eq_of_lt (by omega)
      simp only [Bool.not_false, if_true]
      omega
  unfold Lbfgs.firstLoopInds
  rw [hmax, h1]
  apply List.map_congr_left
  intro i hi
  rw [List.mem_range] at hi
  exact Lbfgs_ind_eq j l.Memory i (by omega) (by omega)

theorem Lbfgs_firstLoop_alpha (invRho : ℕ → ℚ) (sH yH : ℕ → Vec n) (inds : List ℕ)
    (st : (ℕ → ℚ) × Vec n) (ind : ℕ) (h : ind ∉ inds) :
    (inds.foldl (Lbfgs.firstLoopBody invRho sH yH) st).1 ind = st.1 ind := by
  induction inds generalizing st with
  | nil => rfl
  | cons a rest ih =>
    simp only [List.mem_cons, not_or] at h
    rw [List.foldl_cons, ih _ h.2]
    simp only [Lbfgs.firstLoopBody]
    exact Function.update_noteq h.1 _ _

theorem Lbfgs_loops_eq_recursion (invRho : ℕ → ℚ) (sH yH : ℕ → Vec n) (inds : List ℕ)
    (hnd : inds.Nodup) (alpha : ℕ → ℚ) (q : Vec n) :
    inds.reverse.foldl
        (Lbfgs.secondLoopBody invRho sH yH (inds.foldl (Lbfgs.firstLoopBody invRho sH yH) (alpha, q)).1)
        (inds.foldl (Lbfgs.firstLoopBody invRho sH yH) (alpha, q)).2
      = Lbfgs.recursion invRho sH yH inds q := by
  induction inds generalizing alpha q with
  | nil => rfl
  | cons ind rest ih =>
    rw [List.nodup_cons] at hnd
    simp only [List.reverse_cons, List.foldl_append, List.foldl_cons, List.foldl_nil]
    have hb : Lbfgs.firstLoopBody invRho sH yH (alpha, q) ind
        = (Function.update alpha ind ((sH ind ⬝ᵥ q) / invRho ind),
            fun j => q j + (-1 * ((sH ind ⬝ᵥ q) / invRho ind)) * yH ind j) := rfl
    rw [hb, ih hnd.2]
    simp only [Lbfgs.secondLoopBody, Lbfgs.recursion]
    rw [Lbfgs_firstLoop_alpha invRho sH yH rest _ ind hnd.1]
    simp only [Function.update_same]

theorem Lbfgs_recursion_pos (invRho : ℕ → ℚ) (sH yH : ℕ → Vec n) (inds : List ℕ)
    (hc : ∀ ind ∈ inds, invRho ind = yH ind ⬝ᵥ sH ind ∧ 0 < yH ind ⬝ᵥ sH ind)
    (q : Vec n) (hq : q ≠ 0) :
    0 < q ⬝ᵥ Lbfgs.recursion invRho sH yH inds q := by
  induction inds generalizing q with
  | nil =>
    simp only [Lbfgs.recursion]
    obtain ⟨i, hi⟩ : ∃ i, q i ≠ 0 := by
      by_contra hne
      push_neg at hne
      exact hq (funext hne)
    have h1 : 0 < q i * q i := mul_self_pos.mpr hi
    have h2 : q i * q i ≤ q ⬝ᵥ q := by
      unfold Matrix.dotProduct
      exact Finset.single_le_sum (f := fun j => q j * q j) (fun j _ => mul_self_nonneg (q j))
        (Finset.mem_univ i)
    linarith
  | cons ind rest ih =>
    obtain ⟨hrho, hpos⟩ := hc ind (List.mem_cons_self _ _)
    have hrest : ∀ i ∈ rest, invRho i = yH i ⬝ᵥ sH i ∧ 0 < yH i ⬝ᵥ sH i :=
      fun i hi => hc i (List.mem_cons_of_mem _ hi)
    simp only [Lbfgs.recursion]
    rw [hrho]
    set c := yH ind ⬝ᵥ sH ind with hcdef
    set a := (sH ind ⬝ᵥ q) / c with hadef
    set q1 : Vec n := fun j => q j + (-1 * a) * yH ind j with hq1
    set r := Lbfgs.recursion invRho sH yH rest q1 with hr
    have hq1eq : q1 = q - a • yH ind := by
      funext j
      simp [hq1]
      ring
    have hexp : (q ⬝ᵥ fun j => r j + (a - (yH ind ⬝ᵥ r) / c) * sH ind j)
        = q1 ⬝ᵥ r + (sH ind ⬝ᵥ q) ^ 2 / c := by
      have e1 : (fun j => r j + (a - (yH ind ⬝ᵥ r) / c) * sH ind j)
          = r + (a - (yH ind ⬝ᵥ r) / c) • sH ind := by
        funext j
        simp
      rw [e1, hq1eq]
      simp only [dotProduct_add, dotProduct_smul, sub_dotProduct, smul_dotProduct, smul_eq_mul,
        dotProduct_comm q (sH ind)]
      rw [hadef]
      field_simp
      ring
    rw [hexp]
    by_cases hz : q1 = 0
    · rw [hz, zero_dotProduct, zero_add]
      have ht : sH ind ⬝ᵥ q ≠ 0 := by
        intro h0
        apply hq
        have ha0 : a = 0 := by rw [hadef, h0, zero_div]
        rw [hq1eq, ha0] at hz
        simpa using hz
      positivity
    · have h1 := ih hrest q1 hz
      have h2 : 0 ≤ (sH ind ⬝ᵥ q) ^ 2 / c := by positivity
      linarith

/-- In every reachable state each stored inner product is the inner product
of the stored pair. -/
theorem Lbfgs_reached_invRho (k : ℕ) (l : Lbfgs n) (h : Lbfgs.ReachedAfter k l) (i : ℕ) :
    l.invRhoHist i = l.yHist i ⬝ᵥ l.sHist i := by
  induction h with
  | init settings Memory f initLoc initObj initGrad =>
    simp [Lbfgs.Init, Matrix.dotProduct]
  | success k l l1 fuel loc grad out _ hit herr ih =>
    obtain ⟨settings, result, _, _, rfl, _⟩ := Lbfgs_Iterate_success fuel l l1 loc grad out hit herr
    simp only [Lbfgs.update]
    by_cases hi : i = l.counter
    · subst hi
      simp only [Function.update_same]
    · simp only [Function.update_noteq hi]
      exact ih
  | failure k l l1 fuel loc grad out _ hit herr ih =>
    obtain ⟨settings, rfl⟩ := Lbfgs_Iterate_failure fuel l l1 loc grad out hit herr
    exact ih

theorem demoLbfgs_q : demoLbfgs.q = demoDir := by
  funext i
  simp [demoLbfgs, Lbfgs.Init, demoDir, demoGrad]

/-- The demonstration run as the first `Lbfgs.Iterate`. -/
theorem demo_lbfgs_iterate :
    ∃ s, Lbfgs.Iterate 2 demoLbfgs demoLoc demoGrad
      = .ok (demoLbfgs.update s demoResult,
          { loc := demoResult.Loc, grad := demoResult.Grad, obj := demoResult.Obj,
            nFunEvals := demoResult.NFunEvals, err := none }) := by
  obtain ⟨s, hs⟩ := demo_linesearch
  refine ⟨s, ?_⟩
  have h : GradLinesearch 2 demoLbfgs.LinesearchSettings demoLbfgs.fn demoLbfgs.q
      demoLbfgs.currLoc demoLbfgs.currObj demoLbfgs.currGrad demoLbfgs.prevObj
      = .ok (s, some demoResult, none) := by
    rw [demoLbfgs_q]
    exact hs
  have hc : demoLbfgs.counter < demoLbfgs.Memory := by
    simp [demoLbfgs, Lbfgs.Init]
  simp only [Lbfgs.Iterate, h, hc, if_true]

/-- C5 (amended): for `Memory ≥ 1` the L-BFGS history is a ring buffer.  After
`Init` the counter is `0` and `looped` is false.  Every successful
`Lbfgs.Iterate` writes the new pair `(s, y)` and `y . s` into the slot `counter`
and leaves every other slot unchanged, then sets the counter to
`(counter + 1) mod Memory` and makes `looped` true exactly when it was true or
the buffer has just filled.  Hence `counter < Memory` holds after `Init` and
after every `Iterate`. -/
theorem C5_lbfgs_ring_buffer :
    (∀ (n : ℕ) (settings : Settings) (Memory : ℕ) (f : ObjGrader n) (initLoc : Vec n)
      (initObj : ℚ) (initGrad : Vec n), 1 ≤ Memory →
      (Lbfgs.Init settings Memory f initLoc initObj initGrad).1.counter = 0 ∧
      (Lbfgs.Init settings Memory f initLoc initObj initGrad).1.looped = false ∧
      (Lbfgs.Init settings Memory f initLoc initObj initGrad).1.counter
        < (Lbfgs.Init settings Memory f initLoc initObj initGrad).1.Memory) ∧
    (∀ (n : ℕ) (fuel : ℕ) (l l1 : Lbfgs n) (loc grad : Vec n) (out : MultiIterOut n),
      Lbfgs.Iterate fuel l loc grad = .ok (l1, out) → out.err = none →
      l1.sHist l.counter = l.stepDiff l1 ∧ l1.yHist l.counter = l.gradDiff l1 ∧
      l1.invRhoHist l.counter = l.gradDiff l1 ⬝ᵥ l.stepDiff l1 ∧
      (∀ j, j ≠ l.counter →
        l1.sHist j = l.sHist j ∧ l1.yHist j = l.yHist j ∧ l1.invRhoHist j = l.invRhoHist j) ∧
      l1.Memory = l.Memory ∧
      l1.counter = (l.counter + 1) % l.Memory ∧
      (l1.looped = true ↔ (l.looped = true ∨ l.counter + 1 = l.Memory)) ∧
      l1.counter < l1.Memory) ∧
    (∀ (n : ℕ) (k : ℕ) (l : Lbfgs n), Lbfgs.ReachedAfter k l → 1 ≤ l.Memory →
      l.counter < l.Memory) := by
  refine ⟨?_, ?_, ?_⟩
  · intro n settings Memory f initLoc initObj initGrad hm
    exact ⟨rfl, rfl, hm⟩
  · intro n fuel l l1 loc grad out h herr
    obtain ⟨settings, result, _, hc, rfl, _⟩ := Lbfgs_Iterate_success fuel l l1 loc grad out h herr
    refine ⟨?_, ?_, ?_, ?_, rfl, ?_, ?_, ?_⟩
    · simp only [Lbfgs.update, Function.update_same]
      rfl
    · simp only [Lbfgs.update, Function.update_same]
      rfl
    · simp only [Lbfgs.update, Function.update_same]
      rfl
    · intro j hj
      simp only [Lbfgs.update, Function.update_noteq hj]
      exact ⟨trivial, trivial, trivial⟩
    all_goals simp only [Lbfgs.update]
    · by_cases hw : l.counter + 1 = l.Memory
      · simp only [hw, decide_True, if_true, Nat.mod_self]
      · simp only [hw, decide_False, Bool.false_eq_true, if_false]
        rw [Nat.mod_eq_of_lt]
        omega
    · by_cases hw : l.counter + 1 = l.Memory
      · simp [hw]
      · simp [hw]
    · by_cases hw : l.counter + 1 = l.Memory
      · simp only [hw, decide_True, if_true]
        omega
      · simp only [hw, decide_False, Bool.false_eq_true, if_false]
        omega
  · intro n k l hr hm
    rw [(Lbfgs_reached_counter k l hr hm).1]
    exact Nat.mod_lt _ hm

/-- C5, witness: the first `Lbfgs.Iterate` of the demonstration run with
`Memory = 30` writes slot `0` and moves the counter to `1`. -/
theorem C5_lbfgs_ring_buffer_witness :
    ∃ s, Lbfgs.Iterate 2 demoLbfgs demoLoc demoGrad
        = .ok (demoLbfgs.update s demoResult,
            { loc := demoResult.Loc, grad := demoResult.Grad, obj := demoResult.Obj,
              nFunEvals := demoResult.NFunEvals, err := none }) ∧
      (demoLbfgs.update s demoResult).counter = (demoLbfgs.counter + 1) % demoLbfgs.Memory ∧
      (demoLbfgs.update s demoResult).counter < (demoLbfgs.update s demoResult).Memory := by
  obtain ⟨s, hs⟩ := demo_lbfgs_iterate
  have h := C5_lbfgs_ring_buffer.2.1 1 2 demoLbfgs _ demoLoc demoGrad _ hs rfl
  exact ⟨s, hs, h.2.2.2.2.2.1, h.2.2.2.2.2.2.2⟩

/-- C5, counterexample: with `Memory = 0` the method `Init` succeeds and leaves
`counter = 0`, which is not below `Memory`. -/
theorem C5_counterexample :
    (Lbfgs.Init DefaultSettings 0 demoFn demoLoc (1 / 4) demoGrad).2 = none ∧
    ¬ ((Lbfgs.Init DefaultSettings 0 demoFn demoLoc (1 / 4) demoGrad).1.counter
      < (Lbfgs.Init DefaultSettings 0 demoFn demoLoc (1 / 4) demoGrad).1.Memory) := by
  simp [Lbfgs.Init]

/-- C6: in the `k`-th successful `Lbfgs.Iterate` after `Init` (`k ≥ 1`), which
writes slot `(k - 1) mod Memory`, the first loop visits the slots
`(k - 1 - i) mod Memory` for `i = 0, …, min(Memory, k) - 1` in this order, that
is the `min(Memory, k)` most recently written slots from newest to oldest, each
once; the second loop visits the same slots in the reverse order; every visited
slot was written by one of the `k` iterations; and the new direction is the
result of the two loops over these slots. -/
theorem C6_lbfgs_loop_slots (k : ℕ) (hk : 1 ≤ k) (l l1 : Lbfgs n) (fuel : ℕ)
    (loc grad : Vec n) (out : MultiIterOut n) (hr : Lbfgs.ReachedAfter (k - 1) l)
    (h : Lbfgs.Iterate fuel l loc grad = .ok (l1, out)) (herr : out.err = none) :
    l.counter = (k - 1) % l.Memory ∧
    Lbfgs.firstLoopInds l.counter l.Memory l.looped
      = (List.range (min l.Memory k)).map (fun i => (k - 1 - i) % l.Memory) ∧
    Lbfgs.secondLoopInds l.counter l.Memory l.looped
      = (Lbfgs.firstLoopInds l.counter l.Memory l.looped).reverse ∧
    (Lbfgs.firstLoopInds l.counter l.Memory l.looped).Nodup ∧
    (∀ ind ∈ Lbfgs.firstLoopInds l.counter l.Memory l.looped,
      ∃ j, 1 ≤ j ∧ j ≤ k ∧ ind = (j - 1) % l.Memory) ∧
    l1.q = (Lbfgs.secondLoopInds l.counter l.Memory l.looped).foldl
      (Lbfgs.secondLoopBody l1.invRhoHist l1.sHist l1.yHist l1.alpha)
      ((Lbfgs.firstLoopInds l.counter l.Memory l.looped).foldl
        (Lbfgs.firstLoopBody l1.invRhoHist l1.sHist l1.yHist)
        (l.alpha, fun i => -1 * l1.currGrad i)).2 := by
  obtain ⟨settings, result, _, hc, rfl, _⟩ := Lbfgs_Iterate_success fuel l l1 loc grad out h herr
  have hm : 0 < l.Memory := by omega
  have h1 := (Lbfgs_reached_counter (k - 1) l hr hm).1
  have h2 := Lbfgs_reached_firstLoopInds (k - 1) l hr hm
  have hk1 : k - 1 + 1 = k := by omega
  rw [hk1] at h2
  refine ⟨h1, h2, Lbfgs_secondLoopInds_eq _ _ _, Lbfgs_firstLoopInds_nodup _ _ _ hc, ?_, rfl⟩
  intro ind hind
  rw [h2, List.mem_map] at hind
  obtain ⟨i, hi, rfl⟩ := hind
  rw [List.mem_range] at hi
  refine ⟨k - i, by omega, by omega, ?_⟩
  congr 1
  omega

/-- C6, witness: the first iteration (`k = 1`) of the demonstration run. -/
theorem C6_lbfgs_loop_slots_witness :
    ∃ s, Lbfgs.Iterate 2 demoLbfgs demoLoc demoGrad
        = .ok (demoLbfgs.update s demoResult,
            { loc := demoResult.Loc, grad := demoResult.Grad, obj := demoResult.Obj,
              nFunEvals := demoResult.NFunEvals, err := none }) ∧
      Lbfgs.firstLoopInds demoLbfgs.counter demoLbfgs.Memory demoLbfgs.looped
        = (List.range (min demoLbfgs.Memory 1)).map (fun i => (1 - 1 - i) % demoLbfgs.Memory) ∧
      Lbfgs.secondLoopInds demoLbfgs.counter demoLbfgs.Memory demoLbfgs.looped
        = (Lbfgs.firstLoopInds demoLbfgs.counter demoLbfgs.Memory demoLbfgs.looped).reverse := by
  obtain ⟨s, hs⟩ := demo_lbfgs_iterate
  have hr : Lbfgs.ReachedAfter (1 - 1) demoLbfgs :=
    Lbfgs.ReachedAfter.init DefaultSettings 30 demoFn demoLoc (1 / 4) demoGrad
  have h := C6_lbfgs_loop_slots 1 (le_refl 1) demoLbfgs _ 2 demoLoc demoGrad _ hr hs rfl
  exact ⟨s, hs, h.2.1, h.2.2.1⟩

/-- C7: after every successful `Lbfgs.Iterate` (from a state reached from
`Init`), if every history pair used by the recursion has `y . s > 0` and the
new gradient is non-zero, the new search direction `q` is a descent direction:
`q . newGrad < 0`. -/
theorem C7_lbfgs_descent_direction (k : ℕ) (l l1 : Lbfgs n) (fuel : ℕ) (loc grad : Vec n)
    (out : MultiIterOut n) (hr : Lbfgs.ReachedAfter k l)
    (h : Lbfgs.Iterate fuel l loc grad = .ok (l1, out)) (herr : out.err = none)
    (hpos : ∀ ind ∈ Lbfgs.firstLoopInds l.counter l.Memory l.looped,
      0 < l1.yHist ind ⬝ᵥ l1.sHist ind)
    (hg : l1.currGrad ≠ 0) :
    l1.q ⬝ᵥ l1.currGrad < 0 := by
  have hr1 : Lbfgs.ReachedAfter (k + 1) l1 :=
    Lbfgs.ReachedAfter.success k l l1 fuel loc grad out hr h herr
  have hinv := Lbfgs_reached_invRho (k + 1) l1 hr1
  obtain ⟨settings, result, _, hc, rfl, _⟩ := Lbfgs_Iterate_success fuel l l1 loc grad out h herr
  have hnd := Lbfgs_firstLoopInds_nodup l.counter l.Memory l.looped hc
  have hq : (l.update settings result).q
      = Lbfgs.recursion (l.update settings result).invRhoHist (l.update settings result).sHist
          (l.update settings result).yHist (Lbfgs.firstLoopInds l.counter l.Memory l.looped)
          (fun i => -1 * result.Grad i) := by
    rw [← Lbfgs_loops_eq_recursion _ _ _ _ hnd l.alpha, ← Lbfgs_secondLoopInds_eq]
    rfl
  have hgrad : (l.update settings result).currGrad = result.Grad := rfl
  rw [hgrad] at hg ⊢
  have hq0 : (fun i => -1 * result.Grad i) ≠ 0 := by
    intro h0
    apply hg
    funext i
    have := congrFun h0 i
    simpa using this
  have hp := Lbfgs_recursion_pos (l.update settings result).invRhoHist
    (l.update settings result).sHist (l.update settings result).yHist
    (Lbfgs.firstLoopInds l.counter l.Memory l.looped)
    (fun ind hind => ⟨hinv ind, hpos ind hind⟩) (fun i => -1 * result.Grad i) hq0
  rw [hq, dotProduct_comm]
  have e : (fun i => -1 * result.Grad i) = -result.Grad := by
    funext i
    simp
  rw [e] at hp ⊢
  rw [neg_dotProduct] at hp
  linarith

/-- C7, witness: after the first `Lbfgs.Iterate` of the demonstration run the
stored pair has `y . s = 1 / 8`, the new gradient is `1 / 4`, and the new
direction is a descent direction. -/
theorem C7_lbfgs_descent_direction_witness :
    ∃ s, Lbfgs.Iterate 2 demoLbfgs demoLoc demoGrad
        = .ok (demoLbfgs.update s demoResult,
            { loc := demoResult.Loc, grad := demoResult.Grad, obj := demoResult.Obj,
              nFunEvals := demoResult.NFunEvals, err := none }) ∧
      (demoLbfgs.update s demoResult).currGrad ≠ 0 ∧
      (demoLbfgs.update s demoResult).q ⬝ᵥ (demoLbfgs.update s demoResult).currGrad < 0 := by
  obtain ⟨s, hs⟩ := demo_lbfgs_iterate
  have hr : Lbfgs.ReachedAfter 0 demoLbfgs :=
    Lbfgs.ReachedAfter.init DefaultSettings 30 demoFn demoLoc (1 / 4) demoGrad
  have hg : (demoLbfgs.update s demoResult).currGrad ≠ 0 := by
    intro h0
    have := congrFun h0 0
    norm_num [Lbfgs.update, demoResult] at this
  have hpos : ∀ ind ∈ Lbfgs.firstLoopInds demoLbfgs.counter demoLbfgs.Memory demoLbfgs.looped,
      0 < (demoLbfgs.update s demoResult).yHist ind ⬝ᵥ (demoLbfgs.update s demoResult).sHist ind := by
    intro ind hind
    have h0 : ind = 0 := by
      have h1 : 0 = ind := by
        simpa [Lbfgs.firstLoopInds, Lbfgs.loopMax, Lbfgs.ind, demoLbfgs, Lbfgs.Init] using hind
      exact h1.symm
    subst h0
    norm_num [dot_one, Lbfgs.update, demoResult, demoLbfgs, Lbfgs.Init, demoLoc, demoGrad]
  exact ⟨s, hs, hg,
    C7_lbfgs_descent_direction 0 demoLbfgs _ 2 demoLoc demoGrad _ hr hs rfl hpos hg⟩

end LbfgsTheorems

/-! ## Theorems: the safeguarded interpolation stepper -/

section DcstepTheorems

/-- The model of `math.Sqrt` is exact on squares. -/
theorem sqrt_exact_on_squares (r : ℚ) (hr : 0 ≤ r) : Opt.sqrt (r * r) = r := by
  unfold Opt.sqrt
  rw [Rat.mul_self_num, Rat.mul_self_den]
  have hn : 0 ≤ r.num := Rat.num_nonneg.mpr hr
  obtain ⟨a, ha⟩ := Int.eq_ofNat_of_zero_le hn
  have h1 : (r.num * r.num).toNat * (r.den * r.den) = (a * r.den) * (a * r.den) := by
    rw [ha]
    have : ((a : ℤ) * (a : ℤ)).toNat = a * a := by
      rw [← Int.natCast_mul, Int.toNat_natCast]
    rw [this]
    ring
  rw [h1, Nat.sqrt_eq]
  have hd : (r.den : ℚ) ≠ 0 := by exact_mod_cast r.den_nz
  have h2 : r = (a : ℚ) / r.den := by
    have := Rat.num_div_den r
    rw [ha] at this
    exact_mod_cast this.symm
  have h3 : ((a * r.den : ℕ) : ℚ) / ((r.den * r.den : ℕ) : ℚ) = (a : ℚ) / r.den := by
    push_cast
    field_simp
    ring
  rw [h3]
  exact h2.symm

theorem sqrt_at_one : Opt.sqrt 1 = 1 := by
  have h := sqrt_exact_on_squares 1 (by norm_num)
  simpa using h

theorem sqrt_at_16_7921 : Opt.sqrt (16 / 7921) = 4 / 89 := by
  have h := sqrt_exact_on_squares (4 / 89) (by norm_num)
  norm_num at h
  exact h

/-- The interval after `Dcstep.Iterate` has its end points among the old end
points and the trial step: it is `[stx, stp]`, `[stp, stx]` or `[stp, sty]`. -/
theorem Dcstep_Iterate_endpoints {σ : Type} (d : Dcstep) (f : UniObjGrader σ) (st : σ) :
    ((d.Iterate f st).1.stx = d.stx ∧ (d.Iterate f st).1.sty = d.stp) ∨
    ((d.Iterate f st).1.stx = d.stp ∧ (d.Iterate f st).1.sty = d.stx) ∨
    ((d.Iterate f st).1.stx = d.stp ∧ (d.Iterate f st).1.sty = d.sty) := by
  have hs : ∀ e : Dcstep, e.safeguard.stx = e.stx ∧ e.safeguard.sty = e.sty := by
    intro e
    unfold Dcstep.safeguard
    simp only
    split_ifs <;> exact ⟨rfl, rfl⟩
  have ho : ∀ (stx fx dx sty fy dy stp fp dp : ℚ) (b : Bool) (lo hi : ℚ),
      ((dcstep stx fx dx sty fy dy stp fp dp b lo hi).stx = stx ∧
        (dcstep stx fx dx sty fy dy stp fp dp b lo hi).sty = stp) ∨
      ((dcstep stx fx dx sty fy dy stp fp dp b lo hi).stx = stp ∧
        (dcstep stx fx dx sty fy dy stp fp dp b lo hi).sty = stx) ∨
      ((dcstep stx fx dx sty fy dy stp fp dp b lo hi).stx = stp ∧
        (dcstep stx fx dx sty fy dy stp fp dp b lo hi).sty = sty) := by
    intro stx fx dx sty fy dy stp fp dp b lo hi
    unfold dcstep
    simp only
    split_ifs <;> simp
  simp only [Dcstep.Iterate]
  rw [(hs _).1, (hs _).2]
  unfold Dcstep.update
  simp only
  split_ifs <;> exact ho _ _ _ _ _ _ _ _ _ _ _ _

/-- Under the assumption documented in the header of `dcstep`, that the trial
step lies between the end points of the interval, `Dcstep.Iterate` does not
increase the width `|sty - stx|`. -/
theorem Dcstep_width_of_step_inside {σ : Type} (d : Dcstep) (f : UniObjGrader σ) (st : σ)
    (h1 : min d.stx d.sty ≤ d.stp) (h2 : d.stp ≤ max d.stx d.sty) :
    |(d.Iterate f st).1.sty - (d.Iterate f st).1.stx| ≤ |d.sty - d.stx| := by
  rcases Dcstep_Iterate_endpoints d f st with ⟨a, b⟩ | ⟨a, b⟩ | ⟨a, b⟩ <;> rw [a, b] <;>
    rcases le_total d.stx d.sty with hxy | hxy <;>
    simp only [min_eq_left hxy, max_eq_right hxy, min_eq_right hxy, max_eq_left hxy] at h1 h2 <;>
    rw [abs_le] <;> constructor <;>
    first
    | (rw [abs_of_nonneg (sub_nonneg.mpr hxy)]; linarith)
    | (rw [abs_of_nonpos (sub_nonpos.mpr hxy)]; linarith)

/-- C8 (the code at the failing input): `NewDcstep()` with the initial step
`1e-9` is initialised without error; its first `Iterate` on `cubicLine` finds a
higher value at `1e-9`, sets `bracket = true` with the interval `[0, 1e-9]`, and
then forces the next trial step up to `MinStep = 1e-8`, outside the interval. -/
theorem C8_trial_step_outside_bracket :
    ((NewDcstep.SetInitStep tinyStep).Init 0 0 (-1)).2 = none ∧
    (tinyDcstep.Iterate cubicLine ()).1.bracket = true ∧
    (tinyDcstep.Iterate cubicLine ()).1.stx = 0 ∧
    (tinyDcstep.Iterate cubicLine ()).1.sty = 1 / 1000000000 ∧
    (tinyDcstep.Iterate cubicLine ()).1.stp = 1 / 100000000 ∧
    ¬ (min (tinyDcstep.Iterate cubicLine ()).1.stx (tinyDcstep.Iterate cubicLine ()).1.sty
        < (tinyDcstep.Iterate cubicLine ()).1.stp ∧
      (tinyDcstep.Iterate cubicLine ()).1.stp
        < max (tinyDcstep.Iterate cubicLine ()).1.stx (tinyDcstep.Iterate cubicLine ()).1.sty) := by
  norm_num [tinyDcstep, NewDcstep, Dcstep.SetInitStep, Dcstep.Init, tinyStep, xtrapu, xtrapl,
    Dcstep.Iterate, cubicLine, Dcstep.update, Dcstep.safeguard, dcstep, dcstepCase1, sqrt_at_one,
    abs_of_pos, abs_of_neg]

set_option maxHeartbeats 4000000 in
/-- C9 (the code at the failing input): after the first `Iterate` of
`tinyDcstep` the stepper is bracketed with the interval `[0, 1e-9]` of width
`1e-9` and the trial step `1e-8`; the second `Iterate` finds a lower value at
`1e-8`, moves `stx` there, and leaves the interval `[1e-9, 1e-8]` of width
`9e-9`. -/
theorem C9_bracket_width_increases :
    tinyDcstep1.bracket = true ∧
    |tinyDcstep1.sty - tinyDcstep1.stx| = 1 / 1000000000 ∧
    (tinyDcstep1.Iterate cubicLine ()).1.bracket = true ∧
    |(tinyDcstep1.Iterate cubicLine ()).1.sty - (tinyDcstep1.Iterate cubicLine ()).1.stx|
      = 9 / 1000000000 ∧
    ¬ (|(tinyDcstep1.Iterate cubicLine ()).1.sty - (tinyDcstep1.Iterate cubicLine ()).1.stx|
      ≤ |tinyDcstep1.sty - tinyDcstep1.stx|) := by
  norm_num [tinyDcstep1, tinyDcstep, NewDcstep, Dcstep.SetInitStep, Dcstep.Init, tinyStep, xtrapu,
    xtrapl, Dcstep.Iterate, cubicLine, Dcstep.update, Dcstep.safeguard, dcstep, dcstepCase1,
    dcstepCase4, sqrt_at_one, sqrt_at_16_7921, abs_of_pos, abs_of_neg]

end DcstepTheorems

/-! ## Theorems: the status of the Wolfe conditions -/

section WolfeStatusTheorems

/-- C14 (amended): for `WolfeConditions` of type Strong, `Status` returns
`WolfeConditionsMet` exactly when the sufficient decrease inequality
`currObj ≤ initObj + funConst * step * initGrad` holds (equality included) and
the curvature inequality holds strictly, `|currGrad| < gradConst * |initGrad|`;
in every other state of type Strong it returns `Continue`. -/
theorem C14_strong_status_met_iff (w : WolfeConditions) (ht : w.t = Strong) :
    (w.Status = .ok .WolfeConditionsMet ↔
      (w.currObj ≤ w.initObj + w.funConst * w.step * w.initGrad ∧
        |w.currGrad| < w.gradConst * |w.initGrad|)) ∧
    (w.Status = .ok .Continue ↔
      ¬ (w.currObj ≤ w.initObj + w.funConst * w.step * w.initGrad ∧
        |w.currGrad| < w.gradConst * |w.initGrad|)) := by
  unfold WolfeConditions.Status
  rw [if_pos ht]
  by_cases h1 : w.initObj + w.funConst * w.step * w.initGrad < w.currObj
  · rw [if_pos h1]
    have h1n : ¬ w.currObj ≤ w.initObj + w.funConst * w.step * w.initGrad := not_le.mpr h1
    simp [h1n]
  · rw [if_neg h1]
    have h1p : w.currObj ≤ w.initObj + w.funConst * w.step * w.initGrad := not_lt.mp h1
    by_cases h2 : w.gradConst * |w.initGrad| ≤ |w.currGrad|
    · rw [if_pos h2]
      have h2n : ¬ |w.currGrad| < w.gradConst * |w.initGrad| := not_lt.mpr h2
      simp [h2n]
    · rw [if_neg h2]
      have h2p : |w.currGrad| < w.gradConst * |w.initGrad| := not_le.mp h2
      simp [h1p, h2p]

/-- C14, witness: the state `wolfeStrict` is of type Strong, satisfies both
inequalities (the curvature one strictly) and has the status
`WolfeConditionsMet`. -/
theorem C14_strong_status_met_iff_witness :
    wolfeStrict.t = Strong ∧ wolfeStrict.Status = .ok .WolfeConditionsMet := by
  refine ⟨rfl, (C14_strong_status_met_iff wolfeStrict rfl).1.mpr ?_⟩
  norm_num [wolfeStrict, wolfeAtEquality, abs_of_pos, abs_of_neg]

/-- C14, counterexample: the state `wolfeAtEquality` is of type Strong and
satisfies both inequalities as the claim writes them (the curvature one with
equality), and `Status` returns `Continue`, not `WolfeConditionsMet`. -/
theorem C14_counterexample :
    wolfeAtEquality.t = Strong ∧
    wolfeAtEquality.currObj
      ≤ wolfeAtEquality.initObj
        + wolfeAtEquality.funConst * wolfeAtEquality.step * wolfeAtEquality.initGrad ∧
    |wolfeAtEquality.currGrad| ≤ wolfeAtEquality.gradConst * |wolfeAtEquality.initGrad| ∧
    wolfeAtEquality.Status = .ok .Continue ∧
    wolfeAtEquality.Status ≠ .ok .WolfeConditionsMet := by
  norm_num [wolfeAtEquality, WolfeConditions.Status, Strong, abs_of_pos, abs_of_neg]
  simp

end WolfeStatusTheorems

/-! ## Theorems: the descent test of `GradLinesearch` -/

section DescentTest

variable {n : ℕ}

/-- The two errors with which `GradLinesearch` returns before its loop: a
positive directional derivative, and a `Dcstep` step finder asked for the Weak
conditions. -/
theorem GradLinesearch_setup_inl (settings s1 : Settings) (fn : ObjGrader n)
    (sv initLoc : Vec n) (initObj : ℚ) (initGrad : Vec n) (prevObj : ℚ) (err : Error)
    (h : GradLinesearch.setup settings fn sv initLoc initObj initGrad prevObj
      = .ok (s1, .inl err)) :
    (0 < sv ⬝ᵥ initGrad ∧ err = .initialGradientPositive) ∨
    (sv ⬝ᵥ initGrad ≤ 0 ∧ err = .mustHaveStrongWolfe) := by
  unfold GradLinesearch.setup at h
  simp only [div_one] at h
  split at h
  · rename_i hgrad
    simp only [Except.ok.injEq, Prod.mk.injEq, Sum.inl.injEq] at h
    exact Or.inl ⟨hgrad, h.2.symm⟩
  · rename_i hgrad
    right
    refine ⟨not_lt.mp hgrad, ?_⟩
    split at h
    · simp at h
    · split at h
      · simp at h
      · split at h
        · rename_i e he
          simp only [Except.ok.injEq, Prod.mk.injEq, Sum.inl.injEq] at h
          obtain ⟨-, rfl⟩ := h
          revert he
          generalize GradOptimizer.SetInitStep settings.Optimizer _ = o
          cases o with
          | bisection b => simp [GradOptimizer.SetWolfeConditions]
          | dcstep d =>
            simp only [GradOptimizer.SetWolfeConditions, Dcstep.SetWolfeConditions]
            split_ifs
            · intro he; simpa using he.symm
            · simp
        · split at h
          · simp at h
          · split at h <;> simp at h

/-- C11 (amended): `GradLinesearch` rejects a search direction exactly when
`searchVector . initGrad > 0`: it then returns the error "Initial gradient is
positive" with no `Result`, leaves the settings untouched and has not evaluated
the objective.  A direction with `searchVector . initGrad ≤ 0` (so also
exactly `0`) is never answered with this error. -/
theorem C11_rejects_positive_gradient (fuel : ℕ) (settings : Settings) (fn : ObjGrader n)
    (sv initLoc : Vec n) (initObj : ℚ) (initGrad : Vec n) (prevObj : ℚ) :
    (0 < sv ⬝ᵥ initGrad →
      GradLinesearch fuel settings fn sv initLoc initObj initGrad prevObj
        = .ok (settings, none, some .initialGradientPositive) ∧
      GradLinesearch.objGradCalls fuel settings fn sv initLoc initObj initGrad prevObj = 0) ∧
    (sv ⬝ᵥ initGrad ≤ 0 → ∀ out,
      GradLinesearch fuel settings fn sv initLoc initObj initGrad prevObj = .ok out →
      out.2.2 ≠ some .initialGradientPositive) := by
  constructor
  · intro h
    have hs : GradLinesearch.setup settings fn sv initLoc initObj initGrad prevObj
        = .ok (settings, .inl .initialGradientPositive) := by
      unfold GradLinesearch.setup
      simp only [div_one]
      rw [if_pos h]
    constructor
    · unfold GradLinesearch
      rw [hs]
    · unfold GradLinesearch.objGradCalls
      rw [hs]
  · intro h out ho
    rcases GradLinesearch_cases fuel settings fn sv initLoc initObj initGrad prevObj out ho with
      ⟨s1, err, hs, he⟩ | ⟨s1, s0, status, s, hs, hl, he⟩
    · rcases GradLinesearch_setup_inl settings s1 fn sv initLoc initObj initGrad prevObj err hs with
        ⟨hp, -⟩ | ⟨-, rfl⟩
      · exact absurd hp (not_lt.mpr h)
      · rw [he]; simp
    · rw [he]
      split_ifs <;> simp

set_option maxHeartbeats 4000000 in
/-- The run of `GradLinesearch` on `demoFn` from its minimiser `x = 0` in the
direction `+1`, with at most one iteration allowed: the objective is evaluated
at the steps `1` and `1 / 2`, and the search ends with the status
`MaximumIterations`. -/
theorem short_linesearch :
    ∃ s r, GradLinesearch 3 shortSettings demoFn unitDir zeroLoc 0 zeroGrad 5000
        = .ok (s, some r, some (.Notconverged .MaximumIterations)) ∧
      r.NFunEvals = 2 ∧
      GradLinesearch.objGradCalls 3 shortSettings demoFn unitDir zeroLoc 0 zeroGrad 5000 = 2 := by
  norm_num [GradLinesearch, GradLinesearch.objGradCalls, GradLinesearch.setup, shortSettings,
         DefaultSettings, dot_one, unitDir, zeroLoc, zeroGrad,
         demoLoc, demoFn, demoResult, WolfeConditions.Init, Strong, Weak, GradOptimizer.SetInitStep,
         GradOptimizer.SetWolfeConditions, Bisection.SetInitStep, GradLinesearch.initStepSize,
         NewUniGradWrapper, UniGradWrapper.Init, NewUniHelper, UniHelper.Init, Common.Init,
         SingleOutput.Init, UniToler.Init, DefaultSingleOutputSettings, DefaultCommonSettings,
         UniDefaultSettings, GradOptimizer.Init, Bisection.Init, bind, Except.bind, pure, Except.pure,
         GradLinesearch.loop, WolfeConditions.Status, GradLinesearch.result, UniGradWrapper.Status,
         UniHelper.Status, SingleOutput.Status, UniToler.AbsConverged, UniToler.RelConverged,
         Common.Status, GradOptimizer.Status, Bisection.Status, UniGradWrapper.Iterate,
         GradOptimizer.Iterate, Bisection.Iterate, linesearchFun.asUni, linesearchFun.ObjGrad,
         Bisection.iterateUnbounded, Bisection.iterateBounded, UniHelper.Iterate, Common.Iterate, SingleOutput.Iterate,
         UniToler.Add, WolfeConditions.Iterate, EqualWithinAbsOrRel, EqualWithinAbs, EqualWithinRel,
         UniGradWrapper.Result, UniHelper.Result, Common.Result, abs_of_pos, abs_of_neg]
  simp
  exact ⟨_, _, ⟨rfl, rfl⟩, rfl⟩

/-- C11, witness: the direction `+1` at the start point of the demonstration
run has the directional derivative `1 / 2 > 0` and is rejected without an
evaluation; the steepest descent direction there (directional derivative
`-1 / 4`) is searched and accepted. -/
theorem C11_rejects_positive_gradient_witness :
    (0 < unitDir ⬝ᵥ demoGrad ∧
      GradLinesearch 1 DefaultSettings demoFn unitDir demoLoc (1 / 4) demoGrad (1 / 4 + 5000)
        = .ok (DefaultSettings, none, some .initialGradientPositive) ∧
      GradLinesearch.objGradCalls 1 DefaultSettings demoFn unitDir demoLoc (1 / 4) demoGrad
        (1 / 4 + 5000) = 0) ∧
    (demoDir ⬝ᵥ demoGrad ≤ 0 ∧
      ∃ s, GradLinesearch 2 DefaultSettings demoFn demoDir demoLoc (1 / 4) demoGrad (1 / 4 + 5000)
        = .ok (s, some demoResult, none) ∧
      (none : Option Error) ≠ some .initialGradientPositive) := by
  have h1 : 0 < unitDir ⬝ᵥ demoGrad := by norm_num [dot_one, unitDir, demoGrad]
  have h2 : demoDir ⬝ᵥ demoGrad ≤ 0 := by norm_num [dot_one, demoDir, demoGrad]
  obtain ⟨s, hs⟩ := demo_linesearch
  exact ⟨⟨h1, (C11_rejects_positive_gradient 1 DefaultSettings demoFn unitDir demoLoc (1 / 4)
      demoGrad (1 / 4 + 5000)).1 h1⟩,
    h2, s, hs, (C11_rejects_positive_gradient 2 DefaultSettings demoFn demoDir demoLoc (1 / 4)
      demoGrad (1 / 4 + 5000)).2 h2 _ hs⟩

/-- C11, counterexample: at the minimiser `x = 0` of `demoFn` the gradient is
`0`, so `searchVector . initGrad = 0` for the direction `+1`; `GradLinesearch`
does not reject the direction: it evaluates the objective twice (the run is cut
short by `MaximumIterations = 1`) and returns a `Result` together with the
error `Notconverged`. -/
theorem C11_counterexample :
    unitDir ⬝ᵥ zeroGrad = 0 ∧
    demoFn zeroLoc = (0, zeroGrad) ∧
    ∃ s r, GradLinesearch 3 shortSettings demoFn unitDir zeroLoc 0 zeroGrad 5000
        = .ok (s, some r, some (.Notconverged .MaximumIterations)) ∧
      r.NFunEvals = 2 ∧
      GradLinesearch.objGradCalls 3 shortSettings demoFn unitDir zeroLoc 0 zeroGrad 5000 = 2 := by
  refine ⟨by norm_num [dot_one, unitDir, zeroGrad], ?_, short_linesearch⟩
  simp [demoFn, zeroLoc, zeroGrad]
  rfl

end DescentTest

/-! ## Theorems: the trial steps of `Bisection` -/

section BisectionTheorems

/-- The first part of `Bisection.Iterate` keeps a bracketed stepper inside the
interval of its bounds. -/
theorem Bisection_iterateUnbounded_within (b : Bisection) (obj grad lo hi : ℚ)
    (h : b.Within lo hi) : (b.iterateUnbounded obj grad).Within lo hi := by
  obtain ⟨mx, hm, h1, h2, h3, h4⟩ := h
  simp only [Bisection.iterateUnbounded, hm]
  have e1 := min_le_left b.minStep mx
  have e2 := min_le_right b.minStep mx
  have e3 := le_max_left b.minStep mx
  have e4 := le_max_right b.minStep mx
  split_ifs
  · refine ⟨b.currStep, rfl, ?_, ?_, ?_, ?_⟩ <;> dsimp only
    · exact le_min (by linarith) (by linarith)
    · exact max_le (by linarith) (by linarith)
    · rcases le_total b.minStep b.currStep with hc | hc
      · rw [min_eq_left hc]; linarith
      · rw [min_eq_right hc]; linarith
    · rcases le_total b.minStep b.currStep with hc | hc
      · rw [max_eq_right hc]; linarith
      · rw [max_eq_left hc]; linarith
  · refine ⟨mx, rfl, ?_, ?_, ?_, ?_⟩ <;> dsimp only
    · exact le_min (by linarith) (by linarith)
    · exact max_le (by linarith) (by linarith)
    · rcases le_total b.currStep mx with hc | hc
      · rw [min_eq_left hc]; linarith
      · rw [min_eq_right hc]; linarith
    · rcases le_total b.currStep mx with hc | hc
      · rw [max_eq_right hc]; linarith
      · rw [max_eq_left hc]; linarith
  · refine ⟨b.currStep, rfl, ?_, ?_, ?_, ?_⟩ <;> dsimp only
    · exact le_min (by linarith) (by linarith)
    · exact max_le (by linarith) (by linarith)
    · rcases le_total b.minStep b.currStep with hc | hc
      · rw [min_eq_left hc]; linarith
      · rw [min_eq_right hc]; linarith
    · rcases le_total b.minStep b.currStep with hc | hc
      · rw [max_eq_right hc]; linarith
      · rw [max_eq_left hc]; linarith

/-- The last part of `Bisection.Iterate` keeps a bracketed stepper inside the
interval of its bounds. -/
theorem Bisection_iterateBounded_within (b : Bisection) (mx obj grad lo hi : ℚ)
    (hm : b.maxStep = some mx) (h : b.Within lo hi) :
    (b.iterateBounded mx obj grad).Within lo hi := by
  obtain ⟨mx1, hm1, h1, h2, h3, h4⟩ := h
  rw [hm] at hm1
  cases hm1
  simp only [Bisection.iterateBounded, hm]
  have e1 := min_le_left b.minStep mx
  have e2 := min_le_right b.minStep mx
  have e3 := le_max_left b.minStep mx
  have e4 := le_max_right b.minStep mx
  split_ifs
  · refine ⟨mx, rfl, ?_, ?_, ?_, ?_⟩ <;> dsimp only
    · exact le_min (by linarith) (by linarith)
    · exact max_le (by linarith) (by linarith)
    · rcases le_total b.currStep mx with hc | hc
      · rw [min_eq_left hc]; linarith
      · rw [min_eq_right hc]; linarith
    · rcases le_total b.currStep mx with hc | hc
      · rw [max_eq_right hc]; linarith
      · rw [max_eq_left hc]; linarith
  · refine ⟨b.currStep, rfl, ?_, ?_, ?_, ?_⟩ <;> dsimp only
    · exact le_min (by linarith) (by linarith)
    · exact max_le (by linarith) (by linarith)
    · rcases le_total b.minStep b.currStep with hc | hc
      · rw [min_eq_left hc]; linarith
      · rw [min_eq_right hc]; linarith
    · rcases le_total b.minStep b.currStep with hc | hc
      · rw [max_eq_right hc]; linarith
      · rw [max_eq_left hc]; linarith

/-- `Bisection.Iterate` keeps a bracketed stepper inside the interval of its
bounds, whatever the oracle returns. -/
theorem Bisection_Iterate_within {σ : Type} (f : UniObjGrader σ) (b : Bisection) (st : σ)
    (lo hi : ℚ) (h : b.Within lo hi) : (b.Iterate f st).1.Within lo hi := by
  obtain ⟨mx, hm, hr⟩ := h
  have h : b.Within lo hi := ⟨mx, hm, hr⟩
  simp only [Bisection.Iterate, hm]
  split_ifs <;>
    first
    | exact Bisection_iterateUnbounded_within b _ _ lo hi h
    | exact Bisection_iterateBounded_within b mx _ _ lo hi hm h

/-- C17 (amended): for every oracle, as long as no upper bound has been found
(`maxStep` is `+Inf`) a call of `Bisection.Iterate` either doubles the trial
step or sets `maxStep` to the step just tried and moves to the midpoint of
`minStep` and `maxStep`; and from a state with a finite `maxStep` whose trial
step lies between `minStep` and `maxStep` on, the bounds and the trial steps of
all later calls stay in the interval spanned by that `minStep` and `maxStep`,
so the magnitudes of the trial steps stay bounded from the first bound on. -/
theorem C17_bisection_steps_bounded_once_bracketed {σ : Type} (f : UniObjGrader σ)
    (b : Bisection) (st : σ) :
    (b.maxStep = none →
      ((b.Iterate f st).1.maxStep = none ∧ (b.Iterate f st).1.currStep = b.currStep * 2) ∨
      ((b.Iterate f st).1.maxStep = some b.currStep ∧ (b.Iterate f st).1.minStep = b.minStep ∧
        (b.Iterate f st).1.currStep = (b.minStep + b.currStep) / 2)) ∧
    (∀ lo hi, b.Within lo hi → ∀ k,
      (Bisection.iterates f k (b, st)).1.Within lo hi ∧
      lo ≤ (Bisection.iterates f k (b, st)).1.currStep ∧
      (Bisection.iterates f k (b, st)).1.currStep ≤ hi) := by
  constructor
  · intro hm
    simp only [Bisection.Iterate, hm, Bisection.iterateUnbounded]
    split_ifs <;> simp
  · intro lo hi h k
    have key : (Bisection.iterates f k (b, st)).1.Within lo hi := by
      induction k with
      | zero => exact h
      | succ k ih => exact Bisection_Iterate_within f _ _ lo hi ih
    obtain ⟨mx, hm, h1, h2, h3, h4⟩ := key
    exact ⟨⟨mx, hm, h1, h2, h3, h4⟩, by linarith, by linarith⟩

/-- C17, witness: `unitBisection` has no upper bound and its first `Iterate` on
`downhill` doubles the step; `bracketedBisection` has the bounds `0` and `1` and
its trial step after three more calls lies in `[0, 1]`. -/
theorem C17_bisection_steps_bounded_once_bracketed_witness :
    (unitBisection.maxStep = none ∧
      (((unitBisection.Iterate downhill ()).1.maxStep = none ∧
          (unitBisection.Iterate downhill ()).1.currStep = unitBisection.currStep * 2) ∨
        ((unitBisection.Iterate downhill ()).1.maxStep = some unitBisection.currStep ∧
          (unitBisection.Iterate downhill ()).1.minStep = unitBisection.minStep ∧
          (unitBisection.Iterate downhill ()).1.currStep
            = (unitBisection.minStep + unitBisection.currStep) / 2))) ∧
    (bracketedBisection.Within 0 1 ∧
      0 ≤ (Bisection.iterates downhill 3 (bracketedBisection, ())).1.currStep ∧
      (Bisection.iterates downhill 3 (bracketedBisection, ())).1.currStep ≤ 1) := by
  have h1 : unitBisection.maxStep = none := by
    norm_num [unitBisection, Bisection.Init]
  have h2 : bracketedBisection.Within 0 1 := by
    refine ⟨1, rfl, ?_⟩
    norm_num [bracketedBisection, unitBisection, Bisection.Init]
  exact ⟨⟨h1, (C17_bisection_steps_bounded_once_bracketed downhill unitBisection ()).1 h1⟩, h2,
    ((C17_bisection_steps_bounded_once_bracketed downhill bracketedBisection ()).2 0 1 h2 3).2⟩

/-- On the oracle `downhill` the `k`-th trial step of `unitBisection` is `2 ^ k`:
no call finds an upper bound. -/
theorem Bisection_downhill_steps (k : ℕ) :
    (Bisection.iterates downhill k (unitBisection, ())).1.currStep = 2 ^ k ∧
    (Bisection.iterates downhill k (unitBisection, ())).1.maxStep = none ∧
    (Bisection.iterates downhill k (unitBisection, ())).1.posInitGrad = false ∧
    (Bisection.iterates downhill k (unitBisection, ())).1.initLoc = 0 ∧
    -(2 : ℚ) ^ k < (Bisection.iterates downhill k (unitBisection, ())).1.minObj := by
  induction k with
  | zero => norm_num [Bisection.iterates, unitBisection, Bisection.Init]
  | succ k ih =>
    obtain ⟨h1, h2, h3, h4, h5⟩ := ih
    have hp : (0 : ℚ) < 2 ^ k := by positivity
    simp only [Bisection.iterates, Bisection.Iterate, h2, h3, h4, h1, downhill,
      Bisection.iterateUnbounded]
    have hlt : -(0 + (2 : ℚ) ^ k) < (Bisection.iterates downhill k (unitBisection, ())).1.minObj := by
      simpa using h5
    have hg : ¬ (0 : ℚ) < if false = true then - -1 else -1 := by norm_num
    have hc : EqualWithinAbsOrRel (Bisection.iterates downhill k (unitBisection, ())).1.minObj
          (-(0 + 2 ^ k)) (1 / 10 ^ 15) (1 / 10 ^ 15) = true ∨
        -(0 + (2 : ℚ) ^ k) < (Bisection.iterates downhill k (unitBisection, ())).1.minObj :=
      Or.inr hlt
    simp only [if_neg hg, if_pos hc]
    refine ⟨by ring, trivial, trivial, trivial, ?_⟩
    rw [pow_succ]
    linarith

/-- C17, counterexample: for the objective `x ↦ -x` (derivative `-1`), the
start point `0` and `InitialStepMag = 1`, `Init` returns no error and the trial
step of the `k`-th call of `Iterate` is `2 ^ k`: the magnitudes of the trial
steps are not bounded. -/
theorem C17_counterexample :
    unitBisection.InitialStepMag = 1 ∧
    (({ InitialStepMag := 1 } : Bisection).Init 0 0 (-1)).2 = none ∧
    (∀ k : ℕ, (Bisection.iterates downhill k (unitBisection, ())).1.currStep = 2 ^ k) ∧
    ¬ ∃ B : ℚ, ∀ k : ℕ, |(Bisection.iterates downhill k (unitBisection, ())).1.currStep| ≤ B := by
  refine ⟨by norm_num [unitBisection, Bisection.Init], by norm_num [Bisection.Init],
    fun k => (Bisection_downhill_steps k).1, ?_⟩
  rintro ⟨B, hB⟩
  obtain ⟨k, hk⟩ := pow_unbounded_of_one_lt B (by norm_num : (1 : ℚ) < 2)
  have h := hB k
  rw [(Bisection_downhill_steps k).1, abs_of_pos (by positivity)] at h
  linarith

end BisectionTheorems

/-! ## Theorems: `Init` of the multivariate optimizers -/

section InitTheorems

/-- C12 (amended): `Lbfgs.Init` returns a non-nil error exactly when `initLoc`
or `initGrad` is the nil slice, whatever the lengths; `Bfgs.Init` never returns
a non-nil error: it panics (inside `mat64.NewDense`) exactly when `initGrad` is
not nil and its length differs from that of `initLoc`, and returns nil in every
other case. -/
theorem C12_init_error_cases (LinesearchSettings : Settings) (Memory : ℕ) (initLoc : Slice)
    (f : ObjGrader (sliceLen initLoc)) (initObj : ℚ) (initGrad : Slice) :
    ((Lbfgs.InitSlices LinesearchSettings Memory initLoc f initObj initGrad).2 ≠ none ↔
      (initLoc = none ∨ initGrad = none)) ∧
    ((∃ e, Bfgs.InitSlices LinesearchSettings initLoc f initObj initGrad = .error e) ↔
      (∃ g, initGrad = some g ∧ g.length ≠ sliceLen initLoc)) ∧
    (∀ out, Bfgs.InitSlices LinesearchSettings initLoc f initObj initGrad = .ok out →
      out.2 = none) := by
  refine ⟨?_, ?_, ?_⟩
  · cases initLoc <;> cases initGrad <;> simp [Lbfgs.InitSlices]
  · cases initGrad with
    | none => simp [Bfgs.InitSlices]
    | some g =>
      simp only [Bfgs.InitSlices]
      split_ifs with h
      · simp [Ne.symm h]
      · have h2 : sliceLen initLoc = g.length := not_not.mp h
        simp [h2]
  · intro out h
    cases initGrad with
    | none =>
      simp only [Bfgs.InitSlices, Except.ok.injEq] at h
      rw [← h]
      rfl
    | some g =>
      simp only [Bfgs.InitSlices] at h
      split_ifs at h
      simp only [Except.ok.injEq] at h
      rw [← h]
      rfl

/-- C12, witness: `Bfgs.Init` called with the start point and the gradient of
the demonstration run returns, with a nil error. -/
theorem C12_init_error_cases_witness :
    ∃ out, Bfgs.InitSlices DefaultSettings (some [1]) demoFn (1 / 4) (some [1 / 2]) = .ok out ∧
      out.2 = none := by
  have h : ∃ out, Bfgs.InitSlices DefaultSettings (some [1]) demoFn (1 / 4) (some [1 / 2])
      = .ok out := by
    simp [Bfgs.InitSlices, sliceLen]
  obtain ⟨out, ho⟩ := h
  exact ⟨out, ho, (C12_init_error_cases DefaultSettings 30 (some [1]) demoFn (1 / 4)
    (some [1 / 2])).2.2 out ho⟩

/-- C12, counterexample: with `initLoc` of length `1` and `initGrad` of length
`2`, `Lbfgs.Init` returns a nil error and `Bfgs.Init` does not return (it
panics); with two empty non-nil slices (a domain of length zero) both `Init`
methods return a nil error. -/
theorem C12_counterexample :
    sliceLen (some [1]) ≠ sliceLen (some [1 / 2, 3]) ∧
    (Lbfgs.InitSlices DefaultSettings 30 (some [1]) demoFn (1 / 4) (some [1 / 2, 3])).2 = none ∧
    (∃ e, Bfgs.InitSlices DefaultSettings (some [1]) demoFn (1 / 4) (some [1 / 2, 3])
      = .error e) ∧
    sliceLen (some []) = 0 ∧
    (Lbfgs.InitSlices DefaultSettings 30 (some []) (fun x => (0, x)) 0 (some [])).2 = none ∧
    (∃ b, Bfgs.InitSlices DefaultSettings (some []) (fun x => (0, x)) 0 (some [])
      = .ok (b, none)) := by
  refine ⟨by simp [sliceLen], by simp [Lbfgs.InitSlices], ?_, rfl, by simp [Lbfgs.InitSlices], ?_⟩
  · simp [Bfgs.InitSlices, sliceLen]
  · simp [Bfgs.InitSlices, sliceLen, Bfgs.Init]

end InitTheorems

/-! ## Theorems: a run does not depend on what an earlier run left behind -/

section Rerun

variable {n : ℕ}

theorem ExceptRel_refl {α : Type} (R : α → α → Prop) (hR : ∀ a, R a a) (x : Except Fault α) :
    ExceptRel R x x := by
  cases x with
  | error e => rfl
  | ok a => exact hR a

theorem GradOptimizer_SameConfig_refl (o : GradOptimizer) : o.SameConfig o := by
  cases o <;> simp [GradOptimizer.SameConfig]

theorem GradOptimizer_SameConfig_symm (o o' : GradOptimizer) (h : o.SameConfig o') :
    o'.SameConfig o := by
  cases o <;> cases o' <;> simp_all [GradOptimizer.SameConfig]

theorem GradOptimizer_SameConfig_trans (o o' o'' : GradOptimizer) (h : o.SameConfig o')
    (h' : o'.SameConfig o'') : o.SameConfig o'' := by
  cases o <;> cases o' <;> cases o'' <;> simp_all [GradOptimizer.SameConfig]

theorem GradOptimizer_Alike_refl (o : GradOptimizer) : o.Alike o := by
  cases o <;> simp [GradOptimizer.Alike]

theorem GradOptimizer_Alike_sameConfig (o o' : GradOptimizer) (h : o.Alike o') :
    o.SameConfig o' := by
  cases o with
  | bisection b =>
    cases o' with
    | bisection b' =>
      simp only [GradOptimizer.Alike] at h
      simp [GradOptimizer.SameConfig, h]
    | dcstep d' => simp [GradOptimizer.Alike] at h
  | dcstep d =>
    cases o' with
    | bisection b' => simp [GradOptimizer.Alike] at h
    | dcstep d' =>
      simp only [GradOptimizer.Alike] at h
      have h1 := congrArg Dcstep.MinStep h
      have h2 := congrArg Dcstep.MaxStep h
      exact ⟨h1, h2⟩

/-- `Dcstep.Iterate` does not read the cleared fields. -/
theorem Dcstep_Iterate_norm {σ : Type} (d d' : Dcstep) (f : UniObjGrader σ) (st : σ)
    (h : d.norm = d'.norm) :
    (d.Iterate f st).2 = (d'.Iterate f st).2 ∧ (d.Iterate f st).1.norm = (d'.Iterate f st).1.norm := by
  obtain ⟨a1, a2, a3, a4, a5, a6, a7, a8, a9, a10, a11, a12, a13, a14, a15, a16, a17, a18, a19,
    a20, a21, a22, a23, a24, a25, a26, a27⟩ := d
  obtain ⟨b1, b2, b3, b4, b5, b6, b7, b8, b9, b10, b11, b12, b13, b14, b15, b16, b17, b18, b19,
    b20, b21, b22, b23, b24, b25, b26, b27⟩ := d'
  simp only [Dcstep.norm, Dcstep.mk.injEq, true_and, and_true] at h
  obtain ⟨rfl, rfl, rfl, rfl, rfl, rfl, rfl, rfl, rfl, rfl, rfl, rfl, rfl, rfl, rfl, rfl, rfl,
    rfl, rfl, rfl, rfl, rfl, rfl, rfl⟩ := h
  constructor
  · rfl
  · simp only [Dcstep.Iterate, Dcstep.update, Dcstep.safeguard, Dcstep.norm]
    split_ifs <;> rfl

/-- `Iterate` of a step finder does not read the fields ignored by `Alike`. -/
theorem GradOptimizer_Iterate_alike {σ : Type} (o o' : GradOptimizer) (f : UniObjGrader σ)
    (st : σ) (h : o.Alike o') :
    (o.Iterate f st).2 = (o'.Iterate f st).2 ∧ (o.Iterate f st).1.Alike (o'.Iterate f st).1 := by
  cases o with
  | bisection b =>
    cases o' with
    | bisection b' =>
      simp only [GradOptimizer.Alike] at h
      subst h
      exact ⟨rfl, GradOptimizer_Alike_refl _⟩
    | dcstep d' => simp [GradOptimizer.Alike] at h
  | dcstep d =>
    cases o' with
    | bisection b' => simp [GradOptimizer.Alike] at h
    | dcstep d' =>
      simp only [GradOptimizer.Alike] at h
      have := Dcstep_Iterate_norm d d' f st h
      exact ⟨this.1, this.2⟩

theorem GradOptimizer_Status_const (o : GradOptimizer) : o.Status = .Continue := by
  cases o <;> rfl

theorem UniGradWrapper_Iterate_alike {σ : Type} (g g' : UniGradWrapper) (f : UniObjGrader σ)
    (st : σ) (hh : g.helper = g'.helper) (ho : g.optimizer.Alike g'.optimizer) :
    ExceptRel UniIterAlike (g.Iterate f st) (g'.Iterate f st) := by
  obtain ⟨h1, h2⟩ := GradOptimizer_Iterate_alike g.optimizer g'.optimizer f st ho
  unfold UniGradWrapper.Iterate
  simp only [← h1, ← hh]
  cases he : (g.optimizer.Iterate f st).2.2.err with
  | some e =>
    simp only [ExceptRel, UniIterAlike]
    exact ⟨trivial, trivial, h2⟩
  | none =>
    simp only [bind, Except.bind, pure, Except.pure]
    cases hi : g.helper.Iterate (g.optimizer.Iterate f st).2.2.loc (g.optimizer.Iterate f st).2.2.obj
        (g.optimizer.Iterate f st).2.2.grad (g.optimizer.Iterate f st).2.2.nFunEvals with
    | error e => simp [ExceptRel]
    | ok h =>
      simp only [ExceptRel, UniIterAlike]
      exact ⟨trivial, trivial, h2⟩

theorem UniGradWrapper_Status_alike (g g' : UniGradWrapper) (hh : g.helper = g'.helper) :
    g.Status = g'.Status := by
  unfold UniGradWrapper.Status
  rw [hh, GradOptimizer_Status_const, GradOptimizer_Status_const]

/-- The loop of `GradLinesearch` run from two states that agree up to ignored
fields ends in the same way. -/
theorem GradLinesearch_loop_alike (sv : Vec n) (fuel : ℕ) (s s' : LsState n) (h : s.Alike s') :
    ExceptRel LsExit.Alike (GradLinesearch.loop sv fuel s) (GradLinesearch.loop sv fuel s') := by
  induction fuel generalizing s s' with
  | zero => simp [GradLinesearch.loop, ExceptRel]
  | succ k ih =>
    obtain ⟨hw, hl, hh, ho⟩ := h
    have hst := UniGradWrapper_Status_alike s.wrapper s'.wrapper hh
    have hit := UniGradWrapper_Iterate_alike s.wrapper s'.wrapper (linesearchFun.asUni n) s.line
      hh ho
    unfold GradLinesearch.loop
    rw [← hw, ← hst, ← hl]
    cases hws : s.wolfe.Status with
    | error e => simp [ExceptRel]
    | ok status =>
      dsimp only
      split_ifs with hc
      · exact ⟨rfl, hw, hl, hh, ho⟩
      · cases hwr : s.wrapper.Status with
        | error e => simp [ExceptRel]
        | ok status2 =>
          dsimp only
          split_ifs with hc2
          · exact ⟨rfl, hw, hl, hh, ho⟩
          · cases hi : s.wrapper.Iterate (linesearchFun.asUni n) s.line with
            | error e =>
              rw [hi] at hit
              cases hi' : s'.wrapper.Iterate (linesearchFun.asUni n) s.line with
              | error e' =>
                rw [hi'] at hit
                simpa [ExceptRel] using hit
              | ok r' =>
                rw [hi'] at hit
                simp [ExceptRel] at hit
            | ok r =>
              rw [hi] at hit
              cases hi' : s'.wrapper.Iterate (linesearchFun.asUni n) s.line with
              | error e' =>
                rw [hi'] at hit
                simp [ExceptRel] at hit
              | ok r' =>
                rw [hi'] at hit
                obtain ⟨e1, e2, e3⟩ := hit
                dsimp only
                rw [← e1]
                cases hre : r.2.2.err with
                | some e => exact ⟨rfl, rfl, rfl, e2, e3⟩
                | none =>
                  dsimp only
                  cases hwi : s.wolfe.Iterate r.2.2.loc r.2.2.obj
                      ((sv ⬝ᵥ r.2.1.currGrad) / 1) with
                  | error e => simp [ExceptRel]
                  | ok w => exact ih _ _ ⟨rfl, rfl, e2, e3⟩

theorem Bisection_init_of_config (b b' : Bisection) (a obj g : ℚ) (hg : ¬ 0 < g)
    (h : b.posInitGrad = b'.posInitGrad) :
    ((b.SetInitStep a).Init 0 obj g).2 = ((b'.SetInitStep a).Init 0 obj g).2 ∧
    (((b.SetInitStep a).Init 0 obj g).2 = none →
      ((b.SetInitStep a).Init 0 obj g).1 = ((b'.SetInitStep a).Init 0 obj g).1) ∧
    ((b.SetInitStep a).Init 0 obj g).1.posInitGrad = b.posInitGrad := by
  obtain ⟨b1, b2, b3, b4, b5, b6, b7, b8, b9, b10⟩ := b
  obtain ⟨c1, c2, c3, c4, c5, c6, c7, c8, c9, c10⟩ := b'
  simp only at h
  subst h
  simp only [Bisection.SetInitStep, Bisection.Init, if_neg hg]
  split_ifs <;> simp

theorem Dcstep_init_of_config (d d' : Dcstep) (a fc gc obj g : ℚ)
    (h : d.MinStep = d'.MinStep ∧ d.MaxStep = d'.MaxStep) :
    ((((d.SetInitStep a).SetWolfeConditions fc gc true).1).Init 0 obj g).2
      = ((((d'.SetInitStep a).SetWolfeConditions fc gc true).1).Init 0 obj g).2 ∧
    (((((d.SetInitStep a).SetWolfeConditions fc gc true).1).Init 0 obj g).2 = none →
      ((((d.SetInitStep a).SetWolfeConditions fc gc true).1).Init 0 obj g).1.norm
        = ((((d'.SetInitStep a).SetWolfeConditions fc gc true).1).Init 0 obj g).1.norm) ∧
    ((((d.SetInitStep a).SetWolfeConditions fc gc true).1).Init 0 obj g).1.MinStep = d.MinStep ∧
    ((((d.SetInitStep a).SetWolfeConditions fc gc true).1).Init 0 obj g).1.MaxStep = d.MaxStep := by
  obtain ⟨h1, h2⟩ := h
  simp only [Dcstep.SetInitStep, Dcstep.SetWolfeConditions, Dcstep.Init, Dcstep.norm, h1, h2,
    Bool.not_true, Bool.false_eq_true, if_false]
  split_ifs <;> simp

set_option maxHeartbeats 1000000 in
/-- The set-up of `GradLinesearch` for two settings that agree in their
configuration gives loop states that agree up to ignored fields. -/
theorem GradLinesearch_setup_alike (s s' : Settings) (h : s.SameConfig s') (fn : ObjGrader n)
    (sv initLoc : Vec n) (initObj : ℚ) (initGrad : Vec n) (prevObj : ℚ) :
    ExceptRel SetupAlike (GradLinesearch.setup s fn sv initLoc initObj initGrad prevObj)
      (GradLinesearch.setup s' fn sv initLoc initObj initGrad prevObj) := by
  obtain ⟨hw, hc, hso, ho⟩ := h
  obtain ⟨uni, wolfe, opt⟩ := s
  obtain ⟨uni', wolfe', opt'⟩ := s'
  simp only at hw hc hso ho
  subst hw
  have huni : ({ uni with InitialGradient := sv ⬝ᵥ initGrad, InitialObjective := some initObj }
      : UniSettings) = { uni' with InitialGradient := sv ⬝ᵥ initGrad,
                                   InitialObjective := some initObj } := by
    rw [UniSettings.mk.injEq]
    exact ⟨hc, hso, rfl, rfl⟩
  unfold GradLinesearch.setup
  simp only [div_one, huni]
  split_ifs with hg
  · exact ⟨⟨rfl, hc, hso, ho⟩, rfl⟩
  · cases hwi : ({} : WolfeConditions).Init wolfe initObj (sv ⬝ᵥ initGrad) with
    | error e => rfl
    | ok w =>
      dsimp only
      cases hstp : GradLinesearch.initStepSize initObj prevObj (sv ⬝ᵥ initGrad) with
      | none => rfl
      | some stp =>
        dsimp only
        cases opt with
        | bisection b =>
          cases opt' with
          | dcstep d' => simp [GradOptimizer.SameConfig] at ho
          | bisection b' =>
            simp only [GradOptimizer.SameConfig] at ho
            obtain ⟨e1, e2, e3⟩ := Bisection_init_of_config b b'
              stp initObj
              (sv ⬝ᵥ initGrad) hg ho
            obtain ⟨f1, f2, f3⟩ := Bisection_init_of_config b' b
              stp initObj
              (sv ⬝ᵥ initGrad) hg ho.symm
            simp only [GradOptimizer.SetInitStep, GradOptimizer.SetWolfeConditions,
              UniGradWrapper.Init, NewUniGradWrapper, GradOptimizer.Init, bind, Except.bind, pure,
              Except.pure]
            cases hh : NewUniHelper.Init ({ uni' with InitialGradient := sv ⬝ᵥ initGrad,
                                                      InitialObjective := some initObj })
                initObj (sv ⬝ᵥ initGrad) with
            | error e => rfl
            | ok hlp =>
              dsimp only
              rw [← e1]
              cases he : ((b.SetInitStep stp).Init 0 initObj (sv ⬝ᵥ initGrad)).2 with
              | some e => rfl
              | none =>
                dsimp only
                refine ⟨⟨rfl, rfl, rfl, ?_⟩, rfl, rfl, rfl, ?_⟩
                · simp only [GradOptimizer.SameConfig]
                  rw [e3, f3, ho]
                · simp only [GradOptimizer.Alike]
                  exact e2 he
        | dcstep d =>
          cases opt' with
          | bisection b' => simp [GradOptimizer.SameConfig] at ho
          | dcstep d' =>
            simp only [GradOptimizer.SameConfig] at ho
            simp only [GradOptimizer.SetInitStep, GradOptimizer.SetWolfeConditions]
            by_cases hst : wolfe.WType = Strong
            · obtain ⟨e1, e2, e3, e4⟩ := Dcstep_init_of_config d d'
                stp wolfe.FunConst
                wolfe.GradConst initObj (sv ⬝ᵥ initGrad) ho
              obtain ⟨f1, f2, f3, f4⟩ := Dcstep_init_of_config d' d
                stp wolfe.FunConst
                wolfe.GradConst initObj (sv ⬝ᵥ initGrad) ⟨ho.1.symm, ho.2.symm⟩
              simp only [hst, decide_True]
              have hn : ∀ x : Dcstep, (x.SetWolfeConditions wolfe.FunConst wolfe.GradConst true).2
                  = none := by
                intro x
                simp [Dcstep.SetWolfeConditions]
              simp only [hn, UniGradWrapper.Init, NewUniGradWrapper, GradOptimizer.Init, bind,
                Except.bind, pure, Except.pure]
              cases hh : NewUniHelper.Init ({ uni' with InitialGradient := sv ⬝ᵥ initGrad,
                                                        InitialObjective := some initObj })
                  initObj (sv ⬝ᵥ initGrad) with
              | error e => rfl
              | ok hlp =>
                dsimp only
                rw [← e1]
                cases he : ((((d.SetInitStep stp).SetWolfeConditions wolfe.FunConst wolfe.GradConst true).1).Init
                    0 initObj (sv ⬝ᵥ initGrad)).2 with
                | some e => rfl
                | none =>
                  dsimp only
                  refine ⟨⟨rfl, rfl, rfl, ?_⟩, rfl, rfl, rfl, ?_⟩
                  · simp only [GradOptimizer.SameConfig]
                    rw [e3, e4, f3, f4]
                    exact ho
                  · simp only [GradOptimizer.Alike]
                    exact e2 he
            · have hd : decide (wolfe.WType = Strong) = false := by simp [hst]
              simp only [hd, Dcstep.SetWolfeConditions, Bool.not_false, if_true]
              refine ⟨⟨rfl, rfl, rfl, ?_⟩, rfl⟩
              simp only [GradOptimizer.SameConfig, Dcstep.SetInitStep]
              exact ho

theorem GradOptimizer_Iterate_config {σ : Type} (o : GradOptimizer) (f : UniObjGrader σ)
    (st : σ) : o.SameConfig (o.Iterate f st).1 := by
  cases o with
  | bisection b =>
    simp only [GradOptimizer.SameConfig, GradOptimizer.Iterate, Bisection.Iterate,
      Bisection.iterateUnbounded, Bisection.iterateBounded]
    split <;> split_ifs <;> rfl
  | dcstep d =>
    simp only [GradOptimizer.SameConfig, GradOptimizer.Iterate, Dcstep.Iterate, Dcstep.update,
      Dcstep.safeguard]
    split_ifs <;> exact ⟨rfl, rfl⟩

theorem UniGradWrapper_Iterate_config {σ : Type} (g : UniGradWrapper) (f : UniObjGrader σ)
    (st : σ) (r : UniGradWrapper × σ × IterOut) (h : g.Iterate f st = .ok r) :
    g.optimizer.SameConfig r.1.optimizer := by
  simp only [UniGradWrapper.Iterate] at h
  split at h
  · simp only [Except.ok.injEq] at h
    rw [← h]
    exact GradOptimizer_Iterate_config _ _ _
  · simp only [bind, Except.bind, pure, Except.pure] at h
    split at h
    · simp at h
    · simp only [Except.ok.injEq] at h
      rw [← h]
      exact GradOptimizer_Iterate_config _ _ _

/-- The loop of `GradLinesearch` keeps the configuration of the step finder. -/
theorem GradLinesearch_loop_config (sv : Vec n) (fuel : ℕ) (s : LsState n) (x : LsExit n)
    (h : GradLinesearch.loop sv fuel s = .ok x) :
    s.wrapper.optimizer.SameConfig x.state.wrapper.optimizer := by
  induction fuel generalizing s with
  | zero => simp [GradLinesearch.loop] at h
  | succ k ih =>
    unfold GradLinesearch.loop at h
    split at h
    · simp at h
    · split_ifs at h
      · simp only [Except.ok.injEq] at h
        subst h
        exact GradOptimizer_SameConfig_refl _
      · split at h
        · simp at h
        · split_ifs at h
          · simp only [Except.ok.injEq] at h
            subst h
            exact GradOptimizer_SameConfig_refl _
          · split at h
            · simp at h
            · rename_i r hr
              have hc := UniGradWrapper_Iterate_config _ _ _ _ hr
              split at h
              · simp only [Except.ok.injEq] at h
                subst h
                exact hc
              · dsimp only at h
                split at h
                · simp at h
                · exact GradOptimizer_SameConfig_trans _ _ _ hc (ih _ h)

/-- The set-up of `GradLinesearch` keeps the configuration of the settings. -/
theorem GradLinesearch_setup_config (s : Settings) (fn : ObjGrader n)
    (sv initLoc : Vec n) (initObj : ℚ) (initGrad : Vec n) (prevObj : ℚ)
    (r : Settings × (Error ⊕ LsState n))
    (h : GradLinesearch.setup s fn sv initLoc initObj initGrad prevObj = .ok r) :
    s.SameConfig r.1 ∧ ∀ s0, r.2 = .inr s0 → s.Optimizer.SameConfig s0.wrapper.optimizer := by
  unfold GradLinesearch.setup at h
  simp only [div_one] at h
  split_ifs at h with hg
  · simp only [Except.ok.injEq] at h
    subst h
    exact ⟨⟨rfl, rfl, rfl, GradOptimizer_SameConfig_refl _⟩, by simp⟩
  · split at h
    · simp at h
    · split at h
      · simp at h
      · rename_i stp hstp
        have hsw : s.Optimizer.SameConfig
            ((s.Optimizer.SetInitStep stp).SetWolfeConditions s.Wolfe.FunConst s.Wolfe.GradConst
              (decide (s.Wolfe.WType = Strong))).1 := by
          cases s.Optimizer with
          | bisection b =>
            simp [GradOptimizer.SameConfig, GradOptimizer.SetInitStep,
              GradOptimizer.SetWolfeConditions, Bisection.SetInitStep]
          | dcstep d =>
            simp only [GradOptimizer.SameConfig, GradOptimizer.SetInitStep,
              GradOptimizer.SetWolfeConditions, Dcstep.SetInitStep, Dcstep.SetWolfeConditions]
            split_ifs <;> exact ⟨rfl, rfl⟩
        split at h
        · simp only [Except.ok.injEq] at h
          subst h
          exact ⟨⟨rfl, rfl, rfl, hsw⟩, by simp⟩
        · split at h
          · simp at h
          · rename_i wi hwi
            split at h
            · simp at h
            · simp only [Except.ok.injEq] at h
              subst h
              have hin : ((s.Optimizer.SetInitStep stp).SetWolfeConditions s.Wolfe.FunConst s.Wolfe.GradConst
                  (decide (s.Wolfe.WType = Strong))).1.SameConfig wi.1.optimizer := by
                simp only [UniGradWrapper.Init, NewUniGradWrapper, bind, Except.bind, pure,
                  Except.pure] at hwi
                split at hwi
                · simp at hwi
                · simp only [Except.ok.injEq] at hwi
                  subst hwi
                  dsimp only
                  generalize ((s.Optimizer.SetInitStep stp).SetWolfeConditions s.Wolfe.FunConst s.Wolfe.GradConst
                    (decide (s.Wolfe.WType = Strong))).1 = o
                  cases o with
                  | bisection b =>
                    simp only [GradOptimizer.SameConfig, GradOptimizer.Init, Bisection.Init, if_neg hg]
                    split_ifs <;> rfl
                  | dcstep d =>
                    simp only [GradOptimizer.SameConfig, GradOptimizer.Init, Dcstep.Init]
                    split_ifs <;> exact ⟨rfl, rfl⟩
              have := GradOptimizer_SameConfig_trans _ _ _ hsw hin
              refine ⟨⟨rfl, rfl, rfl, this⟩, ?_⟩
              intro s0 hs0
              simp only [Sum.inr.injEq] at hs0
              subst hs0
              exact this

theorem Settings_SameConfig_refl (s : Settings) : s.SameConfig s :=
  ⟨rfl, rfl, rfl, GradOptimizer_SameConfig_refl _⟩

theorem Settings_SameConfig_symm (s s' : Settings) (h : s.SameConfig s') : s'.SameConfig s :=
  ⟨h.1.symm, h.2.1.symm, h.2.2.1.symm, GradOptimizer_SameConfig_symm _ _ h.2.2.2⟩

theorem Settings_SameConfig_trans (s s' s'' : Settings) (h : s.SameConfig s')
    (h' : s'.SameConfig s'') : s.SameConfig s'' :=
  ⟨h.1.trans h'.1, h.2.1.trans h'.2.1, h.2.2.1.trans h'.2.2.1,
    GradOptimizer_SameConfig_trans _ _ _ h.2.2.2 h'.2.2.2⟩

theorem GradLinesearch_result_alike (s s' : LsState n) (status : Status) (h : s.Alike s') :
    GradLinesearch.result s status = GradLinesearch.result s' status := by
  obtain ⟨-, hl, hh, -⟩ := h
  simp only [GradLinesearch.result, UniGradWrapper.Result, hl, hh]

/-- `GradLinesearch` does not depend on what an earlier call left in the
settings: for two settings that agree in their configuration it returns the
same `Result` and error (or panics in the same way). -/
theorem GradLinesearch_alike (fuel : ℕ) (s s' : Settings) (h : s.SameConfig s')
    (fn : ObjGrader n) (sv initLoc : Vec n) (initObj : ℚ) (initGrad : Vec n) (prevObj : ℚ) :
    ExceptRel LsOutAlike (GradLinesearch fuel s fn sv initLoc initObj initGrad prevObj)
      (GradLinesearch fuel s' fn sv initLoc initObj initGrad prevObj) ∧
    GradLinesearch.objGradCalls fuel s fn sv initLoc initObj initGrad prevObj
      = GradLinesearch.objGradCalls fuel s' fn sv initLoc initObj initGrad prevObj := by
  have hs := GradLinesearch_setup_alike s s' h fn sv initLoc initObj initGrad prevObj
  unfold GradLinesearch GradLinesearch.objGradCalls
  cases h1 : GradLinesearch.setup s fn sv initLoc initObj initGrad prevObj with
  | error e =>
    cases h2 : GradLinesearch.setup s' fn sv initLoc initObj initGrad prevObj with
    | error e' =>
      rw [h1, h2] at hs
      exact ⟨hs, rfl⟩
    | ok r' =>
      rw [h1, h2] at hs
      exact absurd hs (by simp [ExceptRel])
  | ok r =>
    cases h2 : GradLinesearch.setup s' fn sv initLoc initObj initGrad prevObj with
    | error e' =>
      rw [h1, h2] at hs
      exact absurd hs (by simp [ExceptRel])
    | ok r' =>
      rw [h1, h2] at hs
      obtain ⟨t, x⟩ := r
      obtain ⟨t', x'⟩ := r'
      obtain ⟨ht, hx⟩ := hs
      cases x with
      | inl e =>
        cases x' with
        | inl e' =>
          simp only at hx
          subst hx
          exact ⟨⟨ht, rfl⟩, rfl⟩
        | inr s0' => simp at hx
      | inr s0 =>
        cases x' with
        | inl e' => simp at hx
        | inr s0' =>
          simp only at hx
          have hl := GradLinesearch_loop_alike sv fuel s0 s0' hx
          dsimp only
          cases l1 : GradLinesearch.loop sv fuel s0 with
          | error e =>
            cases l2 : GradLinesearch.loop sv fuel s0' with
            | error e' =>
              rw [l1, l2] at hl
              exact ⟨hl, rfl⟩
            | ok y' =>
              rw [l1, l2] at hl
              exact absurd hl (by simp [ExceptRel])
          | ok y =>
            cases l2 : GradLinesearch.loop sv fuel s0' with
            | error e' =>
              rw [l1, l2] at hl
              exact absurd hl (by simp [ExceptRel])
            | ok y' =>
              rw [l1, l2] at hl
              simp only [ExceptRel] at hl
              cases y with
              | done st z =>
                cases y' with
                | done st' z' =>
                  obtain ⟨rfl, hz⟩ := hl
                  have hr := GradLinesearch_result_alike z z' st hz
                  have hc : ({ t with Optimizer := z.wrapper.optimizer } : Settings).SameConfig
                      { t' with Optimizer := z'.wrapper.optimizer } :=
                    ⟨ht.1, ht.2.1, ht.2.2.1, GradOptimizer_Alike_sameConfig _ _ hz.2.2.2⟩
                  dsimp only
                  rw [hr, hz.2.1]
                  split_ifs
                  · exact ⟨⟨hc, rfl⟩, rfl⟩
                  · exact ⟨⟨hc, rfl⟩, rfl⟩
                | iterError e' z' => simp [LsExit.Alike] at hl
              | iterError e z =>
                cases y' with
                | done st' z' => simp [LsExit.Alike] at hl
                | iterError e' z' =>
                  obtain ⟨rfl, hz⟩ := hl
                  have hc : ({ t with Optimizer := z.wrapper.optimizer } : Settings).SameConfig
                      { t' with Optimizer := z'.wrapper.optimizer } :=
                    ⟨ht.1, ht.2.1, ht.2.2.1, GradOptimizer_Alike_sameConfig _ _ hz.2.2.2⟩
                  dsimp only
                  rw [hz.2.1]
                  exact ⟨⟨hc, rfl⟩, rfl⟩

/-- `GradLinesearch` returns settings that agree in their configuration with
the ones it was given. -/
theorem GradLinesearch_config (fuel : ℕ) (s : Settings) (fn : ObjGrader n)
    (sv initLoc : Vec n) (initObj : ℚ) (initGrad : Vec n) (prevObj : ℚ)
    (r : Settings × Option (Result n) × Option Error)
    (h : GradLinesearch fuel s fn sv initLoc initObj initGrad prevObj = .ok r) :
    s.SameConfig r.1 := by
  unfold GradLinesearch at h
  cases h1 : GradLinesearch.setup s fn sv initLoc initObj initGrad prevObj with
  | error e => simp [h1] at h
  | ok q =>
    obtain ⟨hq1, hq2⟩ := GradLinesearch_setup_config s fn sv initLoc initObj initGrad prevObj q h1
    obtain ⟨t, x⟩ := q
    rw [h1] at h
    cases x with
    | inl e =>
      simp only [Except.ok.injEq] at h
      subst h
      exact hq1
    | inr s0 =>
      dsimp only at h
      have ho := hq2 s0 rfl
      cases l1 : GradLinesearch.loop sv fuel s0 with
      | error e => simp [l1] at h
      | ok y =>
        have hy := GradLinesearch_loop_config sv fuel s0 y l1
        rw [l1] at h
        have hc : s.SameConfig { t with Optimizer := y.state.wrapper.optimizer } :=
          ⟨hq1.1, hq1.2.1, hq1.2.2.1, GradOptimizer_SameConfig_trans _ _ _ ho hy⟩
        cases y with
        | done st z =>
          dsimp only at h
          split_ifs at h <;>
          · simp only [Except.ok.injEq] at h
            subst h
            exact hc
        | iterError e z =>
          simp only [Except.ok.injEq] at h
          subst h
          exact hc

theorem MultiOptimizer_SameConfig_refl (o : MultiOptimizer n) : o.SameConfig o := by
  cases o with
  | bfgs b => exact Settings_SameConfig_refl _
  | lbfgs l => exact ⟨Settings_SameConfig_refl _, rfl⟩

theorem MultiOptimizer_SameConfig_trans (o o' o'' : MultiOptimizer n) (h : o.SameConfig o')
    (h' : o'.SameConfig o'') : o.SameConfig o'' := by
  cases o <;> cases o' <;> cases o'' <;> simp only [MultiOptimizer.SameConfig] at h h' ⊢
  · exact Settings_SameConfig_trans _ _ _ h h'
  · exact ⟨Settings_SameConfig_trans _ _ _ h.1 h'.1, h.2.trans h'.2⟩

theorem MultiOptimizer_SameConfig_symm (o o' : MultiOptimizer n) (h : o.SameConfig o') :
    o'.SameConfig o := by
  cases o <;> cases o' <;> simp only [MultiOptimizer.SameConfig] at h ⊢
  · exact Settings_SameConfig_symm _ _ h
  · exact ⟨Settings_SameConfig_symm _ _ h.1, h.2.symm⟩

theorem MultiOptimizer_Alike_sameConfig (o o' : MultiOptimizer n) (h : o.Alike o') :
    o.SameConfig o' := by
  cases o with
  | bfgs b =>
    cases o' with
    | bfgs b' => exact h.1
    | lbfgs l' => simp [MultiOptimizer.Alike] at h
  | lbfgs l =>
    cases o' with
    | bfgs b' => simp [MultiOptimizer.Alike] at h
    | lbfgs l' =>
      obtain ⟨h1, h2⟩ := h
      refine ⟨h1, ?_⟩
      rw [h2]

/-- `Init` of two optimizers with the same configuration gives optimizers that
agree up to ignored fields, and the same error. -/
theorem MultiOptimizer_Init_alike (o o' : MultiOptimizer n) (h : o.SameConfig o')
    (f : ObjGrader n) (initLoc : Vec n) (initObj : ℚ) (initGrad : Option (Vec n)) :
    (o.Init f initLoc initObj initGrad).2 = (o'.Init f initLoc initObj initGrad).2 ∧
    ((o.Init f initLoc initObj initGrad).2 = none →
      (o.Init f initLoc initObj initGrad).1.Alike (o'.Init f initLoc initObj initGrad).1) ∧
    o.SameConfig (o.Init f initLoc initObj initGrad).1 := by
  cases o with
  | bfgs b =>
    cases o' with
    | bfgs b' =>
      simp only [MultiOptimizer.SameConfig] at h
      exact ⟨rfl, fun _ => ⟨h, rfl⟩, Settings_SameConfig_refl _⟩
    | lbfgs l' => simp [MultiOptimizer.SameConfig] at h
  | lbfgs l =>
    cases o' with
    | bfgs b' => simp [MultiOptimizer.SameConfig] at h
    | lbfgs l' =>
      simp only [MultiOptimizer.SameConfig] at h
      cases initGrad with
      | none =>
        refine ⟨rfl, ?_, Settings_SameConfig_refl _, rfl⟩
        intro hn
        simp [MultiOptimizer.Init] at hn
      | some g =>
        refine ⟨rfl, fun _ => ⟨h.1, ?_⟩, Settings_SameConfig_refl _, rfl⟩
        simp only [Lbfgs.Init, h.2]

theorem Bfgs_Iterate_alike (fuel : ℕ) (b : Bfgs n) (s' : Settings)
    (h : b.LinesearchSettings.SameConfig s') (loc grad : Vec n) :
    ExceptRel MultiIterAlike
      (MultiOptimizer.Iterate fuel (.bfgs b) loc grad)
      (MultiOptimizer.Iterate fuel (.bfgs { b with LinesearchSettings := s' }) loc grad) ∧
    MultiOptimizer.iterateCalls fuel (.bfgs b)
      = MultiOptimizer.iterateCalls fuel (.bfgs { b with LinesearchSettings := s' }) := by
  obtain ⟨h1, h2⟩ := GradLinesearch_alike fuel b.LinesearchSettings s' h b.fn b.p b.currLoc
    b.currObj b.currGrad b.prevObj
  refine ⟨?_, h2⟩
  simp only [MultiOptimizer.Iterate, Bfgs.Iterate]
  cases g1 : GradLinesearch fuel b.LinesearchSettings b.fn b.p b.currLoc b.currObj b.currGrad
      b.prevObj with
  | error e =>
    cases g2 : GradLinesearch fuel s' b.fn b.p b.currLoc b.currObj b.currGrad b.prevObj with
    | error e' =>
      rw [g1, g2] at h1
      simpa [ExceptRel] using h1
    | ok r' =>
      rw [g1, g2] at h1
      exact absurd h1 (by simp [ExceptRel])
  | ok r =>
    cases g2 : GradLinesearch fuel s' b.fn b.p b.currLoc b.currObj b.currGrad b.prevObj with
    | error e' =>
      rw [g1, g2] at h1
      exact absurd h1 (by simp [ExceptRel])
    | ok r' =>
      rw [g1, g2] at h1
      obtain ⟨t, res, err⟩ := r
      obtain ⟨t', res', err'⟩ := r'
      obtain ⟨hc, he⟩ := h1
      simp only [Prod.mk.injEq] at he
      obtain ⟨rfl, rfl⟩ := he
      cases err with
      | some e =>
        simp only [ExceptRel, MultiIterAlike, MultiOptimizer.Alike]
        exact ⟨⟨hc, trivial⟩, trivial⟩
      | none =>
        cases res with
        | none => rfl
        | some result =>
          simp only [ExceptRel, MultiIterAlike, MultiOptimizer.Alike]
          exact ⟨⟨hc, rfl⟩, trivial⟩

theorem Lbfgs_Iterate_alike (fuel : ℕ) (l : Lbfgs n) (s' : Settings)
    (h : l.LinesearchSettings.SameConfig s') (loc grad : Vec n) :
    ExceptRel MultiIterAlike
      (MultiOptimizer.Iterate fuel (.lbfgs l) loc grad)
      (MultiOptimizer.Iterate fuel (.lbfgs { l with LinesearchSettings := s' }) loc grad) ∧
    MultiOptimizer.iterateCalls fuel (.lbfgs l)
      = MultiOptimizer.iterateCalls fuel (.lbfgs { l with LinesearchSettings := s' }) := by
  obtain ⟨h1, h2⟩ := GradLinesearch_alike fuel l.LinesearchSettings s' h l.fn l.q l.currLoc
    l.currObj l.currGrad l.prevObj
  refine ⟨?_, h2⟩
  simp only [MultiOptimizer.Iterate, Lbfgs.Iterate]
  cases g1 : GradLinesearch fuel l.LinesearchSettings l.fn l.q l.currLoc l.currObj l.currGrad
      l.prevObj with
  | error e =>
    cases g2 : GradLinesearch fuel s' l.fn l.q l.currLoc l.currObj l.currGrad l.prevObj with
    | error e' =>
      rw [g1, g2] at h1
      simpa [ExceptRel] using h1
    | ok r' =>
      rw [g1, g2] at h1
      exact absurd h1 (by simp [ExceptRel])
  | ok r =>
    cases g2 : GradLinesearch fuel s' l.fn l.q l.currLoc l.currObj l.currGrad l.prevObj with
    | error e' =>
      rw [g1, g2] at h1
      exact absurd h1 (by simp [ExceptRel])
    | ok r' =>
      rw [g1, g2] at h1
      obtain ⟨t, res, err⟩ := r
      obtain ⟨t', res', err'⟩ := r'
      obtain ⟨hc, he⟩ := h1
      simp only [Prod.mk.injEq] at he
      obtain ⟨rfl, rfl⟩ := he
      cases err with
      | some e =>
        simp only [ExceptRel, MultiIterAlike, MultiOptimizer.Alike]
        exact ⟨⟨hc, trivial⟩, trivial⟩
      | none =>
        cases res with
        | none => rfl
        | some result =>
          dsimp only
          split_ifs
          · simp only [ExceptRel, MultiIterAlike, MultiOptimizer.Alike]
            exact ⟨⟨hc, rfl⟩, trivial⟩
          · rfl

/-- `Iterate` of two optimizers that agree up to ignored fields gives the same
output, the same number of evaluations, and optimizers that agree again. -/
theorem MultiOptimizer_Iterate_alike (fuel : ℕ) (o o' : MultiOptimizer n) (h : o.Alike o')
    (loc grad : Vec n) :
    ExceptRel MultiIterAlike (o.Iterate fuel loc grad) (o'.Iterate fuel loc grad) ∧
    o.iterateCalls fuel = o'.iterateCalls fuel := by
  cases o with
  | bfgs b =>
    cases o' with
    | bfgs b' =>
      obtain ⟨h1, h2⟩ := h
      rw [h2]
      exact Bfgs_Iterate_alike fuel b _ h1 loc grad
    | lbfgs l' => simp [MultiOptimizer.Alike] at h
  | lbfgs l =>
    cases o' with
    | bfgs b' => simp [MultiOptimizer.Alike] at h
    | lbfgs l' =>
      obtain ⟨h1, h2⟩ := h
      rw [h2]
      exact Lbfgs_Iterate_alike fuel l _ h1 loc grad

/-- `Iterate` keeps the configuration of a multivariate optimizer. -/
theorem MultiOptimizer_Iterate_config (fuel : ℕ) (o : MultiOptimizer n) (loc grad : Vec n)
    (r : MultiOptimizer n × MultiIterOut n) (h : o.Iterate fuel loc grad = .ok r) :
    o.SameConfig r.1 := by
  cases o with
  | bfgs b =>
    simp only [MultiOptimizer.Iterate, Bfgs.Iterate] at h
    cases g1 : GradLinesearch fuel b.LinesearchSettings b.fn b.p b.currLoc b.currObj b.currGrad
        b.prevObj with
    | error e => simp [g1] at h
    | ok q =>
      have hc := GradLinesearch_config fuel _ _ _ _ _ _ _ q g1
      obtain ⟨t, res, err⟩ := q
      rw [g1] at h
      cases err with
      | some e =>
        simp only [Except.ok.injEq] at h
        subst h
        exact hc
      | none =>
        cases res with
        | none => simp at h
        | some result =>
          simp only [Except.ok.injEq] at h
          subst h
          exact hc
  | lbfgs l =>
    simp only [MultiOptimizer.Iterate, Lbfgs.Iterate] at h
    cases g1 : GradLinesearch fuel l.LinesearchSettings l.fn l.q l.currLoc l.currObj l.currGrad
        l.prevObj with
    | error e => simp [g1] at h
    | ok q =>
      have hc := GradLinesearch_config fuel _ _ _ _ _ _ _ q g1
      obtain ⟨t, res, err⟩ := q
      rw [g1] at h
      cases err with
      | some e =>
        simp only [Except.ok.injEq] at h
        subst h
        exact ⟨hc, rfl⟩
      | none =>
        cases res with
        | none => simp at h
        | some result =>
          dsimp only at h
          split_ifs at h
          simp only [Except.ok.injEq] at h
          subst h
          exact ⟨hc, rfl⟩

theorem MultiGradWrapper_Iterate_alike (fuel : ℕ) (g g' : MultiGradWrapper n)
    (hh : g.helper = g'.helper) (ho : g.optimizer.Alike g'.optimizer) (loc grad : Vec n) :
    ExceptRel MultiWrapIterAlike (g.Iterate fuel loc grad) (g'.Iterate fuel loc grad) := by
  have h1 := (MultiOptimizer_Iterate_alike fuel g.optimizer g'.optimizer ho loc grad).1
  unfold MultiGradWrapper.Iterate
  rw [← hh]
  cases i1 : g.optimizer.Iterate fuel loc grad with
  | error e =>
    cases i2 : g'.optimizer.Iterate fuel loc grad with
    | error e' =>
      rw [i1, i2] at h1
      exact h1
    | ok r' =>
      rw [i1, i2] at h1
      exact absurd h1 (by simp [ExceptRel])
  | ok r =>
    cases i2 : g'.optimizer.Iterate fuel loc grad with
    | error e' =>
      rw [i1, i2] at h1
      exact absurd h1 (by simp [ExceptRel])
    | ok r' =>
      rw [i1, i2] at h1
      obtain ⟨ha, he⟩ := h1
      dsimp only
      rw [← he]
      cases hre : r.2.err with
      | some e => exact ⟨rfl, ha, rfl⟩
      | none =>
        dsimp only
        cases hi : g.helper.Iterate r.2.loc r.2.obj r.2.grad r.2.nFunEvals with
        | error e => rfl
        | ok h => exact ⟨rfl, ha, rfl⟩

theorem MultiGradWrapper_Status_alike (g g' : MultiGradWrapper n) (hh : g.helper = g'.helper) :
    g.Status = g'.Status := by
  unfold MultiGradWrapper.Status
  rw [hh]
  rfl

/-- The loop of `OptimizeGrad` run from two states that agree up to ignored
fields ends in the same way. -/
theorem OptimizeGrad_loop_alike (lsFuel fuel : ℕ) (s s' : OgState n) (h : s.Alike s') :
    ExceptRel OgExit.Alike (OptimizeGrad.loop lsFuel fuel s) (OptimizeGrad.loop lsFuel fuel s') := by
  induction fuel generalizing s s' with
  | zero => simp [OptimizeGrad.loop, ExceptRel]
  | succ k ih =>
    obtain ⟨hh, ho, hl, hg, hc⟩ := h
    have hst := MultiGradWrapper_Status_alike s.wrapper s'.wrapper hh
    have hit := MultiGradWrapper_Iterate_alike lsFuel s.wrapper s'.wrapper hh ho s.loc s.grad
    have hcalls := (MultiOptimizer_Iterate_alike lsFuel s.wrapper.optimizer s'.wrapper.optimizer
      ho s.loc s.grad).2
    unfold OptimizeGrad.loop
    rw [← hst, ← hl, ← hg, ← hc, ← hcalls]
    cases hws : s.wrapper.Status with
    | error e => simp [ExceptRel]
    | ok status =>
      dsimp only
      split_ifs with hcont
      · exact ⟨rfl, hh, ho, hl, hg, hc⟩
      · cases i1 : s.wrapper.Iterate lsFuel s.loc s.grad with
        | error e =>
          cases i2 : s'.wrapper.Iterate lsFuel s.loc s.grad with
          | error e' =>
            rw [i1, i2] at hit
            exact hit
          | ok r' =>
            rw [i1, i2] at hit
            exact absurd hit (by simp [ExceptRel])
        | ok r =>
          cases i2 : s'.wrapper.Iterate lsFuel s.loc s.grad with
          | error e' =>
            rw [i1, i2] at hit
            exact absurd hit (by simp [ExceptRel])
          | ok r' =>
            rw [i1, i2] at hit
            obtain ⟨e1, e2, e3⟩ := hit
            dsimp only
            rw [← e3]
            cases hre : r.2.err with
            | some e => exact ⟨rfl, e1, e2, rfl, rfl, rfl⟩
            | none => exact ih _ _ ⟨e1, e2, rfl, rfl, rfl⟩

theorem MultiGradWrapper_Iterate_config (fuel : ℕ) (g : MultiGradWrapper n) (loc grad : Vec n)
    (r : MultiGradWrapper n × MultiIterOut n) (h : g.Iterate fuel loc grad = .ok r) :
    g.optimizer.SameConfig r.1.optimizer := by
  unfold MultiGradWrapper.Iterate at h
  cases i1 : g.optimizer.Iterate fuel loc grad with
  | error e => simp [i1] at h
  | ok q =>
    have hc := MultiOptimizer_Iterate_config fuel g.optimizer loc grad q i1
    rw [i1] at h
    dsimp only at h
    split at h
    · simp only [Except.ok.injEq] at h
      subst h
      exact hc
    · split at h
      · simp at h
      · simp only [Except.ok.injEq] at h
        subst h
        exact hc

/-- The loop of `OptimizeGrad` keeps the configuration of the optimizer. -/
theorem OptimizeGrad_loop_config (lsFuel fuel : ℕ) (s : OgState n) (x : OgExit n)
    (h : OptimizeGrad.loop lsFuel fuel s = .ok x) :
    s.wrapper.optimizer.SameConfig x.state.wrapper.optimizer := by
  induction fuel generalizing s with
  | zero => simp [OptimizeGrad.loop] at h
  | succ k ih =>
    unfold OptimizeGrad.loop at h
    split at h
    · simp at h
    · split_ifs at h
      · simp only [Except.ok.injEq] at h
        subst h
        exact MultiOptimizer_SameConfig_refl _
      · split at h
        · simp at h
        · rename_i r hr
          have hc := MultiGradWrapper_Iterate_config _ _ _ _ _ hr
          dsimp only at h
          split at h
          · simp only [Except.ok.injEq] at h
            subst h
            exact hc
          · exact MultiOptimizer_SameConfig_trans _ _ _ hc (ih _ h)

theorem MultiGradWrapper_Init_alike (o o' : MultiOptimizer n) (h : o.SameConfig o')
    (settings : MultiSettings n) (f : ObjGrader n) (x : Vec n) :
    ExceptRel (MultiWrapInitAlike o o') ((NewMultiGradWrapper o).Init settings f x)
      ((NewMultiGradWrapper o').Init settings f x) := by
  simp only [MultiGradWrapper.Init, NewMultiGradWrapper, bind, Except.bind, pure, Except.pure]
  split
  · rfl
  · rename_i hlp hh
    obtain ⟨e1, e2, e3⟩ := MultiOptimizer_Init_alike o o' h f x
      (match settings.InitialObjective with | some v => v | none => (f x).1)
      (match settings.InitialObjective with
        | some _ => settings.InitialGradient | none => some (f x).2)
    obtain ⟨-, -, e3'⟩ := MultiOptimizer_Init_alike o' o (MultiOptimizer_SameConfig_symm _ _ h) f x
      (match settings.InitialObjective with | some v => v | none => (f x).1)
      (match settings.InitialObjective with
        | some _ => settings.InitialGradient | none => some (f x).2)
    exact ⟨e1, rfl, e3, e3', e2⟩

/-- `OptimizeGrad` called with two optimizers of the same configuration returns
the same `Result` and error after the same number of evaluations (or panics in
the same way). -/
theorem OptimizeGrad_alike (fuel lsFuel : ℕ) (f : ObjGrader n) (initLoc : Option (Vec n))
    (settings : Option (MultiSettings n)) (o o' : MultiOptimizer n) (h : o.SameConfig o') :
    ExceptRel OgOut.Alike (OptimizeGrad fuel lsFuel f initLoc settings (some o))
      (OptimizeGrad fuel lsFuel f initLoc settings (some o')) := by
  unfold OptimizeGrad
  simp only [Option.getD_some]
  cases initLoc with
  | none => exact ⟨h, rfl, rfl, rfl⟩
  | some x =>
    dsimp only
    have hi := MultiGradWrapper_Init_alike o o' h (settings.getD (MultiDefaultSettings n)) f x
    revert hi
    generalize (NewMultiGradWrapper o).Init (settings.getD (MultiDefaultSettings n)) f x = i1
    generalize (NewMultiGradWrapper o').Init (settings.getD (MultiDefaultSettings n)) f x = i2
    intro hi
    cases i1 with
    | error e =>
      cases i2 with
      | error e' => exact hi
      | ok q' => exact absurd hi (by simp [ExceptRel])
    | ok q =>
      cases i2 with
      | error e' => exact absurd hi (by simp [ExceptRel])
      | ok q' =>
        obtain ⟨w, err⟩ := q
        obtain ⟨w', err'⟩ := q'
        obtain ⟨e1, e2, e3, e3', e4⟩ := hi
        simp only at e1 e2 e3 e3' e4
        subst e1
        cases err with
        | some e =>
          dsimp only
          refine ⟨?_, rfl, rfl, rfl⟩
          exact MultiOptimizer_SameConfig_trans _ _ _
            (MultiOptimizer_SameConfig_trans _ _ _ (MultiOptimizer_SameConfig_symm _ _ e3) h) e3'
        | none =>
          dsimp only
          have hl := OptimizeGrad_loop_alike lsFuel fuel
            { wrapper := w, loc := fun _ => 0, grad := fun _ => 0,
              calls := MultiGradWrapper.initCalls (settings.getD (MultiDefaultSettings n)) }
            { wrapper := w', loc := fun _ => 0, grad := fun _ => 0,
              calls := MultiGradWrapper.initCalls (settings.getD (MultiDefaultSettings n)) }
            ⟨e2, e4 rfl, rfl, rfl, rfl⟩
          revert hl
          generalize OptimizeGrad.loop lsFuel fuel
            { wrapper := w, loc := fun _ => 0, grad := fun _ => 0,
              calls := MultiGradWrapper.initCalls (settings.getD (MultiDefaultSettings n)) } = l1
          generalize OptimizeGrad.loop lsFuel fuel
            { wrapper := w', loc := fun _ => 0, grad := fun _ => 0,
              calls := MultiGradWrapper.initCalls (settings.getD (MultiDefaultSettings n)) } = l2
          intro hl
          cases l1 with
          | error e =>
            cases l2 with
            | error e' => exact hl
            | ok y' => exact absurd hl (by simp [ExceptRel])
          | ok y =>
            cases l2 with
            | error e' => exact absurd hl (by simp [ExceptRel])
            | ok y' =>
              cases y with
              | done st z =>
                cases y' with
                | done st' z' =>
                  obtain ⟨rfl, hz⟩ := hl
                  refine ⟨MultiOptimizer_Alike_sameConfig _ _ hz.2.1, ?_, rfl, hz.2.2.2.2⟩
                  simp only [MultiGradWrapper.Result, hz.1]
                | iterError e' z' => exact absurd hl (by simp [ExceptRel, OgExit.Alike])
              | iterError e z =>
                cases y' with
                | done st' z' => exact absurd hl (by simp [ExceptRel, OgExit.Alike])
                | iterError e' z' =>
                  obtain ⟨rfl, hz⟩ := hl
                  exact ⟨MultiOptimizer_Alike_sameConfig _ _ hz.2.1, rfl, rfl, hz.2.2.2.2⟩

/-- `OptimizeGrad` leaves the optimizer with the configuration it had. -/
theorem OptimizeGrad_config (fuel lsFuel : ℕ) (f : ObjGrader n) (initLoc : Option (Vec n))
    (settings : Option (MultiSettings n)) (o : MultiOptimizer n) (out : OgOut n)
    (h : OptimizeGrad fuel lsFuel f initLoc settings (some o) = .ok out) :
    o.SameConfig out.optimizer := by
  unfold OptimizeGrad at h
  simp only [Option.getD_some] at h
  cases initLoc with
  | none =>
    simp only [Except.ok.injEq] at h
    subst h
    exact MultiOptimizer_SameConfig_refl _
  | some x =>
    dsimp only at h
    cases hi : (NewMultiGradWrapper o).Init (settings.getD (MultiDefaultSettings n)) f x with
    | error e => simp [hi] at h
    | ok q =>
      obtain ⟨w, err⟩ := q
      have hw : o.SameConfig w.optimizer := by
        simp only [MultiGradWrapper.Init, NewMultiGradWrapper, bind, Except.bind, pure,
          Except.pure] at hi
        split at hi
        · simp at hi
        · simp only [Except.ok.injEq, Prod.mk.injEq] at hi
          obtain ⟨rfl, -⟩ := hi
          exact (MultiOptimizer_Init_alike o o (MultiOptimizer_SameConfig_refl _) f x _ _).2.2
      rw [hi] at h
      cases err with
      | some e =>
        simp only [Except.ok.injEq] at h
        subst h
        exact hw
      | none =>
        dsimp only at h
        split at h
        · simp at h
        · rename_i e s hl
          simp only [Except.ok.injEq] at h
          subst h
          exact MultiOptimizer_SameConfig_trans _ _ _ hw (OptimizeGrad_loop_config _ _ _ _ hl)
        · rename_i st s hl
          simp only [Except.ok.injEq] at h
          subst h
          exact MultiOptimizer_SameConfig_trans _ _ _ hw (OptimizeGrad_loop_config _ _ _ _ hl)

/-- C18: when `OptimizeGrad` has returned for an optimizer `o` (a `Bfgs` or an
`Lbfgs` in any state), calling it again with the same objective, start point
and settings on the optimizer as the first run left it (line search settings and
step finder included) returns too, with the same `Result` (in particular the
same `Status`, `Iterations` and `FunctionEvaluations`) and the same error,
after the same number of evaluations of the objective. -/
theorem C18_rerun_same_result (fuel lsFuel : ℕ) (f : ObjGrader n) (initLoc : Option (Vec n))
    (settings : Option (MultiSettings n)) (o : MultiOptimizer n) (out : OgOut n)
    (h : OptimizeGrad fuel lsFuel f initLoc settings (some o) = .ok out) :
    ∃ out', OptimizeGrad fuel lsFuel f initLoc settings (some out.optimizer) = .ok out' ∧
      out'.result = out.result ∧ out'.err = out.err ∧ out'.calls = out.calls ∧
      (∀ r, out.result = some r → ∃ r', out'.result = some r' ∧
        r'.CommonResult.Status = r.CommonResult.Status ∧
        r'.CommonResult.Iterations = r.CommonResult.Iterations ∧
        r'.CommonResult.FunctionEvaluations = r.CommonResult.FunctionEvaluations) := by
  have hc := OptimizeGrad_config fuel lsFuel f initLoc settings o out h
  have ha := OptimizeGrad_alike fuel lsFuel f initLoc settings o out.optimizer hc
  rw [h] at ha
  cases h2 : OptimizeGrad fuel lsFuel f initLoc settings (some out.optimizer) with
  | error e =>
    rw [h2] at ha
    exact absurd ha (by simp [ExceptRel])
  | ok out' =>
    rw [h2] at ha
    obtain ⟨-, a1, a2, a3⟩ := ha
    refine ⟨out', rfl, a1.symm, a2.symm, a3.symm, ?_⟩
    intro r hr
    exact ⟨r, by rw [← a1, hr], rfl, rfl, rfl⟩

end Rerun

/-! ## Theorems: `OptimizeGrad`, its evaluation count and its failed line searches -/

section OptimizeGradTheorems

variable {n : ℕ}

/-- In the loop of `GradLinesearch` the number of evaluations recorded by the
helper grows with the number of calls of the objective. -/
theorem GradLinesearch_loop_calls (sv : Vec n) (fuel : ℕ) (s : LsState n) (x : LsExit n)
    (h : GradLinesearch.loop sv fuel s = .ok x) :
    (x.state.line.nCalls : ℤ) - x.state.wrapper.helper.Common.funEvals
      = (s.line.nCalls : ℤ) - s.wrapper.helper.Common.funEvals := by
  induction fuel generalizing s with
  | zero => simp [GradLinesearch.loop] at h
  | succ k ih =>
    unfold GradLinesearch.loop at h
    split at h
    · simp at h
    · split_ifs at h
      · simp only [Except.ok.injEq] at h
        subst h
        rfl
      · split at h
        · simp at h
        · split_ifs at h
          · simp only [Except.ok.injEq] at h
            subst h
            rfl
          · split at h
            · simp at h
            · rename_i r hr
              obtain ⟨h1, -, -, h4, -, h6⟩ := UniGradWrapper_Iterate_line _ _ _ hr
              split at h
              · rename_i e he
                rw [h4] at he
                simp at he
              · dsimp only at h
                split at h
                · simp at h
                · have := ih _ h
                  rw [this]
                  dsimp only
                  rw [h1, h6]
                  simp only [linesearchFun.ObjGrad]
                  push_cast
                  ring

/-- The number of evaluations reported in the `Result` of `GradLinesearch` is
the number of calls of the objective it made. -/
theorem GradLinesearch_calls (fuel : ℕ) (s : Settings) (fn : ObjGrader n)
    (sv initLoc : Vec n) (initObj : ℚ) (initGrad : Vec n) (prevObj : ℚ)
    (out : Settings × Option (Result n) × Option Error)
    (h : GradLinesearch fuel s fn sv initLoc initObj initGrad prevObj = .ok out) :
    (∀ r, out.2.1 = some r →
      (GradLinesearch.objGradCalls fuel s fn sv initLoc initObj initGrad prevObj : ℤ)
        = r.NFunEvals) ∧
    (out.2.1 = none →
      GradLinesearch.objGradCalls fuel s fn sv initLoc initObj initGrad prevObj = 0) := by
  rcases GradLinesearch_cases fuel s fn sv initLoc initObj initGrad prevObj out h with
    ⟨s1, err, hs, he⟩ | ⟨s1, s0, status, z, hs, hl, he⟩
  · constructor
    · intro r hr
      rw [he] at hr
      simp at hr
    · intro _
      unfold GradLinesearch.objGradCalls
      rw [hs]
  · obtain ⟨-, h2, -, h4, -⟩ := GradLinesearch_setup_inr s s1 fn sv initLoc initObj initGrad
      prevObj s0 hs
    have hc := GradLinesearch_loop_calls sv fuel s0 _ hl
    constructor
    · intro r hr
      rw [he] at hr
      simp only [Option.some.injEq] at hr
      subst hr
      unfold GradLinesearch.objGradCalls
      rw [hs]
      dsimp only
      rw [hl]
      simp only [LsExit.state, h2, h4] at hc
      simp only [GradLinesearch.result, UniGradWrapper.Result, UniHelper.Result, Common.Result]
      push_cast at hc
      linarith
    · intro hn
      rw [he] at hn
      simp at hn

/-- A successful `Iterate` of a multivariate optimizer reports as many
evaluations as its line search made calls of the objective. -/
theorem MultiOptimizer_Iterate_calls (fuel : ℕ) (o : MultiOptimizer n) (loc grad : Vec n)
    (r : MultiOptimizer n × MultiIterOut n) (h : o.Iterate fuel loc grad = .ok r)
    (he : r.2.err = none) : (o.iterateCalls fuel : ℤ) = r.2.nFunEvals := by
  cases o with
  | bfgs b =>
    simp only [MultiOptimizer.Iterate, Bfgs.Iterate] at h
    cases g1 : GradLinesearch fuel b.LinesearchSettings b.fn b.p b.currLoc b.currObj b.currGrad
        b.prevObj with
    | error e => simp [g1] at h
    | ok q =>
      have hc := (GradLinesearch_calls fuel _ _ _ _ _ _ _ q g1).1
      obtain ⟨t, res, err⟩ := q
      rw [g1] at h
      cases err with
      | some e =>
        simp only [Except.ok.injEq] at h
        subst h
        simp at he
      | none =>
        cases res with
        | none => simp at h
        | some result =>
          simp only [Except.ok.injEq] at h
          subst h
          exact hc result rfl
  | lbfgs l =>
    simp only [MultiOptimizer.Iterate, Lbfgs.Iterate] at h
    cases g1 : GradLinesearch fuel l.LinesearchSettings l.fn l.q l.currLoc l.currObj l.currGrad
        l.prevObj with
    | error e => simp [g1] at h
    | ok q =>
      have hc := (GradLinesearch_calls fuel _ _ _ _ _ _ _ q g1).1
      obtain ⟨t, res, err⟩ := q
      rw [g1] at h
      cases err with
      | some e =>
        simp only [Except.ok.injEq] at h
        subst h
        simp at he
      | none =>
        cases res with
        | none => simp at h
        | some result =>
          dsimp only at h
          split_ifs at h
          simp only [Except.ok.injEq] at h
          subst h
          exact hc result rfl

theorem MultiHelper_Iterate_common (u u1 : MultiHelper n) (loc : Vec n) (obj : ℚ) (grad : Vec n)
    (k : ℤ) (h : u.Iterate loc obj grad k = .ok u1) :
    u1.Common.funStatus = u.Common.funStatus ∧ u1.Common.funEvals = u.Common.funEvals + k ∧
    u1.Common.iter = u.Common.iter + 1 := by
  unfold MultiHelper.Iterate at h
  cases hso : u.SingleOutput.Iterate (norm2 grad) obj with
  | error e => simp [hso, bind, Except.bind] at h
  | ok so =>
    simp only [hso, bind, Except.bind, pure, Except.pure] at h
    split_ifs at h <;>
    · simp only [Except.ok.injEq] at h
      subst h
      simp [Common.Iterate]

theorem MultiHelper_Init_common (u u1 : MultiHelper n) (s : MultiSettings n) (initObj : ℚ)
    (initGrad : Option (Vec n)) (h : u.Init s initObj initGrad = .ok u1) :
    u1.Common.funStatus = u.Common.funStatus ∧ u1.Common.funEvals = 0 ∧ u1.Common.iter = 0 ∧
    u1.objBest = none ∧ u1.locBest = none ∧ u1.gradBest = none := by
  unfold MultiHelper.Init at h
  simp only [bind, Except.bind, pure, Except.pure] at h
  split at h
  · simp at h
  · simp only [Except.ok.injEq] at h
    subst h
    simp [Common.Init]

/-- One successful `wrapper.Iterate` of `OptimizeGrad` adds to the recorded
number of evaluations the number of calls of the objective it made. -/
theorem MultiGradWrapper_Iterate_calls (fuel : ℕ) (g : MultiGradWrapper n) (loc grad : Vec n)
    (r : MultiGradWrapper n × MultiIterOut n) (h : g.Iterate fuel loc grad = .ok r)
    (he : r.2.err = none) :
    r.1.helper.Common.funEvals = g.helper.Common.funEvals + g.optimizer.iterateCalls fuel ∧
    r.1.helper.Common.funStatus = g.helper.Common.funStatus := by
  unfold MultiGradWrapper.Iterate at h
  cases i1 : g.optimizer.Iterate fuel loc grad with
  | error e => simp [i1] at h
  | ok q =>
    rw [i1] at h
    dsimp only at h
    cases hq : q.2.err with
    | some e =>
      rw [hq] at h
      simp only [Except.ok.injEq] at h
      subst h
      simp at he
    | none =>
      have hc := MultiOptimizer_Iterate_calls fuel g.optimizer loc grad q i1 hq
      rw [hq] at h
      dsimp only at h
      cases hh : g.helper.Iterate q.2.loc q.2.obj q.2.grad q.2.nFunEvals with
      | error e => simp [hh] at h
      | ok u1 =>
        rw [hh] at h
        simp only [Except.ok.injEq] at h
        subst h
        obtain ⟨a1, a2, -⟩ := MultiHelper_Iterate_common _ _ _ _ _ _ hh
        exact ⟨by rw [a2, hc], a1⟩

/-- In the loop of `OptimizeGrad`, left with a status, the recorded number of
evaluations has grown by the number of calls of the objective. -/
theorem OptimizeGrad_loop_calls (lsFuel fuel : ℕ) (s : OgState n) (st : Status) (z : OgState n)
    (h : OptimizeGrad.loop lsFuel fuel s = .ok (.done st z)) :
    (z.calls : ℤ) - z.wrapper.helper.Common.funEvals
      = (s.calls : ℤ) - s.wrapper.helper.Common.funEvals ∧
    z.wrapper.helper.Common.funStatus = s.wrapper.helper.Common.funStatus ∧
    z.wrapper.Status = .ok st ∧ st ≠ .Continue := by
  induction fuel generalizing s with
  | zero => simp [OptimizeGrad.loop] at h
  | succ k ih =>
    unfold OptimizeGrad.loop at h
    split at h
    · simp at h
    · rename_i status hst
      split_ifs at h with hc
      · simp only [Except.ok.injEq, OgExit.done.injEq] at h
        obtain ⟨rfl, rfl⟩ := h
        exact ⟨rfl, rfl, hst, hc⟩
      · split at h
        · simp at h
        · rename_i r hr
          dsimp only at h
          split at h
          · simp at h
          · rename_i hre
            obtain ⟨a1, a2⟩ := MultiGradWrapper_Iterate_calls _ _ _ _ _ hr hre
            obtain ⟨b1, b2, b3, b4⟩ := ih _ h
            refine ⟨?_, ?_, b3, b4⟩
            · rw [b1]
              dsimp only
              rw [a1]
              push_cast
              ring
            · rw [b2]
              exact a2

/-- The ways `OptimizeGrad` returns: a nil start point, an error of `Init`, the
loop left by a failed `Iterate`, or the loop left with a status. -/
theorem OptimizeGrad_cases (fuel lsFuel : ℕ) (f : ObjGrader n) (initLoc : Option (Vec n))
    (settings : Option (MultiSettings n)) (optimizer : Option (MultiOptimizer n)) (out : OgOut n)
    (h : OptimizeGrad fuel lsFuel f initLoc settings optimizer = .ok out) :
    (initLoc = none ∧ out.result = none ∧ out.err = some .nilInitLoc) ∨
    (∃ x w e, initLoc = some x ∧
      (NewMultiGradWrapper (optimizer.getD (.bfgs (NewBfgs n)))).Init
        (settings.getD (MultiDefaultSettings n)) f x = .ok (w, some e) ∧
      out.result = none ∧ out.err = some (.errorInitializing e)) ∨
    (∃ x w e s, initLoc = some x ∧
      (NewMultiGradWrapper (optimizer.getD (.bfgs (NewBfgs n)))).Init
        (settings.getD (MultiDefaultSettings n)) f x = .ok (w, none) ∧
      OptimizeGrad.loop lsFuel fuel
        { wrapper := w, loc := fun _ => 0, grad := fun _ => 0,
          calls := MultiGradWrapper.initCalls (settings.getD (MultiDefaultSettings n)) }
        = .ok (.iterError e s) ∧
      out.result = none ∧ out.err = some e) ∨
    (∃ x w st s, initLoc = some x ∧
      (NewMultiGradWrapper (optimizer.getD (.bfgs (NewBfgs n)))).Init
        (settings.getD (MultiDefaultSettings n)) f x = .ok (w, none) ∧
      OptimizeGrad.loop lsFuel fuel
        { wrapper := w, loc := fun _ => 0, grad := fun _ => 0,
          calls := MultiGradWrapper.initCalls (settings.getD (MultiDefaultSettings n)) }
        = .ok (.done st s) ∧
      out.result = some (s.wrapper.Result st) ∧ out.err = none ∧ out.calls = s.calls) := by
  unfold OptimizeGrad at h
  cases initLoc with
  | none =>
    simp only [Except.ok.injEq] at h
    subst h
    exact Or.inl ⟨rfl, rfl, rfl⟩
  | some x =>
    dsimp only at h
    cases hi : (NewMultiGradWrapper (optimizer.getD (.bfgs (NewBfgs n)))).Init
        (settings.getD (MultiDefaultSettings n)) f x with
    | error e => simp [hi] at h
    | ok q =>
      obtain ⟨w, err⟩ := q
      rw [hi] at h
      cases err with
      | some e =>
        simp only [Except.ok.injEq] at h
        subst h
        exact Or.inr (Or.inl ⟨x, w, e, rfl, hi, rfl, rfl⟩)
      | none =>
        dsimp only at h
        split at h
        · simp at h
        · rename_i e s hl
          simp only [Except.ok.injEq] at h
          subst h
          exact Or.inr (Or.inr (Or.inl ⟨x, w, e, s, rfl, hi, hl, rfl, rfl⟩))
        · rename_i st s hl
          simp only [Except.ok.injEq] at h
          subst h
          exact Or.inr (Or.inr (Or.inr ⟨x, w, st, s, rfl, hi, hl, rfl, rfl, rfl⟩))

theorem MultiGradWrapper_Init_common (o : MultiOptimizer n) (settings : MultiSettings n)
    (f : ObjGrader n) (x : Vec n) (w : MultiGradWrapper n) (e : Option Error)
    (h : (NewMultiGradWrapper o).Init settings f x = .ok (w, e)) :
    w.helper.Common.funStatus = .Continue ∧ w.helper.Common.funEvals = 0 ∧
    w.helper.Common.iter = 0 ∧ w.helper.objBest = none ∧ w.helper.locBest = none ∧
    w.helper.gradBest = none := by
  simp only [MultiGradWrapper.Init, NewMultiGradWrapper, bind, Except.bind, pure, Except.pure] at h
  split at h
  · simp at h
  · rename_i hlp hh
    simp only [Except.ok.injEq, Prod.mk.injEq] at h
    obtain ⟨rfl, -⟩ := h
    obtain ⟨a1, a2, a3, a4, a5, a6⟩ := MultiHelper_Init_common _ _ _ _ _ hh
    exact ⟨a1, a2, a3, a4, a5, a6⟩

/-- When `OptimizeGrad` returns a `Result`, the number of calls of the user's
`ObjGrad` during the run is `FunctionEvaluations`, plus one when the settings
give no initial objective (`InitialObjective` is `NaN`, the default): the call
made by `GradWrapper.Init` is not counted. -/
theorem OptimizeGrad_result_calls (fuel lsFuel : ℕ) (f : ObjGrader n)
    (initLoc : Option (Vec n)) (settings : Option (MultiSettings n))
    (optimizer : Option (MultiOptimizer n)) (out : OgOut n) (r : MultiResult n)
    (h : OptimizeGrad fuel lsFuel f initLoc settings optimizer = .ok out)
    (hr : out.result = some r) :
    (out.calls : ℤ) = r.CommonResult.FunctionEvaluations
      + (match (settings.getD (MultiDefaultSettings n)).InitialObjective with
          | some _ => 0 | none => 1) := by
  rcases OptimizeGrad_cases fuel lsFuel f initLoc settings optimizer out h with
    ⟨-, h1, -⟩ | ⟨x, w, e, -, -, h1, -⟩ | ⟨x, w, e, s, -, -, -, h1, -⟩ |
    ⟨x, w, st, s, -, hi, hl, h1, -, h3⟩
  · rw [h1] at hr; simp at hr
  · rw [h1] at hr; simp at hr
  · rw [h1] at hr; simp at hr
  · rw [h1] at hr
    simp only [Option.some.injEq] at hr
    subst hr
    obtain ⟨-, a2, -⟩ := MultiGradWrapper_Init_common _ _ _ _ _ _ hi
    obtain ⟨b1, -⟩ := OptimizeGrad_loop_calls lsFuel fuel _ st s hl
    simp only [a2, sub_zero] at b1
    rw [h3]
    simp only [MultiGradWrapper.Result, MultiHelper.Result, Common.Result]
    have : ((MultiGradWrapper.initCalls (settings.getD (MultiDefaultSettings n)) : ℕ) : ℤ)
        = (match (settings.getD (MultiDefaultSettings n)).InitialObjective with
          | some _ => 0 | none => 1) := by
      unfold MultiGradWrapper.initCalls
      cases (settings.getD (MultiDefaultSettings n)).InitialObjective <;> rfl
    rw [← this]
    linarith

/-- The statuses `SingleOutput.Status` can return. -/
theorem SingleOutput_Status_mem (s : SingleOutput) (st : Opt.Status) (h : s.Status = .ok st) :
    st = .GradAbsTol ∨ st = .GradChangeTol ∨ st = .ObjAbsTol ∨ st = .ObjChangeTol ∨
    st = .Continue := by
  unfold SingleOutput.Status at h
  by_cases h1 : s.grad.AbsConverged = true
  · simp only [h1, if_true, Except.ok.injEq] at h
    exact Or.inl h.symm
  · simp only [h1, Bool.false_eq_true, if_false] at h
    cases hg : s.grad.RelConverged with
    | error e => simp [hg, bind, Except.bind] at h
    | ok gr =>
      simp only [hg, bind, Except.bind, pure, Except.pure] at h
      cases gr with
      | true =>
        simp only [if_true, Except.ok.injEq] at h
        exact Or.inr (Or.inl h.symm)
      | false =>
        simp only [Bool.false_eq_true, if_false] at h
        by_cases h3 : s.obj.AbsConverged = true
        · simp only [h3, if_true, Except.ok.injEq] at h
          exact Or.inr (Or.inr (Or.inl h.symm))
        · simp only [h3, Bool.false_eq_true, if_false] at h
          cases ho : s.obj.RelConverged with
          | error e => simp [ho] at h
          | ok orl =>
            simp only [ho] at h
            cases orl with
            | true =>
              simp only [if_true, Except.ok.injEq] at h
              exact Or.inr (Or.inr (Or.inr (Or.inl h.symm)))
            | false =>
              simp only [Bool.false_eq_true, if_false, Except.ok.injEq] at h
              exact Or.inr (Or.inr (Or.inr (Or.inr h.symm)))

/-- The statuses `Common.Status` can return for an objective that is not a
`Statuser`. -/
theorem Common_Status_mem (c : Common) (hf : c.funStatus = .Continue) :
    c.Status = .MaximumIterations ∨ c.Status = .MaximumFunctionEvaluations ∨
    c.Status = .MaximumRuntime ∨ c.Status = .Continue := by
  unfold Common.Status
  simp only [hf, ne_eq, not_true_eq_false, if_false]
  split_ifs <;> simp

/-- The statuses with which the loop of `OptimizeGrad` can be left: four
tolerances and three limits. -/
theorem MultiGradWrapper_Status_mem (g : MultiGradWrapper n) (st : Opt.Status)
    (hf : g.helper.Common.funStatus = .Continue) (h : g.Status = .ok st) :
    st = .GradAbsTol ∨ st = .GradChangeTol ∨ st = .ObjAbsTol ∨ st = .ObjChangeTol ∨
    st = .MaximumIterations ∨ st = .MaximumFunctionEvaluations ∨ st = .MaximumRuntime ∨
    st = .Continue := by
  unfold MultiGradWrapper.Status MultiHelper.Status at h
  cases hs : g.helper.SingleOutput.Status with
  | error e => simp [hs, bind, Except.bind] at h
  | ok c =>
    have hc := SingleOutput_Status_mem _ _ hs
    have hcc := Common_Status_mem g.helper.Common hf
    simp only [hs, bind, Except.bind, pure, Except.pure, MultiOptimizer.Status] at h
    by_cases h1 : c = .Continue
    · subst h1
      simp only [ne_eq, not_true_eq_false, if_false] at h
      by_cases h2 : g.helper.Common.Status = .Continue
      · simp only [h2, ne_eq, not_true_eq_false, if_false, Except.ok.injEq] at h
        subst h
        simp
      · simp only [ne_eq, h2, not_false_eq_true, if_true, Except.ok.injEq] at h
        subst h
        rcases hcc with a | a | a | a <;> simp [a]
    · simp only [ne_eq, h1, not_false_eq_true, if_true, Except.ok.injEq] at h
      subst h
      rcases hc with a | a | a | a | a <;> simp [a]

/-- A failed `Iterate` of the optimizer ends the loop of `OptimizeGrad` at once
with the wrapped error. -/
theorem OptimizeGrad_loop_iterError (lsFuel k : ℕ) (s : OgState n) (o1 : MultiOptimizer n)
    (io : MultiIterOut n) (e : Error) (hs : s.wrapper.Status = .ok .Continue)
    (hi : s.wrapper.optimizer.Iterate lsFuel s.loc s.grad = .ok (o1, io))
    (he : io.err = some e) :
    OptimizeGrad.loop lsFuel (k + 1) s
      = .ok (.iterError (.errorIterating e)
          { wrapper := { s.wrapper with optimizer := o1 }, loc := io.loc, grad := io.grad,
            calls := s.calls + s.wrapper.optimizer.iterateCalls lsFuel }) := by
  unfold OptimizeGrad.loop
  simp only [hs, ne_eq, not_true_eq_false, if_false, MultiGradWrapper.Iterate, hi, he]

/-- C13 (amended): when a line search fails during `OptimizeGrad` (the
optimizer's `Iterate` returns a non-nil error while the status is `Continue`),
the loop is left at once and `OptimizeGrad` returns a nil `Result` together with
the error "error iterating optimizer: ..." that wraps the error of the line
search; the points reached by earlier iterations are not returned.  A `Result`
is returned only with a nil error, and its `Status` is never
`LinesearchFailure` (nor `Continue`). -/
theorem C13_failed_linesearch_returns_error (fuel lsFuel : ℕ) (f : ObjGrader n)
    (initLoc : Option (Vec n)) (settings : Option (MultiSettings n))
    (optimizer : Option (MultiOptimizer n)) (out : OgOut n)
    (h : OptimizeGrad fuel lsFuel f initLoc settings optimizer = .ok out) :
    (∀ x w e s,
      (NewMultiGradWrapper (optimizer.getD (.bfgs (NewBfgs n)))).Init
        (settings.getD (MultiDefaultSettings n)) f x = .ok (w, none) →
      initLoc = some x →
      OptimizeGrad.loop lsFuel fuel
        { wrapper := w, loc := fun _ => 0, grad := fun _ => 0,
          calls := MultiGradWrapper.initCalls (settings.getD (MultiDefaultSettings n)) }
        = .ok (.iterError e s) →
      out.result = none ∧ out.err = some e) ∧
    (out.err ≠ none ↔ out.result = none) ∧
    (∀ r, out.result = some r →
      r.CommonResult.Status ≠ .LinesearchFailure ∧ r.CommonResult.Status ≠ .Continue) ∧
    (∀ (k : ℕ) (s : OgState n) (o1 : MultiOptimizer n) (io : MultiIterOut n) (e : Error),
      s.wrapper.Status = .ok .Continue →
      s.wrapper.optimizer.Iterate lsFuel s.loc s.grad = .ok (o1, io) → io.err = some e →
      ∃ s1, OptimizeGrad.loop lsFuel (k + 1) s = .ok (.iterError (.errorIterating e) s1)) := by
  have hlast : ∀ (k : ℕ) (s : OgState n) (o1 : MultiOptimizer n) (io : MultiIterOut n)
      (e : Error), s.wrapper.Status = .ok .Continue →
      s.wrapper.optimizer.Iterate lsFuel s.loc s.grad = .ok (o1, io) → io.err = some e →
      ∃ s1, OptimizeGrad.loop lsFuel (k + 1) s = .ok (.iterError (.errorIterating e) s1) :=
    fun k s o1 io e hs hi he => ⟨_, OptimizeGrad_loop_iterError lsFuel k s o1 io e hs hi he⟩
  rcases OptimizeGrad_cases fuel lsFuel f initLoc settings optimizer out h with
    ⟨h0, h1, h2⟩ | ⟨x, w, e, h0, hi, h1, h2⟩ | ⟨x, w, e, s, h0, hi, hl, h1, h2⟩ |
    ⟨x, w, st, s, h0, hi, hl, h1, h2, h3⟩
  · refine ⟨?_, by simp [h1, h2], by simp [h1], hlast⟩
    intro x w e s _ hx
    rw [h0] at hx
    simp at hx
  · refine ⟨?_, by simp [h1, h2], by simp [h1], hlast⟩
    intro x' w' e' s' hi' hx
    rw [h0] at hx
    simp only [Option.some.injEq] at hx
    subst hx
    rw [hi] at hi'
    simp at hi'
  · refine ⟨?_, by simp [h1, h2], by simp [h1], hlast⟩
    intro x' w' e' s' hi' hx hl'
    rw [h0] at hx
    simp only [Option.some.injEq] at hx
    subst hx
    rw [hi] at hi'
    simp only [Except.ok.injEq, Prod.mk.injEq, and_true] at hi'
    subst hi'
    rw [hl] at hl'
    simp only [Except.ok.injEq, OgExit.iterError.injEq] at hl'
    exact ⟨h1, by rw [h2, hl'.1]⟩
  · refine ⟨?_, by simp [h1, h2], ?_, hlast⟩
    · intro x' w' e' s' hi' hx hl'
      rw [h0] at hx
      simp only [Option.some.injEq] at hx
      subst hx
      rw [hi] at hi'
      simp only [Except.ok.injEq, Prod.mk.injEq, and_true] at hi'
      subst hi'
      rw [hl] at hl'
      simp at hl'
    · intro r hr
      rw [h1] at hr
      simp only [Option.some.injEq] at hr
      subst hr
      obtain ⟨a1, -⟩ := MultiGradWrapper_Init_common _ _ _ _ _ _ hi
      obtain ⟨-, b2, b3, b4⟩ := OptimizeGrad_loop_calls lsFuel fuel _ st s hl
      rw [a1] at b2
      have hm := MultiGradWrapper_Status_mem s.wrapper st b2 b3
      simp only [MultiGradWrapper.Result, MultiHelper.Result, Common.Result]
      refine ⟨?_, b4⟩
      rcases hm with a | a | a | a | a | a | a | a <;> simp [a]

theorem vec1_eta (v : Vec 1) : v = fun _ => v 0 := by
  funext i
  rw [Fin.eq_zero i]

theorem norm2_one (g : Vec 1) : norm2 g = |g 0| := by
  unfold norm2
  rw [dot_one, ← abs_mul_abs_self (g 0)]
  exact sqrt_exact_on_squares _ (abs_nonneg _)

theorem Bfgs_IsAt_Init (S : Settings) (fn : ObjGrader 1) (x fx gx : ℚ) :
    (Bfgs.Init S fn (fun _ => x) fx (fun _ => gx)).1.IsAt S fn x fx gx (fx + 5000) 1 := by
  refine ⟨Settings_SameConfig_refl _, rfl, rfl, rfl, rfl, rfl, ?_, ?_⟩
  · funext i j
    simp [Bfgs.Init, Fin.eq_zero i, Fin.eq_zero j]
  · funext i
    simp [Bfgs.Init, Matrix.mul_apply, Fin.eq_zero i]

theorem Bfgs_IsAt_update (b : Bfgs 1) (S : Settings) (fn : ObjGrader 1) (x fx gx prev H : ℚ)
    (h : b.IsAt S fn x fx gx prev H) (t : Settings) (ht : t.SameConfig S) (r : Result 1) :
    (b.update t r).IsAt S fn (r.Loc 0) r.Obj (r.Grad 0) fx
      (bfgsH H (r.Loc 0 - x) (r.Grad 0 - gx)) := by
  obtain ⟨h1, h2, h3, h4, h5, h6, h7, h8⟩ := h
  have hH : (b.update t r).invHess = fun _ _ => bfgsH H (r.Loc 0 - x) (r.Grad 0 - gx) := by
    funext i j
    simp only [Bfgs.update, h3, h5, h7, bfgsH, Matrix.add_apply, Matrix.smul_apply,
      Matrix.mul_apply, Matrix.col_apply, Matrix.row_apply, dot_one, Finset.univ_unique,
      Finset.sum_singleton, Fin.default_eq_zero, smul_eq_mul, Fin.eq_zero i, Fin.eq_zero j]
  refine ⟨ht, h2, vec1_eta _, ?_, vec1_eta _, h4, hH, ?_⟩
  · rfl
  · funext i
    have : (b.update t r).p i = -1 * ((b.update t r).invHess * col (Fin 1) r.Grad) i 0 := rfl
    rw [this, hH]
    simp [Matrix.mul_apply]

/-- One successful `Iterate` of a `Bfgs` in dimension one, from the line search
run with the reference settings `S`. -/
theorem Bfgs_IsAt_Iterate (fuel : ℕ) (b : Bfgs 1) (S : Settings) (fn : ObjGrader 1)
    (x fx gx prev H : ℚ) (h : b.IsAt S fn x fx gx prev H) (t : Settings) (r : Result 1)
    (hls : GradLinesearch fuel S fn (fun _ => -(H * gx)) (fun _ => x) fx (fun _ => gx) prev
      = .ok (t, some r, none)) (loc grad : Vec 1) :
    ∃ b1, MultiOptimizer.Iterate fuel (.bfgs b) loc grad
        = .ok (.bfgs b1, { loc := r.Loc, grad := r.Grad, obj := r.Obj,
                           nFunEvals := r.NFunEvals, err := none }) ∧
      b1.IsAt S fn (r.Loc 0) r.Obj (r.Grad 0) fx (bfgsH H (r.Loc 0 - x) (r.Grad 0 - gx)) := by
  have h' := h
  obtain ⟨h1, h2, h3, h4, h5, h6, h7, h8⟩ := h
  have ha := (GradLinesearch_alike fuel S b.LinesearchSettings
    (Settings_SameConfig_symm _ _ h1) fn (fun _ => -(H * gx)) (fun _ => x) fx (fun _ => gx)
    prev).1
  have hc := GradLinesearch_config fuel S fn _ _ _ _ _ _ hls
  rw [hls] at ha
  cases g2 : GradLinesearch fuel b.LinesearchSettings fn (fun _ => -(H * gx)) (fun _ => x) fx
      (fun _ => gx) prev with
  | error e =>
    rw [g2] at ha
    exact absurd ha (by simp [ExceptRel])
  | ok q =>
    rw [g2] at ha
    obtain ⟨t', res⟩ := q
    obtain ⟨a1, a2⟩ := ha
    simp only at a1 a2
    subst a2
    have ht' : t'.SameConfig S :=
      Settings_SameConfig_symm _ _ (Settings_SameConfig_trans _ _ _ hc a1)
    refine ⟨b.update t' r, ?_, Bfgs_IsAt_update b S fn x fx gx prev H h' t' ht' r⟩
    simp only [MultiOptimizer.Iterate, Bfgs.Iterate, h2, h3, h4, h5, h6, h8, g2]

/-- One failed `Iterate` of a `Bfgs` in dimension one, from the line search run
with the reference settings `S`. -/
theorem Bfgs_IsAt_Iterate_fail (fuel : ℕ) (b : Bfgs 1) (S : Settings) (fn : ObjGrader 1)
    (x fx gx prev H : ℚ) (h : b.IsAt S fn x fx gx prev H) (t : Settings)
    (res : Option (Result 1)) (e : Error)
    (hls : GradLinesearch fuel S fn (fun _ => -(H * gx)) (fun _ => x) fx (fun _ => gx) prev
      = .ok (t, res, some e)) (loc grad : Vec 1) :
    ∃ b1, MultiOptimizer.Iterate fuel (.bfgs b) loc grad
        = .ok (.bfgs b1, { loc := loc, grad := grad, obj := 0, nFunEvals := 0, err := some e }) := by
  obtain ⟨h1, h2, h3, h4, h5, h6, h7, h8⟩ := h
  have ha := (GradLinesearch_alike fuel S b.LinesearchSettings
    (Settings_SameConfig_symm _ _ h1) fn (fun _ => -(H * gx)) (fun _ => x) fx (fun _ => gx)
    prev).1
  rw [hls] at ha
  cases g2 : GradLinesearch fuel b.LinesearchSettings fn (fun _ => -(H * gx)) (fun _ => x) fx
      (fun _ => gx) prev with
  | error e =>
    rw [g2] at ha
    exact absurd ha (by simp [ExceptRel])
  | ok q =>
    rw [g2] at ha
    obtain ⟨t', res'⟩ := q
    obtain ⟨a1, a2⟩ := ha
    simp only at a1 a2
    subst a2
    refine ⟨{ b with LinesearchSettings := t' }, ?_⟩
    simp only [MultiOptimizer.Iterate, Bfgs.Iterate, h2, h3, h4, h5, h6, h8, g2]

/-- The calls made by `Iterate` of a `Bfgs` in dimension one, from the line
search run with the reference settings `S`. -/
theorem Bfgs_IsAt_iterateCalls (fuel : ℕ) (b : Bfgs 1) (S : Settings) (fn : ObjGrader 1)
    (x fx gx prev H : ℚ) (h : b.IsAt S fn x fx gx prev H) :
    MultiOptimizer.iterateCalls fuel (.bfgs b)
      = GradLinesearch.objGradCalls fuel S fn (fun _ => -(H * gx)) (fun _ => x) fx
          (fun _ => gx) prev := by
  obtain ⟨h1, h2, h3, h4, h5, h6, h7, h8⟩ := h
  have ha := (GradLinesearch_alike fuel S b.LinesearchSettings
    (Settings_SameConfig_symm _ _ h1) fn (fun _ => -(H * gx)) (fun _ => x) fx (fun _ => gx)
    prev).2
  simp only [MultiOptimizer.iterateCalls, h2, h3, h4, h5, h6, h8, ha]

/-- The status of the wrapper of `OptimizeGrad` is the status of its helper. -/
theorem MultiGradWrapper_Status_helper (g : MultiGradWrapper n) (st : Status)
    (h : g.helper.Status = .ok st) : g.Status = .ok st := by
  unfold MultiGradWrapper.Status
  rw [h]
  simp only [bind, Except.bind, pure, Except.pure, MultiOptimizer.Status]
  split_ifs with h1
  · rfl
  · simp only [ne_eq, not_not] at h1
    rw [h1]
  · simp only [ne_eq, not_not] at h1
    rw [h1]

/-- One `wrapper.Iterate` of `OptimizeGrad` from a successful `Iterate` of the
optimizer. -/
theorem MultiGradWrapper_Iterate_ok (fuel : ℕ) (g : MultiGradWrapper n) (loc grad : Vec n)
    (o1 : MultiOptimizer n) (io : MultiIterOut n) (h1 : MultiHelper n)
    (hi : g.optimizer.Iterate fuel loc grad = .ok (o1, io)) (he : io.err = none)
    (hh : g.helper.Iterate io.loc io.obj io.grad io.nFunEvals = .ok h1) :
    g.Iterate fuel loc grad = .ok ({ optimizer := o1, helper := h1 }, io) := by
  unfold MultiGradWrapper.Iterate
  simp only [hi, he, hh]

/-- One pass of the loop of `OptimizeGrad` with a successful `Iterate`. -/
theorem OptimizeGrad_loop_continue (lsFuel k : ℕ) (s : OgState n) (w1 : MultiGradWrapper n)
    (io : MultiIterOut n) (hs : s.wrapper.Status = .ok .Continue)
    (hi : s.wrapper.Iterate lsFuel s.loc s.grad = .ok (w1, io)) (he : io.err = none) :
    OptimizeGrad.loop lsFuel (k + 1) s
      = OptimizeGrad.loop lsFuel k
          { wrapper := w1, loc := io.loc, grad := io.grad,
            calls := s.calls + s.wrapper.optimizer.iterateCalls lsFuel } := by
  conv_lhs => unfold OptimizeGrad.loop
  simp only [hs, ne_eq, not_true_eq_false, if_false, hi, he]

/-- The loop of `OptimizeGrad` is left when the wrapper reports a status. -/
theorem OptimizeGrad_loop_done (lsFuel k : ℕ) (s : OgState n) (st : Status)
    (hs : s.wrapper.Status = .ok st) (hc : st ≠ .Continue) :
    OptimizeGrad.loop lsFuel (k + 1) s = .ok (.done st s) := by
  unfold OptimizeGrad.loop
  simp only [hs, ne_eq, hc, not_false_eq_true, if_true]

theorem defaultHelper_Init (f0 : ℚ) (g0 : Vec n) :
    (NewMultiHelper n).Init (MultiDefaultSettings n) f0 (some g0)
      = .ok (defaultHelper 0 0 (norm2 g0) f0 none none none (norm2 g0)) := by
  norm_num [MultiHelper.Init, NewMultiHelper, MultiDefaultSettings, defaultHelper, Common.Init,
    SingleOutput.Init, UniToler.Init, DefaultSingleOutputSettings, DefaultCommonSettings, bind,
    Except.bind, pure, Except.pure]

theorem defaultHelper_Status (iter funEvals : ℤ) (gradNrm obj : ℚ) (objBest : Option ℚ)
    (gradBest locBest : Option (Vec n)) (gradNrmBest : ℚ) :
    (defaultHelper iter funEvals gradNrm obj objBest gradBest locBest gradNrmBest).Status
      = .ok (if gradNrm < 1 / 1000000 then .GradAbsTol else .Continue) := by
  have hr : ((-1 : ℚ) < 0) := by norm_num
  by_cases h : gradNrm < 1 / 1000000
  · simp only [MultiHelper.Status, defaultHelper, SingleOutput.Status, UniToler.AbsConverged,
      h, decide_True, if_true, bind, Except.bind, pure, Except.pure]
    simp
  · simp only [MultiHelper.Status, defaultHelper, SingleOutput.Status, UniToler.AbsConverged,
      UniToler.RelConverged, Common.Status, DefaultCommonSettings, h, decide_False, hr, if_true,
      if_false, bind, Except.bind, pure, Except.pure]
    simp

theorem defaultHelper_Iterate (iter funEvals : ℤ) (gradNrm obj : ℚ) (objBest : Option ℚ)
    (gradBest locBest : Option (Vec n)) (gradNrmBest : ℚ) (loc : Vec n) (newObj : ℚ)
    (grad : Vec n) (k : ℤ) :
    (defaultHelper iter funEvals gradNrm obj objBest gradBest locBest gradNrmBest).Iterate loc
        newObj grad k
      = .ok (if (match objBest with | none => true | some best => decide (newObj ≤ best)) then
          defaultHelper (iter + 1) (funEvals + k) (norm2 grad) newObj (some newObj) (some grad)
            (some loc) (norm2 grad)
        else
          defaultHelper (iter + 1) (funEvals + k) (norm2 grad) newObj objBest
            (gradBest.map (fun _ => grad)) (locBest.map (fun _ => loc)) gradNrmBest) := by
  have hr : ¬ ((0 : ℚ) < -1) := by norm_num
  cases objBest with
  | none =>
    simp only [MultiHelper.Iterate, defaultHelper, SingleOutput.Iterate, UniToler.Add,
      Common.Iterate, bind, Except.bind, pure, Except.pure, hr, if_false, if_true]
  | some best =>
    by_cases hc : newObj ≤ best
    · simp only [MultiHelper.Iterate, defaultHelper, SingleOutput.Iterate, UniToler.Add,
        Common.Iterate, bind, Except.bind, pure, Except.pure, hr, if_false, hc, decide_True,
        if_true]
    · simp only [MultiHelper.Iterate, defaultHelper, SingleOutput.Iterate, UniToler.Add,
        Common.Iterate, bind, Except.bind, pure, Except.pure, hr, if_false, hc, decide_False,
        Bool.false_eq_true]

/-- `GradWrapper.Init` under the default settings for a `Bfgs` in dimension
one. -/
theorem MultiGradWrapper_Init_bfgs (B : Bfgs 1) (fn : ObjGrader 1) (x0 f0 g0 : ℚ)
    (hf : fn (fun _ => x0) = (f0, fun _ => g0)) :
    ∃ b0, (NewMultiGradWrapper (.bfgs B)).Init (MultiDefaultSettings 1) fn (fun _ => x0)
        = .ok ({ optimizer := .bfgs b0,
                 helper := defaultHelper 0 0 |g0| f0 none none none |g0| }, none) ∧
      b0.IsAt B.LinesearchSettings fn x0 f0 g0 (f0 + 5000) 1 := by
  refine ⟨(Bfgs.Init B.LinesearchSettings fn (fun _ => x0) f0 (fun _ => g0)).1, ?_,
    Bfgs_IsAt_Init _ _ _ _ _⟩
  have hh := defaultHelper_Init (n := 1) f0 (fun _ => g0)
  rw [norm2_one] at hh
  simp only [MultiGradWrapper.Init, NewMultiGradWrapper, MultiDefaultSettings, hf,
    MultiOptimizer.Init, bind, Except.bind, pure, Except.pure, Option.getD_some] at hh ⊢
  rw [hh]
  rfl

/-- One pass of the loop of `OptimizeGrad` for a `Bfgs` in dimension one under
the default settings, with a successful line search to a point that is not
higher than the best one so far. -/
theorem OptimizeGrad_loop_bfgs_step (lsFuel k : ℕ) (b : Bfgs 1) (S : Settings)
    (fn : ObjGrader 1) (x fx gx prev H : ℚ) (hat : b.IsAt S fn x fx gx prev H)
    (iter funEvals : ℤ) (gradNrm obj : ℚ) (objBest : Option ℚ)
    (gradBest locBest : Option (Vec 1)) (gradNrmBest : ℚ) (loc grad : Vec 1) (c : ℕ)
    (hg : ¬ gradNrm < 1 / 1000000) (t : Settings) (r : Result 1)
    (hls : GradLinesearch lsFuel S fn (fun _ => -(H * gx)) (fun _ => x) fx (fun _ => gx) prev
      = .ok (t, some r, none))
    (hb : ∀ best, objBest = some best → r.Obj ≤ best) :
    ∃ b1, OptimizeGrad.loop lsFuel (k + 1)
        { wrapper := { optimizer := .bfgs b,
                       helper := defaultHelper iter funEvals gradNrm obj objBest gradBest locBest
                         gradNrmBest },
          loc := loc, grad := grad, calls := c }
      = OptimizeGrad.loop lsFuel k
        { wrapper := { optimizer := .bfgs b1,
                       helper := defaultHelper (iter + 1) (funEvals + r.NFunEvals) |r.Grad 0|
                         r.Obj (some r.Obj) (some r.Grad) (some r.Loc) |r.Grad 0| },
          loc := r.Loc, grad := r.Grad, calls := c + r.NFunEvals.toNat } ∧
      b1.IsAt S fn (r.Loc 0) r.Obj (r.Grad 0) fx (bfgsH H (r.Loc 0 - x) (r.Grad 0 - gx)) := by
  obtain ⟨b1, hI, hat1⟩ := Bfgs_IsAt_Iterate lsFuel b S fn x fx gx prev H hat t r hls loc grad
  have hh : (defaultHelper iter funEvals gradNrm obj objBest gradBest locBest
      gradNrmBest).Iterate r.Loc r.Obj r.Grad r.NFunEvals
      = .ok (defaultHelper (iter + 1) (funEvals + r.NFunEvals) |r.Grad 0| r.Obj (some r.Obj)
          (some r.Grad) (some r.Loc) |r.Grad 0|) := by
    rw [defaultHelper_Iterate, norm2_one]
    cases objBest with
    | none => simp only [if_true]
    | some best => simp only [hb best rfl, decide_True, if_true]
  have hcalls : MultiOptimizer.iterateCalls lsFuel (.bfgs b) = r.NFunEvals.toNat := by
    rw [Bfgs_IsAt_iterateCalls lsFuel b S fn x fx gx prev H hat]
    have := (GradLinesearch_calls lsFuel S fn _ _ _ _ _ _ hls).1 r rfl
    rw [← this]
    simp
  refine ⟨b1, ?_, hat1⟩
  have hs := MultiGradWrapper_Status_helper
    ({ optimizer := .bfgs b,
       helper := defaultHelper iter funEvals gradNrm obj objBest gradBest locBest gradNrmBest }
      : MultiGradWrapper 1) .Continue
    (by rw [defaultHelper_Status, if_neg hg])
  have hw := MultiGradWrapper_Iterate_ok lsFuel
    ({ optimizer := .bfgs b,
       helper := defaultHelper iter funEvals gradNrm obj objBest gradBest locBest gradNrmBest }
      : MultiGradWrapper 1) loc grad (.bfgs b1) _ _ hI rfl hh
  rw [OptimizeGrad_loop_continue lsFuel k _ _ _ hs hw rfl]
  simp only [hcalls]

/-- One pass of the loop of `OptimizeGrad` for a `Bfgs` in dimension one under
the default settings, with a failed line search. -/
theorem OptimizeGrad_loop_bfgs_fail (lsFuel k : ℕ) (b : Bfgs 1) (S : Settings)
    (fn : ObjGrader 1) (x fx gx prev H : ℚ) (hat : b.IsAt S fn x fx gx prev H)
    (hlp : MultiHelper 1) (hst : hlp.Status = .ok .Continue) (loc grad : Vec 1) (c : ℕ)
    (t : Settings) (res : Option (Result 1)) (e : Error)
    (hls : GradLinesearch lsFuel S fn (fun _ => -(H * gx)) (fun _ => x) fx (fun _ => gx) prev
      = .ok (t, res, some e)) :
    ∃ s1, OptimizeGrad.loop lsFuel (k + 1)
        { wrapper := { optimizer := .bfgs b, helper := hlp },
          loc := loc, grad := grad, calls := c }
      = .ok (.iterError (.errorIterating e) s1) ∧ s1.wrapper.helper = hlp := by
  obtain ⟨b1, hI⟩ := Bfgs_IsAt_Iterate_fail lsFuel b S fn x fx gx prev H hat t res e hls loc grad
  have hs := MultiGradWrapper_Status_helper
    ({ optimizer := .bfgs b, helper := hlp } : MultiGradWrapper 1) .Continue hst
  exact ⟨_, OptimizeGrad_loop_iterError lsFuel k
    { wrapper := { optimizer := .bfgs b, helper := hlp }, loc := loc, grad := grad, calls := c }
    (.bfgs b1) _ e hs hI rfl, rfl⟩

/-- The loop of `OptimizeGrad` under the default settings is left with
`GradAbsTol` when the norm of the gradient is below `1e-6`. -/
theorem OptimizeGrad_loop_bfgs_done (lsFuel k : ℕ) (o : MultiOptimizer 1)
    (iter funEvals : ℤ) (gradNrm obj : ℚ) (objBest : Option ℚ)
    (gradBest locBest : Option (Vec 1)) (gradNrmBest : ℚ) (loc grad : Vec 1) (c : ℕ)
    (hg : gradNrm < 1 / 1000000) :
    OptimizeGrad.loop lsFuel (k + 1)
        { wrapper := { optimizer := o,
                       helper := defaultHelper iter funEvals gradNrm obj objBest gradBest locBest
                         gradNrmBest },
          loc := loc, grad := grad, calls := c }
      = .ok (.done .GradAbsTol
        { wrapper := { optimizer := o,
                       helper := defaultHelper iter funEvals gradNrm obj objBest gradBest locBest
                         gradNrmBest },
          loc := loc, grad := grad, calls := c }) := by
  have hs := MultiGradWrapper_Status_helper
    ({ optimizer := o,
       helper := defaultHelper iter funEvals gradNrm obj objBest gradBest locBest gradNrmBest }
      : MultiGradWrapper 1) .GradAbsTol
    (by rw [defaultHelper_Status, if_pos hg])
  exact OptimizeGrad_loop_done lsFuel k _ _ hs (by decide)

/-- `OptimizeGrad` from the result of `GradWrapper.Init` and of the loop, when
the loop is left by a failed `Iterate`. -/
theorem OptimizeGrad_of_iterError (fuel lsFuel : ℕ) (f : ObjGrader n) (x : Vec n)
    (settings : Option (MultiSettings n)) (optimizer : Option (MultiOptimizer n))
    (w : MultiGradWrapper n) (e : Error) (s : OgState n)
    (hi : (NewMultiGradWrapper (optimizer.getD (.bfgs (NewBfgs n)))).Init
      (settings.getD (MultiDefaultSettings n)) f x = .ok (w, none))
    (hl : OptimizeGrad.loop lsFuel fuel
      { wrapper := w, loc := fun _ => 0, grad := fun _ => 0,
        calls := MultiGradWrapper.initCalls (settings.getD (MultiDefaultSettings n)) }
      = .ok (.iterError e s)) :
    OptimizeGrad fuel lsFuel f (some x) settings optimizer
      = .ok { optimizer := s.wrapper.optimizer, result := none, err := some e,
              calls := s.calls } := by
  unfold OptimizeGrad
  simp only [hi, hl]

/-- `OptimizeGrad` from the result of `GradWrapper.Init` and of the loop, when
the loop is left with a status. -/
theorem OptimizeGrad_of_done (fuel lsFuel : ℕ) (f : ObjGrader n) (x : Vec n)
    (settings : Option (MultiSettings n)) (optimizer : Option (MultiOptimizer n))
    (w : MultiGradWrapper n) (st : Status) (s : OgState n)
    (hi : (NewMultiGradWrapper (optimizer.getD (.bfgs (NewBfgs n)))).Init
      (settings.getD (MultiDefaultSettings n)) f x = .ok (w, none))
    (hl : OptimizeGrad.loop lsFuel fuel
      { wrapper := w, loc := fun _ => 0, grad := fun _ => 0,
        calls := MultiGradWrapper.initCalls (settings.getD (MultiDefaultSettings n)) }
      = .ok (.done st s)) :
    OptimizeGrad fuel lsFuel f (some x) settings optimizer
      = .ok { optimizer := s.wrapper.optimizer, result := some (s.wrapper.Result st),
              err := none, calls := s.calls } := by
  unfold OptimizeGrad
  simp only [hi, hl]

set_option maxHeartbeats 4000000 in
/-- The second line search of the demonstration run. -/
theorem demo_linesearch2 :
    ∃ s, GradLinesearch 2 DefaultSettings demoFn (fun _ => -(2 * (1 / 4))) (fun _ => 1 / 2)
        (1 / 16) (fun _ => 1 / 4) (1 / 4) = .ok (s, some demoResult2, none) := by
  norm_num [GradLinesearch, GradLinesearch.setup, DefaultSettings, dot_one, demoFn, demoResult2,
    WolfeConditions.Init, Strong, Weak, GradOptimizer.SetInitStep,
    GradOptimizer.SetWolfeConditions, Bisection.SetInitStep, GradLinesearch.initStepSize,
    NewUniGradWrapper, UniGradWrapper.Init, NewUniHelper, UniHelper.Init, Common.Init,
    SingleOutput.Init, UniToler.Init, DefaultSingleOutputSettings, DefaultCommonSettings,
    UniDefaultSettings, GradOptimizer.Init, Bisection.Init, bind, Except.bind, pure, Except.pure,
    GradLinesearch.loop, WolfeConditions.Status, GradLinesearch.result, UniGradWrapper.Status,
    UniHelper.Status, SingleOutput.Status, UniToler.AbsConverged, UniToler.RelConverged,
    Common.Status, GradOptimizer.Status, Bisection.Status, UniGradWrapper.Iterate,
    GradOptimizer.Iterate, Bisection.Iterate, linesearchFun.asUni, linesearchFun.ObjGrad,
    Bisection.iterateUnbounded, UniHelper.Iterate, Common.Iterate, SingleOutput.Iterate,
    UniToler.Add, WolfeConditions.Iterate, EqualWithinAbsOrRel, EqualWithinAbs, EqualWithinRel,
    UniGradWrapper.Result, UniHelper.Result, Common.Result, abs_of_pos, abs_of_neg]
  simp

set_option maxHeartbeats 4000000 in
/-- The first line search on `cubeFn` from `x = 1 / 2`. -/
theorem cube_linesearch1 :
    ∃ s, GradLinesearch 3 shortSettings cubeFn (fun _ => -(1 * (3 / 4))) (fun _ => 1 / 2)
        (1 / 8) (fun _ => 3 / 4) (1 / 8 + 5000) = .ok (s, some cubeResult, none) := by
  norm_num [GradLinesearch, GradLinesearch.setup, shortSettings, DefaultSettings, dot_one, cubeFn,
    cubeResult,
    WolfeConditions.Init, Strong, Weak, GradOptimizer.SetInitStep,
    GradOptimizer.SetWolfeConditions, Bisection.SetInitStep, GradLinesearch.initStepSize,
    NewUniGradWrapper, UniGradWrapper.Init, NewUniHelper, UniHelper.Init, Common.Init,
    SingleOutput.Init, UniToler.Init, DefaultSingleOutputSettings, DefaultCommonSettings,
    UniDefaultSettings, GradOptimizer.Init, Bisection.Init, bind, Except.bind, pure, Except.pure,
    GradLinesearch.loop, WolfeConditions.Status, GradLinesearch.result, UniGradWrapper.Status,
    UniHelper.Status, SingleOutput.Status, UniToler.AbsConverged, UniToler.RelConverged,
    Common.Status, GradOptimizer.Status, Bisection.Status, UniGradWrapper.Iterate,
    GradOptimizer.Iterate, Bisection.Iterate, linesearchFun.asUni, linesearchFun.ObjGrad,
    Bisection.iterateUnbounded, UniHelper.Iterate, Common.Iterate, SingleOutput.Iterate,
    UniToler.Add, WolfeConditions.Iterate, EqualWithinAbsOrRel, EqualWithinAbs, EqualWithinRel,
    UniGradWrapper.Result, UniHelper.Result, Common.Result, abs_of_pos, abs_of_neg]
  simp

set_option maxHeartbeats 4000000 in
/-- The second line search on `cubeFn`, from `x = -1 / 4` along `-1 / 4`: the
trial steps `1` and `2` do not satisfy the curvature condition, and the search
stops with `MaximumIterations`. -/
theorem cube_linesearch2 :
    ∃ s r, GradLinesearch 3 shortSettings cubeFn (fun _ => -(4 / 3 * (3 / 16)))
        (fun _ => -1 / 4) (-1 / 64) (fun _ => 3 / 16) (1 / 8)
      = .ok (s, some r, some (.Notconverged .MaximumIterations)) := by
  norm_num [GradLinesearch, GradLinesearch.setup, shortSettings, DefaultSettings, dot_one, cubeFn,
    WolfeConditions.Init, Strong, Weak, GradOptimizer.SetInitStep,
    GradOptimizer.SetWolfeConditions, Bisection.SetInitStep, GradLinesearch.initStepSize,
    NewUniGradWrapper, UniGradWrapper.Init, NewUniHelper, UniHelper.Init, Common.Init,
    SingleOutput.Init, UniToler.Init, DefaultSingleOutputSettings, DefaultCommonSettings,
    UniDefaultSettings, GradOptimizer.Init, Bisection.Init, bind, Except.bind, pure, Except.pure,
    GradLinesearch.loop, WolfeConditions.Status, GradLinesearch.result, UniGradWrapper.Status,
    UniHelper.Status, SingleOutput.Status, UniToler.AbsConverged, UniToler.RelConverged,
    Common.Status, GradOptimizer.Status, Bisection.Status, UniGradWrapper.Iterate,
    GradOptimizer.Iterate, Bisection.Iterate, linesearchFun.asUni, linesearchFun.ObjGrad,
    Bisection.iterateUnbounded, UniHelper.Iterate, Common.Iterate, SingleOutput.Iterate,
    UniToler.Add, WolfeConditions.Iterate, EqualWithinAbsOrRel, EqualWithinAbs, EqualWithinRel,
    UniGradWrapper.Result, UniHelper.Result, Common.Result, abs_of_pos, abs_of_neg]
  simp

/-- The demonstration run of `OptimizeGrad`: `demoFn` from `x = 1` with the
default settings and a fresh `Bfgs`.  Two iterations of one evaluation each
reach the minimiser `x = 0`; with the evaluation made by `GradWrapper.Init` the
objective has been called three times. -/
theorem demo_optimize :
    ∃ out, OptimizeGrad 3 2 demoFn (some demoLoc) none (some (.bfgs (NewBfgs 1))) = .ok out ∧
      out.result = some demoOptimum ∧ out.err = none ∧ out.calls = 3 := by
  have hf : demoFn (fun _ => 1) = (1 / 4, fun _ => 1 / 2) := by
    simp [demoFn]
  obtain ⟨b0, hi0, hat0⟩ := MultiGradWrapper_Init_bfgs (NewBfgs 1) demoFn 1 (1 / 4) (1 / 2) hf
  obtain ⟨s1, hls1⟩ := demo_linesearch
  have hls1' : GradLinesearch 2 DefaultSettings demoFn (fun _ => -(1 * (1 / 2))) (fun _ => 1)
      (1 / 4) (fun _ => 1 / 2) (1 / 4 + 5000) = .ok (s1, some demoResult, none) := by
    have e : (fun _ => -(1 * (1 / 2)) : Vec 1) = demoDir := by
      funext i
      norm_num [demoDir]
    rw [e]
    exact hls1
  obtain ⟨b1, hl1, hat1⟩ := OptimizeGrad_loop_bfgs_step 2 2 b0 DefaultSettings demoFn 1 (1 / 4)
    (1 / 2) (1 / 4 + 5000) 1 hat0 0 0 |1 / 2| (1 / 4) none none none |1 / 2| (fun _ => 0)
    (fun _ => 0) 1 (by norm_num [abs_of_pos]) s1 demoResult hls1' (by simp)
  obtain ⟨s2, hls2⟩ := demo_linesearch2
  have hls2' : GradLinesearch 2 DefaultSettings demoFn
      (fun _ => -(bfgsH 1 (demoResult.Loc 0 - 1) (demoResult.Grad 0 - 1 / 2) * demoResult.Grad 0))
      (fun _ => demoResult.Loc 0) demoResult.Obj (fun _ => demoResult.Grad 0) (1 / 4)
      = .ok (s2, some demoResult2, none) := by
    have e1 : (fun _ => -(bfgsH 1 (demoResult.Loc 0 - 1) (demoResult.Grad 0 - 1 / 2)
        * demoResult.Grad 0) : Vec 1) = fun _ => -(2 * (1 / 4)) := by
      funext i
      norm_num [bfgsH, demoResult]
    have e2 : (fun _ => demoResult.Loc 0 : Vec 1) = fun _ => 1 / 2 := rfl
    have e3 : demoResult.Obj = 1 / 16 := rfl
    have e4 : (fun _ => demoResult.Grad 0 : Vec 1) = fun _ => 1 / 4 := rfl
    rw [e1, e2, e3, e4]
    exact hls2
  obtain ⟨b2, hl2, hat2⟩ := OptimizeGrad_loop_bfgs_step 2 1 b1 DefaultSettings demoFn
    (demoResult.Loc 0) demoResult.Obj (demoResult.Grad 0) (1 / 4)
    (bfgsH 1 (demoResult.Loc 0 - 1) (demoResult.Grad 0 - 1 / 2)) hat1 (0 + 1)
    (0 + demoResult.NFunEvals) |demoResult.Grad 0| demoResult.Obj (some demoResult.Obj)
    (some demoResult.Grad) (some demoResult.Loc) |demoResult.Grad 0| demoResult.Loc
    demoResult.Grad (1 + demoResult.NFunEvals.toNat)
    (by norm_num [demoResult, abs_of_pos]) s2 demoResult2 hls2'
    (by
      intro best hb
      simp only [Option.some.injEq] at hb
      rw [← hb]
      norm_num [demoResult, demoResult2])
  have hg : |demoResult2.Grad 0| < 1 / 1000000 := by norm_num [demoResult2]
  have hl3 := OptimizeGrad_loop_bfgs_done 2 0 (.bfgs b2) (0 + 1 + 1)
    (0 + demoResult.NFunEvals + demoResult2.NFunEvals) |demoResult2.Grad 0| demoResult2.Obj
    (some demoResult2.Obj) (some demoResult2.Grad) (some demoResult2.Loc) |demoResult2.Grad 0|
    demoResult2.Loc demoResult2.Grad
    (1 + demoResult.NFunEvals.toNat + demoResult2.NFunEvals.toNat) hg
  have hd : demoLoc = fun _ => 1 := rfl
  unfold OptimizeGrad
  simp only [Option.getD_some, Option.getD_none, hd, hi0]
  have hc : MultiGradWrapper.initCalls (MultiDefaultSettings 1) = 1 := rfl
  rw [hc, hl1, hl2, hl3]
  refine ⟨_, rfl, ?_, rfl, ?_⟩
  · simp only [MultiGradWrapper.Result, MultiHelper.Result, defaultHelper, Common.Result,
      demoOptimum, demoResult, demoResult2]
    norm_num
  · norm_num [demoResult, demoResult2]

/-- The run of `OptimizeGrad` on `cubeFn` from `x = 1 / 2` with `shortBfgs`:
the first iteration moves to `x = -1 / 4` with the lower objective `-1 / 64`,
the line search of the second iteration fails, and `OptimizeGrad` returns a nil
`Result` and the wrapped error of the line search. -/
theorem cube_optimize :
    ∃ w0 s out,
      (NewMultiGradWrapper (.bfgs shortBfgs)).Init (MultiDefaultSettings 1) cubeFn
        (fun _ => 1 / 2) = .ok (w0, none) ∧
      OptimizeGrad.loop 3 3 { wrapper := w0, loc := fun _ => 0, grad := fun _ => 0, calls := 1 }
        = .ok (.iterError (.errorIterating (.Notconverged .MaximumIterations)) s) ∧
      s.wrapper.helper.Common.iter = 1 ∧ s.wrapper.helper.objBest = some (-1 / 64) ∧
      OptimizeGrad 3 3 cubeFn (some (fun _ => 1 / 2)) none (some (.bfgs shortBfgs)) = .ok out ∧
      out.result = none ∧
      out.err = some (.errorIterating (.Notconverged .MaximumIterations)) := by
  have hf : cubeFn (fun _ => 1 / 2) = (1 / 8, fun _ => 3 / 4) := by
    norm_num [cubeFn]
  obtain ⟨b0, hi0, hat0⟩ := MultiGradWrapper_Init_bfgs shortBfgs cubeFn (1 / 2) (1 / 8) (3 / 4) hf
  obtain ⟨s1, hls1⟩ := cube_linesearch1
  obtain ⟨b1, hl1, hat1⟩ := OptimizeGrad_loop_bfgs_step 3 2 b0 shortSettings cubeFn (1 / 2)
    (1 / 8) (3 / 4) (1 / 8 + 5000) 1 hat0 0 0 |3 / 4| (1 / 8) none none none |3 / 4|
    (fun _ => 0) (fun _ => 0) 1 (by norm_num [abs_of_pos]) s1 cubeResult hls1 (by simp)
  obtain ⟨s2, r2, hls2⟩ := cube_linesearch2
  have hls2' : GradLinesearch 3 shortSettings cubeFn
      (fun _ => -(bfgsH 1 (cubeResult.Loc 0 - 1 / 2) (cubeResult.Grad 0 - 3 / 4)
        * cubeResult.Grad 0))
      (fun _ => cubeResult.Loc 0) cubeResult.Obj (fun _ => cubeResult.Grad 0) (1 / 8)
      = .ok (s2, some r2, some (.Notconverged .MaximumIterations)) := by
    have e1 : (fun _ => -(bfgsH 1 (cubeResult.Loc 0 - 1 / 2) (cubeResult.Grad 0 - 3 / 4)
        * cubeResult.Grad 0) : Vec 1) = fun _ => -(4 / 3 * (3 / 16)) := by
      funext i
      norm_num [bfgsH, cubeResult]
    have e2 : (fun _ => cubeResult.Loc 0 : Vec 1) = fun _ => -1 / 4 := rfl
    have e3 : cubeResult.Obj = -1 / 64 := rfl
    have e4 : (fun _ => cubeResult.Grad 0 : Vec 1) = fun _ => 3 / 16 := rfl
    rw [e1, e2, e3, e4]
    exact hls2
  have hst : (defaultHelper (n := 1) (0 + 1) (0 + cubeResult.NFunEvals) |cubeResult.Grad 0|
      cubeResult.Obj (some cubeResult.Obj) (some cubeResult.Grad) (some cubeResult.Loc)
      |cubeResult.Grad 0|).Status = .ok .Continue := by
    rw [defaultHelper_Status, if_neg]
    norm_num [cubeResult, abs_of_pos]
  obtain ⟨sf, hl2, hsf⟩ := OptimizeGrad_loop_bfgs_fail 3 1 b1 shortSettings cubeFn
    (cubeResult.Loc 0) cubeResult.Obj (cubeResult.Grad 0) (1 / 8)
    (bfgsH 1 (cubeResult.Loc 0 - 1 / 2) (cubeResult.Grad 0 - 3 / 4)) hat1 _ hst cubeResult.Loc
    cubeResult.Grad (1 + cubeResult.NFunEvals.toNat) s2 (some r2) _ hls2'
  have hloop : OptimizeGrad.loop 3 3
      { wrapper := { optimizer := .bfgs b0,
                     helper := defaultHelper 0 0 |3 / 4| (1 / 8) none none none |3 / 4| },
        loc := fun _ => 0, grad := fun _ => 0, calls := 1 }
      = .ok (.iterError (.errorIterating (.Notconverged .MaximumIterations)) sf) := by
    rw [hl1, hl2]
  have hout : OptimizeGrad 3 3 cubeFn (some (fun _ => 1 / 2)) none (some (.bfgs shortBfgs))
      = .ok { optimizer := sf.wrapper.optimizer, result := none,
              err := some (.errorIterating (.Notconverged .MaximumIterations)),
              calls := sf.calls } := by
    exact OptimizeGrad_of_iterError 3 3 cubeFn (fun _ => 1 / 2) none (some (.bfgs shortBfgs))
      _ _ sf hi0 hloop
  refine ⟨_, sf, _, hi0, hloop, ?_, ?_, hout, rfl, rfl⟩
  · rw [hsf]
    simp [defaultHelper]
  · rw [hsf]
    simp [defaultHelper, cubeResult]

/-- The run of `OptimizeGrad` on `demoFn` from its minimiser `x = 0`: the norm
of the gradient is below the tolerance before the first iteration. -/
theorem zero_optimize :
    ∃ o, OptimizeGrad 1 1 demoFn (some zeroLoc) none none
      = .ok { optimizer := o,
              result := some { CommonResult := { Iterations := 0, FunctionEvaluations := 0,
                                                 Status := .GradAbsTol },
                               Obj := none, Loc := none, Grad := none },
              err := none, calls := 1 } := by
  have hf : demoFn (fun _ => 0) = (0, fun _ => 0) := by
    simp [demoFn]
  obtain ⟨b0, hi0, -⟩ := MultiGradWrapper_Init_bfgs (NewBfgs 1) demoFn 0 0 0 hf
  have hl := OptimizeGrad_loop_bfgs_done 1 0 (.bfgs b0) 0 0 |0| 0 none none none |0|
    (fun _ => 0) (fun _ => 0) 1 (by norm_num)
  exact ⟨_, OptimizeGrad_of_done 1 1 demoFn (fun _ => 0) none none _ _ _ hi0 hl⟩

/-- C13, witness: the run on `cubeFn` from `x = 1 / 2` returns; its loop is
left by the failed second line search, the `Result` is nil and the error is the
wrapped error of the line search. -/
theorem C13_failed_linesearch_returns_error_witness :
    ∃ out, OptimizeGrad 3 3 cubeFn (some (fun _ => 1 / 2)) none (some (.bfgs shortBfgs))
        = .ok out ∧
      out.result = none ∧
      out.err = some (.errorIterating (.Notconverged .MaximumIterations)) ∧
      (out.err ≠ none ↔ out.result = none) := by
  obtain ⟨w0, s, out, hi, hl, -, -, ho, -, -⟩ := cube_optimize
  have h := C13_failed_linesearch_returns_error 3 3 cubeFn (some (fun _ => 1 / 2)) none
    (some (.bfgs shortBfgs)) out ho
  have h1 := h.1 (fun _ => 1 / 2) w0 _ s hi rfl hl
  exact ⟨out, ho, h1.1, h1.2, h.2.1⟩

/-- C13, counterexample: `OptimizeGrad` on `x ↦ x³` from `x = 1 / 2` (objective
`1 / 8`) with a `Bfgs` whose line searches stop after `MaximumIterations = 1`.
The first iteration succeeds and reaches the lower objective `-1 / 64`; the line
search of the second iteration does not satisfy the Wolfe conditions; the run
returns a nil `Result` (no status, no best point) and the wrapped error. -/
theorem C13_counterexample :
    ∃ w0 s out,
      (cubeFn (fun _ => 1 / 2)).1 = 1 / 8 ∧
      (NewMultiGradWrapper (.bfgs shortBfgs)).Init (MultiDefaultSettings 1) cubeFn
        (fun _ => 1 / 2) = .ok (w0, none) ∧
      OptimizeGrad.loop 3 3 { wrapper := w0, loc := fun _ => 0, grad := fun _ => 0, calls := 1 }
        = .ok (.iterError (.errorIterating (.Notconverged .MaximumIterations)) s) ∧
      s.wrapper.helper.Common.iter = 1 ∧ s.wrapper.helper.objBest = some (-1 / 64) ∧
      OptimizeGrad 3 3 cubeFn (some (fun _ => 1 / 2)) none (some (.bfgs shortBfgs)) = .ok out ∧
      out.result = none ∧
      out.err = some (.errorIterating (.Notconverged .MaximumIterations)) := by
  obtain ⟨w0, s, out, h⟩ := cube_optimize
  exact ⟨w0, s, out, by norm_num [cubeFn], h⟩

/-- C18, witness: the demonstration run returns, and so does the second run on
the optimizer it leaves behind, with the same `Result`, error and number of
evaluations. -/
theorem C18_rerun_same_result_witness :
    ∃ out out', OptimizeGrad 3 2 demoFn (some demoLoc) none (some (.bfgs (NewBfgs 1)))
        = .ok out ∧
      out.result = some demoOptimum ∧
      OptimizeGrad 3 2 demoFn (some demoLoc) none (some out.optimizer) = .ok out' ∧
      out'.result = out.result ∧ out'.err = out.err ∧ out'.calls = out.calls := by
  obtain ⟨out, h, hr, -, -⟩ := demo_optimize
  obtain ⟨out', h1, h2, h3, h4, -⟩ := C18_rerun_same_result 3 2 demoFn (some demoLoc) none
    (.bfgs (NewBfgs 1)) out h
  exact ⟨out, out', h, hr, h1, h2, h3, h4⟩

/-- C20 (contradicted by the code): `FunctionEvaluations` is not the number of
calls of the user's `ObjGrad`.  In every run of `multivariate.OptimizeGrad`
with nil settings that returns a `Result`, the objective was called
`FunctionEvaluations + 1` times: the call made by `GradWrapper.Init` is not
counted.  The run on `x ↦ x² / 4` from `x = 1` with a new `Bfgs` returns
`FunctionEvaluations = 2` after three calls. -/
theorem C20_init_evaluation_not_counted :
    (∀ (m fuel lsFuel : ℕ) (f : ObjGrader m) (initLoc : Option (Vec m))
        (optimizer : Option (MultiOptimizer m)) (out : OgOut m) (r : MultiResult m),
      OptimizeGrad fuel lsFuel f initLoc none optimizer = .ok out → out.result = some r →
      (out.calls : ℤ) = r.CommonResult.FunctionEvaluations + 1) ∧
    ∃ out r, OptimizeGrad 3 2 demoFn (some demoLoc) none (some (.bfgs (NewBfgs 1))) = .ok out ∧
      out.result = some r ∧ out.err = none ∧
      r.CommonResult.FunctionEvaluations = 2 ∧ out.calls = 3 ∧
      (out.calls : ℤ) ≠ r.CommonResult.FunctionEvaluations := by
  constructor
  · intro m fuel lsFuel f initLoc optimizer out r h hr
    exact OptimizeGrad_result_calls fuel lsFuel f initLoc none optimizer out r h hr
  · obtain ⟨out, h, hr, he, hc⟩ := demo_optimize
    refine ⟨out, demoOptimum, h, hr, he, rfl, hc, ?_⟩
    rw [hc]
    simp [demoOptimum]

end OptimizeGradTheorems

/-! ## Theorems: `GoldenSection` under `OptimizeGradFree`, and what a `Result` reports -/

section GoldenSectionTheorems

/-- Reading a returned value off a check that evaluates to `true`. -/
theorem Except_ok_of_check {ε α : Type} (x : Except ε α) (p : α → Bool)
    (h : (match x with | .ok a => p a | .error _ => false) = true) :
    ∃ a, x = .ok a ∧ p a = true := by
  cases x with
  | error e => simp at h
  | ok a => exact ⟨a, rfl, h⟩

/-- Reading a returned value and a field of it off a check that evaluates to
`true`. -/
theorem Except_ok_some_of_check {ε α β : Type} (x : Except ε α) (res : α → Option β)
    (p : α → β → Bool)
    (h : (match x with
      | .ok a => (match res a with | some r => p a r | none => false)
      | .error _ => false) = true) :
    ∃ a r, x = .ok a ∧ res a = some r ∧ p a r = true := by
  cases x with
  | error e => simp at h
  | ok a =>
    cases hr : res a with
    | none => simp [hr] at h
    | some r => exact ⟨a, r, rfl, hr, by simpa [hr] using h⟩

/-- The run of `GoldenSection` on `quadratic{b: 1003, c: 0}` from `1000` with
the initial step `1` and `Tol = 0.1`: the points `1001`, `1002`, `1004` and
`1008` are evaluated, then the bounds `1000` and `1008` are equal within the
relative tolerance and the last point is returned. -/
theorem golden_run_far_start :
    ∃ out, OptimizeGradFree 5 (quadratic 1003 0) 1000 none (NewGoldenSection 1 (1 / 10)) = .ok out ∧
      out.err = none ∧
      out.result = some { CommonResult := { Iterations := 4, FunctionEvaluations := 4,
                                            Status := .BoundsConverged },
                          Obj := 25, Loc := 1008 } := by
  obtain ⟨out, h, hp⟩ := Except_ok_of_check
    (OptimizeGradFree 5 (quadratic 1003 0) 1000 none (NewGoldenSection 1 (1 / 10)))
    (fun out => decide (out.err = none ∧
      out.result = some { CommonResult := { Iterations := 4, FunctionEvaluations := 4,
                                            Status := .BoundsConverged },
                          Obj := 25, Loc := 1008 })) (by decide!)
  exact ⟨out, h, by simpa using hp⟩

/-- The run of the univariate `OptimizeGrad` on `(x - 3) ^ 2` from its minimiser
`3`: the gradient tolerance is met before the first iteration, and the location
of the `Result` is the `0` that `Helper.Init` stores. -/
theorem bisection_run_converged_start :
    ∃ out, UniOptimizeGrad 1 (quadraticGrad 3 0) () 3 none (.bisection { InitialStepMag := 1 })
        = .ok out ∧ out.err = none ∧
      out.result = some { CommonResult := { Iterations := 0, FunctionEvaluations := 0,
                                            Status := .GradAbsTol },
                          Obj := 0, Loc := 0, Grad := 0 } := by
  obtain ⟨out, h, hp⟩ := Except_ok_of_check
    (UniOptimizeGrad 1 (quadraticGrad 3 0) () 3 none (.bisection { InitialStepMag := 1 }))
    (fun out => decide (out.err = none ∧
      out.result = some { CommonResult := { Iterations := 0, FunctionEvaluations := 0,
                                            Status := .GradAbsTol },
                          Obj := 0, Loc := 0, Grad := 0 })) (by decide!)
  exact ⟨out, h, by simpa using hp⟩

/-- C15 (contradicted by the code, at the input of the test `TestGoldenSection`):
on `quadratic{b: 3, c: 5}` from `-7`, with the initial step `1` and `Tol = 1e-7`,
`OptimizeGradFree` ends after 44 iterations with `BoundsConverged` and returns a
location that is farther than `Tol` from the minimiser `3`.  A run short enough
to follow by hand: on `quadratic{b: 1003, c: 0}` from `1000` with the initial
step `1` and `Tol = 0.1` the points `1001`, `1002`, `1004` and `1008` are
evaluated and `1008` is returned, at distance `5` from the minimiser. -/
theorem C15_golden_section_misses_tolerance :
    (∃ out r, OptimizeGradFree 45 (quadratic 3 5) (-7) none (NewGoldenSection 1 (1 / 10000000))
        = .ok out ∧ out.result = some r ∧ out.err = none ∧
      r.CommonResult.Status = .BoundsConverged ∧ r.CommonResult.Iterations = 44 ∧
      1 / 10000000 < |r.Loc - 3|) ∧
    (∃ out r, OptimizeGradFree 5 (quadratic 1003 0) 1000 none (NewGoldenSection 1 (1 / 10))
        = .ok out ∧ out.result = some r ∧ out.err = none ∧
      r.CommonResult.Status = .BoundsConverged ∧ r.CommonResult.Iterations = 4 ∧
      r.Loc = 1008 ∧ 1 / 10 < |r.Loc - 1003|) := by
  constructor
  · obtain ⟨out, r, h, hr, hp⟩ := Except_ok_some_of_check
      (OptimizeGradFree 45 (quadratic 3 5) (-7) none (NewGoldenSection 1 (1 / 10000000)))
      (fun out => out.result)
      (fun out r => decide (out.err = none ∧ r.CommonResult.Status = .BoundsConverged ∧
            r.CommonResult.Iterations = 44 ∧ 1 / 10000000 < |r.Loc - 3|)) (by decide!)
    exact ⟨out, r, h, hr, by simpa using hp⟩
  · obtain ⟨out, h, he, hr⟩ := golden_run_far_start
    exact ⟨out, _, h, hr, he, rfl, rfl, rfl, by norm_num⟩

/-- C19 (contradicted by the code): the `Result` is not the best point found.
From a start that already meets the gradient tolerance, the multivariate
`OptimizeGrad` reports `Obj = +Inf` and `Loc = nil` (both `none`) although the
objective at the start is `0`, and the univariate `OptimizeGrad` reports
`Loc = 0` for the start `3`, where the objective is `9` and not the reported `0`.
After iterations the univariate drivers report the last point evaluated: the
run of `GoldenSection` from `1000` returns `Obj = 25` at `1008`, above the
objective `9` of its start. -/
theorem C19_result_is_not_the_best_point :
    (∃ o, OptimizeGrad 1 1 demoFn (some zeroLoc) none none
        = .ok { optimizer := o,
                result := some { CommonResult := { Iterations := 0, FunctionEvaluations := 0,
                                                   Status := .GradAbsTol },
                                 Obj := none, Loc := none, Grad := none },
                err := none, calls := 1 }) ∧
    (demoFn zeroLoc).1 = 0 ∧
    (∃ out, UniOptimizeGrad 1 (quadraticGrad 3 0) () 3 none (.bisection { InitialStepMag := 1 })
        = .ok out ∧ out.err = none ∧
      out.result = some { CommonResult := { Iterations := 0, FunctionEvaluations := 0,
                                            Status := .GradAbsTol },
                          Obj := 0, Loc := 0, Grad := 0 }) ∧
    quadratic 3 0 0 = 9 ∧
    (∃ out, OptimizeGradFree 5 (quadratic 1003 0) 1000 none (NewGoldenSection 1 (1 / 10)) = .ok out ∧
      out.err = none ∧
      out.result = some { CommonResult := { Iterations := 4, FunctionEvaluations := 4,
                                            Status := .BoundsConverged },
                          Obj := 25, Loc := 1008 }) ∧
    quadratic 1003 0 1000 = 9 :=
  ⟨zero_optimize, by norm_num [demoFn, zeroLoc], bisection_run_converged_start,
    by norm_num [quadratic], golden_run_far_start, by norm_num [quadratic]⟩

theorem UniHelper_InitInf_default (initObj : ℚ) :
    ∃ h, NewUniHelper.InitInf UniDefaultSettings initObj = .ok h ∧ h.Inert ∧ h.locCurr = 0 := by
  norm_num [UniHelper.InitInf, NewUniHelper, SingleOutput.InitInf, UniToler.Init,
      UniDefaultSettings, DefaultSingleOutputSettings, UniHelper.Inert, Common.Init,
      bind, Except.bind, pure, Except.pure]

theorem UniHelper_IterateInf_inert (h : UniHelper) (hi : h.Inert) (loc obj : ℚ) (k : ℤ) :
    ∃ h1, h.IterateInf loc obj k = .ok h1 ∧ h1.Inert ∧ h1.locCurr = loc := by
  obtain ⟨h1, h2, h3, h4, h5⟩ := hi
  simp [UniHelper.IterateInf, SingleOutput.IterateInf, UniToler.Add, UniHelper.Inert,
    Common.Iterate, bind, Except.bind, pure, Except.pure, not_lt.mpr h3.le, not_lt.mpr h5.le,
    h1, h2, h3, h4, h5]

theorem UniHelper_StatusInf_inert (h : UniHelper) (hi : h.Inert) :
    h.StatusInf = .ok .Continue := by
  obtain ⟨h1, h2, h3, h4, h5⟩ := hi
  simp [UniHelper.StatusInf, SingleOutput.StatusInf, UniToler.AbsConvergedInf,
    UniToler.RelConvergedInf, UniToler.AbsConverged, UniToler.RelConverged, Common.Status,
    DefaultCommonSettings, bind, Except.bind, pure, Except.pure, h1, h2, h3, h4, h5]

theorem GradFreeWrapper_Status_inert (w : GradFreeWrapper) (hi : w.helper.Inert) :
    w.Status = .ok w.optimizer.Status := by
  simp only [GradFreeWrapper.Status, UniHelper_StatusInf_inert _ hi, bind, Except.bind, pure,
    Except.pure]
  split_ifs <;> simp_all

theorem GradFreeWrapper_Iterate_inert (w : GradFreeWrapper) (hi : w.helper.Inert) (f : ℚ → ℚ) :
    ∃ h1, w.Iterate f = .ok ({ optimizer := (w.optimizer.Iterate f).1, helper := h1 },
        (w.optimizer.Iterate f).2) ∧ (w.optimizer.Iterate f).2.err = none ∧ h1.Inert ∧
      h1.locCurr = w.optimizer.initLoc + w.optimizer.currentStep := by
  have herr : (w.optimizer.Iterate f).2.err = none := by
    simp only [GoldenSection.Iterate]
    split <;> [split; skip] <;> rfl
  have hloc : (w.optimizer.Iterate f).2.loc = w.optimizer.initLoc + w.optimizer.currentStep := by
    simp only [GoldenSection.Iterate]
    split <;> [split; skip] <;> rfl
  obtain ⟨h1, e1, i1, l1⟩ := UniHelper_IterateInf_inert _ hi (w.optimizer.Iterate f).2.loc
    (w.optimizer.Iterate f).2.obj (w.optimizer.Iterate f).2.nFunEvals
  refine ⟨h1, ?_, herr, i1, l1.trans hloc⟩
  simp only [GradFreeWrapper.Iterate, herr, e1, bind, Except.bind, pure, Except.pure]

theorem OptimizeGradFree_loop_done (f : ℚ → ℚ) (k : ℕ) (w : GradFreeWrapper)
    (hi : w.helper.Inert) (hs : w.optimizer.Status ≠ .Continue) :
    OptimizeGradFree.loop f (k + 1) w = .ok (.done w.optimizer.Status w) := by
  simp only [OptimizeGradFree.loop, GradFreeWrapper_Status_inert w hi]
  rw [if_pos hs]

theorem OptimizeGradFree_loop_continue (f : ℚ → ℚ) (k : ℕ) (w : GradFreeWrapper)
    (hi : w.helper.Inert) (hs : w.optimizer.Status = .Continue) :
    ∃ h1 : UniHelper, h1.Inert ∧ h1.locCurr = w.optimizer.initLoc + w.optimizer.currentStep ∧
      OptimizeGradFree.loop f (k + 1) w =
        OptimizeGradFree.loop f k { optimizer := (w.optimizer.Iterate f).1, helper := h1 } := by
  obtain ⟨h1, e1, herr, i1, l1⟩ := GradFreeWrapper_Iterate_inert w hi f
  refine ⟨h1, i1, l1, ?_⟩
  simp only [OptimizeGradFree.loop, GradFreeWrapper_Status_inert w hi, hs, e1, herr]
  simp

theorem resphi_pos : 0 < resphi := by norm_num [resphi]

theorem resphi_lt_one : resphi < 1 := by norm_num [resphi]

theorem GoldenSection_Init_ok (g : GoldenSection) (x0 v : ℚ) (h : (g.Init x0 v).2 = none) :
    g.InitialStep ≠ 0 ∧ (g.Init x0 v).1.initLoc = x0 ∧ (g.Init x0 v).1.Tol = g.Tol ∧
      (g.Init x0 v).1.InitialStep = g.InitialStep ∧
      ((g.Init x0 v).1.maxStep = .posInf ∨ (g.Init x0 v).1.maxStep = .negInf) ∧
      (g.Init x0 v).1.maxObj = none ∧ (g.Init x0 v).1.currentStep = g.InitialStep ∧
      (g.Init x0 v).1.minStep = 0 ∧ (g.Init x0 v).1.minObj = some v ∧
      (g.Init x0 v).1.middleStep = none ∧ (g.Init x0 v).1.middleObj = none := by
  unfold GoldenSection.Init at h ⊢
  by_cases h0 : g.InitialStep = 0
  · simp [h0] at h
  · simp only [h0, if_false] at h ⊢
    split_ifs at h ⊢
    all_goals first
      | exact ⟨h0, rfl, rfl, rfl, Or.inl rfl, rfl, rfl, rfl, rfl, rfl, rfl⟩
      | exact ⟨h0, rfl, rfl, rfl, Or.inr rfl, rfl, rfl, rfl, rfl, rfl, rfl⟩

theorem GoldenSection_Shrinking_Status (o : GoldenSection) (x0 fx0 m : ℚ)
    (h : o.Shrinking x0 fx0 m) :
    o.Status = if EqualWithinAbsOrRel (x0 + m) x0 o.Tol o.Tol then .BoundsConverged
      else .Continue := by
  obtain ⟨h1, h2, h3, h4, h5, h6⟩ := h
  simp only [GoldenSection.Status, h1, h2, h3, h5, zero_add, add_comm m x0]
  simp

theorem GoldenSection_Shrinking_Iterate (o : GoldenSection) (f : ℚ → ℚ) (x0 m : ℚ)
    (h : o.Shrinking x0 (f x0) m) (hf : f x0 ≤ f (x0 + resphi * m)) :
    (o.Iterate f).1.Shrinking x0 (f x0) (resphi * m) ∧ (o.Iterate f).1.Tol = o.Tol := by
  obtain ⟨h1, h2, h3, h4, h5, h6⟩ := h
  simp only [GoldenSection.Iterate, h2, h5, GoldenSection.iterateNoMiddle, h4, ltInf, h1, h6,
    decide_eq_false (not_lt.mpr hf), Bool.false_and]
  simp [GoldenSection.Shrinking, GoldenSection.resetMax, goldenNoMiddleStep, h1, h3, h4, h6]

/-- While every trial point has an objective not below that of the start,
`GoldenSection` multiplies the bound `m` by `resphi` in each pass, and the loop
of `OptimizeGradFree` ends at the latest when `|m| ≤ Tol`; the location of the
helper is then the start plus the last bound. -/
theorem GoldenSection_shrink_loop (f : ℚ → ℚ) (x0 s T : ℚ)
    (hinc : ∀ x, 0 < (x - x0) * s → f x0 ≤ f x) :
    ∀ (k : ℕ) (w : GradFreeWrapper) (m : ℚ), w.helper.Inert → w.helper.locCurr = x0 + m →
      w.optimizer.Shrinking x0 (f x0) m → w.optimizer.Tol = T → 0 < m * s →
      |m| * resphi ^ k ≤ T →
      ∃ w1, OptimizeGradFree.loop f (k + 1) w = .ok (.done .BoundsConverged w1) ∧
        EqualWithinAbsOrRel w1.helper.locCurr x0 T T = true := by
  intro k
  induction k with
  | zero =>
    intro w m hi hl hsh hT hm hk
    have hst := GoldenSection_Shrinking_Status _ _ _ _ hsh
    have hc : EqualWithinAbsOrRel (x0 + m) x0 T T = true := by
      simp only [pow_zero, mul_one] at hk
      simp [EqualWithinAbsOrRel, EqualWithinAbs, hk]
    rw [hT, hc, if_pos rfl] at hst
    refine ⟨w, ?_, by rw [hl]; exact hc⟩
    rw [OptimizeGradFree_loop_done f 0 w hi (by rw [hst]; simp), hst]
  | succ k ih =>
    intro w m hi hl hsh hT hm hk
    have hst := GoldenSection_Shrinking_Status _ _ _ _ hsh
    rw [hT] at hst
    by_cases hc : EqualWithinAbsOrRel (x0 + m) x0 T T = true
    · rw [hc, if_pos rfl] at hst
      refine ⟨w, ?_, by rw [hl]; exact hc⟩
      rw [OptimizeGradFree_loop_done f (k + 1) w hi (by rw [hst]; simp), hst]
    · rw [if_neg hc] at hst
      obtain ⟨h1, i1, l1, e1⟩ := OptimizeGradFree_loop_continue f (k + 1) w hi hst
      have hpos : 0 < resphi * m * s := by
        have := mul_pos resphi_pos hm
        linarith [this, mul_assoc resphi m s]
      have hf : f x0 ≤ f (x0 + resphi * m) := hinc _ (by simpa using hpos)
      obtain ⟨sh1, t1⟩ := GoldenSection_Shrinking_Iterate _ f x0 m hsh hf
      have hk1 : |resphi * m| * resphi ^ k ≤ T := by
        rw [abs_mul, abs_of_pos resphi_pos]
        calc resphi * |m| * resphi ^ k = |m| * resphi ^ (k + 1) := by ring
          _ ≤ T := hk
      have hl1 : h1.locCurr = x0 + resphi * m := by rw [l1, hsh.1, hsh.2.2.2.2.2]
      obtain ⟨w1, e2, c2⟩ := ih { optimizer := (w.optimizer.Iterate f).1, helper := h1 }
        (resphi * m) i1 hl1 sh1 (t1.trans hT) hpos hk1
      exact ⟨w1, by rw [e1, e2], c2⟩

theorem GoldenSection_Init_Status (g : GoldenSection) (x0 v : ℚ) (h : (g.Init x0 v).2 = none) :
    (g.Init x0 v).1.Status = .Continue := by
  obtain ⟨_, _, _, _, hm, _, _, _, _, hmid, _⟩ := GoldenSection_Init_ok g x0 v h
  rcases hm with hm | hm <;> simp [GoldenSection.Status, hm, hmid]

theorem GoldenSection_Init_Iterate_bound (g : GoldenSection) (f : ℚ → ℚ) (x0 : ℚ)
    (h : (g.Init x0 (f x0)).2 = none) (hf : f x0 ≤ f (x0 + g.InitialStep)) :
    ((g.Init x0 (f x0)).1.Iterate f).1.Shrinking x0 (f x0) g.InitialStep ∧
      ((g.Init x0 (f x0)).1.Iterate f).1.Tol = g.Tol := by
  obtain ⟨_, h1, h2, _, hm, _, h5, h6, h7, h8, _⟩ := GoldenSection_Init_ok g x0 (f x0) h
  rcases hm with hm | hm <;>
    simp [GoldenSection.Iterate, GoldenSection.iterateUnbounded, GoldenSection.Shrinking,
      goldenNoMiddleStep, ltInf, hm, h1, h2, h5, h6, h7, h8, not_lt.mpr hf]

/-- C16: let the objective be nowhere below its value at the start in the
direction of the initial step.  Then `OptimizeGradFree` with the default
settings and a `GoldenSection` whose `Init` succeeds and whose `Tol` is positive
terminates (some fuel suffices) with the status `BoundsConverged`, and the
location it returns equals the start within `Tol`, absolutely or relatively. -/
theorem C16_golden_returns_start (f : ℚ → ℚ) (x0 : ℚ) (g : GoldenSection)
    (hinit : (g.Init x0 (f x0)).2 = none) (hTol : 0 < g.Tol)
    (hinc : ∀ x, 0 < (x - x0) * g.InitialStep → f x0 ≤ f x) :
    ∃ fuel out r, OptimizeGradFree fuel f x0 none g = .ok out ∧ out.result = some r ∧
      out.err = none ∧ r.CommonResult.Status = .BoundsConverged ∧
      EqualWithinAbsOrRel r.Loc x0 g.Tol g.Tol = true := by
  obtain ⟨hs, h1, h2, _, _, _, h5, _⟩ := GoldenSection_Init_ok g x0 (f x0) hinit
  have hss : 0 < g.InitialStep * g.InitialStep := mul_self_pos.mpr hs
  obtain ⟨k, hk⟩ := exists_pow_lt_of_lt_one (div_pos hTol (abs_pos.mpr hs)) resphi_lt_one
  have hk1 : |g.InitialStep| * resphi ^ k ≤ g.Tol := by
    have := (lt_div_iff₀ (abs_pos.mpr hs)).mp hk
    linarith
  obtain ⟨h0, e0, i0, _⟩ := UniHelper_InitInf_default (f x0)
  obtain ⟨hh, ih, lh, eh⟩ := OptimizeGradFree_loop_continue f (k + 1)
    { optimizer := (g.Init x0 (f x0)).1, helper := h0 } i0
    (GoldenSection_Init_Status g x0 (f x0) hinit)
  have hf : f x0 ≤ f (x0 + g.InitialStep) := hinc _ (by simpa using hss)
  obtain ⟨sh, t1⟩ := GoldenSection_Init_Iterate_bound g f x0 hinit hf
  obtain ⟨w1, e1, c1⟩ := GoldenSection_shrink_loop f x0 g.InitialStep g.Tol hinc k
    { optimizer := ((g.Init x0 (f x0)).1.Iterate f).1, helper := hh } g.InitialStep ih
    (by rw [lh]; simp only [h1, h5]) sh t1 hss hk1
  refine ⟨k + 2, GradFreeOut.mk w1.optimizer (some (w1.Result Status.BoundsConverged)) none,
    w1.Result Status.BoundsConverged, ?_, rfl, rfl, rfl, c1⟩
  have hw : (NewGradFreeWrapper g).Init UniDefaultSettings f x0
      = .ok ({ optimizer := (g.Init x0 (f x0)).1, helper := h0 }, none) := by
    simp only [GradFreeWrapper.Init, NewGradFreeWrapper, UniDefaultSettings] at e0 ⊢
    simp only [UniDefaultSettings, e0, bind, Except.bind, pure, Except.pure, hinit.symm]
  simp only [OptimizeGradFree, Option.getD_none, hw, eh, e1]

/-- Witness of C16: the third run of `TestGoldenSection`, `quadratic{b: 3, c: 5}`
from `13` with the initial step `1`. -/
theorem C16_golden_returns_start_witness :
    ∃ fuel out r, OptimizeGradFree fuel (quadratic 3 5) 13 none
        (NewGoldenSection 1 (1 / 10000000)) = .ok out ∧ out.result = some r ∧
      out.err = none ∧ r.CommonResult.Status = .BoundsConverged ∧
      EqualWithinAbsOrRel r.Loc 13 (1 / 10000000) (1 / 10000000) = true :=
  C16_golden_returns_start (quadratic 3 5) 13 (NewGoldenSection 1 (1 / 10000000))
    (by decide!) (by norm_num [NewGoldenSection])
    (by
      intro x hx
      simp only [NewGoldenSection, mul_one] at hx
      show (13 - 3) * (13 - 3) + 5 ≤ (x - 3) * (x - 3) + (5 : ℚ)
      nlinarith [mul_pos hx (by linarith : (0 : ℚ) < x + 7)])

end GoldenSectionTheorems

/-! ## Theorems: the interval updates of `dcstep` and of `Bisection` -/

section IntervalUpdates

variable {n : ℕ}

theorem dcstep_sgnd_neg_iff (dx dp : ℚ) : dp * (dx / |dx|) < 0 ↔ dp * dx < 0 := by
  rcases lt_trichotomy dx 0 with h | h | h
  · rw [abs_of_neg h, div_neg, div_self (ne_of_lt h)]
    constructor
    · intro h1
      nlinarith
    · intro h1
      nlinarith
  · subst h
    simp
  · rw [abs_of_pos h, div_self (ne_of_gt h)]
    constructor
    · intro h1
      nlinarith
    · intro h1
      nlinarith

/-- C25: for every call of `dcstep` the interval update follows the
classification.  If `fp > fx` the returned `(stx, fx, dx)` are the inputs and
the returned `(sty, fy, dy)` is `(stp, fp, dp)`.  Otherwise the returned
`(stx, fx, dx)` is `(stp, fp, dp)`, and the returned `(sty, fy, dy)` is the old
`(stx, fx, dx)` when the derivatives at `stx` and `stp` have opposite sign
(`dp * dx < 0`) and the old `(sty, fy, dy)` when they have not.  The returned
bracket flag is `bracket || fp > fx || dp * dx < 0`, so a flag that is `true`
stays `true`. -/
theorem C25_dcstep_interval_update (stx fx dx sty fy dy stp fp dp : ℚ) (bracket : Bool)
    (stpmin stpmax : ℚ) :
    (fx < fp →
      (dcstep stx fx dx sty fy dy stp fp dp bracket stpmin stpmax).stx = stx ∧
      (dcstep stx fx dx sty fy dy stp fp dp bracket stpmin stpmax).fx = fx ∧
      (dcstep stx fx dx sty fy dy stp fp dp bracket stpmin stpmax).dx = dx ∧
      (dcstep stx fx dx sty fy dy stp fp dp bracket stpmin stpmax).sty = stp ∧
      (dcstep stx fx dx sty fy dy stp fp dp bracket stpmin stpmax).fy = fp ∧
      (dcstep stx fx dx sty fy dy stp fp dp bracket stpmin stpmax).dy = dp) ∧
    (¬ fx < fp →
      ((dcstep stx fx dx sty fy dy stp fp dp bracket stpmin stpmax).stx = stp ∧
        (dcstep stx fx dx sty fy dy stp fp dp bracket stpmin stpmax).fx = fp ∧
        (dcstep stx fx dx sty fy dy stp fp dp bracket stpmin stpmax).dx = dp) ∧
      (dp * dx < 0 →
        (dcstep stx fx dx sty fy dy stp fp dp bracket stpmin stpmax).sty = stx ∧
        (dcstep stx fx dx sty fy dy stp fp dp bracket stpmin stpmax).fy = fx ∧
        (dcstep stx fx dx sty fy dy stp fp dp bracket stpmin stpmax).dy = dx) ∧
      (¬ dp * dx < 0 →
        (dcstep stx fx dx sty fy dy stp fp dp bracket stpmin stpmax).sty = sty ∧
        (dcstep stx fx dx sty fy dy stp fp dp bracket stpmin stpmax).fy = fy ∧
        (dcstep stx fx dx sty fy dy stp fp dp bracket stpmin stpmax).dy = dy)) ∧
    ((dcstep stx fx dx sty fy dy stp fp dp bracket stpmin stpmax).bracket
      = (bracket || decide (fx < fp) || decide (dp * dx < 0))) ∧
    (bracket = true →
      (dcstep stx fx dx sty fy dy stp fp dp bracket stpmin stpmax).bracket = true) := by
  have hs := dcstep_sgnd_neg_iff dx dp
  refine ⟨?_, ?_, ?_, ?_⟩
  · intro h
    simp [dcstep, h]
  · intro h
    refine ⟨?_, ?_, ?_⟩
    · unfold dcstep
      simp only [h, if_false]
      split_ifs <;> exact ⟨rfl, rfl, rfl⟩
    · intro h2
      simp [dcstep, h, hs.mpr h2]
    · intro h2
      have h3 : ¬ dp * (dx / |dx|) < 0 := fun h4 => h2 (hs.mp h4)
      simp [dcstep, h, h3]
  · unfold dcstep
    by_cases h : fx < fp
    · simp [h]
    · by_cases h2 : dp * dx < 0
      · simp [h, h2, hs.mpr h2]
      · have h3 : ¬ dp * (dx / |dx|) < 0 := fun h4 => h2 (hs.mp h4)
        simp [h, h2, h3]
  · intro hb
    unfold dcstep
    subst hb
    dsimp only
    split_ifs <;> rfl

/-- C25, witness: from the interval `stx = sty = 0` with `fx = 0`, `dx = -1`
and the trial step `1` with derivative `2`, a trial value `1 > fx` makes `sty`
the trial step and sets the flag, and a trial value `-1` makes `stx` the trial
step and `sty` the old `stx`. -/
theorem C25_dcstep_interval_update_witness :
    ((0 : ℚ) < 1 ∧
      (dcstep 0 0 (-1) 0 0 (-1) 1 1 2 false (1 / 100000000) 50).sty = 1 ∧
      (dcstep 0 0 (-1) 0 0 (-1) 1 1 2 false (1 / 100000000) 50).bracket = true) ∧
    (¬ (0 : ℚ) < -1 ∧ (2 : ℚ) * -1 < 0 ∧
      (dcstep 0 0 (-1) 0 0 (-1) 1 (-1) 2 false (1 / 100000000) 50).stx = 1 ∧
      (dcstep 0 0 (-1) 0 0 (-1) 1 (-1) 2 false (1 / 100000000) 50).sty = 0) :=
  ⟨⟨by norm_num,
      ((C25_dcstep_interval_update 0 0 (-1) 0 0 (-1) 1 1 2 false (1 / 100000000) 50).1
        (by norm_num)).2.2.2.1,
      by rw [(C25_dcstep_interval_update 0 0 (-1) 0 0 (-1) 1 1 2 false (1 / 100000000) 50).2.2.1]
         simp⟩,
    ⟨by norm_num, by norm_num,
      (((C25_dcstep_interval_update 0 0 (-1) 0 0 (-1) 1 (-1) 2 false (1 / 100000000) 50).2.1
        (by norm_num)).1).1,
      ((((C25_dcstep_interval_update 0 0 (-1) 0 0 (-1) 1 (-1) 2 false (1 / 100000000) 50).2.1
        (by norm_num)).2.1) (by norm_num)).1⟩⟩

theorem dcstep_keeps_order (stx fx dx sty fy dy stp fp dp : ℚ) (bracket : Bool)
    (stpmin stpmax : ℚ) (h : fx ≤ fy) :
    (dcstep stx fx dx sty fy dy stp fp dp bracket stpmin stpmax).fx
      ≤ (dcstep stx fx dx sty fy dy stp fp dp bracket stpmin stpmax).fy := by
  unfold dcstep
  dsimp only
  by_cases h1 : fx < fp
  · simp only [h1, if_true]
    exact h1.le
  · simp only [h1, if_false]
    split_ifs <;> first | exact not_lt.mp h1 | exact le_trans (not_lt.mp h1) h

theorem Dcstep_Iterate_plain {σ : Type} (d : Dcstep) (fn : UniObjGrader σ) (st : σ)
    (hm : ¬ d.UsesModified (fn (d.initLoc + d.stp) st).1.1 (fn (d.initLoc + d.stp) st).1.2) :
    (d.Iterate fn st).1.fx
        = (dcstep d.stx d.fx d.gx d.sty d.fy d.gy d.stp (fn (d.initLoc + d.stp) st).1.1
            (fn (d.initLoc + d.stp) st).1.2 d.bracket d.stpmin d.stpmax).fx ∧
      (d.Iterate fn st).1.fy
        = (dcstep d.stx d.fx d.gx d.sty d.fy d.gy d.stp (fn (d.initLoc + d.stp) st).1.1
            (fn (d.initLoc + d.stp) st).1.2 d.bracket d.stpmin d.stpmax).fy := by
  unfold Dcstep.UsesModified at hm
  simp only [Dcstep.Iterate, Dcstep.update, Dcstep.safeguard]
  rw [if_neg hm]
  constructor <;> split_ifs <;> rfl

theorem Dcstep_Iterate_modified {σ : Type} (d : Dcstep) (fn : UniObjGrader σ) (st : σ)
    (hm : d.UsesModified (fn (d.initLoc + d.stp) st).1.1 (fn (d.initLoc + d.stp) st).1.2) :
    (d.Iterate fn st).1.gtest = d.gtest ∧
      (d.Iterate fn st).1.fx - (d.Iterate fn st).1.stx * d.gtest
        = (dcstep d.stx (d.fx - d.stx * d.gtest) (d.gx - d.gtest) d.sty
            (d.fy - d.sty * d.gtest) (d.gy - d.gtest) d.stp
            ((fn (d.initLoc + d.stp) st).1.1 - d.stp * d.gtest)
            ((fn (d.initLoc + d.stp) st).1.2 - d.gtest) d.bracket d.stpmin d.stpmax).fx ∧
      (d.Iterate fn st).1.fy - (d.Iterate fn st).1.sty * d.gtest
        = (dcstep d.stx (d.fx - d.stx * d.gtest) (d.gx - d.gtest) d.sty
            (d.fy - d.sty * d.gtest) (d.gy - d.gtest) d.stp
            ((fn (d.initLoc + d.stp) st).1.1 - d.stp * d.gtest)
            ((fn (d.initLoc + d.stp) st).1.2 - d.gtest) d.bracket d.stpmin d.stpmax).fy := by
  unfold Dcstep.UsesModified at hm
  simp only [Dcstep.Iterate, Dcstep.update, Dcstep.safeguard]
  rw [if_pos hm]
  refine ⟨?_, ?_, ?_⟩ <;> split_ifs <;> simp

/-- C26 (amended): `Dcstep.Init`, when it reports no error, sets `fx` and `fy`
to the initial objective, and every call of `dcstep` that starts with
`fx ≤ fy` returns with `fx ≤ fy`.  A call of `Dcstep.Iterate` that does not
use the modified function keeps `fx ≤ fy`; a call that uses the modified
function (first stage, the trial value between `ftest` and `fx`) keeps the
order of the modified values, `fx - stx * gtest ≤ fy - sty * gtest`, not
that of the objective values. -/
theorem C26_stx_least_value {σ : Type} (d : Dcstep) (fn : UniObjGrader σ) (st : σ) :
    (∀ initLoc initObj initGrad : ℚ, (d.Init initLoc initObj initGrad).2 = none →
      (d.Init initLoc initObj initGrad).1.fx = initObj ∧
      (d.Init initLoc initObj initGrad).1.fy = initObj) ∧
    (∀ (stx fx dx sty fy dy stp fp dp : ℚ) (bracket : Bool) (stpmin stpmax : ℚ), fx ≤ fy →
      (dcstep stx fx dx sty fy dy stp fp dp bracket stpmin stpmax).fx
        ≤ (dcstep stx fx dx sty fy dy stp fp dp bracket stpmin stpmax).fy) ∧
    (¬ d.UsesModified (fn (d.initLoc + d.stp) st).1.1 (fn (d.initLoc + d.stp) st).1.2 →
      d.fx ≤ d.fy → (d.Iterate fn st).1.fx ≤ (d.Iterate fn st).1.fy) ∧
    (d.UsesModified (fn (d.initLoc + d.stp) st).1.1 (fn (d.initLoc + d.stp) st).1.2 →
      d.fx - d.stx * d.gtest ≤ d.fy - d.sty * d.gtest →
      (d.Iterate fn st).1.fx - (d.Iterate fn st).1.stx * (d.Iterate fn st).1.gtest
        ≤ (d.Iterate fn st).1.fy - (d.Iterate fn st).1.sty * (d.Iterate fn st).1.gtest) := by
  refine ⟨?_, ?_, ?_, ?_⟩
  · intro initLoc initObj initGrad h
    unfold Dcstep.Init at h ⊢
    by_cases h0 : d.InitialStepMag = 0
    · simp [h0] at h
    · simp only [h0, if_false] at h ⊢
      dsimp only at h ⊢
      split_ifs at h ⊢
      exact ⟨rfl, rfl⟩
  · intro stx fx dx sty fy dy stp fp dp bracket stpmin stpmax h
    exact dcstep_keeps_order _ _ _ _ _ _ _ _ _ _ _ _ h
  · intro hm h
    obtain ⟨e1, e2⟩ := Dcstep_Iterate_plain d fn st hm
    rw [e1, e2]
    exact dcstep_keeps_order _ _ _ _ _ _ _ _ _ _ _ _ h
  · intro hm h
    obtain ⟨e0, e1, e2⟩ := Dcstep_Iterate_modified d fn st hm
    rw [e0, e1, e2]
    exact dcstep_keeps_order _ _ _ _ _ _ _ _ _ _ _ _ h

/-- C26, witness: the first call of `Iterate` on `shallowLine` uses the
modified function and keeps the order of the modified values; `Init` with the
default initial step reports no error and sets `fx = fy = 0`. -/
theorem C26_stx_least_value_witness :
    (decreaseDcstep.UsesModified (-1 / 20) (9 / 10) ∧
      decreaseDcstep.fx - decreaseDcstep.stx * decreaseDcstep.gtest
        ≤ decreaseDcstep.fy - decreaseDcstep.sty * decreaseDcstep.gtest ∧
      (decreaseDcstep.Iterate shallowLine ()).1.fx
          - (decreaseDcstep.Iterate shallowLine ()).1.stx
            * (decreaseDcstep.Iterate shallowLine ()).1.gtest
        ≤ (decreaseDcstep.Iterate shallowLine ()).1.fy
          - (decreaseDcstep.Iterate shallowLine ()).1.sty
            * (decreaseDcstep.Iterate shallowLine ()).1.gtest) ∧
    ((NewDcstep.Init 0 0 (-1)).2 = none ∧ (NewDcstep.Init 0 0 (-1)).1.fx = 0 ∧
      (NewDcstep.Init 0 0 (-1)).1.fy = 0) := by
  have hm : decreaseDcstep.UsesModified
      (shallowLine (decreaseDcstep.initLoc + decreaseDcstep.stp) ()).1.1
      (shallowLine (decreaseDcstep.initLoc + decreaseDcstep.stp) ()).1.2 := by
    norm_num [Dcstep.UsesModified, decreaseDcstep, shallowLine, NewDcstep, Dcstep.Init,
      Dcstep.SetWolfeConditions, xtrapu]
  have h0 : decreaseDcstep.fx - decreaseDcstep.stx * decreaseDcstep.gtest
      ≤ decreaseDcstep.fy - decreaseDcstep.sty * decreaseDcstep.gtest := by
    norm_num [decreaseDcstep, NewDcstep, Dcstep.Init, Dcstep.SetWolfeConditions, xtrapu]
  have hi : (NewDcstep.Init 0 0 (-1)).2 = none := by
    norm_num [NewDcstep, Dcstep.Init, xtrapu]
  refine ⟨⟨?_, h0, (C26_stx_least_value decreaseDcstep shallowLine ()).2.2.2 hm h0⟩, hi,
    ((C26_stx_least_value NewDcstep shallowLine ()).1 0 0 (-1) hi)⟩
  norm_num [Dcstep.UsesModified, decreaseDcstep, NewDcstep, Dcstep.Init,
    Dcstep.SetWolfeConditions, xtrapu]

/-- C26, counterexample: with the sufficient decrease constant `1 / 10`, on
`φ(t) = -t + (19 / 20) t²` the first trial step `1` has the value `-1 / 20`
below `fx = 0`; `Iterate` uses the modified function, under which the trial
point is the worse one, and returns with `stx = 0`, `fx = 0`, `sty = 1`,
`fy = -1 / 20`: `fx ≤ fy` does not hold. -/
theorem C26_counterexample :
    decreaseDcstep.fx = 0 ∧ decreaseDcstep.fy = 0 ∧
    (shallowLine 1 ()).1 = (-1 / 20, 9 / 10) ∧
    (decreaseDcstep.Iterate shallowLine ()).1.stx = 0 ∧
    (decreaseDcstep.Iterate shallowLine ()).1.fx = 0 ∧
    (decreaseDcstep.Iterate shallowLine ()).1.sty = 1 ∧
    (decreaseDcstep.Iterate shallowLine ()).1.fy = -1 / 20 ∧
    ¬ (decreaseDcstep.Iterate shallowLine ()).1.fx ≤ (decreaseDcstep.Iterate shallowLine ()).1.fy := by
  decide!

theorem Bisection_Iterate_tie {σ : Type} (f : UniObjGrader σ) (b : Bisection) (st : σ)
    (hmax : b.maxStep = none) (hgrad : b.trialGrad f st ≤ 0)
    (htie : EqualWithinAbsOrRel b.minObj (f (b.initLoc + b.currStep) st).1.1 (1 / 10 ^ 15)
      (1 / 10 ^ 15) = true) :
    (b.Iterate f st).1.maxStep = none ∧
    (b.Iterate f st).1.minStep = b.currStep ∧
    (b.Iterate f st).1.minObj = (f (b.initLoc + b.currStep) st).1.1 ∧
    (b.Iterate f st).1.currStep = b.currStep * 2 := by
  unfold Bisection.trialGrad at hgrad
  simp only [Bisection.Iterate, hmax, Bisection.iterateUnbounded, if_neg (not_lt.mpr hgrad), htie,
    true_or, if_true]
  exact ⟨trivial, trivial, trivial, trivial⟩

/-- On the constant oracle the `k`-th trial step of `flatBisection` is `2 ^ k`:
every trial ties with the lower bound and no call finds an upper bound. -/
theorem Bisection_flat_steps (k : ℕ) :
    (Bisection.iterates flat k (flatBisection, ())).1.currStep = 2 ^ k ∧
    (Bisection.iterates flat k (flatBisection, ())).1.maxStep = none ∧
    (Bisection.iterates flat k (flatBisection, ())).1.posInitGrad = false ∧
    (Bisection.iterates flat k (flatBisection, ())).1.minObj = 0 := by
  induction k with
  | zero => norm_num [Bisection.iterates, flatBisection, Bisection.Init]
  | succ k ih =>
    obtain ⟨h1, h2, h3, h4⟩ := ih
    have hg : (Bisection.iterates flat k (flatBisection, ())).1.trialGrad flat
        (Bisection.iterates flat k (flatBisection, ())).2 ≤ 0 := by
      simp [Bisection.trialGrad, flat]
    have ht : EqualWithinAbsOrRel (Bisection.iterates flat k (flatBisection, ())).1.minObj
        (flat ((Bisection.iterates flat k (flatBisection, ())).1.initLoc
          + (Bisection.iterates flat k (flatBisection, ())).1.currStep)
          (Bisection.iterates flat k (flatBisection, ())).2).1.1 (1 / 10 ^ 15) (1 / 10 ^ 15)
        = true := by
      rw [h4]
      simp [flat, EqualWithinAbsOrRel, EqualWithinAbs]
    obtain ⟨a1, a2, a3, a4⟩ := Bisection_Iterate_tie flat _ _ h2 hg ht
    simp only [Bisection.iterates]
    refine ⟨?_, a1, ?_, ?_⟩
    · rw [a4, h1, pow_succ]
    · rw [← h3]
      simp only [Bisection.Iterate, h2, Bisection.iterateUnbounded]
      split_ifs <;> rfl
    · rw [a3]
      rfl

/-- C27 (amended): in the unbounded phase of `Bisection` (`maxStep` is
`+Inf`), when the derivative at the trial point is not positive and the trial
objective is within `1e-15` (absolute or relative) of the objective of the
lower bound, `Iterate` treats the trial as an improvement: `maxStep` stays
`+Inf`, the lower bound moves to the trial step with its objective, and the
trial step is doubled. -/
theorem C27_tie_moves_lower_bound {σ : Type} (f : UniObjGrader σ) (b : Bisection) (st : σ)
    (hmax : b.maxStep = none) (hgrad : b.trialGrad f st ≤ 0)
    (htie : EqualWithinAbsOrRel b.minObj (f (b.initLoc + b.currStep) st).1.1 (1 / 10 ^ 15)
      (1 / 10 ^ 15) = true) :
    (b.Iterate f st).1.maxStep = none ∧
    (b.Iterate f st).1.minStep = b.currStep ∧
    (b.Iterate f st).1.minObj = (f (b.initLoc + b.currStep) st).1.1 ∧
    (b.Iterate f st).1.currStep = b.currStep * 2 :=
  Bisection_Iterate_tie f b st hmax hgrad htie

/-- C27, witness: the first call of `Iterate` on a constant objective. -/
theorem C27_tie_moves_lower_bound_witness :
    flatBisection.maxStep = none ∧ flatBisection.trialGrad flat () ≤ 0 ∧
    (flatBisection.Iterate flat ()).1.maxStep = none ∧
    (flatBisection.Iterate flat ()).1.minStep = flatBisection.currStep ∧
    (flatBisection.Iterate flat ()).1.currStep = flatBisection.currStep * 2 :=
  have h := C27_tie_moves_lower_bound flat flatBisection ()
    (by simp [flatBisection, Bisection.Init])
    (by simp [Bisection.trialGrad, flat])
    (by simp [flat, flatBisection, Bisection.Init, EqualWithinAbsOrRel, EqualWithinAbs])
  ⟨by simp [flatBisection, Bisection.Init], by simp [Bisection.trialGrad, flat],
    h.1, h.2.1, h.2.2.2⟩

/-- C27, counterexample: on a constant objective with derivative `0`, from
the initial step `1`, the first trial ties with the lower bound; `Iterate`
leaves `maxStep` at `+Inf` and doubles the step to `2`, and after `k` calls
`maxStep` is still `+Inf` and the trial step is `2 ^ k`. -/
theorem C27_counterexample :
    (({ InitialStepMag := 1 } : Bisection).Init 0 0 0).2 = none ∧
    flatBisection.maxStep = none ∧ flatBisection.currStep = 1 ∧
    flatBisection.trialGrad flat () ≤ 0 ∧
    EqualWithinAbsOrRel flatBisection.minObj
      (flat (flatBisection.initLoc + flatBisection.currStep) ()).1.1 (1 / 10 ^ 15) (1 / 10 ^ 15)
      = true ∧
    (flatBisection.Iterate flat ()).1.maxStep = none ∧
    (flatBisection.Iterate flat ()).1.maxStep ≠ some flatBisection.currStep ∧
    (flatBisection.Iterate flat ()).1.currStep = 2 ∧
    (∀ k : ℕ, (Bisection.iterates flat k (flatBisection, ())).1.maxStep = none ∧
      (Bisection.iterates flat k (flatBisection, ())).1.currStep = 2 ^ k) := by
  have h1 := Bisection_flat_steps 1
  simp only [Bisection.iterates, pow_one] at h1
  refine ⟨by simp [Bisection.Init], by simp [flatBisection, Bisection.Init],
    by simp [flatBisection, Bisection.Init], by simp [Bisection.trialGrad, flat],
    by simp [flat, flatBisection, Bisection.Init, EqualWithinAbsOrRel, EqualWithinAbs],
    h1.2.1, by rw [h1.2.1]; simp, h1.1, fun k => ⟨(Bisection_flat_steps k).2.1,
      (Bisection_flat_steps k).1⟩⟩

theorem Bisection_Iterate_bounded {σ : Type} (f : UniObjGrader σ) (b : Bisection) (st : σ)
    (mx : ℚ) (hmx : b.maxStep = some mx) :
    (((b.Iterate f st).1.minStep = b.currStep ∧ (b.Iterate f st).1.maxStep = some mx ∧
        (b.Iterate f st).1.currStep = (b.currStep + mx) / 2) ∨
      ((b.Iterate f st).1.minStep = b.minStep ∧ (b.Iterate f st).1.maxStep = some b.currStep ∧
        (b.Iterate f st).1.currStep = (b.minStep + b.currStep) / 2)) ∧
    ((∀ mg, b.maxGrad = some mg → ¬ mg < 0) →
      (b.trialGrad f st < 0 →
        (b.Iterate f st).1.minStep = b.currStep ∧ (b.Iterate f st).1.maxStep = some mx) ∧
      (¬ b.trialGrad f st < 0 →
        (b.Iterate f st).1.minStep = b.minStep ∧
        (b.Iterate f st).1.maxStep = some b.currStep)) := by
  unfold Bisection.trialGrad
  simp only [Bisection.Iterate, hmx]
  constructor
  · split_ifs <;>
      simp only [Bisection.iterateUnbounded, Bisection.iterateBounded, hmx] <;>
      split_ifs <;> simp
  · intro hg
    cases hm : b.maxGrad with
    | none =>
      constructor
      · intro h
        simp [Bisection.iterateBounded, h, hmx]
      · intro h
        simp [Bisection.iterateBounded, h]
    | some mg =>
      have hmg := hg mg hm
      constructor
      · intro h
        simp [Bisection.iterateBounded, h, hmx, hmg]
      · intro h
        simp [Bisection.iterateBounded, h, hmg]

theorem Bisection_Iterate_bracketed {σ : Type} (f : UniObjGrader σ) (b : Bisection) (st : σ)
    (h : b.Bracketed) :
    (b.Iterate f st).1.Bracketed ∧ (b.Iterate f st).1.width = b.width / 2 := by
  obtain ⟨mx, hmx, hc⟩ := h
  obtain ⟨h1, -⟩ := Bisection_Iterate_bounded f b st mx hmx
  rcases h1 with ⟨a1, a2, a3⟩ | ⟨a1, a2, a3⟩
  · refine ⟨⟨mx, a2, by rw [a3, a1]⟩, ?_⟩
    simp only [Bisection.width, a2, hmx, a1, hc]
    rw [show mx - (b.minStep + mx) / 2 = (mx - b.minStep) / 2 by ring, abs_div]
    simp
  · refine ⟨⟨b.currStep, a2, by rw [a3, a1]⟩, ?_⟩
    simp only [Bisection.width, a2, hmx, a1, hc]
    rw [show (b.minStep + mx) / 2 - b.minStep = (mx - b.minStep) / 2 by ring, abs_div]
    simp

theorem Bisection_iterates_bracketed {σ : Type} (f : UniObjGrader σ) (b : Bisection) (st : σ)
    (h : b.Bracketed) (k : ℕ) :
    (Bisection.iterates f k (b, st)).1.Bracketed ∧
    (Bisection.iterates f k (b, st)).1.width = b.width / 2 ^ k := by
  induction k with
  | zero => simpa [Bisection.iterates] using h
  | succ k ih =>
    obtain ⟨i1, i2⟩ := ih
    obtain ⟨j1, j2⟩ := Bisection_Iterate_bracketed f _ (Bisection.iterates f k (b, st)).2 i1
    simp only [Bisection.iterates]
    refine ⟨j1, ?_⟩
    rw [j2, i2, pow_succ]
    field_simp

theorem Bisection_Iterate_first_bound {σ : Type} (f : UniObjGrader σ) (b : Bisection) (st : σ)
    (h : b.maxStep = none) (mx : ℚ) (h1 : (b.Iterate f st).1.maxStep = some mx) :
    (b.Iterate f st).1.Bracketed := by
  refine ⟨mx, h1, ?_⟩
  revert h1
  simp only [Bisection.Iterate, h, Bisection.iterateUnbounded]
  split_ifs <;> simp <;> intro h2 <;> rw [← h2]

/-- C28: the call of `Bisection.Iterate` that finds the upper bound leaves
the next trial step at the midpoint of the two bounds.  Every call with a
finite `maxStep` moves exactly one of `minStep` and `maxStep` to the trial step
and sets the next trial step to the midpoint `(minStep + maxStep) / 2`; in the
fully bounded phase (the derivative stored for `maxStep` is not negative) the
bound moved is `minStep` when the derivative at the trial point is negative
and `maxStep` otherwise.  So from a state with a finite `maxStep` whose trial
step is the midpoint on, every call halves `|maxStep - minStep|`: after `k`
calls the width is the initial width divided by `2 ^ k`. -/
theorem C28_bounded_phase_halves {σ : Type} (f : UniObjGrader σ) (b : Bisection) (st : σ) :
    (b.maxStep = none → ∀ mx, (b.Iterate f st).1.maxStep = some mx →
      (b.Iterate f st).1.Bracketed) ∧
    (∀ mx, b.maxStep = some mx →
      ((b.Iterate f st).1.minStep = b.currStep ∧ (b.Iterate f st).1.maxStep = some mx ∧
        (b.Iterate f st).1.currStep = (b.currStep + mx) / 2) ∨
      ((b.Iterate f st).1.minStep = b.minStep ∧ (b.Iterate f st).1.maxStep = some b.currStep ∧
        (b.Iterate f st).1.currStep = (b.minStep + b.currStep) / 2)) ∧
    (∀ mx, b.maxStep = some mx → (∀ mg, b.maxGrad = some mg → ¬ mg < 0) →
      (b.trialGrad f st < 0 →
        (b.Iterate f st).1.minStep = b.currStep ∧ (b.Iterate f st).1.maxStep = some mx) ∧
      (¬ b.trialGrad f st < 0 →
        (b.Iterate f st).1.minStep = b.minStep ∧
        (b.Iterate f st).1.maxStep = some b.currStep)) ∧
    (b.Bracketed → ∀ k : ℕ,
      (Bisection.iterates f k (b, st)).1.Bracketed ∧
      (Bisection.iterates f k (b, st)).1.width = b.width / 2 ^ k) :=
  ⟨fun h mx h1 => Bisection_Iterate_first_bound f b st h mx h1,
    fun mx hmx => (Bisection_Iterate_bounded f b st mx hmx).1,
    fun mx hmx => (Bisection_Iterate_bounded f b st mx hmx).2,
    fun h k => Bisection_iterates_bracketed f b st h k⟩

/-- C28, witness: on `x ↦ x² - x` from `0` with the initial step `1`, the first
call finds the upper bound `1`; from the bracket `[0, 1]` with the trial step
`1 / 2` the next call moves `maxStep`, and three calls divide the width by
`8`. -/
theorem C28_bounded_phase_halves_witness :
    (unitBisection.maxStep = none ∧ (unitBisection.Iterate bowlLine ()).1.maxStep = some 1 ∧
      (unitBisection.Iterate bowlLine ()).1.Bracketed) ∧
    (bracketedBisection.maxStep = some 1 ∧ (∀ mg, bracketedBisection.maxGrad = some mg → ¬ mg < 0) ∧
      ¬ bracketedBisection.trialGrad bowlLine () < 0 ∧
      (bracketedBisection.Iterate bowlLine ()).1.minStep = bracketedBisection.minStep ∧
      (bracketedBisection.Iterate bowlLine ()).1.maxStep = some bracketedBisection.currStep) ∧
    (bracketedBisection.Bracketed ∧ bracketedBisection.width = 1 ∧
      (Bisection.iterates bowlLine 3 (bracketedBisection, ())).1.width
        = bracketedBisection.width / 2 ^ 3) := by
  have h0 : unitBisection.maxStep = none := by norm_num [unitBisection, Bisection.Init]
  have h1 : (unitBisection.Iterate bowlLine ()).1.maxStep = some 1 := by
    norm_num [unitBisection, Bisection.Init, Bisection.Iterate, Bisection.iterateUnbounded,
      bowlLine]
  have h2 : bracketedBisection.maxStep = some 1 := rfl
  have h3 : ∀ mg, bracketedBisection.maxGrad = some mg → ¬ mg < 0 := by
    intro mg hmg
    have : mg = 1 := by
      simpa [bracketedBisection] using hmg.symm
    rw [this]
    norm_num
  have h4 : ¬ bracketedBisection.trialGrad bowlLine () < 0 := by
    norm_num [Bisection.trialGrad, bracketedBisection, unitBisection, Bisection.Init, bowlLine]
  have h5 : bracketedBisection.Bracketed :=
    ⟨1, rfl, by norm_num [bracketedBisection, unitBisection, Bisection.Init]⟩
  have hw : bracketedBisection.width = 1 := by
    norm_num [Bisection.width, bracketedBisection, unitBisection, Bisection.Init]
  exact ⟨⟨h0, h1, (C28_bounded_phase_halves bowlLine unitBisection ()).1 h0 1 h1⟩,
    ⟨h2, h3, h4, ((C28_bounded_phase_halves bowlLine bracketedBisection ()).2.2.1 1 h2 h3).2 h4⟩,
    ⟨h5, hw, ((C28_bounded_phase_halves bowlLine bracketedBisection ()).2.2.2 h5 3).2⟩⟩

end IntervalUpdates

/-! ## Theorems: the initial step size of `GradLinesearch` -/

section InitStep

variable {n : ℕ}

theorem UniToler_Init_fault (t : UniToler) (a : Option ℚ) (r : ℚ) (w : ℕ) (v : ℚ) (e : Fault)
    (h : t.Init a r w v = .error e) : e = .indexOutOfRange := by
  unfold UniToler.Init at h
  dsimp only at h
  split_ifs at h
  all_goals exact (Except.error.inj h).symm

theorem UniToler_Add_fault (t : UniToler) (v : ℚ) (e : Fault) (h : t.Add v = .error e) :
    e = .indexOutOfRange := by
  unfold UniToler.Add at h
  dsimp only at h
  split_ifs at h
  all_goals exact (Except.error.inj h).symm

theorem UniToler_RelConverged_fault (t : UniToler) (e : Fault) (h : t.RelConverged = .error e) :
    e = .indexOutOfRange := by
  unfold UniToler.RelConverged at h
  by_cases hr : t.relTol < 0
  · simp [hr] at h
  · simp only [hr, if_false] at h
    cases h1 : t.hist.get? t.last with
    | none =>
      simp only [h1] at h
      exact (Except.error.inj h).symm
    | some r =>
      simp only [h1] at h
      revert h
      generalize (if t.last + 1 = t.hist.length then 0 else t.last + 1) = k
      intro h
      cases h2 : t.hist.get? k with
      | none =>
        simp only [h2] at h
        exact (Except.error.inj h).symm
      | some p =>
        simp only [h2] at h
        cases h

theorem SingleOutput_Init_fault (s : SingleOutput) (settings : SingleOutputSettings)
    (o g : ℚ) (e : Fault) (h : s.Init settings o g = .error e) : e = .indexOutOfRange := by
  unfold SingleOutput.Init at h
  cases h1 : s.grad.Init settings.GradAbsTol settings.GradRelTol settings.GradRelWindow g with
  | error e1 =>
    simp only [h1, bind, Except.bind] at h
    rw [← Except.error.inj h]
    exact UniToler_Init_fault _ _ _ _ _ _ h1
  | ok g1 =>
    cases h2 : s.obj.Init settings.ObjAbsTol settings.ObjRelTol settings.ObjRelWindow o with
    | error e1 =>
      simp only [h1, h2, bind, Except.bind] at h
      rw [← Except.error.inj h]
      exact UniToler_Init_fault _ _ _ _ _ _ h2
    | ok o1 => simp [h1, h2, bind, Except.bind, pure, Except.pure] at h

theorem SingleOutput_Iterate_fault (s : SingleOutput) (g o : ℚ) (e : Fault)
    (h : s.Iterate g o = .error e) : e = .indexOutOfRange := by
  unfold SingleOutput.Iterate at h
  cases h1 : s.grad.Add g with
  | error e1 =>
    simp only [h1, bind, Except.bind] at h
    rw [← Except.error.inj h]
    exact UniToler_Add_fault _ _ _ h1
  | ok g1 =>
    cases h2 : s.obj.Add o with
    | error e1 =>
      simp only [h1, h2, bind, Except.bind] at h
      rw [← Except.error.inj h]
      exact UniToler_Add_fault _ _ _ h2
    | ok o1 => simp [h1, h2, bind, Except.bind, pure, Except.pure] at h

theorem SingleOutput_Status_fault (s : SingleOutput) (e : Fault)
    (h : s.Status = .error e) : e = .indexOutOfRange := by
  unfold SingleOutput.Status at h
  by_cases h0 : s.grad.AbsConverged = true
  · simp [h0] at h
  · simp only [h0, if_false] at h
    cases h1 : s.grad.RelConverged with
    | error e1 =>
      simp only [h1, bind, Except.bind] at h
      rw [← Except.error.inj h]
      exact UniToler_RelConverged_fault _ _ h1
    | ok g1 =>
      simp only [h1, bind, Except.bind, pure, Except.pure] at h
      by_cases hg : g1 = true
      · simp [hg] at h
      · simp only [hg, if_false] at h
        by_cases h3 : s.obj.AbsConverged = true
        · simp [h3] at h
        · simp only [h3, if_false] at h
          cases h2 : s.obj.RelConverged with
          | error e1 =>
            simp only [h2] at h
            rw [← Except.error.inj h]
            exact UniToler_RelConverged_fault _ _ h2
          | ok o1 =>
            simp only [h2] at h
            split_ifs at h

theorem UniHelper_Init_fault (u : UniHelper) (s : UniSettings) (o g : ℚ) (e : Fault)
    (h : u.Init s o g = .error e) : e = .indexOutOfRange := by
  unfold UniHelper.Init at h
  cases h1 : u.SingleOutput.Init s.SingleOutputSettings o |g| with
  | error e1 =>
    simp only [h1, bind, Except.bind] at h
    rw [← Except.error.inj h]
    exact SingleOutput_Init_fault _ _ _ _ _ h1
  | ok so => simp [h1, bind, Except.bind, pure, Except.pure] at h

theorem UniHelper_Iterate_fault (u : UniHelper) (loc o g : ℚ) (k : ℤ) (e : Fault)
    (h : u.Iterate loc o g k = .error e) : e = .indexOutOfRange := by
  unfold UniHelper.Iterate at h
  cases h1 : u.SingleOutput.Iterate |g| o with
  | error e1 =>
    simp only [h1, bind, Except.bind] at h
    rw [← Except.error.inj h]
    exact SingleOutput_Iterate_fault _ _ _ _ h1
  | ok so => simp [h1, bind, Except.bind, pure, Except.pure] at h

theorem UniHelper_Status_fault (u : UniHelper) (e : Fault)
    (h : u.Status = .error e) : e = .indexOutOfRange := by
  unfold UniHelper.Status at h
  cases h1 : u.SingleOutput.Status with
  | error e1 =>
    simp only [h1, bind, Except.bind] at h
    rw [← Except.error.inj h]
    exact SingleOutput_Status_fault _ _ h1
  | ok so =>
    simp only [h1, bind, Except.bind, pure, Except.pure] at h
    split_ifs at h

theorem UniGradWrapper_Init_fault {σ : Type} (g : UniGradWrapper) (settings : UniSettings)
    (fn : UniObjGrader σ) (st : σ) (x : ℚ) (e : Fault)
    (h : g.Init settings fn st x = .error e) : e = .indexOutOfRange := by
  unfold UniGradWrapper.Init at h
  cases hi : settings.InitialObjective with
  | none =>
    simp only [hi] at h
    cases h1 : g.helper.Init settings (fn x st).1.1 (fn x st).1.2 with
    | error e1 =>
      simp only [h1, bind, Except.bind] at h
      rw [← Except.error.inj h]
      exact UniHelper_Init_fault _ _ _ _ _ h1
    | ok so => simp [h1, bind, Except.bind, pure, Except.pure] at h
  | some v =>
    simp only [hi] at h
    cases h1 : g.helper.Init settings v settings.InitialGradient with
    | error e1 =>
      simp only [h1, bind, Except.bind] at h
      rw [← Except.error.inj h]
      exact UniHelper_Init_fault _ _ _ _ _ h1
    | ok so => simp [h1, bind, Except.bind, pure, Except.pure] at h

theorem UniGradWrapper_Init_err {σ : Type} (g : UniGradWrapper) (settings : UniSettings)
    (fn : UniObjGrader σ) (st : σ) (x obj : ℚ) (hobj : settings.InitialObjective = some obj)
    (r : UniGradWrapper × σ × Option Error) (h : g.Init settings fn st x = .ok r) :
    r.2.2 = (g.optimizer.Init x obj settings.InitialGradient).2 := by
  unfold UniGradWrapper.Init at h
  simp only [hobj] at h
  cases h1 : g.helper.Init settings obj settings.InitialGradient with
  | error e1 => simp [h1, bind, Except.bind] at h
  | ok so =>
    simp only [h1, bind, Except.bind, pure, Except.pure, Except.ok.injEq] at h
    subst h
    rfl

theorem UniGradWrapper_Status_fault (g : UniGradWrapper) (e : Fault)
    (h : g.Status = .error e) : e = .indexOutOfRange := by
  unfold UniGradWrapper.Status at h
  cases h1 : g.helper.Status with
  | error e1 =>
    simp only [h1, bind, Except.bind] at h
    rw [← Except.error.inj h]
    exact UniHelper_Status_fault _ _ h1
  | ok so =>
    simp only [h1, bind, Except.bind, pure, Except.pure] at h
    split_ifs at h

theorem UniGradWrapper_Iterate_fault {σ : Type} (g : UniGradWrapper) (fn : UniObjGrader σ)
    (st : σ) (e : Fault) (h : g.Iterate fn st = .error e) : e = .indexOutOfRange := by
  unfold UniGradWrapper.Iterate at h
  dsimp only at h
  split at h
  · simp at h
  · cases h1 : g.helper.Iterate (g.optimizer.Iterate fn st).2.2.loc
        (g.optimizer.Iterate fn st).2.2.obj (g.optimizer.Iterate fn st).2.2.grad
        (g.optimizer.Iterate fn st).2.2.nFunEvals with
    | error e1 =>
      simp only [h1, bind, Except.bind] at h
      rw [← Except.error.inj h]
      exact UniHelper_Iterate_fault _ _ _ _ _ _ h1
    | ok so => simp [h1, bind, Except.bind, pure, Except.pure] at h

/-- The loop of `GradLinesearch` does not reach the panic "error initializing",
which belongs to the statements before the loop. -/
theorem GradLinesearch_loop_fault (sv : Vec n) (fuel : ℕ) (s : LsState n) (e : Fault)
    (h : GradLinesearch.loop sv fuel s = .error e) : e ≠ .errorInitializing := by
  induction fuel generalizing s with
  | zero =>
    simp only [GradLinesearch.loop, Except.error.injEq] at h
    subst h
    simp
  | succ k ih =>
    unfold GradLinesearch.loop at h
    split at h
    · rename_i e1 h1
      rw [← Except.error.inj h]
      unfold WolfeConditions.Status at h1
      split_ifs at h1
      rw [← Except.error.inj h1]
      simp
    · split_ifs at h
      split at h
      · rename_i e1 h1
        rw [← Except.error.inj h, UniGradWrapper_Status_fault _ _ h1]
        simp
      · split_ifs at h
        split at h
        · rename_i e1 h1
          rw [← Except.error.inj h, UniGradWrapper_Iterate_fault _ _ _ _ h1]
          simp
        · split at h
          · simp at h
          · dsimp only at h
            split at h
            · rename_i e1 h1
              rw [← Except.error.inj h]
              unfold WolfeConditions.Iterate at h1
              split_ifs at h1
              rw [← Except.error.inj h1]
              simp
            · exact ih _ h

theorem GradLinesearch_initStepSize_spec (initObj prevObj grad : ℚ) :
    (GradLinesearch.initStepSize initObj prevObj grad = none ↔ grad = 0 ∧ initObj = prevObj) ∧
    (∀ a, GradLinesearch.initStepSize initObj prevObj grad = some a →
      0 < a ∧ a ≤ 1 ∧
      (grad ≠ 0 →
        a = if 0 < min 1 ((101 / 100) * 2 * (initObj - prevObj) / grad)
          then min 1 ((101 / 100) * 2 * (initObj - prevObj) / grad) else 1) ∧
      (grad = 0 → a = 1)) := by
  unfold GradLinesearch.initStepSize
  constructor
  · split_ifs with h <;> simp [h]
  · intro a ha
    split_ifs at ha with h
    simp only [Option.some.injEq] at ha
    subst ha
    refine ⟨?_, ?_, ?_, ?_⟩
    · split_ifs with h1
      · norm_num
      · exact not_le.mp h1
    · split_ifs with h1
      · norm_num
      · exact min_le_left _ _
    · intro _
      by_cases h1 : min 1 ((101 / 100) * 2 * (initObj - prevObj) / grad) ≤ 0
      · rw [if_pos h1, if_neg (not_lt.mpr h1)]
      · rw [if_neg h1, if_pos (not_le.mp h1)]
    · intro hg
      subst hg
      simp

theorem GradOptimizer_Init_step (o : GradOptimizer) (a fc gc : ℚ) (strong : Bool) (x obj g : ℚ)
    (ha : 0 < a) (hg : ¬ 0 < g) :
    ((((o.SetInitStep a).SetWolfeConditions fc gc strong).1).Init x obj g).2 = none ∧
    ((((o.SetInitStep a).SetWolfeConditions fc gc strong).1).Init x obj g).1.trialStep = a := by
  cases o with
  | bisection b =>
    simp only [GradOptimizer.SetInitStep, GradOptimizer.SetWolfeConditions, GradOptimizer.Init,
      Bisection.SetInitStep, Bisection.Init, GradOptimizer.trialStep, if_neg (ne_of_gt ha),
      if_neg hg]
    exact ⟨trivial, trivial⟩
  | dcstep d =>
    simp only [GradOptimizer.SetInitStep, GradOptimizer.SetWolfeConditions, GradOptimizer.Init,
      Dcstep.SetInitStep, Dcstep.SetWolfeConditions, Dcstep.Init, GradOptimizer.trialStep]
    split_ifs <;> first | exact ⟨rfl, rfl⟩ | (exfalso; linarith)

/-- The set-up of `GradLinesearch` does not reach the panic "error
initializing", and when it reaches the loop the step finder starts with the
initial step size. -/
theorem GradLinesearch_setup_step (settings : Settings) (fn : ObjGrader n)
    (sv initLoc : Vec n) (initObj : ℚ) (initGrad : Vec n) (prevObj : ℚ) :
    GradLinesearch.setup settings fn sv initLoc initObj initGrad prevObj
      ≠ .error .errorInitializing ∧
    ∀ s1 s0, GradLinesearch.setup settings fn sv initLoc initObj initGrad prevObj
        = .ok (s1, .inr s0) →
      GradLinesearch.initStepSize initObj prevObj (sv ⬝ᵥ initGrad)
        = some s0.wrapper.optimizer.trialStep := by
  unfold GradLinesearch.setup
  simp only [div_one]
  split_ifs with hgrad
  · exact ⟨by simp, by simp⟩
  · split
    · rename_i e1 h1
      refine ⟨?_, by simp⟩
      unfold WolfeConditions.Init at h1
      dsimp only at h1
      split_ifs at h1 <;> rw [← Except.error.inj h1] <;> simp
    · split
      · exact ⟨by simp, by simp⟩
      · rename_i a ha
        have hpos := ((GradLinesearch_initStepSize_spec initObj prevObj (sv ⬝ᵥ initGrad)).2 a
          ha).1
        split
        · exact ⟨by simp, by simp⟩
        · split
          · rename_i e1 h1
            refine ⟨?_, by simp⟩
            rw [UniGradWrapper_Init_fault _ _ _ _ _ _ h1]
            simp
          · rename_i wi hwi
            have herr := UniGradWrapper_Init_err _ _ _ _ _ initObj rfl wi hwi
            obtain ⟨hk1, hk2⟩ := GradOptimizer_Init_step settings.Optimizer a
              settings.Wolfe.FunConst settings.Wolfe.GradConst
              (decide (settings.Wolfe.WType = Strong)) 0 initObj (sv ⬝ᵥ initGrad) hpos hgrad
            simp only [NewUniGradWrapper] at herr
            rw [hk1] at herr
            rw [herr]
            refine ⟨by simp, ?_⟩
            intro s1 s0 h
            simp only [Except.ok.injEq, Prod.mk.injEq, Sum.inr.injEq] at h
            obtain ⟨-, rfl⟩ := h
            rw [ha, ← hk2]
            congr 2
            unfold UniGradWrapper.Init at hwi
            simp only [NewUniGradWrapper] at hwi
            cases hh : NewUniHelper.Init
                { settings.Settings with InitialGradient := sv ⬝ᵥ initGrad,
                                         InitialObjective := some initObj }
                initObj (sv ⬝ᵥ initGrad) with
            | error e => simp [hh, bind, Except.bind] at hwi
            | ok u1 =>
              simp only [hh, bind, Except.bind, pure, Except.pure, Except.ok.injEq] at hwi
              subst hwi
              rfl

/-- Reading a fault off a check that evaluates to `true`. -/
theorem Except_error_of_check {ε α : Type} (x : Except ε α) (p : ε → Bool)
    (h : (match x with | .ok _ => false | .error e => p e) = true) :
    ∃ e, x = .error e ∧ p e = true := by
  cases x with
  | error e => exact ⟨e, rfl, h⟩
  | ok a => simp at h

/-- C29 (amended): the initial step size of `GradLinesearch` is not a number
exactly when the directional derivative `searchVector . initGrad` is zero and
`initObj = prevObj` (the quotient `0 / 0`).  In every other case it is a number
`a` with `0 < a ≤ 1`: for a non-zero directional derivative it is
`min(1, 1.01 * 2 * (initObj - prevObj) / (searchVector . initGrad))` when that
value is positive and `1` otherwise, and for a zero directional derivative it
is `1`.  When the set-up reaches the loop, the step finder starts with this
step as its first trial step.  The panic "error initializing" is not reached,
for any input. -/
theorem C29_initial_step_heuristic (fuel : ℕ) (settings : Settings) (fn : ObjGrader n)
    (sv initLoc : Vec n) (initObj : ℚ) (initGrad : Vec n) (prevObj : ℚ) :
    (GradLinesearch.initStepSize initObj prevObj (sv ⬝ᵥ initGrad) = none ↔
      sv ⬝ᵥ initGrad = 0 ∧ initObj = prevObj) ∧
    (∀ a, GradLinesearch.initStepSize initObj prevObj (sv ⬝ᵥ initGrad) = some a →
      0 < a ∧ a ≤ 1 ∧
      (sv ⬝ᵥ initGrad ≠ 0 →
        a = if 0 < min 1 ((101 / 100) * 2 * (initObj - prevObj) / (sv ⬝ᵥ initGrad))
          then min 1 ((101 / 100) * 2 * (initObj - prevObj) / (sv ⬝ᵥ initGrad)) else 1) ∧
      (sv ⬝ᵥ initGrad = 0 → a = 1)) ∧
    (∀ s1 s0, GradLinesearch.setup settings fn sv initLoc initObj initGrad prevObj
        = .ok (s1, .inr s0) →
      GradLinesearch.initStepSize initObj prevObj (sv ⬝ᵥ initGrad)
        = some s0.wrapper.optimizer.trialStep) ∧
    GradLinesearch fuel settings fn sv initLoc initObj initGrad prevObj
      ≠ .error .errorInitializing := by
  obtain ⟨h1, h2⟩ := GradLinesearch_initStepSize_spec initObj prevObj (sv ⬝ᵥ initGrad)
  obtain ⟨h3, h4⟩ := GradLinesearch_setup_step settings fn sv initLoc initObj initGrad prevObj
  refine ⟨h1, h2, h4, ?_⟩
  unfold GradLinesearch
  cases hs : GradLinesearch.setup settings fn sv initLoc initObj initGrad prevObj with
  | error e =>
    intro h
    rw [hs] at h3
    dsimp only at h
    exact h3 (congrArg Except.error (Except.error.inj h))
  | ok r =>
    obtain ⟨s1, r2⟩ := r
    cases r2 with
    | inl err => simp
    | inr s0 =>
      dsimp only
      cases hl : GradLinesearch.loop sv fuel s0 with
      | error e =>
        intro h
        exact GradLinesearch_loop_fault sv fuel s0 e hl (Except.error.inj h)
      | ok o =>
        cases o with
        | iterError e s => simp
        | done status s =>
          dsimp only
          split_ifs <;> simp

/-- C29, witness: on `x ↦ x² / 4` from `x = 1` along the steepest descent
direction with `prevObj = initObj + 1 / 100`, the initial step size is
`101 / 1250`, it lies in `(0, 1]`, and the step finder starts with it. -/
theorem C29_initial_step_heuristic_witness :
    (0 : ℚ) < 101 / 1250 ∧ (101 / 1250 : ℚ) ≤ 1 ∧
    ∃ s1 s0, GradLinesearch.setup DefaultSettings demoFn demoDir demoLoc (1 / 4) demoGrad
        (13 / 50) = .ok (s1, .inr s0) ∧
      s0.wrapper.optimizer.trialStep = 101 / 1250 := by
  have ha : GradLinesearch.initStepSize (1 / 4) (13 / 50) (demoDir ⬝ᵥ demoGrad)
      = some (101 / 1250) := by decide!
  have hb := (C29_initial_step_heuristic 0 DefaultSettings demoFn demoDir demoLoc (1 / 4)
    demoGrad (13 / 50)).2.1 _ ha
  refine ⟨hb.1, hb.2.1, ?_⟩
  obtain ⟨r, hr, hp⟩ := Except_ok_of_check
    (GradLinesearch.setup DefaultSettings demoFn demoDir demoLoc (1 / 4) demoGrad (13 / 50))
    (fun r => match r.2 with | .inr _ => true | .inl _ => false) (by decide!)
  obtain ⟨s1, r2⟩ := r
  cases r2 with
  | inl err => simp at hp
  | inr s0 =>
    refine ⟨s1, s0, hr, ?_⟩
    have hc := (C29_initial_step_heuristic 0 DefaultSettings demoFn demoDir demoLoc (1 / 4)
      demoGrad (13 / 50)).2.2.1 s1 s0 hr
    rw [ha] at hc
    exact (Option.some.inj hc).symm

/-- C29, counterexample: with `initObj = prevObj = 0` and a zero directional
derivative the initial step size is `0 / 0`, not a number in `(0, 1]`; the
model of `GradLinesearch` stops there with the fault `notANumber`. -/
theorem C29_counterexample :
    GradLinesearch.initStepSize 0 0 (unitDir ⬝ᵥ zeroGrad) = none ∧
    ¬ (∃ a, GradLinesearch.initStepSize 0 0 (unitDir ⬝ᵥ zeroGrad) = some a ∧ 0 < a ∧ a ≤ 1) ∧
    GradLinesearch 1 DefaultSettings demoFn unitDir zeroLoc 0 zeroGrad 0
      = .error .notANumber := by
  have h : GradLinesearch.initStepSize 0 0 (unitDir ⬝ᵥ zeroGrad) = none := by decide!
  refine ⟨h, ?_, ?_⟩
  · rintro ⟨a, ha, -⟩
    rw [h] at ha
    cases ha
  · obtain ⟨e, he, hp⟩ := Except_error_of_check
      (GradLinesearch 1 DefaultSettings demoFn unitDir zeroLoc 0 zeroGrad 0)
      (fun e => match e with | .notANumber => true | _ => false) (by decide!)
    rw [he]
    cases e <;> first | rfl | simp at hp

end InitStep

/-! ## Theorems: the iteration cap, the relative tolerance, the L-BFGS direction -/

section CapsAndDirections

variable {n : ℕ}

/-- C21 (contradicted by the code): `Common.Status` does not report
`MaximumIterations` while the iteration count equals the cap, so one more
iteration runs.  `multivariate.OptimizeGrad` with `MaximumIterations = 0`
returns after `1` iteration, and `univariate.OptimizeGrad` on `(x - 3)²` from
`0` with `MaximumIterations = 0`, `1`, `2` returns after `1`, `2`, `3`
iterations with status `MaximumIterations`; with `MaximumIterations = 3` it
returns after `4` iterations with status `GradAbsTol`. -/
theorem C21_iteration_cap_is_exceeded :
    (∀ c : Common, ({ c with funStatus := .Continue, iter := c.settings.MaximumIterations }
        : Common).Status ≠ .MaximumIterations) ∧
    OptimizeGrad.report (OptimizeGrad 10 200 bowl2 (some start2) (some (capSettings 0))
      (some (.bfgs (NewBfgs 2)))) = some (1, .MaximumIterations) ∧
    UniOptimizeGrad.report (UniOptimizeGrad 10 (quadraticGrad 3 0) () 0
      (some (uniCapSettings 0)) (.bisection { InitialStepMag := 1 }))
        = some (1, .MaximumIterations) ∧
    UniOptimizeGrad.report (UniOptimizeGrad 10 (quadraticGrad 3 0) () 0
      (some (uniCapSettings 1)) (.bisection { InitialStepMag := 1 }))
        = some (2, .MaximumIterations) ∧
    UniOptimizeGrad.report (UniOptimizeGrad 10 (quadraticGrad 3 0) () 0
      (some (uniCapSettings 2)) (.bisection { InitialStepMag := 1 }))
        = some (3, .MaximumIterations) ∧
    UniOptimizeGrad.report (UniOptimizeGrad 10 (quadraticGrad 3 0) () 0
      (some (uniCapSettings 3)) (.bisection { InitialStepMag := 1 }))
        = some (4, .GradAbsTol) := by
  refine ⟨?_, by decide!, by decide!, by decide!, by decide!, by decide!⟩
  intro c
  unfold Common.Status
  simp only [ne_eq, not_true_eq_false, if_false, lt_self_iff_false, and_false]
  split_ifs <;> simp

/-- C22 (contradicted by the code): with `relTol = 0.5` and
`relativeWindow = 5`, right after `Init` with the value `0.1` the history is
`[0.1, 0, 0, 0, 0]` and `RelConverged` compares `0.1` with the slot `1` that
was never written: it returns `true`.  After `Init` with `10` and five
additions of `1` it returns `true`, although the value added five additions
earlier is `10`: it compares with the value added four additions earlier.
After four additions it compares with the initial value and returns `false`. -/
theorem C22_rel_converged_window :
    (UniToler.after (1 / 10) [] >>= fun t => pure (t.hist, t.last, t.filled))
      = .ok ([1 / 10, 0, 0, 0, 0], 0, false) ∧
    (UniToler.after (1 / 10) [] >>= UniToler.RelConverged) = .ok true ∧
    (UniToler.after 10 [1, 1, 1, 1, 1] >>= fun t => pure (t.hist, t.last, t.recent))
      = .ok ([1, 1, 1, 1, 1], 0, 1) ∧
    (UniToler.after 10 [1, 1, 1, 1, 1] >>= UniToler.RelConverged) = .ok true ∧
    ¬ |(10 : ℚ) - 1| < 1 / 2 ∧
    (UniToler.after 10 [1, 1, 1, 1] >>= fun t => pure (t.hist, t.last, t.recent))
      = .ok ([10, 1, 1, 1, 1], 4, 1) ∧
    (UniToler.after 10 [1, 1, 1, 1] >>= UniToler.RelConverged) = .ok false := by
  decide!

theorem okCheck_ok {ε α : Type} (x : Except ε α) (p : α → Bool) (h : okCheck x p = true) :
    ∃ a, x = .ok a ∧ p a = true := by
  cases x with
  | error e => simp [okCheck] at h
  | ok a => exact ⟨a, rfl, h⟩

/-- The direction after a successful update is the two-loop recursion over the
visited slots, started from the negated new gradient. -/
theorem Lbfgs_update_q (l : Lbfgs n) (settings : Settings) (result : Result n)
    (hc : l.counter < l.Memory) :
    (l.update settings result).q
      = Lbfgs.recursion (l.update settings result).invRhoHist (l.update settings result).sHist
          (l.update settings result).yHist (Lbfgs.firstLoopInds l.counter l.Memory l.looped)
          (fun i => -1 * result.Grad i) := by
  have hnd := Lbfgs_firstLoopInds_nodup l.counter l.Memory l.looped hc
  rw [← Lbfgs_loops_eq_recursion _ _ _ _ hnd l.alpha, ← Lbfgs_secondLoopInds_eq]
  rfl

/-- C23 (amended): with `Memory = 1`, after every successful `Lbfgs.Iterate`
the new direction is the two-loop recursion for the single pair `s`, `y` of
that iteration: with `a = (s . (-g)) / (y . s)`, `r = -g - a y` and
`beta = (y . r) / (y . s)` it is `q = r + (a - beta) s`, where `g` is the new
gradient. -/
theorem C23_memory_one_direction (l l1 : Lbfgs n) (fuel : ℕ) (loc grad : Vec n)
    (out : MultiIterOut n) (hm : l.Memory = 1)
    (h : Lbfgs.Iterate fuel l loc grad = .ok (l1, out)) (herr : out.err = none) :
    l1.q = Lbfgs.onePairDirection (Lbfgs.stepDiff l l1) (Lbfgs.gradDiff l l1) l1.currGrad := by
  obtain ⟨settings, result, _, hc, rfl, _⟩ := Lbfgs_Iterate_success fuel l l1 loc grad out h herr
  rw [Lbfgs_update_q l settings result hc]
  have h0 : l.counter = 0 := by omega
  have hi : Lbfgs.firstLoopInds l.counter l.Memory l.looped = [0] := by
    rw [h0, hm]
    cases l.looped <;> rfl
  have hs : Lbfgs.stepDiff l (l.update settings result)
      = fun i => result.Loc i - l.currLoc i := rfl
  have hy : Lbfgs.gradDiff l (l.update settings result)
      = fun i => result.Grad i - l.currGrad i := rfl
  have hg : (l.update settings result).currGrad = result.Grad := rfl
  have hS : (l.update settings result).sHist 0 = fun i => result.Loc i - l.currLoc i := by
    simp only [Lbfgs.update, h0, Function.update_same]
  have hY : (l.update settings result).yHist 0 = fun i => result.Grad i - l.currGrad i := by
    simp only [Lbfgs.update, h0, Function.update_same]
  have hR : (l.update settings result).invRhoHist 0
      = (fun i => result.Grad i - l.currGrad i) ⬝ᵥ (fun i => result.Loc i - l.currLoc i) := by
    simp only [Lbfgs.update, h0, Function.update_same]
  rw [hi, hs, hy, hg]
  simp only [Lbfgs.recursion, hS, hY, hR, Lbfgs.onePairDirection]

/-- C23, witness: the first iteration on `x² + 2 y² + x y` from `(1, 1)`. -/
theorem C23_memory_one_direction_witness :
    ∃ l1 out, (bowlLbfgs 1).Iterate 200 (fun _ => 0) (fun _ => 0) = .ok (l1, out) ∧
      l1.q = Lbfgs.onePairDirection (Lbfgs.stepDiff (bowlLbfgs 1) l1)
        (Lbfgs.gradDiff (bowlLbfgs 1) l1) l1.currGrad := by
  obtain ⟨r, hr, hp⟩ := okCheck_ok ((bowlLbfgs 1).Iterate 200 (fun _ => 0) (fun _ => 0))
    (fun r => decide (r.2.err = none)) (by decide!)
  obtain ⟨l1, out⟩ := r
  exact ⟨l1, out, hr, C23_memory_one_direction (bowlLbfgs 1) l1 200 _ _ out rfl hr
    (of_decide_eq_true hp)⟩

/-- C23, counterexample: with `Memory = 1` on `x² + 2 y² + x y` from `(1, 1)`,
the second `Iterate` ends with the gradient `(-1575 / 5476, 945 / 5476)` and
the direction `(35621026245 / 114891074512, -570505635 / 28722768628)`, which
is not a scalar multiple of the gradient. -/
theorem C23_counterexample :
    ∃ l1 o1 l2 o2, (bowlLbfgs 1).Iterate 200 (fun _ => 0) (fun _ => 0) = .ok (l1, o1) ∧
      o1.err = none ∧ l1.Iterate 200 (fun _ => 0) (fun _ => 0) = .ok (l2, o2) ∧ o2.err = none ∧
      l2.currGrad = ![-1575 / 5476, 945 / 5476] ∧
      l2.q = ![35621026245 / 114891074512, -570505635 / 28722768628] ∧
      ¬ ∃ c : ℚ, l2.q = fun i => c * l2.currGrad i := by
  obtain ⟨r, hr, hp⟩ := okCheck_ok ((bowlLbfgs 1).Iterate 200 (fun _ => 0) (fun _ => 0))
    (fun r => decide (r.2.err = none) &&
      okCheck (r.1.Iterate 200 (fun _ => 0) (fun _ => 0)) (fun r2 =>
        decide (r2.2.err = none ∧ r2.1.currGrad 0 = -1575 / 5476 ∧ r2.1.currGrad 1 = 945 / 5476 ∧
          r2.1.q 0 = 35621026245 / 114891074512 ∧ r2.1.q 1 = -570505635 / 28722768628)))
    (by decide!)
  obtain ⟨l1, o1⟩ := r
  rw [Bool.and_eq_true] at hp
  obtain ⟨hp1, hp2⟩ := hp
  obtain ⟨r2, hr2, hq⟩ := okCheck_ok _ _ hp2
  obtain ⟨l2, o2⟩ := r2
  obtain ⟨he, hg0, hg1, hq0, hq1⟩ := of_decide_eq_true hq
  have hg : l2.currGrad = ![-1575 / 5476, 945 / 5476] := by
    funext i
    fin_cases i
    · exact hg0
    · exact hg1
  have hqq : l2.q = ![35621026245 / 114891074512, -570505635 / 28722768628] := by
    funext i
    fin_cases i
    · exact hq0
    · exact hq1
  refine ⟨l1, o1, l2, o2, hr, of_decide_eq_true hp1, hr2, he, hg, hqq, ?_⟩
  rintro ⟨c, hc⟩
  have e0 := congrFun hc 0
  have e1 := congrFun hc 1
  rw [hqq, hg] at e0 e1
  simp only [Matrix.cons_val_zero, Matrix.cons_val_one, Matrix.head_cons] at e0 e1
  have h3 : c = -(35621026245 / 114891074512) * (5476 / 1575) := by linarith
  rw [h3] at e1
  norm_num at e1

/-- C30 (amended): after every successful `Lbfgs.Iterate` the new direction
is the result of the two loops with no scaling between them (the recursion of
the specification with `gamma` replaced by `1`), and the field `gamma_k` of the
optimizer is unchanged. -/
theorem C30_direction_without_scaling (l l1 : Lbfgs n) (fuel : ℕ) (loc grad : Vec n)
    (out : MultiIterOut n) (h : Lbfgs.Iterate fuel l loc grad = .ok (l1, out))
    (herr : out.err = none) :
    l1.q = Lbfgs.specDirection l1.invRhoHist l1.sHist l1.yHist
        (Lbfgs.firstLoopInds l.counter l.Memory l.looped) l.alpha 1
        (fun i => -1 * l1.currGrad i) ∧
    l1.q = Lbfgs.recursion l1.invRhoHist l1.sHist l1.yHist
        (Lbfgs.firstLoopInds l.counter l.Memory l.looped) (fun i => -1 * l1.currGrad i) ∧
    l1.gamma_k = l.gamma_k := by
  obtain ⟨settings, result, _, hc, rfl, _⟩ := Lbfgs_Iterate_success fuel l l1 loc grad out h herr
  refine ⟨?_, Lbfgs_update_q l settings result hc, rfl⟩
  simp only [Lbfgs.specDirection, one_mul, ← Lbfgs_secondLoopInds_eq]
  rfl

/-- C30, witness: the first iteration on `x² + 2 y² + x y` from `(1, 1)` with
`Memory = 30`. -/
theorem C30_direction_without_scaling_witness :
    ∃ l1 out, (bowlLbfgs 30).Iterate 200 (fun _ => 0) (fun _ => 0) = .ok (l1, out) ∧
      l1.q = Lbfgs.specDirection l1.invRhoHist l1.sHist l1.yHist
        (Lbfgs.firstLoopInds (bowlLbfgs 30).counter (bowlLbfgs 30).Memory (bowlLbfgs 30).looped)
        (bowlLbfgs 30).alpha 1 (fun i => -1 * l1.currGrad i) ∧
      l1.gamma_k = (bowlLbfgs 30).gamma_k := by
  obtain ⟨r, hr, hp⟩ := okCheck_ok ((bowlLbfgs 30).Iterate 200 (fun _ => 0) (fun _ => 0))
    (fun r => decide (r.2.err = none)) (by decide!)
  obtain ⟨l1, out⟩ := r
  have h := C30_direction_without_scaling (bowlLbfgs 30) l1 200 _ _ out hr (of_decide_eq_true hp)
  exact ⟨l1, out, hr, h.1, h.2.2⟩

/-- C30, counterexample: in the first iteration on `x² + 2 y² + x y` from
`(1, 1)` the value `gamma = (y . s) / (y . y)` is `74 / 325`; the first
component of the direction the code computes is `-601 / 1369`, that of the
recursion with the scaling by `gamma` is `-2549 / 48100`. -/
theorem C30_counterexample :
    ∃ l1 out, (bowlLbfgs 30).Iterate 200 (fun _ => 0) (fun _ => 0) = .ok (l1, out) ∧
      out.err = none ∧
      Lbfgs.gammaK l1.sHist l1.yHist (bowlLbfgs 30).counter = 74 / 325 ∧
      l1.q 0 = -601 / 1369 ∧
      Lbfgs.specDirection l1.invRhoHist l1.sHist l1.yHist
        (Lbfgs.firstLoopInds (bowlLbfgs 30).counter (bowlLbfgs 30).Memory (bowlLbfgs 30).looped)
        (bowlLbfgs 30).alpha (Lbfgs.gammaK l1.sHist l1.yHist (bowlLbfgs 30).counter)
        (fun i => -1 * l1.currGrad i) 0 = -2549 / 48100 ∧
      l1.q ≠ Lbfgs.specDirection l1.invRhoHist l1.sHist l1.yHist
        (Lbfgs.firstLoopInds (bowlLbfgs 30).counter (bowlLbfgs 30).Memory (bowlLbfgs 30).looped)
        (bowlLbfgs 30).alpha (Lbfgs.gammaK l1.sHist l1.yHist (bowlLbfgs 30).counter)
        (fun i => -1 * l1.currGrad i) := by
  obtain ⟨r, hr, hp⟩ := okCheck_ok ((bowlLbfgs 30).Iterate 200 (fun _ => 0) (fun _ => 0))
    (fun r => decide (r.2.err = none ∧
      Lbfgs.gammaK r.1.sHist r.1.yHist (bowlLbfgs 30).counter = 74 / 325 ∧
      r.1.q 0 = -601 / 1369 ∧
      Lbfgs.specDirection r.1.invRhoHist r.1.sHist r.1.yHist
        (Lbfgs.firstLoopInds (bowlLbfgs 30).counter (bowlLbfgs 30).Memory (bowlLbfgs 30).looped)
        (bowlLbfgs 30).alpha (Lbfgs.gammaK r.1.sHist r.1.yHist (bowlLbfgs 30).counter)
        (fun i => -1 * r.1.currGrad i) 0 = -2549 / 48100)) (by decide!)
  obtain ⟨l1, out⟩ := r
  obtain ⟨h1, h2, h3, h4⟩ := of_decide_eq_true hp
  refine ⟨l1, out, hr, h1, h2, h3, h4, ?_⟩
  intro heq
  have h5 := congrFun heq 0
  rw [h3, h4] at h5
  norm_num at h5

end CapsAndDirections

/-! ## Theorems: the secant equation, failed steps, the Wolfe status and the history of the toler -/

section SecantAndStatus

variable {n : ℕ}

/-- The secant equation for the update formula of `Bfgs.Iterate`, for any
matrix `H`. -/
theorem bfgs_formula_secant (H : Matrix (Fin n) (Fin n) ℚ) (s y : Vec n) (hsy : s ⬝ᵥ y ≠ 0) :
    (H + ((s ⬝ᵥ y + y ⬝ᵥ (H *ᵥ y)) / (s ⬝ᵥ y) ^ 2) • vecMulVec s s
      - (1 / (y ⬝ᵥ s)) • vecMulVec (H *ᵥ y) s
      - (1 / (y ⬝ᵥ s)) • vecMulVec s (y ᵥ* H)) *ᵥ y = s := by
  have hys : y ⬝ᵥ s = s ⬝ᵥ y := dotProduct_comm y s
  have h1 : (y ᵥ* H) ⬝ᵥ y = y ⬝ᵥ (H *ᵥ y) := (dotProduct_mulVec y H y).symm
  rw [sub_mulVec, sub_mulVec, add_mulVec, smul_mulVec_assoc, smul_mulVec_assoc,
    smul_mulVec_assoc, vecMulVec_mulVec_eq, vecMulVec_mulVec_eq, vecMulVec_mulVec_eq, h1, hys]
  funext i
  simp only [Pi.add_apply, Pi.sub_apply, Pi.smul_apply, smul_eq_mul]
  field_simp
  ring

/-- C31: after every successful `Bfgs.Iterate` (the line search reports no
error) whose step `s = newLoc - oldLoc` and gradient difference
`y = newGrad - oldGrad` satisfy `s . y ≠ 0`, the new inverse Hessian maps the
gradient difference to the step, `H' y = s`; `s` and `y` are the differences
the optimizer stores. -/
theorem C31_bfgs_secant_equation (fuel : ℕ) (b b1 : Bfgs n) (loc grad : Vec n)
    (out : MultiIterOut n) (h : Bfgs.Iterate fuel b loc grad = .ok (b1, out))
    (herr : out.err = none) (hsy : b.stepDiff b1 ⬝ᵥ b.gradDiff b1 ≠ 0) :
    b1.invHess *ᵥ b.gradDiff b1 = b.stepDiff b1 ∧
    b1.s = b.stepDiff b1 ∧ b1.y = b.gradDiff b1 := by
  refine ⟨?_, ?_, ?_⟩
  · rw [Bfgs_Iterate_invHess fuel b b1 loc grad out h herr]
    exact bfgs_formula_secant b.invHess _ _ hsy
  · obtain ⟨settings, result, _, rfl, _, _, _⟩ :=
      Bfgs_Iterate_success fuel b b1 loc grad out h herr
    rfl
  · obtain ⟨settings, result, _, rfl, _, _, _⟩ :=
      Bfgs_Iterate_success fuel b b1 loc grad out h herr
    rfl

/-- C31, witness: the first iteration on `x ↦ x² / 4` from `x = 1`. -/
theorem C31_bfgs_secant_equation_witness :
    ∃ s, Bfgs.Iterate 2 demoBfgs demoLoc demoGrad
        = .ok (demoBfgs.update s demoResult,
            { loc := demoResult.Loc, grad := demoResult.Grad, obj := demoResult.Obj,
              nFunEvals := demoResult.NFunEvals, err := none }) ∧
      demoBfgs.stepDiff (demoBfgs.update s demoResult)
        ⬝ᵥ demoBfgs.gradDiff (demoBfgs.update s demoResult) ≠ 0 ∧
      (demoBfgs.update s demoResult).invHess *ᵥ demoBfgs.gradDiff (demoBfgs.update s demoResult)
        = demoBfgs.stepDiff (demoBfgs.update s demoResult) := by
  obtain ⟨s, hs⟩ := demo_bfgs_iterate
  have hne : demoBfgs.stepDiff (demoBfgs.update s demoResult)
      ⬝ᵥ demoBfgs.gradDiff (demoBfgs.update s demoResult) ≠ 0 := by
    simp [Bfgs.stepDiff, Bfgs.gradDiff, Bfgs.update, demoBfgs, Bfgs.Init, demoResult, demoLoc,
      demoGrad, dotProduct]
    norm_num
  exact ⟨s, hs, hne, (C31_bfgs_secant_equation 2 demoBfgs _ demoLoc demoGrad _ hs rfl hne).1⟩

theorem Bfgs_Iterate_failure (fuel : ℕ) (b b1 : Bfgs n) (loc grad : Vec n)
    (out : MultiIterOut n) (h : Bfgs.Iterate fuel b loc grad = .ok (b1, out))
    (herr : out.err ≠ none) :
    ∃ settings res err,
      GradLinesearch fuel b.LinesearchSettings b.fn b.p b.currLoc b.currObj b.currGrad b.prevObj
        = .ok (settings, res, some err) ∧
      b1 = { b with LinesearchSettings := settings } ∧
      out = { loc := loc, grad := grad, obj := 0, nFunEvals := 0, err := some err } := by
  unfold Bfgs.Iterate at h
  split at h
  · simp at h
  · rename_i settings res err hls
    simp only [Except.ok.injEq, Prod.mk.injEq] at h
    exact ⟨settings, res, err, hls, h.1.symm, h.2.symm⟩
  · simp at h
  · simp only [Except.ok.injEq, Prod.mk.injEq] at h
    obtain ⟨-, rfl⟩ := h
    simp at herr

theorem Lbfgs_Iterate_failure_out (fuel : ℕ) (l l1 : Lbfgs n) (loc grad : Vec n)
    (out : MultiIterOut n) (h : Lbfgs.Iterate fuel l loc grad = .ok (l1, out))
    (herr : out.err ≠ none) :
    ∃ settings res err,
      GradLinesearch fuel l.LinesearchSettings l.fn l.q l.currLoc l.currObj l.currGrad l.prevObj
        = .ok (settings, res, some err) ∧
      l1 = { l with LinesearchSettings := settings } ∧
      out = { loc := loc, grad := grad, obj := 0, nFunEvals := 0, err := some err } := by
  unfold Lbfgs.Iterate at h
  split at h
  · simp at h
  · rename_i settings res err hls
    simp only [Except.ok.injEq, Prod.mk.injEq] at h
    exact ⟨settings, res, err, hls, h.1.symm, h.2.symm⟩
  · simp at h
  · split_ifs at h with hc
    simp only [Except.ok.injEq, Prod.mk.injEq] at h
    obtain ⟨-, rfl⟩ := h
    simp at herr

/-- C33: when the line search of `Bfgs.Iterate` or of `Lbfgs.Iterate` returns
an error, `Iterate` returns the objective `0`, `0` function evaluations and
that error, the output buffers `loc` and `grad` are as the caller passed them,
and the current location, gradient and objective, the previous objective, the
search direction, and the inverse Hessian with `s` and `y` (`Bfgs`) or the
history buffers, `alpha`, the counter and `looped` (`Lbfgs`) are unchanged.
The same holds of every call of `Iterate` that returns an error. -/
theorem C33_iterate_atomic_on_error (fuel : ℕ) (loc grad : Vec n) (settings : Settings)
    (res : Option (Result n)) (err : Error) :
    (∀ b : Bfgs n,
      GradLinesearch fuel b.LinesearchSettings b.fn b.p b.currLoc b.currObj b.currGrad b.prevObj
        = .ok (settings, res, some err) →
      ∃ b1, Bfgs.Iterate fuel b loc grad
          = .ok (b1, { loc := loc, grad := grad, obj := 0, nFunEvals := 0, err := some err }) ∧
        b1.currLoc = b.currLoc ∧ b1.currGrad = b.currGrad ∧ b1.currObj = b.currObj ∧
        b1.prevObj = b.prevObj ∧ b1.p = b.p ∧ b1.invHess = b.invHess ∧ b1.s = b.s ∧
        b1.y = b.y ∧ b1.fn = b.fn) ∧
    (∀ l : Lbfgs n,
      GradLinesearch fuel l.LinesearchSettings l.fn l.q l.currLoc l.currObj l.currGrad l.prevObj
        = .ok (settings, res, some err) →
      ∃ l1, Lbfgs.Iterate fuel l loc grad
          = .ok (l1, { loc := loc, grad := grad, obj := 0, nFunEvals := 0, err := some err }) ∧
        l1.currLoc = l.currLoc ∧ l1.currGrad = l.currGrad ∧ l1.currObj = l.currObj ∧
        l1.prevObj = l.prevObj ∧ l1.q = l.q ∧ l1.sHist = l.sHist ∧ l1.yHist = l.yHist ∧
        l1.invRhoHist = l.invRhoHist ∧ l1.alpha = l.alpha ∧ l1.counter = l.counter ∧
        l1.looped = l.looped ∧ l1.Memory = l.Memory ∧ l1.fn = l.fn) ∧
    (∀ (b b1 : Bfgs n) (out : MultiIterOut n), Bfgs.Iterate fuel b loc grad = .ok (b1, out) →
      out.err ≠ none →
      out.obj = 0 ∧ out.nFunEvals = 0 ∧ out.loc = loc ∧ out.grad = grad ∧
      b1.currLoc = b.currLoc ∧ b1.currGrad = b.currGrad ∧ b1.currObj = b.currObj ∧
      b1.prevObj = b.prevObj ∧ b1.p = b.p ∧ b1.invHess = b.invHess) ∧
    (∀ (l l1 : Lbfgs n) (out : MultiIterOut n), Lbfgs.Iterate fuel l loc grad = .ok (l1, out) →
      out.err ≠ none →
      out.obj = 0 ∧ out.nFunEvals = 0 ∧ out.loc = loc ∧ out.grad = grad ∧
      l1.currLoc = l.currLoc ∧ l1.currGrad = l.currGrad ∧ l1.currObj = l.currObj ∧
      l1.prevObj = l.prevObj ∧ l1.q = l.q ∧ l1.sHist = l.sHist ∧ l1.yHist = l.yHist ∧
      l1.invRhoHist = l.invRhoHist ∧ l1.counter = l.counter ∧ l1.looped = l.looped) := by
  refine ⟨?_, ?_, ?_, ?_⟩
  · intro b hls
    refine ⟨{ b with LinesearchSettings := settings }, ?_, rfl, rfl, rfl, rfl, rfl, rfl, rfl,
      rfl, rfl⟩
    simp only [Bfgs.Iterate, hls]
  · intro l hls
    refine ⟨{ l with LinesearchSettings := settings }, ?_, rfl, rfl, rfl, rfl, rfl, rfl, rfl,
      rfl, rfl, rfl, rfl, rfl, rfl⟩
    simp only [Lbfgs.Iterate, hls]
  · intro b b1 out h herr
    obtain ⟨s, r, e, -, rfl, rfl⟩ := Bfgs_Iterate_failure fuel b b1 loc grad out h herr
    exact ⟨rfl, rfl, rfl, rfl, rfl, rfl, rfl, rfl, rfl, rfl⟩
  · intro l l1 out h herr
    obtain ⟨s, r, e, -, rfl, rfl⟩ := Lbfgs_Iterate_failure_out fuel l l1 loc grad out h herr
    exact ⟨rfl, rfl, rfl, rfl, rfl, rfl, rfl, rfl, rfl, rfl, rfl, rfl, rfl, rfl⟩

/-- C33, witness: on `x ↦ x³` from `x = -1 / 4` with line searches of at most
`MaximumIterations = 1`, the line search fails with `MaximumIterations`; the
buffers filled with `7` and `8` come back as they were and the state is kept. -/
theorem C33_iterate_atomic_on_error_witness :
    (∃ b1 out, cubeBfgs.Iterate 5 (fun _ => 7) (fun _ => 8) = .ok (b1, out) ∧
      out.err = some (.Notconverged .MaximumIterations) ∧
      out.obj = 0 ∧ out.nFunEvals = 0 ∧ out.loc = (fun _ => 7) ∧ out.grad = (fun _ => 8) ∧
      b1.currLoc = cubeBfgs.currLoc ∧ b1.p = cubeBfgs.p ∧ b1.invHess = cubeBfgs.invHess) ∧
    (∃ l1 out, cubeLbfgs.Iterate 5 (fun _ => 7) (fun _ => 8) = .ok (l1, out) ∧
      out.err = some (.Notconverged .MaximumIterations) ∧
      out.obj = 0 ∧ out.nFunEvals = 0 ∧ out.loc = (fun _ => 7) ∧ out.grad = (fun _ => 8) ∧
      l1.currLoc = cubeLbfgs.currLoc ∧ l1.q = cubeLbfgs.q ∧ l1.counter = cubeLbfgs.counter) := by
  have h := C33_iterate_atomic_on_error (n := 1) 5 (fun _ => 7) (fun _ => 8) DefaultSettings none
    (.Notconverged .MaximumIterations)
  constructor
  · obtain ⟨r, hr, hp⟩ := okCheck_ok (cubeBfgs.Iterate 5 (fun _ => 7) (fun _ => 8))
      (fun r => decide (r.2.err = some (.Notconverged .MaximumIterations))) (by decide!)
    obtain ⟨b1, out⟩ := r
    have he : out.err = some (.Notconverged .MaximumIterations) := of_decide_eq_true hp
    have hne : out.err ≠ none := by
      rw [he]
      simp
    obtain ⟨h1, h2, h3, h4, h5, -, -, -, h9, h10⟩ := h.2.2.1 cubeBfgs b1 out hr hne
    exact ⟨b1, out, hr, he, h1, h2, h3, h4, h5, h9, h10⟩
  · obtain ⟨r, hr, hp⟩ := okCheck_ok (cubeLbfgs.Iterate 5 (fun _ => 7) (fun _ => 8))
      (fun r => decide (r.2.err = some (.Notconverged .MaximumIterations))) (by decide!)
    obtain ⟨l1, out⟩ := r
    have he : out.err = some (.Notconverged .MaximumIterations) := of_decide_eq_true hp
    have hne : out.err ≠ none := by
      rw [he]
      simp
    obtain ⟨h1, h2, h3, h4, h5, -, -, -, h9, -, -, -, h13, -⟩ :=
      h.2.2.2 cubeLbfgs l1 out hr hne
    exact ⟨l1, out, hr, he, h1, h2, h3, h4, h5, h9, h13⟩

/-- In Weak mode `WolfeConditions.Status` returns `WolfeConditionsMet` exactly
when `currObj < initObj + funConst * step * currGrad` and
`currGrad > gradConst * initGrad`, and `Continue` otherwise; an accepted step
satisfies `currGrad ≥ gradConst * initGrad`. -/
theorem WolfeConditions_Status_weak (w : WolfeConditions) (ht : w.t = Weak) :
    (w.Status = .ok .WolfeConditionsMet ↔
      w.currObj < w.initObj + w.funConst * w.step * w.currGrad ∧
      w.gradConst * w.initGrad < w.currGrad) ∧
    (w.Status = .ok .WolfeConditionsMet ∨ w.Status = .ok .Continue) ∧
    (w.Status = .ok .WolfeConditionsMet → w.gradConst * w.initGrad ≤ w.currGrad) := by
  have hns : ¬ w.t = Strong := by
    rw [ht]
    decide
  have hs : w.Status =
      if w.initObj + w.funConst * w.step * w.currGrad ≤ w.currObj then .ok .Continue
      else if w.currGrad ≤ w.gradConst * w.initGrad then .ok .Continue
      else .ok .WolfeConditionsMet := by
    unfold WolfeConditions.Status
    rw [if_neg hns, if_pos ht]
  rw [hs]
  by_cases h1 : w.initObj + w.funConst * w.step * w.currGrad ≤ w.currObj
  · rw [if_pos h1]
    refine ⟨⟨fun h => Status.noConfusion (Except.ok.inj h), fun h => absurd h1 (not_le.mpr h.1)⟩,
      Or.inr rfl, fun h => Status.noConfusion (Except.ok.inj h)⟩
  · rw [if_neg h1]
    by_cases h2 : w.currGrad ≤ w.gradConst * w.initGrad
    · rw [if_pos h2]
      refine ⟨⟨fun h => Status.noConfusion (Except.ok.inj h), fun h => absurd h2 (not_le.mpr h.2)⟩,
        Or.inr rfl, fun h => Status.noConfusion (Except.ok.inj h)⟩
    · rw [if_neg h2]
      exact ⟨⟨fun _ => ⟨not_le.mp h1, not_le.mp h2⟩, fun _ => rfl⟩, Or.inl rfl,
        fun _ => (not_le.mp h2).le⟩

/-- C38 (contradicted by the code): in Weak mode `WolfeConditions.Status`
returns `WolfeConditionsMet` exactly when
`currObj < initObj + funConst * step * currGrad` and
`currGrad > gradConst * initGrad`: the decrease test uses the derivative at the
trial step where the Strong branch uses the initial derivative.  On
`φ(t) = t² - t` with `funConst = 0.5` and `gradConst = 0.9` the trial step `1`
has `φ(1) = 0 = φ(0)` and `φ'(1) = 1`; in Weak mode `Status` returns
`WolfeConditionsMet` although `currObj ≤ initObj + funConst * step * initGrad`,
that is `0 ≤ -1 / 2`, does not hold, and in Strong mode the same trial gives
`Continue`. -/
theorem C38_weak_accepts_without_decrease :
    (∀ w : WolfeConditions, w.t = Weak →
      (w.Status = .ok .WolfeConditionsMet ↔
        w.currObj < w.initObj + w.funConst * w.step * w.currGrad ∧
        w.gradConst * w.initGrad < w.currGrad)) ∧
    weakAtNoDecrease = .ok { funConst := 1 / 2, gradConst := 9 / 10, t := Weak, initObj := 0,
                             initGrad := -1, step := 1, currObj := 0, currGrad := 1 } ∧
    (weakAtNoDecrease >>= WolfeConditions.Status) = .ok .WolfeConditionsMet ∧
    ¬ ((0 : ℚ) ≤ 0 + 1 / 2 * 1 * -1) ∧
    ((({} : WolfeConditions).Init { weakWolfe with WType := Strong } 0 (-1)) >>=
      (fun w => w.Iterate 1 0 1) >>= WolfeConditions.Status) = .ok .Continue := by
  exact ⟨fun w ht => (WolfeConditions_Status_weak w ht).1, by decide!, by decide!, by decide!,
    by decide!⟩

theorem WolfeConditions_Init_ok (w w1 : WolfeConditions) (settings : WolfeSettings)
    (initObj initGrad : ℚ) (h : w.Init settings initObj initGrad = .ok w1) :
    w1 = { w with funConst := settings.FunConst, gradConst := settings.GradConst,
                  t := settings.WType, initObj := initObj, initGrad := initGrad,
                  currObj := initObj, currGrad := initGrad } := by
  unfold WolfeConditions.Init at h
  dsimp only at h
  split_ifs at h
  exact (Except.ok.inj h).symm

theorem WolfeConditions_Init_total (w : WolfeConditions) (settings : WolfeSettings)
    (initObj initGrad : ℚ) (hS : settings.WType = Strong) (hf : 0 ≤ settings.FunConst)
    (hg : 0 < settings.GradConst) :
    ∃ w1, w.Init settings initObj initGrad = .ok w1 := by
  unfold WolfeConditions.Init
  dsimp only
  rw [if_neg (fun h => h.1 hS), if_neg (not_lt.mpr hf), if_neg (not_le.mpr hg)]
  exact ⟨_, rfl⟩

theorem WolfeConditions_Status_after_Init (w w1 : WolfeConditions) (settings : WolfeSettings)
    (initObj initGrad : ℚ) (hS : settings.WType = Strong) (h1 : settings.GradConst ≤ 1)
    (h : w.Init settings initObj initGrad = .ok w1) : w1.Status = .ok .Continue := by
  rw [WolfeConditions_Init_ok w w1 settings initObj initGrad h]
  unfold WolfeConditions.Status
  dsimp only
  rw [if_pos hS]
  split_ifs with h2 h3
  · rfl
  · rfl
  · exfalso
    apply h3
    calc settings.GradConst * |initGrad| ≤ 1 * |initGrad| :=
          mul_le_mul_of_nonneg_right h1 (abs_nonneg _)
      _ = |initGrad| := one_mul _

/-- In the loop of `GradLinesearch` every pass that goes on to the next one
has added an evaluation to the count of the helper. -/
theorem GradLinesearch_loop_evals (sv : Vec n) (fuel : ℕ) (s : LsState n) (x : LsExit n)
    (h : GradLinesearch.loop sv fuel s = .ok x) :
    x.state = s ∨
      s.wrapper.helper.Common.funEvals < x.state.wrapper.helper.Common.funEvals := by
  induction fuel generalizing s with
  | zero => simp [GradLinesearch.loop] at h
  | succ k ih =>
    unfold GradLinesearch.loop at h
    split at h
    · simp at h
    · split_ifs at h
      · simp only [Except.ok.injEq] at h
        subst h
        exact Or.inl rfl
      · split at h
        · simp at h
        · split_ifs at h
          · simp only [Except.ok.injEq] at h
            subst h
            exact Or.inl rfl
          · split at h
            · simp at h
            · rename_i r hr
              obtain ⟨-, -, -, h4, -, h6⟩ := UniGradWrapper_Iterate_line _ _ _ hr
              split at h
              · rename_i e he
                rw [h4] at he
                simp at he
              · dsimp only at h
                split at h
                · simp at h
                · have hi := ih _ h
                  right
                  rcases hi with hi | hi
                  · rw [hi]
                    dsimp only
                    rw [h6]
                    linarith
                  · dsimp only at hi
                    rw [h6] at hi
                    linarith

/-- C34: for Strong Wolfe conditions with `0 < GradConst ≤ 1`,
`WolfeConditions.Status` right after `Init` is `Continue`, for every earlier
content of the struct, every `initObj` and every `initGrad` (`Init` returns
when `FunConst` is not negative).  So the Wolfe conditions with which
`GradLinesearch` enters its loop report `Continue`, and a line search that
returns without an error has evaluated at least one trial point. -/
theorem C34_wolfe_status_after_init (settings : Settings)
    (hS : settings.Wolfe.WType = Strong) (h0 : 0 < settings.Wolfe.GradConst)
    (h1 : settings.Wolfe.GradConst ≤ 1) :
    (∀ (w : WolfeConditions) (initObj initGrad : ℚ),
      (0 ≤ settings.Wolfe.FunConst → ∃ w1, w.Init settings.Wolfe initObj initGrad = .ok w1) ∧
      ∀ w1, w.Init settings.Wolfe initObj initGrad = .ok w1 → w1.Status = .ok .Continue) ∧
    (∀ (fn : ObjGrader n) (sv initLoc : Vec n) (initObj : ℚ) (initGrad : Vec n) (prevObj : ℚ)
        (s1 : Settings) (s0 : LsState n),
      GradLinesearch.setup settings fn sv initLoc initObj initGrad prevObj = .ok (s1, .inr s0) →
      s0.wolfe.Status = .ok .Continue) ∧
    (∀ (fuel : ℕ) (fn : ObjGrader n) (sv initLoc : Vec n) (initObj : ℚ) (initGrad : Vec n)
        (prevObj : ℚ) (s1 : Settings) (r : Result n),
      GradLinesearch fuel settings fn sv initLoc initObj initGrad prevObj
        = .ok (s1, some r, none) → 1 ≤ r.NFunEvals) := by
  have hset : ∀ (fn : ObjGrader n) (sv initLoc : Vec n) (initObj : ℚ) (initGrad : Vec n)
      (prevObj : ℚ) (s1 : Settings) (s0 : LsState n),
      GradLinesearch.setup settings fn sv initLoc initObj initGrad prevObj = .ok (s1, .inr s0) →
      s0.wolfe.Status = .ok .Continue := by
    intro fn sv initLoc initObj initGrad prevObj s1 s0 h
    obtain ⟨hw, -⟩ := GradLinesearch_setup_inr settings s1 fn sv initLoc initObj initGrad
      prevObj s0 h
    obtain ⟨-, -, -, -, -, -, hf⟩ := GradLinesearch_setup_inr settings s1 fn sv initLoc initObj
      initGrad prevObj s0 h
    obtain ⟨w1, hw1⟩ := WolfeConditions_Init_total ({} : WolfeConditions) settings.Wolfe initObj
      (sv ⬝ᵥ initGrad) hS hf h0
    have hst := WolfeConditions_Status_after_Init _ w1 settings.Wolfe initObj
      (sv ⬝ᵥ initGrad) hS h1 hw1
    rw [WolfeConditions_Init_ok _ w1 settings.Wolfe initObj (sv ⬝ᵥ initGrad) hw1] at hst
    rw [hw]
    exact hst
  refine ⟨fun w initObj initGrad =>
      ⟨fun hf => WolfeConditions_Init_total w settings.Wolfe initObj initGrad hS hf h0,
       fun w1 h => WolfeConditions_Status_after_Init w w1 settings.Wolfe initObj initGrad hS h1 h⟩,
    hset, ?_⟩
  intro fuel fn sv initLoc initObj initGrad prevObj s1 r h
  rcases GradLinesearch_cases fuel settings fn sv initLoc initObj initGrad prevObj _ h with
    ⟨_, _, _, h2⟩ | ⟨s2, s0, status, s, hs, hloop, hout⟩
  · simp at h2
  · obtain ⟨-, l0, f0, e0, -⟩ :=
      GradLinesearch_setup_inr settings s2 fn sv initLoc initObj initGrad prevObj s0 hs
    have hsv0 : s0.line.searchVector = sv := by rw [l0]
    obtain ⟨-, -, -, hst⟩ := GradLinesearch_loop_done sv fuel s0 s status hsv0 hloop
    have hw0 := hset fn sv initLoc initObj initGrad prevObj s2 s0 hs
    simp only [Prod.mk.injEq, Option.some.injEq] at hout
    obtain ⟨hr, herr⟩ := hout
    have hmet : status = .WolfeConditionsMet := by
      by_contra hne
      rw [if_neg hne] at herr
      cases herr
    subst hmet
    have hne : s ≠ s0 := by
      rintro rfl
      rcases hst with h3 | ⟨-, h4⟩
      · rw [hw0] at h3
        cases h3
      · exact UniGradWrapper_Status_ne_met _ _ f0 h4 rfl
    rcases GradLinesearch_loop_evals sv fuel s0 _ hloop with h5 | h5
    · exact absurd h5 hne
    · rw [e0] at h5
      rw [hr]
      show 1 ≤ s.wrapper.helper.Common.funEvals
      have h6 : (0 : ℤ) < s.wrapper.helper.Common.funEvals := h5
      omega

/-- C34, witness: the default settings at `initObj = 1 / 4`,
`initGrad = -1 / 4`, and the line search on `x ↦ x² / 4` from `x = 1`. -/
theorem C34_wolfe_status_after_init_witness :
    (∃ w1, ({} : WolfeConditions).Init DefaultSettings.Wolfe (1 / 4) (-1 / 4) = .ok w1 ∧
      w1.Status = .ok .Continue) ∧
    ∃ s, GradLinesearch 2 DefaultSettings demoFn demoDir demoLoc (1 / 4) demoGrad (1 / 4 + 5000)
        = .ok (s, some demoResult, none) ∧ 1 ≤ demoResult.NFunEvals := by
  have h := C34_wolfe_status_after_init (n := 1) DefaultSettings rfl
    (by norm_num [DefaultSettings]) (by norm_num [DefaultSettings])
  obtain ⟨w1, hw1⟩ := (h.1 {} (1 / 4) (-1 / 4)).1 (by norm_num [DefaultSettings])
  obtain ⟨s, hs⟩ := demo_linesearch
  exact ⟨⟨w1, hw1, (h.1 {} (1 / 4) (-1 / 4)).2 w1 hw1⟩, s, hs,
    h.2.2 2 demoFn demoDir demoLoc (1 / 4) demoGrad (1 / 4 + 5000) s demoResult hs⟩

theorem UniToler_Add_ok (t : UniToler) (v : ℚ) (hinv : 0 < t.relTol → t.last < t.hist.length) :
    ∃ t2, t.Add v = .ok t2 ∧ t2.relTol = t.relTol ∧
      (0 < t2.relTol → t2.last < t2.hist.length) ∧
      (¬ 0 < t.relTol → t2.hist = t.hist ∧ t2.last = t.last) := by
  unfold UniToler.Add
  by_cases hr : 0 < t.relTol
  · have hl := hinv hr
    rw [if_pos hr]
    dsimp only
    have hlt : (if decide (t.last + 1 = t.hist.length) = true then 0 else t.last + 1)
        < t.hist.length := by
      by_cases hw : t.last + 1 = t.hist.length
      · simp only [hw, decide_True, if_true]
        omega
      · simp only [hw, decide_False, Bool.false_eq_true, if_false]
        omega
    rw [if_pos hlt]
    refine ⟨_, rfl, rfl, ?_, fun h => absurd hr h⟩
    intro _
    dsimp only
    rw [List.length_set]
    exact hlt
  · rw [if_neg hr]
    exact ⟨_, rfl, rfl, fun h => absurd h hr, fun _ => ⟨rfl, rfl⟩⟩

/-- Additions to a toler whose index is in range (when the relative tolerance
is in use) succeed, and keep the tolerance and the range of the index; without
a positive relative tolerance they leave the history and the index as they
are. -/
theorem UniToler_adds_ok (vs : List ℚ) (t : UniToler)
    (hinv : 0 < t.relTol → t.last < t.hist.length) :
    ∃ t1, UniToler.adds (.ok t) vs = .ok t1 ∧
      t1.relTol = t.relTol ∧ (0 < t1.relTol → t1.last < t1.hist.length) ∧
      (¬ 0 < t.relTol → t1.hist = t.hist ∧ t1.last = t.last) := by
  induction vs generalizing t with
  | nil => exact ⟨t, rfl, rfl, hinv, fun _ => ⟨rfl, rfl⟩⟩
  | cons v rest ih =>
    obtain ⟨t2, h1, h2, h3, h4⟩ := UniToler_Add_ok t v hinv
    have hstep : UniToler.adds (.ok t) (v :: rest) = UniToler.adds (.ok t2) rest := by
      unfold UniToler.adds
      rw [List.foldl_cons]
      show List.foldl _ (t.Add v) rest = _
      rw [h1]
    rw [hstep]
    obtain ⟨t1, k1, k2, k3, k4⟩ := ih t2 h3
    refine ⟨t1, k1, k2.trans h2, k3, ?_⟩
    intro hr
    have hr2 : ¬ 0 < t2.relTol := by
      rw [h2]
      exact hr
    obtain ⟨a1, a2⟩ := k4 hr2
    obtain ⟨b1, b2⟩ := h4 hr
    exact ⟨a1.trans b1, a2.trans b2⟩

theorem UniToler_RelConverged_ok (t : UniToler) (h : t.relTol < 0 ∨ t.last < t.hist.length) :
    ∃ b, t.RelConverged = .ok b := by
  unfold UniToler.RelConverged
  by_cases hr : t.relTol < 0
  · rw [if_pos hr]
    exact ⟨false, rfl⟩
  · rw [if_neg hr]
    have hl : t.last < t.hist.length := h.resolve_left hr
    rw [List.get?_eq_get hl]
    dsimp only
    have hp : (if t.last + 1 = t.hist.length then 0 else t.last + 1) < t.hist.length := by
      split_ifs <;> omega
    rw [List.get?_eq_get hp]
    exact ⟨_, rfl⟩

theorem UniToler_RelConverged_range (t : UniToler) (hr : ¬ t.relTol < 0)
    (h : t.hist.length ≤ t.last) : t.RelConverged = .error .indexOutOfRange := by
  unfold UniToler.RelConverged
  rw [if_neg hr, List.get?_eq_none.mpr h]

theorem UniToler_Init_pos (t : UniToler) (absTol : Option ℚ) (relTol : ℚ)
    (relativeWindow : ℕ) (initVal : ℚ) (hp : 0 < relTol) (hw : 1 ≤ relativeWindow) :
    ∃ t0, t.Init absTol relTol relativeWindow initVal = .ok t0 ∧ t0.relTol = relTol ∧
      t0.last < t0.hist.length := by
  have hlen : 0 < (if t.hist.length < relativeWindow then List.replicate relativeWindow (0 : ℚ)
      else t.hist.take relativeWindow).length := by
    split_ifs with hl
    · rw [List.length_replicate]
      omega
    · rw [List.length_take]
      omega
  unfold UniToler.Init
  rw [if_pos hp]
  dsimp only
  rw [if_pos hlen]
  refine ⟨_, rfl, rfl, ?_⟩
  dsimp only
  rw [List.length_set]
  exact hlen

/-- After `Init` with a `relTol` other than zero and `relativeWindow ≥ 1`,
every `Add` and `RelConverged` complete without an out-of-range access.  With
`relTol = 0`, `Init` and every `Add` complete and leave the history and `last`
as they were before `Init`, and `RelConverged` completes when `last` is inside
that history and panics with an index out of range when it is not. -/
theorem UniToler_run_in_range (t : UniToler) (absTol : Option ℚ) (relTol : ℚ)
    (relativeWindow : ℕ) (initVal : ℚ) (vs : List ℚ) :
    (relTol ≠ 0 → 1 ≤ relativeWindow →
      ∃ t1, t.run absTol relTol relativeWindow initVal vs = .ok t1 ∧
        ∃ b, t1.RelConverged = .ok b) ∧
    (relTol = 0 →
      ∃ t1, t.run absTol relTol relativeWindow initVal vs = .ok t1 ∧
        (t.last < t.hist.length → ∃ b, t1.RelConverged = .ok b) ∧
        (t.hist.length ≤ t.last → t1.RelConverged = .error .indexOutOfRange)) := by
  constructor
  · intro hr hw
    unfold UniToler.run
    by_cases hp : 0 < relTol
    · obtain ⟨t0, hi, h0r, h0l⟩ := UniToler_Init_pos t absTol relTol relativeWindow initVal hp hw
      rw [hi]
      obtain ⟨t1, h1, h2, h3, -⟩ := UniToler_adds_ok vs t0 (fun _ => h0l)
      refine ⟨t1, h1, UniToler_RelConverged_ok t1 (Or.inr (h3 ?_))⟩
      rw [h2, h0r]
      exact hp
    · have hneg : relTol < 0 := lt_of_le_of_ne (not_lt.mp hp) hr
      have hi : t.Init absTol relTol relativeWindow initVal
          = .ok { t with recent := initVal, relTol := relTol, absTol := absTol,
                         filled := false } := by
        unfold UniToler.Init
        rw [if_neg hp]
      rw [hi]
      obtain ⟨t1, h1, h2, -, -⟩ := UniToler_adds_ok vs
        { t with recent := initVal, relTol := relTol, absTol := absTol, filled := false }
        (fun h => absurd h hp)
      refine ⟨t1, h1, UniToler_RelConverged_ok t1 (Or.inl ?_)⟩
      rw [h2]
      exact hneg
  · intro hr
    subst hr
    unfold UniToler.run
    have hi : t.Init absTol 0 relativeWindow initVal
        = .ok { t with recent := initVal, relTol := 0, absTol := absTol, filled := false } := by
      unfold UniToler.Init
      rw [if_neg (lt_irrefl 0)]
    rw [hi]
    obtain ⟨t1, h1, h2, -, h4⟩ := UniToler_adds_ok vs
      { t with recent := initVal, relTol := 0, absTol := absTol, filled := false }
      (fun h => absurd h (lt_irrefl 0))
    obtain ⟨h5, h6⟩ := h4 (lt_irrefl 0)
    refine ⟨t1, h1, ?_, ?_⟩
    · intro hl
      apply UniToler_RelConverged_ok
      right
      rw [h5, h6]
      exact hl
    · intro hl
      apply UniToler_RelConverged_range
      · rw [h2]
        exact lt_irrefl 0
      · rw [h5, h6]
        exact hl

/-- C39 (contradicted by the code): with a relative tolerance other than
zero and `relativeWindow ≥ 1`, `Init`, every `Add` and `RelConverged` complete
without an out-of-range access.  With `relTol = 0`, `Init` and `Add` do not set
up the history and `RelConverged` indexes it all the same: when `last` is not
inside the history the struct held before `Init`, as on a new `UniToler`,
`RelConverged` panics with an index out of range, after any number of
additions.  So does `SingleOutput.Status` after `Init` with the default
settings and `GradRelTol = 0`. -/
theorem C39_zero_tolerance_indexes_empty_history :
    (∀ (t : UniToler) (absTol : Option ℚ) (relTol : ℚ) (relativeWindow : ℕ) (initVal : ℚ)
        (vs : List ℚ), relTol ≠ 0 → 1 ≤ relativeWindow →
      ∃ t1, t.run absTol relTol relativeWindow initVal vs = .ok t1 ∧
        ∃ b, t1.RelConverged = .ok b) ∧
    (∀ (t : UniToler) (absTol : Option ℚ) (relativeWindow : ℕ) (initVal : ℚ) (vs : List ℚ),
      t.hist.length ≤ t.last →
      ∃ t1, t.run absTol 0 relativeWindow initVal vs = .ok t1 ∧
        t1.RelConverged = .error .indexOutOfRange) ∧
    (({} : UniToler).run (some (1 / 1000000)) 0 5 (1 / 2) [] >>= UniToler.RelConverged)
      = .error .indexOutOfRange ∧
    (({} : UniToler).run (some (1 / 1000000)) 0 5 (1 / 2) [1 / 4] >>= UniToler.RelConverged)
      = .error .indexOutOfRange ∧
    (({} : SingleOutput).Init { DefaultSingleOutputSettings with GradRelTol := 0 } 1 (1 / 2)
      >>= SingleOutput.Status) = .error .indexOutOfRange := by
  refine ⟨fun t absTol relTol relativeWindow initVal vs =>
      (UniToler_run_in_range t absTol relTol relativeWindow initVal vs).1, ?_,
    by decide!, by decide!, by decide!⟩
  intro t absTol relativeWindow initVal vs hl
  obtain ⟨t1, h1, -, h3⟩ := (UniToler_run_in_range t absTol 0 relativeWindow initVal vs).2 rfl
  exact ⟨t1, h1, h3 hl⟩

end SecantAndStatus

/-! ## Theorems: the first step of `Bfgs` and `Lbfgs`, and the iteration budget of the line search -/

section FirstStepAndBudget

variable {n : ℕ}

theorem dot_lin (y g w : Vec n) (c d : ℚ) :
    y ⬝ᵥ (fun j => c * g j + d * w j) = c * (y ⬝ᵥ g) + d * (y ⬝ᵥ w) := by
  simp only [dotProduct, Finset.mul_sum, ← Finset.sum_add_distrib]
  apply Finset.sum_congr rfl
  intro j _
  ring

theorem dot_neg_one (s g : Vec n) : s ⬝ᵥ (fun i => -1 * g i) = -(s ⬝ᵥ g) := by
  simp only [dotProduct, ← Finset.sum_neg_distrib]
  apply Finset.sum_congr rfl
  intro j _
  ring

theorem Lbfgs_onePairDirection_apply (s y g : Vec n) (j : Fin n) :
    Lbfgs.onePairDirection s y g j
      = -g j + (s ⬝ᵥ g) / (y ⬝ᵥ s) * y j
        + (-(s ⬝ᵥ g) / (y ⬝ᵥ s)
            - (-(y ⬝ᵥ g) + (s ⬝ᵥ g) / (y ⬝ᵥ s) * (y ⬝ᵥ y)) / (y ⬝ᵥ s)) * s j := by
  simp only [Lbfgs.onePairDirection, dot_lin, dot_neg_one]
  ring

theorem specFirstDirection_apply (s y g : Vec n) (j : Fin n) :
    specFirstDirection s y g j
      = -g j + (s ⬝ᵥ g) / (y ⬝ᵥ s) * y j
        + (-(s ⬝ᵥ g) / (y ⬝ᵥ s)
            - (-(y ⬝ᵥ g) + (s ⬝ᵥ g) / (y ⬝ᵥ s) * (y ⬝ᵥ y)) / (y ⬝ᵥ s)) * s j := by
  unfold specFirstDirection
  rw [add_mulVec, ← mulVec_mulVec, sub_mulVec, one_mulVec, smul_mulVec_assoc,
    vecMulVec_mulVec_eq, smul_mulVec_assoc, vecMulVec_mulVec_eq, sub_mulVec, one_mulVec,
    smul_mulVec_assoc, vecMulVec_mulVec_eq]
  simp only [Pi.neg_apply, Pi.add_apply, Pi.sub_apply, Pi.smul_apply, smul_eq_mul,
    dotProduct_sub, dotProduct_smul]
  ring

theorem Bfgs_Init_p (ls : Settings) (f : ObjGrader n) (x0 : Vec n) (obj : ℚ) (g0 : Vec n) :
    (Bfgs.Init ls f x0 obj g0).1.p = fun i => -1 * g0 i := by
  funext i
  simp only [Bfgs.Init, Matrix.mul_apply, col_apply, ite_mul, one_mul, zero_mul,
    Finset.sum_ite_eq, Finset.mem_univ, if_true]

theorem Bfgs_Init_invHess (ls : Settings) (f : ObjGrader n) (x0 : Vec n) (obj : ℚ) (g0 : Vec n) :
    (Bfgs.Init ls f x0 obj g0).1.invHess = 1 := by
  ext i j
  simp only [Bfgs.Init, Matrix.one_apply]

theorem Bfgs_update_p (b : Bfgs n) (settings : Settings) (result : Result n) :
    (b.update settings result).p
      = fun i => -(((b.update settings result).invHess *ᵥ result.Grad) i) := by
  funext i
  simp only [Bfgs.update, Matrix.mul_apply, col_apply, mulVec, dotProduct]
  ring

/-- The update formula of `Bfgs.Iterate` applied to the identity, times a
vector `g`. -/
theorem bfgs_first_formula (s y g : Vec n) (hsy : y ⬝ᵥ s ≠ 0) (j : Fin n) :
    -((((1 : Matrix (Fin n) (Fin n) ℚ)
        + ((s ⬝ᵥ y + y ⬝ᵥ ((1 : Matrix (Fin n) (Fin n) ℚ) *ᵥ y)) / (s ⬝ᵥ y) ^ 2)
          • vecMulVec s s
        - (1 / (y ⬝ᵥ s)) • vecMulVec ((1 : Matrix (Fin n) (Fin n) ℚ) *ᵥ y) s
        - (1 / (y ⬝ᵥ s)) • vecMulVec s (y ᵥ* (1 : Matrix (Fin n) (Fin n) ℚ))) *ᵥ g) j)
      = -g j + (s ⬝ᵥ g) / (y ⬝ᵥ s) * y j
        + (-(s ⬝ᵥ g) / (y ⬝ᵥ s)
            - (-(y ⬝ᵥ g) + (s ⬝ᵥ g) / (y ⬝ᵥ s) * (y ⬝ᵥ y)) / (y ⬝ᵥ s)) * s j := by
  have hys : s ⬝ᵥ y = y ⬝ᵥ s := dotProduct_comm s y
  rw [sub_mulVec, sub_mulVec, add_mulVec, one_mulVec, smul_mulVec_assoc, smul_mulVec_assoc,
    smul_mulVec_assoc, vecMulVec_mulVec_eq, vecMulVec_mulVec_eq, vecMulVec_mulVec_eq,
    one_mulVec, vecMul_one, hys]
  simp only [Pi.add_apply, Pi.sub_apply, Pi.smul_apply, smul_eq_mul]
  field_simp
  ring

/-- The direction stored by the first update of a `Bfgs` whose inverse Hessian
is the identity. -/
theorem Bfgs_first_update_p (b : Bfgs n) (hH : b.invHess = 1) (settings : Settings)
    (result : Result n)
    (hsy : (fun i => result.Grad i - b.currGrad i) ⬝ᵥ (fun i => result.Loc i - b.currLoc i)
      ≠ 0) (j : Fin n) :
    (b.update settings result).p j
      = -result.Grad j
        + ((fun i => result.Loc i - b.currLoc i) ⬝ᵥ result.Grad)
            / ((fun i => result.Grad i - b.currGrad i) ⬝ᵥ (fun i => result.Loc i - b.currLoc i))
          * (result.Grad j - b.currGrad j)
        + (-((fun i => result.Loc i - b.currLoc i) ⬝ᵥ result.Grad)
              / ((fun i => result.Grad i - b.currGrad i)
                  ⬝ᵥ (fun i => result.Loc i - b.currLoc i))
            - (-((fun i => result.Grad i - b.currGrad i) ⬝ᵥ result.Grad)
                + ((fun i => result.Loc i - b.currLoc i) ⬝ᵥ result.Grad)
                    / ((fun i => result.Grad i - b.currGrad i)
                        ⬝ᵥ (fun i => result.Loc i - b.currLoc i))
                  * ((fun i => result.Grad i - b.currGrad i)
                      ⬝ᵥ (fun i => result.Grad i - b.currGrad i)))
              / ((fun i => result.Grad i - b.currGrad i)
                  ⬝ᵥ (fun i => result.Loc i - b.currLoc i)))
          * (result.Loc j - b.currLoc j) := by
  rw [Bfgs_update_p, Bfgs_update_invHess, hH]
  exact bfgs_first_formula _ _ _ hsy j

/-- The direction stored by the first update of an `Lbfgs` (counter `0`, not
looped, `Memory ≥ 1`). -/
theorem Lbfgs_first_update_q (l : Lbfgs n) (hc : l.counter = 0) (hl : l.looped = false)
    (hM : 1 ≤ l.Memory) (settings : Settings) (result : Result n) :
    (l.update settings result).q
      = Lbfgs.onePairDirection (fun i => result.Loc i - l.currLoc i)
          (fun i => result.Grad i - l.currGrad i) result.Grad := by
  rw [Lbfgs_update_q l settings result (by omega)]
  have hi : Lbfgs.firstLoopInds l.counter l.Memory l.looped = [0] := by
    rw [hc, hl]
    simp [Lbfgs.firstLoopInds, Lbfgs.loopMax, Lbfgs.ind, List.range_succ]
  have hS : (l.update settings result).sHist 0 = fun i => result.Loc i - l.currLoc i := by
    simp only [Lbfgs.update, hc, Function.update_same]
  have hY : (l.update settings result).yHist 0 = fun i => result.Grad i - l.currGrad i := by
    simp only [Lbfgs.update, hc, Function.update_same]
  have hR : (l.update settings result).invRhoHist 0
      = (fun i => result.Grad i - l.currGrad i) ⬝ᵥ (fun i => result.Loc i - l.currLoc i) := by
    simp only [Lbfgs.update, hc, Function.update_same]
  rw [hi]
  simp only [Lbfgs.recursion, hS, hY, hR, Lbfgs.onePairDirection]

/-- C32: `Bfgs.Init` and `Lbfgs.Init` from the same location, objective and
gradient both set the direction to `-initGrad`.  When the first `Bfgs.Iterate`
succeeds with `s . y ≠ 0`, the first `Lbfgs.Iterate` with any `Memory ≥ 1`
returns the same outputs and stores the same location and gradient, the
direction stored by `Lbfgs` equals the direction stored by `Bfgs`, and that
direction is `-[(I - rho s yᵀ)(I - rho y sᵀ) + rho s sᵀ] newGrad` with
`rho = 1 / (y . s)`. -/
theorem C32_first_step_agrees (ls : Settings) (Memory : ℕ) (f : ObjGrader n) (x0 : Vec n)
    (obj : ℚ) (g0 : Vec n) (fuel : ℕ) (loc grad : Vec n) (b1 : Bfgs n) (out : MultiIterOut n)
    (hM : 1 ≤ Memory)
    (h : (Bfgs.Init ls f x0 obj g0).1.Iterate fuel loc grad = .ok (b1, out))
    (herr : out.err = none)
    (hsy : (Bfgs.Init ls f x0 obj g0).1.stepDiff b1 ⬝ᵥ (Bfgs.Init ls f x0 obj g0).1.gradDiff b1
      ≠ 0) :
    (Bfgs.Init ls f x0 obj g0).1.p = (fun i => -1 * g0 i) ∧
    (Lbfgs.Init ls Memory f x0 obj g0).1.q = (fun i => -1 * g0 i) ∧
    ∃ l1, (Lbfgs.Init ls Memory f x0 obj g0).1.Iterate fuel loc grad = .ok (l1, out) ∧
      l1.currLoc = b1.currLoc ∧ l1.currGrad = b1.currGrad ∧
      l1.q = b1.p ∧
      b1.p = specFirstDirection ((Bfgs.Init ls f x0 obj g0).1.stepDiff b1)
        ((Bfgs.Init ls f x0 obj g0).1.gradDiff b1) b1.currGrad := by
  have hp := Bfgs_Init_p ls f x0 obj g0
  refine ⟨hp, rfl, ?_⟩
  obtain ⟨settings, result, hls, rfl, h1, h2, h3⟩ :=
    Bfgs_Iterate_success fuel _ b1 loc grad out h herr
  rw [hp] at hls
  have hout : out = { loc := result.Loc, grad := result.Grad, obj := result.Obj,
                      nFunEvals := result.NFunEvals, err := none } := by
    unfold Bfgs.Iterate at h
    rw [hp] at h
    simp only [hls, Except.ok.injEq, Prod.mk.injEq] at h
    exact h.2.symm
  have hlit : (Lbfgs.Init ls Memory f x0 obj g0).1.Iterate fuel loc grad
      = .ok ((Lbfgs.Init ls Memory f x0 obj g0).1.update settings result, out) := by
    unfold Lbfgs.Iterate
    have hls2 : GradLinesearch fuel (Lbfgs.Init ls Memory f x0 obj g0).1.LinesearchSettings
        (Lbfgs.Init ls Memory f x0 obj g0).1.fn (Lbfgs.Init ls Memory f x0 obj g0).1.q
        (Lbfgs.Init ls Memory f x0 obj g0).1.currLoc (Lbfgs.Init ls Memory f x0 obj g0).1.currObj
        (Lbfgs.Init ls Memory f x0 obj g0).1.currGrad (Lbfgs.Init ls Memory f x0 obj g0).1.prevObj
        = .ok (settings, some result, none) := hls
    rw [hls2]
    dsimp only
    rw [if_pos (show (Lbfgs.Init ls Memory f x0 obj g0).1.counter
      < (Lbfgs.Init ls Memory f x0 obj g0).1.Memory from hM), hout]
  have hsy2 : (fun i => result.Grad i - (Bfgs.Init ls f x0 obj g0).1.currGrad i)
      ⬝ᵥ (fun i => result.Loc i - (Bfgs.Init ls f x0 obj g0).1.currLoc i) ≠ 0 := by
    rw [dotProduct_comm]
    exact hsy
  have hq := Lbfgs_first_update_q (Lbfgs.Init ls Memory f x0 obj g0).1 rfl rfl hM settings result
  refine ⟨_, hlit, rfl, rfl, ?_, ?_⟩
  · rw [hq]
    funext j
    rw [Lbfgs_onePairDirection_apply,
      Bfgs_first_update_p _ (Bfgs_Init_invHess ls f x0 obj g0) settings result hsy2 j]
    rfl
  · funext j
    rw [specFirstDirection_apply,
      Bfgs_first_update_p _ (Bfgs_Init_invHess ls f x0 obj g0) settings result hsy2 j]
    rfl

/-- C32, witness: the first iteration on `x² + 2 y² + x y` from `(1, 1)`
with `Memory = 30`. -/
theorem C32_first_step_agrees_witness :
    ∃ b1 l1 out, bowlBfgs.Iterate 200 (fun _ => 0) (fun _ => 0) = .ok (b1, out) ∧
      (bowlLbfgs 30).Iterate 200 (fun _ => 0) (fun _ => 0) = .ok (l1, out) ∧
      l1.q = b1.p ∧
      b1.p = specFirstDirection (bowlBfgs.stepDiff b1) (bowlBfgs.gradDiff b1) b1.currGrad := by
  obtain ⟨r, hr, hp⟩ := okCheck_ok (bowlBfgs.Iterate 200 (fun _ => 0) (fun _ => 0))
    (fun r => decide (r.2.err = none ∧
      (bowlBfgs.stepDiff r.1 ⬝ᵥ bowlBfgs.gradDiff r.1 ≠ 0))) (by decide!)
  obtain ⟨b1, out⟩ := r
  obtain ⟨he, hne⟩ := of_decide_eq_true hp
  obtain ⟨-, -, l1, hl, -, -, hq, hs⟩ := C32_first_step_agrees DefaultSettings 30 bowl2 start2
    (bowl2 start2).1 (bowl2 start2).2 200 (fun _ => 0) (fun _ => 0) b1 out (by norm_num) hr he hne
  exact ⟨b1, l1, out, hr, hl, hq, hs⟩

theorem UniHelper_Init_iter (u u1 : UniHelper) (s : UniSettings) (initObj initGrad : ℚ)
    (h : u.Init s initObj initGrad = .ok u1) :
    u1.Common.iter = 0 ∧ u1.Common.settings = s.CommonSettings := by
  unfold UniHelper.Init at h
  cases hso : u.SingleOutput.Init s.SingleOutputSettings initObj |initGrad| with
  | error e => simp [hso, bind, Except.bind] at h
  | ok so =>
    simp only [hso, bind, Except.bind, pure, Except.pure, Except.ok.injEq] at h
    subst h
    simp [Common.Init]

theorem UniHelper_Iterate_iter (u u1 : UniHelper) (loc obj grad : ℚ) (k : ℤ)
    (h : u.Iterate loc obj grad k = .ok u1) :
    u1.Common.iter = u.Common.iter + 1 ∧ u1.Common.settings = u.Common.settings := by
  unfold UniHelper.Iterate at h
  cases hso : u.SingleOutput.Iterate |grad| obj with
  | error e => simp [hso, bind, Except.bind] at h
  | ok so =>
    simp only [hso, bind, Except.bind, pure, Except.pure, Except.ok.injEq] at h
    subst h
    simp [Common.Iterate]

/-- One `wrapper.Iterate` on the line objective is one iteration of the
helper and one call of the objective. -/
theorem UniGradWrapper_Iterate_iter (g : UniGradWrapper) (line : linesearchFun n)
    (r : UniGradWrapper × linesearchFun n × IterOut)
    (h : g.Iterate (linesearchFun.asUni n) line = .ok r) :
    r.1.helper.Common.iter = g.helper.Common.iter + 1 ∧
    r.1.helper.Common.settings = g.helper.Common.settings ∧
    r.2.1.nCalls = line.nCalls + 1 := by
  obtain ⟨h1, -, -, -, -, -⟩ := UniGradWrapper_Iterate_line g line r h
  have hs := GradOptimizer_Iterate_spec g.optimizer (linesearchFun.asUni n) line
  obtain ⟨-, -, -, -, h5⟩ := hs
  have hc : r.2.1.nCalls = line.nCalls + 1 := by
    rw [h1]
    rfl
  unfold UniGradWrapper.Iterate at h
  simp only [h5] at h
  cases hh : g.helper.Iterate (g.optimizer.Iterate (linesearchFun.asUni n) line).2.2.loc
      (g.optimizer.Iterate (linesearchFun.asUni n) line).2.2.obj
      (g.optimizer.Iterate (linesearchFun.asUni n) line).2.2.grad
      (g.optimizer.Iterate (linesearchFun.asUni n) line).2.2.nFunEvals with
  | error e => simp [hh, bind, Except.bind] at h
  | ok u1 =>
    simp only [hh, bind, Except.bind, pure, Except.pure, Except.ok.injEq] at h
    have hf := UniHelper_Iterate_iter _ _ _ _ _ _ hh
    subst h
    exact ⟨hf.1, hf.2, hc⟩

theorem Common_Status_continue (c : Common) (h : c.Status = .Continue) :
    ¬ (-1 < c.settings.MaximumIterations ∧ c.settings.MaximumIterations < c.iter) := by
  intro hc
  unfold Common.Status at h
  split_ifs at h with h1
  exact h1 h

/-- A wrapper that says `Continue` has not used up the iterations. -/
theorem UniGradWrapper_Status_continue (g : UniGradWrapper) (h : g.Status = .ok .Continue) :
    ¬ (-1 < g.helper.Common.settings.MaximumIterations ∧
      g.helper.Common.settings.MaximumIterations < g.helper.Common.iter) := by
  apply Common_Status_continue
  unfold UniGradWrapper.Status UniHelper.Status at h
  cases hs : g.helper.SingleOutput.Status with
  | error e => simp [hs, bind, Except.bind] at h
  | ok c =>
    simp only [hs, bind, Except.bind, pure, Except.pure] at h
    by_cases h1 : c = .Continue
    · subst h1
      simp only [ne_eq, not_true_eq_false, if_false] at h
      by_cases h2 : g.helper.Common.Status = .Continue
      · exact h2
      · simp only [h2, ne_eq, not_false_eq_true, if_true, Except.ok.injEq] at h
    · simp only [h1, ne_eq, not_false_eq_true, if_true, Except.ok.injEq] at h

/-- The loop of `GradLinesearch` with the cap `M ≥ 0` on the iterations: from a
state with `iter ≤ M + 1` and more fuel than `M + 1 - iter` the loop does not run
out of fuel, and it is left with `iter ≤ M + 1`, after one call of the objective
for every iteration. -/
theorem GradLinesearch_loop_budget (sv : Vec n) (M : ℤ) (hM : 0 ≤ M) (fuel : ℕ) (s : LsState n)
    (hs : s.wrapper.helper.Common.settings.MaximumIterations = M)
    (hi : s.wrapper.helper.Common.iter ≤ M + 1)
    (hf : M + 1 - s.wrapper.helper.Common.iter < fuel) :
    GradLinesearch.loop sv fuel s ≠ .error .outOfFuel ∧
    ∀ x, GradLinesearch.loop sv fuel s = .ok x →
      x.state.wrapper.helper.Common.iter ≤ M + 1 ∧
      (x.state.line.nCalls : ℤ) - x.state.wrapper.helper.Common.iter
        = (s.line.nCalls : ℤ) - s.wrapper.helper.Common.iter := by
  induction fuel generalizing s with
  | zero =>
    exfalso
    have : (0 : ℤ) ≤ M + 1 - s.wrapper.helper.Common.iter := by linarith
    simp only [Nat.cast_zero] at hf
    linarith
  | succ k ih =>
    unfold GradLinesearch.loop
    cases hws : s.wolfe.Status with
    | error e =>
      refine ⟨?_, fun x hx => by simp at hx⟩
      intro h
      simp only [Except.error.injEq] at h
      subst h
      unfold WolfeConditions.Status at hws
      split_ifs at hws
      cases hws
    | ok st =>
      dsimp only
      by_cases hst : st = .Continue
      · subst hst
        simp only [ne_eq, not_true_eq_false, if_false]
        cases hwr : s.wrapper.Status with
        | error e =>
          refine ⟨?_, fun x hx => by simp at hx⟩
          intro h
          simp only [Except.error.injEq] at h
          subst h
          have := UniGradWrapper_Status_fault _ _ hwr
          cases this
        | ok st2 =>
          dsimp only
          by_cases hst2 : st2 = .Continue
          · subst hst2
            simp only [ne_eq, not_true_eq_false, if_false]
            have hcap := UniGradWrapper_Status_continue _ hwr
            rw [hs] at hcap
            have hlt : s.wrapper.helper.Common.iter ≤ M := by
              by_contra hc
              exact hcap ⟨by linarith, not_le.mp hc⟩
            cases hit : s.wrapper.Iterate (linesearchFun.asUni n) s.line with
            | error e =>
              refine ⟨?_, fun x hx => by simp at hx⟩
              intro h
              simp only [Except.error.injEq] at h
              subst h
              have := UniGradWrapper_Iterate_fault _ _ _ _ hit
              cases this
            | ok r =>
              dsimp only
              obtain ⟨k1, k2, k3⟩ := UniGradWrapper_Iterate_iter _ _ _ hit
              have herr := (UniGradWrapper_Iterate_line s.wrapper s.line r hit).2.2.2.1
              rw [herr]
              dsimp only
              cases hwi : s.wolfe.Iterate r.2.2.loc r.2.2.obj (sv ⬝ᵥ r.2.1.currGrad / 1) with
              | error e =>
                refine ⟨?_, fun x hx => by simp at hx⟩
                intro h
                simp only [Except.error.injEq] at h
                subst h
                unfold WolfeConditions.Iterate at hwi
                split_ifs at hwi
                cases hwi
              | ok w =>
                dsimp only
                have hih := ih { wolfe := w, wrapper := r.1, line := r.2.1 }
                  (by rw [k2]; exact hs) (by rw [k1]; linarith)
                  (by
                    rw [k1]
                    push_cast at hf ⊢
                    linarith)
                refine ⟨hih.1, ?_⟩
                intro x hx
                obtain ⟨a1, a2⟩ := hih.2 x hx
                refine ⟨a1, ?_⟩
                rw [a2]
                dsimp only
                rw [k1, k3]
                push_cast
                ring
          · simp only [ne_eq, hst2, not_false_eq_true, if_true]
            refine ⟨by simp, ?_⟩
            intro x hx
            simp only [Except.ok.injEq] at hx
            subst hx
            exact ⟨hi, rfl⟩
      · simp only [ne_eq, hst, not_false_eq_true, if_true]
        refine ⟨by simp, ?_⟩
        intro x hx
        simp only [Except.ok.injEq] at hx
        subst hx
        exact ⟨hi, rfl⟩

theorem UniGradWrapper_Init_iter {σ : Type} (g : UniGradWrapper) (settings : UniSettings)
    (fn : UniObjGrader σ) (st : σ) (x : ℚ) (r : UniGradWrapper × σ × Option Error)
    (h : g.Init settings fn st x = .ok r) :
    r.1.helper.Common.iter = 0 ∧ r.1.helper.Common.settings = settings.CommonSettings := by
  unfold UniGradWrapper.Init at h
  cases hi : settings.InitialObjective with
  | none =>
    simp only [hi] at h
    cases h1 : g.helper.Init settings (fn x st).1.1 (fn x st).1.2 with
    | error e1 => simp [h1, bind, Except.bind] at h
    | ok so =>
      simp only [h1, bind, Except.bind, pure, Except.pure, Except.ok.injEq] at h
      subst h
      exact UniHelper_Init_iter _ _ _ _ _ h1
  | some v =>
    simp only [hi] at h
    cases h1 : g.helper.Init settings v settings.InitialGradient with
    | error e1 => simp [h1, bind, Except.bind] at h
    | ok so =>
      simp only [h1, bind, Except.bind, pure, Except.pure, Except.ok.injEq] at h
      subst h
      exact UniHelper_Init_iter _ _ _ _ _ h1

/-- The set-up of `GradLinesearch` does not use fuel, and it enters the loop
with no iteration and no call of the objective counted, under the iteration cap
of the settings. -/
theorem GradLinesearch_setup_budget (settings : Settings) (fn : ObjGrader n)
    (sv initLoc : Vec n) (initObj : ℚ) (initGrad : Vec n) (prevObj : ℚ) :
    GradLinesearch.setup settings fn sv initLoc initObj initGrad prevObj ≠ .error .outOfFuel ∧
    ∀ s1 s0, GradLinesearch.setup settings fn sv initLoc initObj initGrad prevObj
        = .ok (s1, .inr s0) →
      s0.wrapper.helper.Common.iter = 0 ∧
      s0.wrapper.helper.Common.settings = settings.Settings.CommonSettings := by
  unfold GradLinesearch.setup
  simp only [div_one]
  split_ifs with hgrad
  · exact ⟨by simp, by simp⟩
  · split
    · rename_i e1 h1
      refine ⟨?_, by simp⟩
      unfold WolfeConditions.Init at h1
      dsimp only at h1
      split_ifs at h1 <;> rw [← Except.error.inj h1] <;> simp
    · split
      · exact ⟨by simp, by simp⟩
      · split
        · exact ⟨by simp, by simp⟩
        · split
          · rename_i e1 h1
            refine ⟨?_, by simp⟩
            rw [UniGradWrapper_Init_fault _ _ _ _ _ _ h1]
            simp
          · rename_i wi hwi
            obtain ⟨k1, k2⟩ := UniGradWrapper_Init_iter _ _ _ _ _ _ hwi
            split
            · exact ⟨by simp, by simp⟩
            · refine ⟨by simp, ?_⟩
              intro s1 s0 h
              simp only [Except.ok.injEq, Prod.mk.injEq, Sum.inr.injEq] at h
              obtain ⟨-, rfl⟩ := h
              exact ⟨k1, k2⟩

/-- C35: with `MaximumIterations = M ≥ 0`, `GradLinesearch` returns within
`M + 2` rounds of its loop (given that much fuel it does not run out of it),
it calls the objective at most `M + 1` times, and a result it returns reports
at most `M + 1` function evaluations; `DefaultSettings` has `M = 100`. -/
theorem C35_linesearch_iteration_budget (fuel : ℕ) (settings : Settings) (fn : ObjGrader n)
    (sv initLoc : Vec n) (initObj : ℚ) (initGrad : Vec n) (prevObj : ℚ) (M : ℤ) (hM : 0 ≤ M)
    (hs : settings.Settings.CommonSettings.MaximumIterations = M) (hf : M + 2 ≤ fuel) :
    GradLinesearch fuel settings fn sv initLoc initObj initGrad prevObj ≠ .error .outOfFuel ∧
    (GradLinesearch.objGradCalls fuel settings fn sv initLoc initObj initGrad prevObj : ℤ)
      ≤ M + 1 ∧
    (∀ s1 r err, GradLinesearch fuel settings fn sv initLoc initObj initGrad prevObj
        = .ok (s1, some r, err) → r.NFunEvals ≤ M + 1) ∧
    DefaultSettings.Settings.CommonSettings.MaximumIterations = 100 := by
  obtain ⟨hne, hset⟩ := GradLinesearch_setup_budget settings fn sv initLoc initObj initGrad
    prevObj
  have hcalls : (GradLinesearch.objGradCalls fuel settings fn sv initLoc initObj initGrad
      prevObj : ℤ) ≤ M + 1 := by
    unfold GradLinesearch.objGradCalls
    cases hsu : GradLinesearch.setup settings fn sv initLoc initObj initGrad prevObj with
    | error e =>
      dsimp only
      push_cast
      linarith
    | ok v =>
      obtain ⟨s1, x⟩ := v
      cases x with
      | inl err =>
        dsimp only
        push_cast
        linarith
      | inr s0 =>
        dsimp only
        obtain ⟨k1, k2⟩ := hset s1 s0 hsu
        obtain ⟨-, l0, -⟩ := GradLinesearch_setup_inr settings s1 fn sv initLoc initObj initGrad
          prevObj s0 hsu
        have k3 : s0.line.nCalls = 0 := by rw [l0]
        have hb := GradLinesearch_loop_budget sv M hM fuel s0 (by rw [k2]; exact hs)
          (by rw [k1]; linarith) (by rw [k1]; linarith)
        cases hl : GradLinesearch.loop sv fuel s0 with
        | error e =>
          dsimp only
          push_cast
          linarith
        | ok ex =>
          obtain ⟨a1, a2⟩ := hb.2 ex hl
          rw [k1, k3] at a2
          cases ex with
          | iterError e s =>
            dsimp only [LsExit.state] at a1 a2 ⊢
            push_cast at a2
            linarith
          | done status s =>
            dsimp only [LsExit.state] at a1 a2 ⊢
            push_cast at a2
            linarith
  refine ⟨?_, hcalls, ?_, rfl⟩
  · unfold GradLinesearch
    cases hsu : GradLinesearch.setup settings fn sv initLoc initObj initGrad prevObj with
    | error e =>
      dsimp only
      intro h
      rw [hsu] at hne
      exact hne (congrArg Except.error (Except.error.inj h))
    | ok v =>
      obtain ⟨s1, x⟩ := v
      cases x with
      | inl err => simp
      | inr s0 =>
        dsimp only
        obtain ⟨k1, k2⟩ := hset s1 s0 hsu
        have hb := GradLinesearch_loop_budget sv M hM fuel s0 (by rw [k2]; exact hs)
          (by rw [k1]; linarith) (by rw [k1]; linarith)
        cases hl : GradLinesearch.loop sv fuel s0 with
        | error e =>
          dsimp only
          intro h
          rw [hl] at hb
          exact hb.1 (congrArg Except.error (Except.error.inj h))
        | ok ex =>
          cases ex with
          | iterError e s => simp
          | done status s =>
            dsimp only
            split_ifs <;> simp
  · intro s1 r err h
    have hc := (GradLinesearch_calls fuel settings fn sv initLoc initObj initGrad prevObj _ h).1
      r rfl
    rw [← hc]
    exact hcalls

/-- C35, witness: on `x ↦ x³` from `x = -1 / 4` with `MaximumIterations = 1`
the line search returns with the error `MaximumIterations` after at most `2`
evaluations. -/
theorem C35_linesearch_iteration_budget_witness :
    (0 : ℤ) ≤ 1 ∧ shortSettings.Settings.CommonSettings.MaximumIterations = 1 ∧
    (∃ s r, GradLinesearch 3 shortSettings cubeFn (fun _ => -(4 / 3 * (3 / 16)))
        (fun _ => -1 / 4) (-1 / 64) (fun _ => 3 / 16) (1 / 8)
      = .ok (s, some r, some (.Notconverged .MaximumIterations)) ∧ r.NFunEvals ≤ 1 + 1) ∧
    (GradLinesearch.objGradCalls 3 shortSettings cubeFn (fun _ => -(4 / 3 * (3 / 16)))
        (fun _ => -1 / 4) (-1 / 64) (fun _ => 3 / 16) (1 / 8) : ℤ) ≤ 1 + 1 := by
  have h := C35_linesearch_iteration_budget 3 shortSettings cubeFn (fun _ => -(4 / 3 * (3 / 16)))
    (fun _ => -1 / 4) (-1 / 64) (fun _ => 3 / 16) (1 / 8) 1 (by norm_num) rfl (by norm_num)
  obtain ⟨s, r, hr⟩ := cube_linesearch2
  exact ⟨by norm_num, rfl, ⟨s, r, hr, h.2.2.1 s r _ hr⟩, h.2.1⟩

end FirstStepAndBudget

/-! ## Theorems: the bracket of `GoldenSection`, and `Init` of a used step finder -/

section BracketAndReset

variable {n : ℕ}

theorem resphi_mul_pos (d : ℚ) (hd : 0 < d) : 0 < resphi * d ∧ resphi * d < d :=
  ⟨mul_pos resphi_pos hd, by
    have := mul_lt_mul_of_pos_right resphi_lt_one hd
    linarith⟩

theorem goldenNoMiddleStep_between (a b : ℚ) (h : a ≠ b) :
    StrictBetween (goldenNoMiddleStep a b).1 a b ∧ (goldenNoMiddleStep a b).2 = true := by
  refine ⟨?_, rfl⟩
  simp only [goldenNoMiddleStep, StrictBetween]
  rcases lt_or_gt_of_ne h with hab | hab
  · obtain ⟨h1, h2⟩ := resphi_mul_pos (b - a) (by linarith)
    left
    constructor <;> linarith
  · obtain ⟨h1, h2⟩ := resphi_mul_pos (a - b) (by linarith)
    right
    constructor <;> linarith

theorem goldenNewStep_pos (mn mx mid : ℚ) (h0 : 0 < mx) (h1 : mn < mid) (h2 : mid < mx) :
    (mn < (goldenNewStep mn mx mid).1 ∧ (goldenNewStep mn mx mid).1 < mx) ∧
    (goldenNewStep mn mx mid).1 ≠ mid ∧
    ((goldenNewStep mn mx mid).2 = true →
      mn < (goldenNewStep mn mx mid).1 ∧ (goldenNewStep mn mx mid).1 < mid) ∧
    ((goldenNewStep mn mx mid).2 = false →
      mid < (goldenNewStep mn mx mid).1 ∧ (goldenNewStep mn mx mid).1 < mx) := by
  obtain ⟨a1, a2⟩ := resphi_mul_pos (mx - mid) (by linarith)
  obtain ⟨b1, b2⟩ := resphi_mul_pos (mid - mn) (by linarith)
  unfold goldenNewStep
  rw [if_pos h0]
  dsimp only
  by_cases hc : mid - mn < mx - mid
  · rw [if_pos hc]
    refine ⟨⟨by linarith, by linarith⟩, by intro h; linarith, ?_, ?_⟩
    · intro h
      have := of_decide_eq_true h
      exfalso
      linarith
    · intro _
      exact ⟨by linarith, by linarith⟩
  · rw [if_neg hc]
    refine ⟨⟨by linarith, by linarith⟩, by intro h; linarith, ?_, ?_⟩
    · intro _
      exact ⟨by linarith, by linarith⟩
    · intro h
      have := of_decide_eq_false h
      exfalso
      apply this
      linarith

theorem goldenNewStep_neg (mn mx mid : ℚ) (h0 : ¬ 0 < mx) (h1 : mx < mid) (h2 : mid < mn) :
    (mx < (goldenNewStep mn mx mid).1 ∧ (goldenNewStep mn mx mid).1 < mn) ∧
    (goldenNewStep mn mx mid).1 ≠ mid ∧
    ((goldenNewStep mn mx mid).2 = true →
      mid < (goldenNewStep mn mx mid).1 ∧ (goldenNewStep mn mx mid).1 < mn) ∧
    ((goldenNewStep mn mx mid).2 = false →
      mx < (goldenNewStep mn mx mid).1 ∧ (goldenNewStep mn mx mid).1 < mid) := by
  obtain ⟨a1, a2⟩ := resphi_mul_pos (mid - mx) (by linarith)
  obtain ⟨b1, b2⟩ := resphi_mul_pos (mn - mid) (by linarith)
  unfold goldenNewStep
  rw [if_neg h0]
  dsimp only
  by_cases hc : mx - mid < mid - mn
  · rw [if_pos hc]
    refine ⟨⟨by linarith, by linarith⟩, by intro h; linarith, ?_, ?_⟩
    · intro h
      have := of_decide_eq_true h
      exfalso
      linarith
    · intro _
      exact ⟨by linarith, by linarith⟩
  · rw [if_neg hc]
    refine ⟨⟨by linarith, by linarith⟩, by intro h; linarith, ?_, ?_⟩
    · intro _
      exact ⟨by linarith, by linarith⟩
    · intro h
      have := of_decide_eq_false h
      exfalso
      apply this
      linarith

/-- The next trial step chosen by `goldenNewStep` for an ordered bracket with a
middle point. -/
theorem goldenNewStep_spec (mn mx mid : ℚ) (ho : GoldenSection.Ordered mn mx)
    (hm : StrictBetween mid mn mx) :
    StrictBetween (goldenNewStep mn mx mid).1 mn mx ∧
    (goldenNewStep mn mx mid).1 ≠ mid ∧
    ((goldenNewStep mn mx mid).2 = true → StrictBetween (goldenNewStep mn mx mid).1 mn mid) ∧
    ((goldenNewStep mn mx mid).2 = false → StrictBetween (goldenNewStep mn mx mid).1 mid mx) := by
  rcases ho with ⟨o1, o2⟩ | ⟨o1, o2⟩
  · rcases hm with ⟨m1, m2⟩ | ⟨m1, m2⟩
    · obtain ⟨k1, k2, k3, k4⟩ := goldenNewStep_pos mn mx mid (by linarith) m1 m2
      exact ⟨Or.inl k1, k2, fun h => Or.inl (k3 h), fun h => Or.inl (k4 h)⟩
    · exfalso
      linarith
  · rcases hm with ⟨m1, m2⟩ | ⟨m1, m2⟩
    · exfalso
      linarith
    · obtain ⟨k1, k2, k3, k4⟩ := goldenNewStep_neg mn mx mid (by linarith) m1 m2
      exact ⟨Or.inr k1, k2, fun h => Or.inr (k3 h), fun h => Or.inr (k4 h)⟩

theorem ordered_split (mn mx mid : ℚ) (ho : GoldenSection.Ordered mn mx)
    (hm : StrictBetween mid mn mx) :
    GoldenSection.Ordered mn mid ∧ GoldenSection.Ordered mid mx := by
  unfold GoldenSection.Ordered StrictBetween at *
  rcases ho with ⟨o1, o2⟩ | ⟨o1, o2⟩ <;> rcases hm with ⟨m1, m2⟩ | ⟨m1, m2⟩
  · exact ⟨Or.inl ⟨o1, m1⟩, Or.inl ⟨by linarith, m2⟩⟩
  · exfalso
    linarith
  · exfalso
    linarith
  · exact ⟨Or.inr ⟨o1, m2⟩, Or.inr ⟨by linarith, m1⟩⟩

/-- A trial step between the lower bound and the middle point: it lies in the
bracket, and the middle point lies between it and the upper bound. -/
theorem between_lower (mn mx mid cur : ℚ) (ho : GoldenSection.Ordered mn mx)
    (hm : StrictBetween mid mn mx) (hc : StrictBetween cur mn mid) :
    StrictBetween cur mn mx ∧ StrictBetween mid cur mx ∧ GoldenSection.Ordered cur mx := by
  unfold GoldenSection.Ordered StrictBetween at *
  rcases ho with ⟨o1, o2⟩ | ⟨o1, o2⟩ <;> rcases hm with ⟨m1, m2⟩ | ⟨m1, m2⟩ <;>
    rcases hc with ⟨c1, c2⟩ | ⟨c1, c2⟩
  · exact ⟨Or.inl ⟨c1, by linarith⟩, Or.inl ⟨c2, m2⟩, Or.inl ⟨by linarith, by linarith⟩⟩
  all_goals first
    | (exfalso; linarith)
    | exact ⟨Or.inr ⟨by linarith, c2⟩, Or.inr ⟨m1, c1⟩, Or.inr ⟨by linarith, by linarith⟩⟩

/-- A trial step between the middle point and the upper bound: it lies in the
bracket, and the middle point lies between the lower bound and it. -/
theorem between_upper (mn mx mid cur : ℚ) (ho : GoldenSection.Ordered mn mx)
    (hm : StrictBetween mid mn mx) (hc : StrictBetween cur mid mx) :
    StrictBetween cur mn mx ∧ StrictBetween mid mn cur ∧ GoldenSection.Ordered mn cur := by
  unfold GoldenSection.Ordered StrictBetween at *
  rcases ho with ⟨o1, o2⟩ | ⟨o1, o2⟩ <;> rcases hm with ⟨m1, m2⟩ | ⟨m1, m2⟩ <;>
    rcases hc with ⟨c1, c2⟩ | ⟨c1, c2⟩
  · exact ⟨Or.inl ⟨by linarith, c2⟩, Or.inl ⟨m1, c1⟩, Or.inl ⟨o1, by linarith⟩⟩
  all_goals first
    | (exfalso; linarith)
    | exact ⟨Or.inr ⟨c1, by linarith⟩, Or.inr ⟨c2, m2⟩, Or.inr ⟨o1, by linarith⟩⟩

theorem ltInf_le (x : ℚ) (y : Option ℚ) (h : ltInf x y = true) : leInf x y := by
  intro v hv
  subst hv
  exact le_of_lt (of_decide_eq_true h)

theorem not_ltInf_le (x a : ℚ) (y : Option ℚ) (hy : y = some a) (h : ¬ ltInf x y = true) :
    a ≤ x := by
  subst hy
  unfold ltInf at h
  simpa using h

theorem GoldenSection_resetMax_valid (g : GoldenSection) (mx newObj : ℚ)
    (ha : ∃ a, g.minObj = some a) (ho : GoldenSection.Ordered g.minStep mx)
    (hc : StrictBetween g.currentStep g.minStep mx) : (g.resetMax newObj).Valid := by
  have hne : g.minStep ≠ g.currentStep := by
    unfold StrictBetween at hc
    rcases hc with ⟨c1, c2⟩ | ⟨c1, c2⟩
    · exact ne_of_lt c1
    · exact ne_of_gt c2
  have hord : GoldenSection.Ordered g.minStep g.currentStep := by
    unfold GoldenSection.Ordered StrictBetween at *
    rcases ho with ⟨o1, o2⟩ | ⟨o1, o2⟩ <;> rcases hc with ⟨c1, c2⟩ | ⟨c1, c2⟩
    · exact Or.inl ⟨o1, c1⟩
    · exfalso
      linarith
    · exfalso
      linarith
    · exact Or.inr ⟨o1, c2⟩
  refine ⟨ha, fun h => ExtQ.noConfusion h, fun h => ExtQ.noConfusion h, ?_⟩
  intro mx1 h1
  have e : mx1 = g.currentStep := by
    simp only [GoldenSection.resetMax, ExtQ.finite.injEq] at h1
    exact h1.symm
  subst e
  refine ⟨hord, (goldenNoMiddleStep_between _ _ hne).1, ?_⟩
  intro mid hmid
  simp [GoldenSection.resetMax] at hmid

theorem GoldenSection_iterateMiddle_valid (g : GoldenSection) (mx mid newObj : ℚ)
    (hmx : g.maxStep = .finite mx) (hmid : g.middleStep = some mid) (hv : g.Valid) :
    (g.iterateMiddle mx mid newObj).Valid := by
  obtain ⟨ha, -, -, hfin⟩ := hv
  obtain ⟨ho, hcur, hm⟩ := hfin mx hmx
  obtain ⟨hb, hne, hct, hcf, mo, hmo, hle1, hle2⟩ := hm mid hmid
  obtain ⟨a, haa⟩ := ha
  unfold GoldenSection.iterateMiddle
  by_cases c1 : (gtInf newObj g.minObj && gtInf newObj g.maxObj) = true
  · rw [if_pos c1]
    exact GoldenSection_resetMax_valid g mx newObj ⟨a, haa⟩ ho hcur
  · rw [if_neg c1]
    by_cases c2 : ltInf newObj g.middleObj = true
    · rw [if_pos c2]
      have hlt : newObj < mo := by
        rw [hmo] at c2
        exact of_decide_eq_true c2
      by_cases c3 : g.closerToMin = true
      · rw [if_pos c3]
        have hc := hct c3
        obtain ⟨o1, -⟩ := ordered_split _ _ _ ho hb
        obtain ⟨k1, k2, k3, k4⟩ := goldenNewStep_spec g.minStep mid g.currentStep o1 hc
        refine ⟨⟨a, haa⟩, fun h => ExtQ.noConfusion h, fun h => ExtQ.noConfusion h, ?_⟩
        intro mx1 h1
        have e : mx1 = mid := (ExtQ.finite.inj h1).symm
        subst e
        refine ⟨o1, k1, ?_⟩
        intro mid1 h2
        have e2 : mid1 = g.currentStep := (Option.some.inj h2).symm
        subst e2
        refine ⟨hc, k2, k3, k4, newObj, rfl, ?_, ?_⟩
        · intro v hv
          have := hle1 v hv
          linarith
        · intro v hv
          have e3 : v = mo := by
            have h3 : g.middleObj = some v := hv
            rw [hmo] at h3
            exact (Option.some.inj h3).symm
          rw [e3]
          exact le_of_lt hlt
      · rw [if_neg c3]
        have c3f : g.closerToMin = false := by
          cases hh : g.closerToMin with
          | true => exact absurd hh c3
          | false => rfl
        have hc := hcf c3f
        obtain ⟨-, o2⟩ := ordered_split _ _ _ ho hb
        obtain ⟨k1, k2, k3, k4⟩ := goldenNewStep_spec mid mx g.currentStep o2 hc
        refine ⟨⟨mo, hmo⟩, fun h => ExtQ.noConfusion (hmx.symm.trans h),
          fun h => ExtQ.noConfusion (hmx.symm.trans h), ?_⟩
        intro mx1 h1
        have e : mx1 = mx := by
          have h3 : g.maxStep = .finite mx1 := h1
          rw [hmx] at h3
          exact (ExtQ.finite.inj h3).symm
        subst e
        refine ⟨o2, k1, ?_⟩
        intro mid1 h2
        have e2 : mid1 = g.currentStep := (Option.some.inj h2).symm
        subst e2
        refine ⟨hc, k2, k3, k4, newObj, rfl, ?_, ?_⟩
        · intro v hv
          have e3 : v = mo := by
            have h3 : g.middleObj = some v := hv
            rw [hmo] at h3
            exact (Option.some.inj h3).symm
          rw [e3]
          exact le_of_lt hlt
        · intro v hv
          have := hle2 v hv
          linarith
    · rw [if_neg c2]
      have hge : mo ≤ newObj := not_ltInf_le newObj mo g.middleObj hmo c2
      by_cases c3 : g.closerToMin = true
      · rw [if_pos c3]
        have hc := hct c3
        obtain ⟨b1, b2, b3⟩ := between_lower _ _ _ _ ho hb hc
        obtain ⟨k1, k2, k3, k4⟩ := goldenNewStep_spec g.currentStep mx mid b3 b2
        refine ⟨⟨newObj, rfl⟩, fun h => ExtQ.noConfusion (hmx.symm.trans h),
          fun h => ExtQ.noConfusion (hmx.symm.trans h), ?_⟩
        intro mx1 h1
        have e : mx1 = mx := by
          have h3 : g.maxStep = .finite mx1 := h1
          rw [hmx] at h3
          exact (ExtQ.finite.inj h3).symm
        subst e
        refine ⟨b3, k1, ?_⟩
        intro mid1 h2
        have e2 : mid1 = mid := by
          have h3 : g.middleStep = some mid1 := h2
          rw [hmid] at h3
          exact (Option.some.inj h3).symm
        subst e2
        refine ⟨b2, k2, k3, k4, mo, hmo, ?_, hle2⟩
        intro v hv
        have e3 : v = newObj := (Option.some.inj hv).symm
        rw [e3]
        exact hge
      · rw [if_neg c3]
        have c3f : g.closerToMin = false := by
          cases hh : g.closerToMin with
          | true => exact absurd hh c3
          | false => rfl
        have hc := hcf c3f
        obtain ⟨b1, b2, b3⟩ := between_upper _ _ _ _ ho hb hc
        obtain ⟨k1, k2, k3, k4⟩ := goldenNewStep_spec g.minStep g.currentStep mid b3 b2
        refine ⟨⟨a, haa⟩, fun h => ExtQ.noConfusion h, fun h => ExtQ.noConfusion h, ?_⟩
        intro mx1 h1
        have e : mx1 = g.currentStep := (ExtQ.finite.inj h1).symm
        subst e
        refine ⟨b3, k1, ?_⟩
        intro mid1 h2
        have e2 : mid1 = mid := by
          have h3 : g.middleStep = some mid1 := h2
          rw [hmid] at h3
          exact (Option.some.inj h3).symm
        subst e2
        refine ⟨b2, k2, k3, k4, mo, hmo, hle1, ?_⟩
        intro v hv
        have e3 : v = newObj := (Option.some.inj hv).symm
        rw [e3]
        exact hge

theorem GoldenSection_iterateNoMiddle_valid (g : GoldenSection) (mx newObj : ℚ)
    (hmx : g.maxStep = .finite mx) (hv : g.Valid) :
    (g.iterateNoMiddle mx newObj).Valid := by
  obtain ⟨ha, -, -, hfin⟩ := hv
  obtain ⟨ho, hcur, -⟩ := hfin mx hmx
  unfold GoldenSection.iterateNoMiddle
  by_cases c1 : (ltInf newObj g.minObj && ltInf newObj g.maxObj) = true
  · rw [if_pos c1]
    rw [Bool.and_eq_true] at c1
    obtain ⟨k1, k2, k3, k4⟩ := goldenNewStep_spec g.minStep mx g.currentStep ho hcur
    refine ⟨ha, fun h => ExtQ.noConfusion (hmx.symm.trans h),
      fun h => ExtQ.noConfusion (hmx.symm.trans h), ?_⟩
    intro mx1 h1
    have e : mx1 = mx := by
      have h3 : g.maxStep = .finite mx1 := h1
      rw [hmx] at h3
      exact (ExtQ.finite.inj h3).symm
    subst e
    refine ⟨ho, k1, ?_⟩
    intro mid1 h2
    have e2 : mid1 = g.currentStep := (Option.some.inj h2).symm
    subst e2
    exact ⟨hcur, k2, k3, k4, newObj, rfl, ltInf_le _ _ c1.1, ltInf_le _ _ c1.2⟩
  · rw [if_neg c1]
    exact GoldenSection_resetMax_valid g mx newObj ha ho hcur

theorem GoldenSection_iterateUnbounded_valid (g : GoldenSection) (newObj : ℚ)
    (hmx : ∀ mx, g.maxStep ≠ .finite mx) (hv : g.Valid) : (g.iterateUnbounded newObj).Valid := by
  obtain ⟨⟨a, haa⟩, hpos, hneg, -⟩ := hv
  have hside : (g.minStep = 0 ∧ g.currentStep ≠ 0 ∧
      ((g.maxStep = .posInf ∧ 0 < g.currentStep) ∨ (g.maxStep = .negInf ∧ g.currentStep < 0))) := by
    cases hm : g.maxStep with
    | posInf =>
      obtain ⟨h1, h2, -⟩ := hpos hm
      exact ⟨h1, ne_of_gt h2, Or.inl ⟨rfl, h2⟩⟩
    | negInf =>
      obtain ⟨h1, h2, -⟩ := hneg hm
      exact ⟨h1, ne_of_lt h2, Or.inr ⟨rfl, h2⟩⟩
    | finite q => exact absurd hm (hmx q)
  obtain ⟨hmin, hc0, hdir⟩ := hside
  have hmidp : ∀ mid, g.middleStep = some mid →
      StrictBetween mid 0 g.currentStep ∧ ∃ mo, g.middleObj = some mo ∧ ltInf mo g.minObj = true := by
    intro mid hmid
    rcases hdir with ⟨hm, hc⟩ | ⟨hm, hc⟩
    · obtain ⟨-, -, h3⟩ := hpos hm
      obtain ⟨m1, m2, m3⟩ := h3 mid hmid
      exact ⟨Or.inl ⟨m1, m2⟩, m3⟩
    · obtain ⟨-, -, h3⟩ := hneg hm
      obtain ⟨m1, m2, m3⟩ := h3 mid hmid
      exact ⟨Or.inr ⟨m1, m2⟩, m3⟩
  unfold GoldenSection.iterateUnbounded
  by_cases c1 : ltInf newObj g.minObj = true
  · rw [if_pos c1]
    by_cases c2 : ltInf newObj g.middleObj = true
    · simp only [c2, if_true]
      refine ⟨⟨a, haa⟩, ?_, ?_, ?_⟩
      · intro h
        have hm : g.maxStep = .posInf := h
        rcases hdir with ⟨-, hc⟩ | ⟨hm2, -⟩
        · refine ⟨hmin, by dsimp only; linarith, ?_⟩
          intro mid hmid
          have e : mid = g.currentStep := (Option.some.inj hmid).symm
          subst e
          exact ⟨hc, by dsimp only; linarith, newObj, rfl, c1⟩
        · rw [hm] at hm2
          cases hm2
      · intro h
        have hm : g.maxStep = .negInf := h
        rcases hdir with ⟨hm2, -⟩ | ⟨-, hc⟩
        · rw [hm] at hm2
          cases hm2
        · refine ⟨hmin, by dsimp only; linarith, ?_⟩
          intro mid hmid
          have e : mid = g.currentStep := (Option.some.inj hmid).symm
          subst e
          exact ⟨by dsimp only; linarith, hc, newObj, rfl, c1⟩
      · intro mx h
        exact absurd h (hmx mx)
    · simp only [c2, Bool.false_eq_true, if_false]
      refine ⟨⟨a, haa⟩, ?_, ?_, ?_⟩
      · intro h
        have hm : g.maxStep = .posInf := h
        rcases hdir with ⟨-, hc⟩ | ⟨hm2, -⟩
        · refine ⟨hmin, by dsimp only; linarith, ?_⟩
          intro mid hmid
          obtain ⟨-, -, h3⟩ := hpos hm
          obtain ⟨m1, m2, m3⟩ := h3 mid hmid
          exact ⟨m1, by dsimp only; linarith, m3⟩
        · rw [hm] at hm2
          cases hm2
      · intro h
        have hm : g.maxStep = .negInf := h
        rcases hdir with ⟨hm2, -⟩ | ⟨-, hc⟩
        · rw [hm] at hm2
          cases hm2
        · refine ⟨hmin, by dsimp only; linarith, ?_⟩
          intro mid hmid
          obtain ⟨-, -, h3⟩ := hneg hm
          obtain ⟨m1, m2, m3⟩ := h3 mid hmid
          exact ⟨by dsimp only; linarith, m2, m3⟩
      · intro mx h
        exact absurd h (hmx mx)
  · rw [if_neg c1]
    have hge : a ≤ newObj := not_ltInf_le newObj a g.minObj haa c1
    have hord : GoldenSection.Ordered g.minStep g.currentStep := by
      rw [hmin]
      rcases hdir with ⟨-, hc⟩ | ⟨-, hc⟩
      · exact Or.inl ⟨le_refl 0, hc⟩
      · exact Or.inr ⟨le_refl 0, hc⟩
    cases hmid : g.middleStep with
    | none =>
      simp only [hmid]
      refine ⟨⟨a, haa⟩, fun h => ExtQ.noConfusion h, fun h => ExtQ.noConfusion h, ?_⟩
      intro mx1 h1
      have e : mx1 = g.currentStep := (ExtQ.finite.inj h1).symm
      subst e
      refine ⟨hord, (goldenNoMiddleStep_between _ _ (by rw [hmin]; exact hc0.symm)).1, ?_⟩
      intro mid1 h2
      cases h2
    | some mid =>
      simp only [hmid]
      obtain ⟨hb, mo, hmo, hlt⟩ := hmidp mid hmid
      have hb2 : StrictBetween mid g.minStep g.currentStep := by
        rw [hmin]
        exact hb
      obtain ⟨k1, k2, k3, k4⟩ := goldenNewStep_spec g.minStep g.currentStep mid hord hb2
      refine ⟨⟨a, haa⟩, fun h => ExtQ.noConfusion h, fun h => ExtQ.noConfusion h, ?_⟩
      intro mx1 h1
      have e : mx1 = g.currentStep := (ExtQ.finite.inj h1).symm
      subst e
      refine ⟨hord, k1, ?_⟩
      intro mid1 h2
      have e2 : mid1 = mid := (Option.some.inj h2).symm
      subst e2
      have hmoa : mo < a := by
        rw [haa] at hlt
        exact of_decide_eq_true hlt
      refine ⟨hb2, k2, k3, k4, mo, hmo, ?_, ?_⟩
      · intro v hv
        have e3 : v = a := by
          have h3 : g.minObj = some v := hv
          rw [haa] at h3
          exact (Option.some.inj h3).symm
        rw [e3]
        exact le_of_lt hmoa
      · intro v hv
        have e3 : v = newObj := (Option.some.inj hv).symm
        rw [e3]
        linarith

theorem GoldenSection_Init_valid (g0 : GoldenSection) (x0 v : ℚ)
    (h : (g0.Init x0 v).2 = none) : (g0.Init x0 v).1.Valid := by
  obtain ⟨h0, -, -, -, hmax, -, hcur, hmin, hobj, hmid, -⟩ := GoldenSection_Init_ok g0 x0 v h
  have hsign : ((g0.Init x0 v).1.maxStep = .posInf → 0 < g0.InitialStep) ∧
      ((g0.Init x0 v).1.maxStep = .negInf → g0.InitialStep < 0) := by
    unfold GoldenSection.Init at h ⊢
    simp only [h0, if_false] at h ⊢
    by_cases hp : 0 < g0.InitialStep
    · split_ifs at h ⊢ <;> simp_all
    · have hn : g0.InitialStep < 0 := lt_of_le_of_ne (not_lt.mp hp) h0
      split_ifs at h ⊢ <;> simp_all
  refine ⟨⟨v, hobj⟩, ?_, ?_, ?_⟩
  · intro hm
    refine ⟨hmin, by rw [hcur]; exact hsign.1 hm, ?_⟩
    intro mid hm2
    rw [hmid] at hm2
    cases hm2
  · intro hm
    refine ⟨hmin, by rw [hcur]; exact hsign.2 hm, ?_⟩
    intro mid hm2
    rw [hmid] at hm2
    cases hm2
  · intro mx hm
    rcases hmax with h1 | h1
    · rw [h1] at hm
      cases hm
    · rw [h1] at hm
      cases hm

theorem GoldenSection_Iterate_valid (g : GoldenSection) (f : ℚ → ℚ) (hv : g.Valid) :
    (g.Iterate f).1.Valid := by
  unfold GoldenSection.Iterate
  dsimp only
  cases hm : g.maxStep with
  | posInf =>
    exact GoldenSection_iterateUnbounded_valid g _ (fun mx h => by rw [hm] at h; cases h) hv
  | negInf =>
    exact GoldenSection_iterateUnbounded_valid g _ (fun mx h => by rw [hm] at h; cases h) hv
  | finite mx =>
    dsimp only
    cases hmid : g.middleStep with
    | none => exact GoldenSection_iterateNoMiddle_valid g mx _ hm hv
    | some mid => exact GoldenSection_iterateMiddle_valid g mx mid _ hm hmid hv

theorem GoldenSection_reachable_valid (g : GoldenSection) (h : g.Reachable) : g.Valid := by
  induction h with
  | init g0 x0 v h0 => exact GoldenSection_Init_valid g0 x0 v h0
  | iterate g f _ ih => exact GoldenSection_Iterate_valid g f ih

/-- C37: in every state of a `GoldenSection` reached from a successful `Init`
by calls of `Iterate`, in the exact arithmetic of the model, when `maxStep`
and `middleStep` are both finite, `middleStep` lies strictly between `minStep`
and `maxStep`, `middleObj ≤ minObj` and `middleObj ≤ maxObj`, and the next
trial step lies strictly between `minStep` and `maxStep` and differs from
`middleStep`. -/
theorem C37_golden_three_point_bracket (g : GoldenSection) (h : g.Reachable) : g.Bracket3 := by
  obtain ⟨-, -, -, hfin⟩ := GoldenSection_reachable_valid g h
  intro mx mid hmx hmid
  obtain ⟨-, hcur, hm⟩ := hfin mx hmx
  obtain ⟨hb, hne, -, -, hobj⟩ := hm mid hmid
  exact ⟨hb, hobj, hcur, hne⟩

theorem GoldenSection_iterates_reachable (f : ℚ → ℚ) (k : ℕ) (g : GoldenSection)
    (h : g.Reachable) : (GoldenSection.iterates f k g).Reachable := by
  induction k with
  | zero => exact h
  | succ k ih => exact GoldenSection.Reachable.iterate _ f ih

/-- C37, witness: on `(x - 3)² + 5` from `0` with the initial step `1`, after
the trial steps `1`, `2`, `4`, `8` the bounds are `0` and `8` and the middle
step is `2`. -/
theorem C37_golden_three_point_bracket_witness :
    goldenDemo.minStep = 0 ∧ goldenDemo.maxStep = .finite 8 ∧ goldenDemo.middleStep = some 2 ∧
    StrictBetween 2 goldenDemo.minStep 8 ∧
    (∃ mo, goldenDemo.middleObj = some mo ∧ leInf mo goldenDemo.minObj ∧
      leInf mo goldenDemo.maxObj) ∧
    StrictBetween goldenDemo.currentStep goldenDemo.minStep 8 ∧ goldenDemo.currentStep ≠ 2 := by
  have hr : goldenDemo.Reachable :=
    GoldenSection_iterates_reachable (quadratic 3 5) 4 _
      (GoldenSection.Reachable.init (NewGoldenSection 1 (1 / 10)) 0 14 (by decide!))
  have hmx : goldenDemo.maxStep = .finite 8 := by decide!
  have hmid : goldenDemo.middleStep = some 2 := by decide!
  have h := C37_golden_three_point_bracket goldenDemo hr 8 2 hmx hmid
  exact ⟨by decide!, hmx, hmid, h.1, h.2.1, h.2.2.1, h.2.2.2⟩

theorem Bisection_Init_error (b : Bisection) (x obj grad : ℚ) :
    (b.Init x obj grad).2 ≠ none ↔ b.InitialStepMag = 0 := by
  unfold Bisection.Init
  by_cases h0 : b.InitialStepMag = 0
  · simp [h0]
  · simp only [h0, if_false]
    by_cases hg : 0 < grad
    · simp [hg]
    · simp [hg]

/-- The state after a successful `Bisection.Init`, field by field: everything
is set from the arguments and `InitialStepMag`, except `posInitGrad`, which is
set for a positive initial derivative and kept otherwise. -/
theorem Bisection_Init_state (b : Bisection) (x obj grad : ℚ) (h0 : b.InitialStepMag ≠ 0) :
    (b.Init x obj grad).1
      = { initLoc := x,
          currStep := if 0 < grad then b.InitialStepMag * -1 else b.InitialStepMag,
          posInitGrad := decide (0 < grad) || b.posInitGrad,
          InitialStepMag := b.InitialStepMag,
          minStep := 0, minObj := obj, minGrad := if 0 < grad then grad * -1 else grad,
          maxStep := none, maxObj := none, maxGrad := none } := by
  unfold Bisection.Init
  simp only [h0, if_false]
  by_cases hg : 0 < grad
  · simp [hg]
  · simp [hg]

theorem Bisection_Init_same (b b' : Bisection) (x obj grad : ℚ) (h0 : b.InitialStepMag ≠ 0)
    (hs : b'.InitialStepMag = b.InitialStepMag)
    (hp : 0 < grad ∨ b'.posInitGrad = b.posInitGrad) :
    (b'.Init x obj grad).1 = (b.Init x obj grad).1 := by
  rw [Bisection_Init_state b x obj grad h0, Bisection_Init_state b' x obj grad (by rw [hs]; exact h0),
    hs]
  rcases hp with hp | hp
  · simp [hp]
  · rw [hp]

theorem GoldenSection_Init_error (g : GoldenSection) (x obj : ℚ) :
    (g.Init x obj).2 = none ↔
      g.InitialStep ≠ 0 ∧ ¬ (0 < g.InitialStep ∧ g.maxStep.isNeg = true) ∧
        ¬ (g.InitialStep < 0 ∧ g.maxStep.isPos = true) := by
  unfold GoldenSection.Init
  by_cases h0 : g.InitialStep = 0
  · simp [h0]
  · simp only [h0, if_false, ne_eq, not_false_eq_true, true_and]
    have hn : ¬ 0 < g.InitialStep → g.InitialStep < 0 :=
      fun hp => lt_of_le_of_ne (not_lt.mp hp) h0
    cases hm : g.maxStep with
    | negInf =>
      by_cases hp : 0 < g.InitialStep
      · simp [hp, ExtQ.isNeg, ExtQ.isPos]
      · simp [hp, hn hp, ExtQ.isNeg, ExtQ.isPos]
    | posInf =>
      by_cases hp : 0 < g.InitialStep
      · simp [hp, hp.le, ExtQ.isNeg, ExtQ.isPos]
      · simp [hp, hn hp, ExtQ.isNeg, ExtQ.isPos]
    | finite q =>
      by_cases hp : 0 < g.InitialStep
      · by_cases hq : q < 0
        · simp [hp, hq, ExtQ.isNeg, ExtQ.isPos]
        · have hneg : ¬ g.InitialStep < 0 := not_lt.mpr hp.le
          simp [hp, hq, hneg, ExtQ.isNeg, ExtQ.isPos]
      · by_cases hq : 0 < q
        · simp [hp, hn hp, hq, ExtQ.isNeg, ExtQ.isPos]
        · simp [hp, hn hp, hq, ExtQ.isNeg, ExtQ.isPos]

/-- The state after a successful `GoldenSection.Init`, field by field:
everything is set from the arguments, `InitialStep` and `Tol`, except the flag
`closerToMin`, which is kept. -/
theorem GoldenSection_Init_state (g : GoldenSection) (x obj : ℚ) (h : (g.Init x obj).2 = none) :
    (g.Init x obj).1
      = { InitialStep := g.InitialStep, Tol := g.Tol, initLoc := x,
          initialStepPos := decide (0 < g.InitialStep), currentStep := g.InitialStep,
          closerToMin := g.closerToMin,
          maxStep := if 0 < g.InitialStep then .posInf else .negInf, maxObj := none,
          minStep := 0, minObj := some obj, middleStep := none, middleObj := none,
          bestObj := obj, bestLoc := x } := by
  unfold GoldenSection.Init at h ⊢
  by_cases h0 : g.InitialStep = 0
  · simp [h0] at h
  · simp only [h0, if_false] at h ⊢
    split_ifs at h ⊢ <;> simp_all

theorem GoldenSection_Iterate_unbounded (g : GoldenSection) (f : ℚ → ℚ)
    (hinf : ∀ mx, g.maxStep ≠ .finite mx) :
    g.Iterate f = (g.iterateUnbounded (f (g.initLoc + g.currentStep)),
      { loc := g.initLoc + g.currentStep, obj := f (g.initLoc + g.currentStep),
        nFunEvals := 1, err := none }) := by
  unfold GoldenSection.Iterate
  cases hm : g.maxStep with
  | posInf => rfl
  | negInf => rfl
  | finite q => exact absurd hm (hinf q)

theorem GoldenSection_Iterate_same (g g' : GoldenSection) (f : ℚ → ℚ)
    (h : g.SameUpToFlag g') :
    (g.Iterate f).1.SameUpToFlag (g'.Iterate f).1 ∧ (g'.Iterate f).2 = (g.Iterate f).2 ∧
      g'.Status = g.Status := by
  rcases h with rfl | ⟨hinf, c, rfl⟩
  · exact ⟨Or.inl rfl, rfl, rfl⟩
  · have hun : ∀ newObj,
        (g.iterateUnbounded newObj).SameUpToFlag
          (({ g with closerToMin := c } : GoldenSection).iterateUnbounded newObj) := by
      intro newObj
      unfold GoldenSection.iterateUnbounded
      by_cases c1 : ltInf newObj g.minObj = true
      · simp only [c1, if_true]
        by_cases c2 : ltInf newObj g.middleObj = true
        · simp only [c2, if_true]
          exact Or.inr ⟨hinf, c, rfl⟩
        · simp only [c2, Bool.false_eq_true, if_false]
          exact Or.inr ⟨hinf, c, rfl⟩
      · simp only [c1, Bool.false_eq_true, if_false]
        cases hmid : g.middleStep with
        | none => exact Or.inl rfl
        | some mid => exact Or.inl rfl
    have hinf2 : ∀ mx, ({ g with closerToMin := c } : GoldenSection).maxStep ≠ .finite mx := hinf
    rw [GoldenSection_Iterate_unbounded g f hinf, GoldenSection_Iterate_unbounded _ f hinf2]
    exact ⟨hun _, rfl, rfl⟩

theorem GoldenSection_iterates_same (f : ℚ → ℚ) (k : ℕ) (g g' : GoldenSection)
    (h : g.SameUpToFlag g') :
    (GoldenSection.iterates f k g).SameUpToFlag (GoldenSection.iterates f k g') := by
  induction k with
  | zero => exact h
  | succ k ih => exact (GoldenSection_Iterate_same _ _ f ih).1

theorem GoldenSection_Init_same (g g' : GoldenSection) (x obj : ℚ)
    (h : (g.Init x obj).2 = none) (h' : (g'.Init x obj).2 = none)
    (hs : g'.InitialStep = g.InitialStep) (ht : g'.Tol = g.Tol) :
    (g.Init x obj).1.SameUpToFlag (g'.Init x obj).1 := by
  right
  rw [GoldenSection_Init_state g x obj h, GoldenSection_Init_state g' x obj h', hs, ht]
  refine ⟨?_, g'.closerToMin, rfl⟩
  intro mx hmx
  dsimp only at hmx
  split_ifs at hmx

/-- What `Init` of a step finder resets.  `Bisection.Init` returns an error
exactly when `InitialStepMag` is `0`; two instances with the same
`InitialStepMag` are in the same state after `Init` with the same arguments
when the initial derivative is positive or their `posInitGrad` agree.
`GoldenSection.Init` returns no error exactly when `InitialStep` is not `0` and
the `maxStep` left in the struct does not have the sign opposite to that of
`InitialStep`; on a struct with `maxStep = 0` it fails exactly when
`InitialStep` is `0`.  Two instances with the same `InitialStep` and `Tol` on
which `Init` with the same arguments succeeds are afterwards equal, or differ
only in the flag `closerToMin` while `maxStep` is infinite; after `k` calls of
`Iterate` on the same objective this still holds, the next `Iterate` returns
the same outputs, and `Status` is the same. -/
theorem StepFinder_Init_reset (b b' : Bisection) (g g' : GoldenSection)
    (x obj grad : ℚ) (f : ℚ → ℚ) (k : ℕ) :
    ((b.Init x obj grad).2 ≠ none ↔ b.InitialStepMag = 0) ∧
    (b.InitialStepMag ≠ 0 → b'.InitialStepMag = b.InitialStepMag →
      (0 < grad ∨ b'.posInitGrad = b.posInitGrad) →
      (b'.Init x obj grad).1 = (b.Init x obj grad).1 ∧
      (b.Init x obj grad).1.posInitGrad = (decide (0 < grad) || b.posInitGrad)) ∧
    ((g.Init x obj).2 = none ↔
      g.InitialStep ≠ 0 ∧ ¬ (0 < g.InitialStep ∧ g.maxStep.isNeg = true) ∧
        ¬ (g.InitialStep < 0 ∧ g.maxStep.isPos = true)) ∧
    (g.maxStep = .finite 0 → ((g.Init x obj).2 ≠ none ↔ g.InitialStep = 0)) ∧
    ((g.Init x obj).2 = none → (g'.Init x obj).2 = none →
      g'.InitialStep = g.InitialStep → g'.Tol = g.Tol →
      (GoldenSection.iterates f k (g.Init x obj).1).SameUpToFlag
          (GoldenSection.iterates f k (g'.Init x obj).1) ∧
        ((GoldenSection.iterates f k (g'.Init x obj).1).Iterate f).2
          = ((GoldenSection.iterates f k (g.Init x obj).1).Iterate f).2 ∧
        (GoldenSection.iterates f k (g'.Init x obj).1).Status
          = (GoldenSection.iterates f k (g.Init x obj).1).Status) := by
  refine ⟨Bisection_Init_error b x obj grad, ?_, GoldenSection_Init_error g x obj, ?_, ?_⟩
  · intro h0 hs hp
    refine ⟨Bisection_Init_same b b' x obj grad h0 hs hp, ?_⟩
    rw [Bisection_Init_state b x obj grad h0]
  · intro hm
    rw [not_iff_comm, GoldenSection_Init_error g x obj, hm]
    simp [ExtQ.isNeg, ExtQ.isPos]
  · intro h h' hs ht
    have hk := GoldenSection_iterates_same f k _ _ (GoldenSection_Init_same g g' x obj h h' hs ht)
    exact ⟨hk, (GoldenSection_Iterate_same _ _ f hk).2⟩

/-- C36 (contradicted by the code): `Init` does not reset all the state of a
step finder.  `Bisection.Init` sets `posInitGrad` for a positive initial
derivative and never clears it, and `GoldenSection.Init` succeeds exactly when
`InitialStep` is not `0` and the `maxStep` left by the last run does not have
the opposite sign.  On `(x - 3)²` with `MaximumIterations = 10`, a `Bisection`
with `InitialStepMag = 1` finds `3` from `5`; run again from `0` it stops
after `11` iterations at `1 / 1024`, where a new `Bisection` finds `3` in `4`
iterations.  After `Init(0, 0, -1)` on `x ↦ -x`, a `Bisection` used before with
a positive initial derivative halves the step to `1 / 2` where a new one
doubles it to `2`.  A `GoldenSection` used on
`(x - 3)² + 5` from `0` with the initial step `1` and then given
`InitialStep = -1` fails from `6` with "sign of MaxStep does not match
InitialStep", where a new one with the initial step `-1` succeeds and ends
within `0.1` of `3`. -/
theorem C36_init_keeps_stale_state :
    (∀ (b : Bisection) (x obj grad : ℚ), b.InitialStepMag ≠ 0 →
      (b.Init x obj grad).1.posInitGrad = (decide (0 < grad) || b.posInitGrad)) ∧
    (∀ (g : GoldenSection) (x obj : ℚ), (g.Init x obj).2 = none ↔
      g.InitialStep ≠ 0 ∧ ¬ (0 < g.InitialStep ∧ g.maxStep.isNeg = true) ∧
        ¬ (g.InitialStep < 0 ∧ g.maxStep.isPos = true)) ∧
    UniOptimizeGrad.report (bisectionRun 5 (.bisection { InitialStepMag := 1 }))
      = some (2, .GradAbsTol) ∧
    UniOptimizeGrad.loc (bisectionRun 5 (.bisection { InitialStepMag := 1 })) = some 3 ∧
    UniOptimizeGrad.report bisectionRerun = some (11, .MaximumIterations) ∧
    UniOptimizeGrad.loc bisectionRerun = some (1 / 1024) ∧
    UniOptimizeGrad.report (bisectionRun 0 (.bisection { InitialStepMag := 1 }))
      = some (4, .GradAbsTol) ∧
    UniOptimizeGrad.loc (bisectionRun 0 (.bisection { InitialStepMag := 1 })) = some 3 ∧
    usedBisection.InitialStepMag = ({ InitialStepMag := 1 } : Bisection).InitialStepMag ∧
    (usedBisection.Init 0 0 (-1)).2 = none ∧
    (({ InitialStepMag := 1 } : Bisection).Init 0 0 (-1)).2 = none ∧
    ((({ InitialStepMag := 1 } : Bisection).Init 0 0 (-1)).1.Iterate downhill ()).1.currStep = 2 ∧
    ((usedBisection.Init 0 0 (-1)).1.Iterate downhill ()).1.currStep = 1 / 2 ∧
    OptimizeGradFree.errOf goldenRerun = some (some (.errorInitializing .maxStepSignMismatch)) ∧
    OptimizeGradFree.errOf (OptimizeGradFree 100 (quadratic 3 5) 6 none
      (NewGoldenSection (-1) (1 / 10))) = some none ∧
    OptimizeGradFree.locNear (OptimizeGradFree 100 (quadratic 3 5) 6 none
      (NewGoldenSection (-1) (1 / 10))) 3 (1 / 10) = true ∧
    usedGoldenSection.InitialStep = -1 ∧ usedGoldenSection.Tol = 1 / 10 ∧
    (usedGoldenSection.Init 0 0).2 = some .maxStepSignMismatch ∧
    ((NewGoldenSection (-1) (1 / 10)).Init 0 0).2 = none := by
  refine ⟨?_, GoldenSection_Init_error, by decide!, by decide!, by decide!, by decide!,
    by decide!, by decide!, by decide!, by decide!, by decide!, by decide!, by decide!,
    by decide!, by decide!, by decide!, by decide!, by decide!, by decide!, by decide!⟩
  intro b x obj grad h0
  rw [Bisection_Init_state b x obj grad h0]

end BracketAndReset

end Opt
